import Mathlib

/-! # virtio fastrpc core: message slots, invoke contexts, argument marshalling

A shallow embedding of `drivers/char/virtio_fastrpc/virtio_fastrpc_core.c`.

Conventions of the embedding

* C arrays (`msgtable`, `lpra`, `fds`, `maps`, `desc`, `rpra`, the fd list, the
  payload bytes, user memory) are functions from the index (or address) to the
  element; a store is `Function.update`, a block copy is `blit`.
* A pointer to a heap object is a natural number; `NULL` is `none`.
* `size_t` arithmetic wraps modulo `2 ^ 64`.
* Calls into code that is not part of this file (the buffer mapper, the user
  copy primitives, the transport, the allocator) are answered by an `Env`
  record and logged as `Effect`s in the order in which the code issues them.
-/

set_option autoImplicit false

namespace VirtioFastrpc

/-! ## Constants of the source file -/

def M_FDLIST : Nat := 16

def FASTRPC_DMAHANDLE_NOMAP : Nat := 16

def VIRTIO_FASTRPC_CMD_OPEN : Nat := 1

def VIRTIO_FASTRPC_CMD_CLOSE : Nat := 2

def VIRTIO_FASTRPC_CMD_INVOKE : Nat := 3

def VIRTIO_FASTRPC_CMD_MMAP : Nat := 4

def VIRTIO_FASTRPC_CMD_MUNMAP : Nat := 5

def VIRTIO_FASTRPC_CMD_CONTROL : Nat := 6

def FASTRPC_STATIC_HANDLE_KERNEL : Nat := 1

/-- Kernel errno values used by the file. -/
def EINVAL : Int := 22

def ENOMEM : Int := 12

def EBADR : Int := 53

def ERESTARTSYS : Int := 512

/-- One past the largest `size_t`. -/
def SIZE_T_MOD : Nat := 2 ^ 64

/-- Bytes of one `struct virt_fastrpc_buf` (two `u64`). -/
def sizeof_virt_fastrpc_buf : Nat := 16

/-- Bytes of one `struct virt_fastrpc_dmahandle` (two `u32`). -/
def sizeof_virt_fastrpc_dmahandle : Nat := 8

/-- Bytes of one `uint64_t`. -/
def sizeof_uint64 : Nat := 8

/-- Constants and widths that the headers outside this file declare. -/
structure Params where
  /-- number of entries of `msgtable` -/
  FASTRPC_MSG_MAX : Nat
  /-- page size of the platform -/
  PAGE_SIZE : Nat
  /-- `sizeof(struct virt_msg_hdr)` -/
  sizeof_virt_msg_hdr : Nat
  /-- the attribute bit `FASTRPC_ATTR_NOMAP` -/
  FASTRPC_ATTR_NOMAP : Nat
  /-- width in bits of the field `outbufs_offset` of the invoke context -/
  offset_bits : Nat
  /-- the mapping flag `ADSP_MMAP_ADD_PAGES` -/
  ADSP_MMAP_ADD_PAGES : Nat

/-- `sizeof(struct virt_invoke_msg)`: the packed header, `u32 handle`, `u32 sc`
and the zero-length array `pra`. -/
def sizeof_virt_invoke_msg (P : Params) : Nat := P.sizeof_virt_msg_hdr + 4 + 4

/-- `PAGE_ALIGN(len)`. -/
def PAGE_ALIGN (P : Params) (len : Nat) : Nat :=
  ((len + P.PAGE_SIZE - 1) / P.PAGE_SIZE) * P.PAGE_SIZE

/-- Modelled from the spec: the scalar-descriptor accessor macros
`REMOTE_SCALARS_*` live in a header that is not part of the sources; the
descriptor is a packed integer encoding the counts of input buffers, output
buffers, input handles and output handles of one call. -/
def REMOTE_SCALARS_INBUFS (sc : Nat) : Nat := (sc / 2 ^ 16) % 2 ^ 8

/-- Modelled from the spec: count of output buffers in the packed descriptor. -/
def REMOTE_SCALARS_OUTBUFS (sc : Nat) : Nat := (sc / 2 ^ 8) % 2 ^ 8

/-- Modelled from the spec: count of input handles in the packed descriptor. -/
def REMOTE_SCALARS_INHANDLES (sc : Nat) : Nat := (sc / 2 ^ 4) % 2 ^ 4

/-- Modelled from the spec: count of output handles in the packed descriptor. -/
def REMOTE_SCALARS_OUTHANDLES (sc : Nat) : Nat := sc % 2 ^ 4

/-- Modelled from the spec: total number of arguments of the descriptor. -/
def REMOTE_SCALARS_LENGTH (sc : Nat) : Nat :=
  REMOTE_SCALARS_INBUFS sc + REMOTE_SCALARS_OUTBUFS sc +
    REMOTE_SCALARS_INHANDLES sc + REMOTE_SCALARS_OUTHANDLES sc

/-- Modelled from the spec: the macro `VERIFY(err, val)` of the shared header
(not part of the sources): when `val` is false an error is recorded in `err`,
keeping an error that is already there and storing `-1` otherwise. -/
def VERIFY (err : Int) (val : Bool) : Int :=
  if val then err else (if err = 0 then -1 else err)

/-- The value of an `int` that holds the low 32 bits `n`. -/
def int_of_bits32 (n : Nat) : Int :=
  if n % 2 ^ 32 < 2 ^ 31 then ((n % 2 ^ 32 : Nat) : Int) else ((n % 2 ^ 32 : Nat) : Int) - 2 ^ 32

/-- Block copy: `len` bytes of `src` (indexed from 0) are stored at `off`. -/
def blit (mem : Nat → Nat) (off len : Nat) (src : Nat → Nat) : Nat → Nat :=
  fun a => if off ≤ a ∧ a < off + len then src (a - off) else mem a

/-- The `len` bytes found at offset `off`. -/
def bytes_at (mem : Nat → Nat) (off len : Nat) : List Nat :=
  (List.range len).map (fun k => mem (off + k))

/-- Byte `k` of the little-endian image of a `u64`. -/
def le64 (v : Nat) (k : Nat) : Nat := (v / 256 ^ k) % 256

/-! ## Data model -/

/-- `remote_arg_t`, seen as its `buf` member: a caller buffer. -/
structure remote_buf where
  pv : Nat
  len : Nat

/-- One scatter-gather segment with the fields the file reads. -/
structure scatterlist where
  dma_address : Nat
  dma_len : Nat
  page_phys : Nat
  length : Nat

/-- A scatter-gather table; `nents` is the length of `sgl`. -/
structure sg_table where
  sgl : List scatterlist

def sg_table.nents (t : sg_table) : Nat := t.sgl.length

/-- A buffer mapping as far as this file reads it. -/
structure fastrpc_mmap where
  /-- address of the mapping object -/
  ptr : Nat
  fd : Int
  table : sg_table
  /-- remote (DSP-side) address once mapped -/
  raddr : Nat
  size : Nat

/-- An internally allocated buffer: contents at `va` and its segment table. -/
structure fastrpc_buf where
  ptr : Nat
  size : Nat
  va : Nat → Nat
  sgt : sg_table
  /-- remote (DSP-side) address of a remote heap buffer -/
  raddr : Nat
  flags : Nat

inductive fastrpc_buf_type where
  | FASTRPC_BUF_TYPE_NORMAL
  | FASTRPC_BUF_TYPE_ION
  | FASTRPC_BUF_TYPE_INTERNAL
deriving DecidableEq

open fastrpc_buf_type

/-- One zeroed-by-`kcalloc` descriptor record. -/
structure fastrpc_buf_desc where
  type : fastrpc_buf_type
  buf : Option fastrpc_buf

/-- `struct virt_fastrpc_buf`: one wire descriptor record. -/
structure virt_fastrpc_buf where
  pv : Nat
  len : Nat

/-- `struct virt_fastrpc_dmahandle`. -/
structure virt_fastrpc_dmahandle where
  fd : Int
  offset : Nat

/-- `struct virt_msg_hdr`; the values are kept as the code computes them. -/
structure virt_msg_hdr where
  pid : Int
  tid : Int
  cid : Int
  cmd : Nat
  len : Nat
  msgid : Nat
  result : Nat

/-- A transport buffer read as `struct virt_invoke_msg`: header, handle,
descriptor, then the region `pra` holding the argument records, the handle
records (`dma`), the fd list and the payload bytes.  The three arrays and the
payload are addressed relative to their own start, which the code derives from
the descriptor of the context on both the request and the reply. -/
structure virt_invoke_msg where
  hdr : virt_msg_hdr
  handle : Nat
  sc : Nat
  pra : Nat → virt_fastrpc_buf
  dma : Nat → virt_fastrpc_dmahandle
  fdlist : Nat → Nat
  payload : Nat → Nat

/-- `struct virt_fastrpc_msg`: a message slot. -/
structure virt_fastrpc_msg where
  /-- address of the slot object; the table stores and compares it -/
  ptr : Nat
  msgid : Nat
  txbuf : Option virt_invoke_msg
  rxbuf : Option virt_invoke_msg

/-- The members of `struct fastrpc_apps` that the file uses. -/
structure fastrpc_apps where
  buf_size : Int
  num_channels : Int
  msgtable : Nat → Option Nat

/-- `struct fastrpc_invoke_ctx`. -/
structure fastrpc_invoke_ctx where
  msg : Option virt_fastrpc_msg
  size : Nat
  desc : Option (Nat → fastrpc_buf_desc)
  maps : Nat → Option fastrpc_mmap
  lpra : Nat → remote_buf
  fds : Option (Nat → Int)
  outbufs_offset : Nat
  attrs : Nat → Nat
  fl : Nat
  pid : Int
  tgid : Int
  sc : Nat
  handle : Nat

/-- `struct fastrpc_ctx_lst`: the two intrusive lists, as lists of context
addresses with the head first. -/
structure fastrpc_ctx_lst where
  interrupted : List Nat
  pending : List Nat

/-- `struct fastrpc_file` with the driver state `apps` it points to and the
contexts that are allocated (`ctxs`, by address). -/
structure fastrpc_file where
  /-- address of this session object -/
  self : Nat
  apps : fastrpc_apps
  clst : fastrpc_ctx_lst
  ctxs : Nat → Option fastrpc_invoke_ctx
  /-- next address the allocator hands out for a context -/
  next_ctx : Nat
  tgid : Int
  cid : Int
  domain : Int
  /-- the mapping registry `fl->maps`, head first -/
  maps : List fastrpc_mmap
  /-- the list `fl->cached_bufs`, head first -/
  cached_bufs : List fastrpc_buf
  /-- the list `fl->remote_bufs`, head first -/
  remote_bufs : List fastrpc_buf
  file_close : Nat
  dsp_proc_init : Nat

/-- `struct fastrpc_ioctl_invoke`: the caller's argument array is read through
`pra`. -/
structure fastrpc_ioctl_invoke where
  handle : Nat
  sc : Nat
  pra : Nat → remote_buf

/-- `struct fastrpc_ioctl_invoke_crc` with the members the file reads. -/
structure fastrpc_ioctl_invoke_crc where
  inv : fastrpc_ioctl_invoke
  fds : Option (Nat → Int)
  attrs : Option (Nat → Nat)

/-- Calls that leave this file, in the order in which they are issued. -/
inductive Effect where
  | mmap_create (fd : Int) (va len flags : Nat)
  | mmap_free (map : Option fastrpc_mmap) (flags : Nat)
  | mmap_find (fd : Int)
  | buf_alloc (size : Nat)
  | buf_free (buf : fastrpc_buf) (cache : Nat)
  | copy_to_user (dst : Nat) (data : List Nat)
  | txbuf_send (size : Nat)
  | rxbuf_send
  | kfree (ptr : Nat)

/-- A nonzero error code returned by a collaborator. -/
abbrev Errno : Type := { e : Int // e ≠ 0 }

/-- Answers of the collaborators outside this file. -/
structure Env where
  /-- `current->pid` -/
  current_pid : Int
  /-- contents of user memory -/
  umem : Nat → Nat
  /-- does `copy_from_user(_, src, size)` succeed -/
  user_read_ok : Nat → Nat → Bool
  /-- does `copy_to_user(dst, _, size)` succeed -/
  user_write_ok : Nat → Nat → Bool
  /-- do the copies of the argument, fd and attribute tables succeed -/
  copy_pra_ok : Bool
  copy_fds_ok : Bool
  copy_attrs_ok : Bool
  /-- result of `fastrpc_mmap_create` for argument `i` -/
  mmap_create : Nat → Int → Nat → Nat → Nat → Except Errno fastrpc_mmap
  /-- result of `fastrpc_mmap_find` for fd-list entry `i` -/
  mmap_find : Nat → Int → Option fastrpc_mmap
  /-- result of `fastrpc_buf_alloc` for argument `i` -/
  buf_alloc : Nat → Nat → Except Errno fastrpc_buf
  /-- does `kzalloc` of the context succeed -/
  kzalloc_ctx : Bool
  /-- does `kcalloc` of the descriptor array succeed -/
  kcalloc_desc : Bool
  /-- `kzalloc` of the message slot: its address or `NULL` -/
  kzalloc_msg : Option Nat
  /-- `get_a_tx_buf`: the buffer with its present contents, or `NULL` -/
  get_a_tx_buf : Option virt_invoke_msg
  /-- result of `fastrpc_txbuf_send` -/
  txbuf_send : Int
  /-- result of `wait_for_completion_interruptible` -/
  wait : Int
  /-- the receive buffer that the receive path has stored in the slot when the
  wait returns -/
  rxbuf : Option virt_invoke_msg

/-! ## Message slot pool -/

/-- The scan `for (i = 0; i < FASTRPC_MSG_MAX; i++) if (!msgtable[i]) break;`
started at `i` with `n` iterations left: the value of `i` after the loop. -/
def msg_scan (tbl : Nat → Option Nat) : Nat → Nat → Nat
  | 0, i => i
  | n + 1, i => if tbl i = none then i else msg_scan tbl n (i + 1)

/-- `virt_alloc_msg(fl, size)`: the slot (or `NULL`) and the driver state. -/
def virt_alloc_msg (P : Params) (me : fastrpc_apps) (size : Int)
    (kz : Option Nat) (tx : Option virt_invoke_msg) :
    Option virt_fastrpc_msg × fastrpc_apps :=
  if size > me.buf_size then (none, me)
  else
    match kz with
    | none => (none, me)
    | some p =>
      match tx with
      | none => (none, me)
      | some buf =>
        let i := msg_scan me.msgtable P.FASTRPC_MSG_MAX 0
        if i = P.FASTRPC_MSG_MAX then (none, me)
        else
          (some { ptr := p, msgid := i, txbuf := some buf, rxbuf := none },
           { me with msgtable := Function.update me.msgtable i (some p) })

/-- `virt_free_msg(fl, msg)`. -/
def virt_free_msg (me : fastrpc_apps) (msg : virt_fastrpc_msg) : fastrpc_apps :=
  if me.msgtable msg.msgid = some msg.ptr then
    { me with msgtable := Function.update me.msgtable msg.msgid none }
  else me

/-- One call on the pool: an allocation with the answers of the allocator and
of `get_a_tx_buf`, or the release of the `k`-th slot that is live. -/
inductive PoolOp where
  | alloc (size : Int) (kz : Option Nat) (tx : Option virt_invoke_msg)
  | free (k : Nat)

/-- The driver state together with the slots handed out and not yet freed. -/
structure PoolRun where
  apps : fastrpc_apps
  live : List virt_fastrpc_msg

def pool_step (P : Params) (r : PoolRun) : PoolOp → PoolRun
  | PoolOp.alloc size kz tx =>
    match virt_alloc_msg P r.apps size kz tx with
    | (none, me) => { r with apps := me }
    | (some m, me) => { apps := me, live := m :: r.live }
  | PoolOp.free k =>
    match r.live.get? k with
    | none => r
    | some m => { apps := virt_free_msg r.apps m, live := r.live.eraseIdx k }

/-- The pool with an empty table. -/
def pool_init (buf_size num_channels : Int) : PoolRun :=
  { apps := { buf_size := buf_size, num_channels := num_channels, msgtable := fun _ => none },
    live := [] }

def pool_run (P : Params) (buf_size num_channels : Int) (ops : List PoolOp) : PoolRun :=
  ops.foldl (pool_step P) (pool_init buf_size num_channels)

/-! ## Invoke context manager -/

/-- `hlist_del_init(&ctx->hn)`: the node leaves the list it is linked in. -/
def hlist_del_init (l : fastrpc_ctx_lst) (p : Nat) : fastrpc_ctx_lst :=
  { interrupted := l.interrupted.filter (fun q => q ≠ p),
    pending := l.pending.filter (fun q => q ≠ p) }

/-- The loop `for (i = 0; i < nbufs; i++) fastrpc_mmap_free(fl, ctx->maps[i], 0);`. -/
def free_maps_effects (maps : Nat → Option fastrpc_mmap) (nbufs : Nat) : List Effect :=
  (List.range nbufs).map (fun i => Effect.mmap_free (maps i) 0)

/-- The loop over `ctx->desc` that frees every internal buffer. -/
def free_desc_effects (desc : Nat → fastrpc_buf_desc) (nbufs : Nat) : List Effect :=
  (List.range nbufs).filterMap (fun i => (desc i).buf.map (fun b => Effect.buf_free b 1))

/-- `context_free(ctx)` for the context at address `p`.  A pointer that is not
allocated is not a legal argument; the state is then returned as it is. -/
def context_free (fl : fastrpc_file) (p : Nat) : fastrpc_file × List Effect :=
  match fl.ctxs p with
  | none => (fl, [])
  | some ctx =>
    let nbufs := REMOTE_SCALARS_INBUFS ctx.sc + REMOTE_SCALARS_OUTBUFS ctx.sc
    let clst := hlist_del_init fl.clst p
    let eff_maps := free_maps_effects ctx.maps nbufs
    let apps_eff : fastrpc_apps × List Effect :=
      match ctx.msg with
      | none => (fl.apps, [])
      | some msg =>
        (virt_free_msg fl.apps msg,
         match msg.rxbuf with
         | none => []
         | some _ => [Effect.rxbuf_send])
    let eff_desc :=
      match ctx.desc with
      | none => []
      | some desc => free_desc_effects desc nbufs
    ({ fl with clst := clst, apps := apps_eff.1, ctxs := Function.update fl.ctxs p none },
     eff_maps ++ apps_eff.2 ++ eff_desc ++ [Effect.kfree p])

/-- The scan of the interrupted list for the first entry of the calling
thread: its address and contents.  An entry whose address is not allocated is
skipped. -/
def find_interrupted (ctxs : Nat → Option fastrpc_invoke_ctx) (pid : Int) :
    List Nat → Option (Nat × fastrpc_invoke_ctx)
  | [] => none
  | p :: rest =>
    match ctxs p with
    | none => find_interrupted ctxs pid rest
    | some ictx => if ictx.pid = pid then some (p, ictx) else find_interrupted ctxs pid rest

/-- `context_restore_interrupted(fl, invoke, po)`: the return value, the
context stored through `po` (if any) and the session. -/
def context_restore_interrupted (e : Env) (fl : fastrpc_file) (invoke : fastrpc_ioctl_invoke) :
    Int × Option Nat × fastrpc_file :=
  match find_interrupted fl.ctxs e.current_pid fl.clst.interrupted with
  | none => (0, none, fl)
  | some (p, ictx) =>
    if invoke.sc ≠ ictx.sc ∨ ictx.fl ≠ fl.self then (-EINVAL, none, fl)
    else
      let l := hlist_del_init fl.clst p
      (0, some p, { fl with clst := { l with pending := p :: l.pending } })

/-- The zeroed context that `kzalloc` returns, with `fl` and the array
pointers set up. -/
def ctx_zero (fl : fastrpc_file) : fastrpc_invoke_ctx :=
  { msg := none, size := 0, desc := none, maps := fun _ => none,
    lpra := fun _ => { pv := 0, len := 0 }, fds := some (fun _ => 0),
    outbufs_offset := 0, attrs := fun _ => 0, fl := fl.self, pid := 0, tgid := 0,
    sc := 0, handle := 0 }

/-- `context_alloc(fl, invokefd, po)`: the return value, the context stored
through `po` and the session.  The tables copied from the caller are read
below `REMOTE_SCALARS_LENGTH(sc)` only. -/
def context_alloc (e : Env) (fl : fastrpc_file) (invokefd : fastrpc_ioctl_invoke_crc) :
    Int × Option Nat × fastrpc_file × List Effect :=
  let invoke := invokefd.inv
  if ¬ e.kzalloc_ctx then (VERIFY 0 false, none, fl, [])
  else
    let p := fl.next_ctx
    let ctx0 := ctx_zero fl
    let fl0 := { fl with next_ctx := p + 1 }
    let bail (err : Int) (ctx : fastrpc_invoke_ctx) : Int × Option Nat × fastrpc_file × List Effect :=
      let r := context_free { fl0 with ctxs := Function.update fl0.ctxs p (some ctx) } p
      (err, none, r.1, r.2)
    if ¬ e.copy_pra_ok then bail (VERIFY 0 false) ctx0
    else
      let ctx1 := { ctx0 with lpra := invoke.pra }
      let r2 : Int × fastrpc_invoke_ctx :=
        match invokefd.fds with
        | some ufds =>
          if e.copy_fds_ok then (0, { ctx1 with fds := some ufds }) else (VERIFY 0 false, ctx1)
        | none => (0, { ctx1 with fds := none })
      if r2.1 ≠ 0 then bail r2.1 r2.2
      else
        let r3 : Int × fastrpc_invoke_ctx :=
          match invokefd.attrs with
          | some uattrs =>
            if e.copy_attrs_ok then (0, { r2.2 with attrs := uattrs }) else (VERIFY 0 false, r2.2)
          | none => (0, r2.2)
        if r3.1 ≠ 0 then bail r3.1 r3.2
        else
          let ctx := { r3.2 with sc := invoke.sc, handle := invoke.handle,
                                 pid := e.current_pid, tgid := fl.tgid }
          (0, some p,
           { fl0 with ctxs := Function.update fl0.ctxs p (some ctx),
                      clst := { fl0.clst with pending := p :: fl0.clst.pending } },
           [])

/-- `context_save_interrupted(ctx)` for the context at address `p`. -/
def context_save_interrupted (fl : fastrpc_file) (p : Nat) : fastrpc_file :=
  let l := hlist_del_init fl.clst p
  { fl with clst := { l with interrupted := p :: l.interrupted } }

/-! ## Argument marshaller -/

/-- `EFAULT`, reported by the embedding where the C code would dereference a
null pointer (states the code never builds). -/
def EFAULT : Int := 14

/-- A counted `for` loop whose body may leave through `goto bail` with a
nonzero error: the indices are visited in order until one reports an error. -/
def for_loop {σ : Type} (body : Nat → σ → Int × σ) : List Nat → σ → Int × σ
  | [], s => (0, s)
  | i :: is, s =>
    let r := body i s
    if r.1 ≠ 0 then r else for_loop body is r.2

/-- The test `fds && (fds[i] != -1)`: the fd when it holds. -/
def fd_given (fds : Option (Nat → Int)) (i : Nat) : Option Int :=
  match fds with
  | none => none
  | some f => if f i ≠ -1 then some (f i) else none

/-- `if (i < inbufs) ctx->outbufs_offset += len;` -/
def add_outbufs_offset (P : Params) (inbufs i len : Nat) (ctx : fastrpc_invoke_ctx) :
    fastrpc_invoke_ctx :=
  if i < inbufs then
    { ctx with outbufs_offset := (ctx.outbufs_offset + len) % 2 ^ P.offset_bits }
  else ctx

/-- The context and the locals `copylen`, `handle_len` of `get_args` while the
wire size is computed. -/
structure get_args_st where
  ctx : fastrpc_invoke_ctx
  copylen : Nat
  handle_len : Nat
  effects : List Effect

/-- Body of the loop "calculate len required for copying". -/
def get_args_len_body (P : Params) (e : Env) (inbufs : Nat) (i : Nat) (s : get_args_st) :
    Int × get_args_st :=
  let len := (s.ctx.lpra i).len
  if len = 0 then (0, s)
  else
    match fd_given s.ctx.fds i with
    | some fd =>
      let eff := s.effects ++ [Effect.mmap_create fd (s.ctx.lpra i).pv len 0]
      match e.mmap_create i fd (s.ctx.lpra i).pv len 0 with
      | Except.error err => (err.1, { s with effects := eff })
      | Except.ok map =>
        let len1 := map.table.nents * sizeof_virt_fastrpc_buf
        (0, { s with
                ctx := add_outbufs_offset P inbufs i len1
                  { s.ctx with maps := Function.update s.ctx.maps i (some map) },
                copylen := (s.copylen + len1) % SIZE_T_MOD,
                effects := eff })
    | none =>
      (0, { s with ctx := add_outbufs_offset P inbufs i len s.ctx,
                   copylen := (s.copylen + len) % SIZE_T_MOD })

/-- Body of the loop over the handle arguments that creates their mappings. -/
def get_args_handle_body (P : Params) (e : Env) (i : Nat) (s : get_args_st) :
    Int × get_args_st :=
  let dmaflags := if Nat.land (s.ctx.attrs i) P.FASTRPC_ATTR_NOMAP ≠ 0 then
    FASTRPC_DMAHANDLE_NOMAP else 0
  match fd_given s.ctx.fds i with
  | some fd =>
    let eff := s.effects ++ [Effect.mmap_create fd 0 0 dmaflags]
    match e.mmap_create i fd 0 0 dmaflags with
    | Except.error err => (err.1, { s with effects := eff })
    | Except.ok map =>
      (0, { s with
              ctx := { s.ctx with maps := Function.update s.ctx.maps i (some map) },
              handle_len := (s.handle_len + map.table.nents * sizeof_virt_fastrpc_buf) % SIZE_T_MOD,
              effects := eff })
  | none => (0, s)

/-- Store into `ctx->desc[i]`. -/
def set_desc (ctx : fastrpc_invoke_ctx) (i : Nat) (d : fastrpc_buf_desc) : fastrpc_invoke_ctx :=
  { ctx with desc := ctx.desc.map (fun f => Function.update f i d) }

/-- Read of `ctx->desc[i]` (a zeroed record when there is no array). -/
def get_desc (ctx : fastrpc_invoke_ctx) (i : Nat) : fastrpc_buf_desc :=
  match ctx.desc with
  | none => { type := FASTRPC_BUF_TYPE_NORMAL, buf := none }
  | some f => f i

/-- Body of the loop of the internal-copy strategy. -/
def get_args_desc_body (P : Params) (e : Env) (inbufs : Nat) (i : Nat) (s : get_args_st) :
    Int × get_args_st :=
  let len := (s.ctx.lpra i).len
  let add (ctx : fastrpc_invoke_ctx) (len1 : Nat) (eff : List Effect) : Int × get_args_st :=
    (0, { s with ctx := add_outbufs_offset P inbufs i len1 ctx,
                 copylen := (s.copylen + len1) % SIZE_T_MOD, effects := eff })
  match s.ctx.maps i with
  | some map =>
    add (set_desc s.ctx i { get_desc s.ctx i with type := FASTRPC_BUF_TYPE_ION })
      (map.table.nents * sizeof_virt_fastrpc_buf) s.effects
  | none =>
    if len < P.PAGE_SIZE then
      add (set_desc s.ctx i { get_desc s.ctx i with type := FASTRPC_BUF_TYPE_NORMAL }) len s.effects
    else
      let ctx1 := set_desc s.ctx i { get_desc s.ctx i with type := FASTRPC_BUF_TYPE_INTERNAL }
      let alen := PAGE_ALIGN P len % SIZE_T_MOD
      let eff := s.effects ++ [Effect.buf_alloc alen]
      match e.buf_alloc i alen with
      | Except.error err => (err.1, { s with ctx := ctx1, effects := eff })
      | Except.ok buf =>
        add (set_desc ctx1 i { get_desc ctx1 i with buf := some buf })
          (buf.sgt.nents * sizeof_virt_fastrpc_buf) eff

/-- Store of `sgbuf[index]` (`pv` then `len`, eight bytes each) where `sgbuf`
is the payload at offset `off`. -/
def put_sg (mem : Nat → Nat) (off index pv len : Nat) : Nat → Nat :=
  blit (blit mem (off + sizeof_virt_fastrpc_buf * index) 8 (le64 pv))
    (off + sizeof_virt_fastrpc_buf * index + 8) 8 (le64 len)

/-- The loop `for_each_sg(table->sgl, sgl, table->nents, index)` that stores
one record per segment; `f` picks the address and length of a segment. -/
def write_sgl (f : scatterlist → Nat × Nat) (off : Nat) :
    List scatterlist → Nat → (Nat → Nat) → (Nat → Nat)
  | [], _, mem => mem
  | sg :: rest, index, mem =>
    write_sgl f off rest (index + 1) (put_sg mem off index (f sg).1 (f sg).2)

/-- `sg_dma_address(sgl)`, `sg_dma_len(sgl)`. -/
def sg_dma (sg : scatterlist) : Nat × Nat := (sg.dma_address, sg.dma_len)

/-- `page_to_phys(sg_page(sgl))`, `sgl->length`. -/
def sg_phys (sg : scatterlist) : Nat × Nat := (sg.page_phys, sg.length)

/-- The context, the message being built and the pointer `payload` (as an
offset from the start of the payload region) while the message is populated. -/
structure populate_st where
  ctx : fastrpc_invoke_ctx
  vmsg : virt_invoke_msg
  payload : Nat

/-- Body of the loop that fills in the buffer arguments. -/
def get_args_buf_body (e : Env) (inbufs : Nat) (i : Nat) (s : populate_st) :
    Int × populate_st :=
  let len := (s.ctx.lpra i).len
  let pv := (s.ctx.lpra i).pv
  match s.ctx.maps i with
  | some map =>
    let rlen := map.table.nents * sizeof_virt_fastrpc_buf
    (0, { s with
            vmsg := { s.vmsg with
              pra := Function.update s.vmsg.pra i { pv := len, len := rlen },
              payload := write_sgl sg_dma s.payload map.table.sgl 0 s.vmsg.payload },
            payload := s.payload + rlen })
  | none =>
    if s.ctx.desc.isSome ∧ (get_desc s.ctx i).type = FASTRPC_BUF_TYPE_INTERNAL then
      match (get_desc s.ctx i).buf with
      | none => (-EFAULT, s)
      | some buf =>
        let rlen := buf.sgt.nents * sizeof_virt_fastrpc_buf
        let vmsg1 := { s.vmsg with
          pra := Function.update s.vmsg.pra i { pv := len, len := rlen },
          payload := write_sgl sg_phys s.payload buf.sgt.sgl 0 s.vmsg.payload }
        if i < inbufs ∧ len ≠ 0 then
          if e.user_read_ok pv len then
            let buf1 := { buf with va := blit buf.va 0 len (fun k => e.umem (pv + k)) }
            (0, { ctx := set_desc s.ctx i { get_desc s.ctx i with buf := some buf1 },
                  vmsg := vmsg1, payload := s.payload + rlen })
          else (VERIFY 0 false, { s with vmsg := vmsg1 })
        else (0, { s with vmsg := vmsg1, payload := s.payload + rlen })
    else
      let vmsg1 := { s.vmsg with pra := Function.update s.vmsg.pra i { pv := 0, len := len } }
      if i < inbufs ∧ len ≠ 0 then
        if e.user_read_ok pv len then
          (0, { s with
                  vmsg := { vmsg1 with
                    payload := blit vmsg1.payload s.payload len (fun k => e.umem (pv + k)) },
                  payload := s.payload + len })
        else (VERIFY 0 false, { s with vmsg := vmsg1 })
      else (0, { s with vmsg := vmsg1, payload := s.payload + len })

/-- Body of the loop that fills in the dma handle list. -/
def get_args_dma_body (bufs : Nat) (i : Nat) (s : populate_st) : Int × populate_st :=
  match s.ctx.fds, s.ctx.maps i with
  | some fds, some map =>
    let hlist := i - bufs
    let rlen := map.table.nents * sizeof_virt_fastrpc_buf
    (0, { s with
            vmsg := { s.vmsg with
              dma := Function.update s.vmsg.dma hlist
                { fd := fds i, offset := (s.ctx.lpra i).pv % 2 ^ 32 },
              pra := Function.update s.vmsg.pra i { pv := (s.ctx.lpra i).len, len := rlen },
              payload := write_sgl sg_dma s.payload map.table.sgl 0 s.vmsg.payload },
            payload := s.payload + rlen })
  | _, _ => (0, s)

/-- What `get_args` leaves behind: its return value, the context, the driver
state, the calls issued, and the final value of the pointer `payload` as an
offset from the start of the payload region. -/
structure get_args_result where
  err : Int
  ctx : fastrpc_invoke_ctx
  apps : fastrpc_apps
  effects : List Effect
  payload_end : Nat

/-- `metalen` of `get_args`. -/
def metalen (P : Params) (sc : Nat) : Nat :=
  sizeof_virt_invoke_msg P + REMOTE_SCALARS_LENGTH sc * sizeof_virt_fastrpc_buf +
    (REMOTE_SCALARS_INHANDLES sc + REMOTE_SCALARS_OUTHANDLES sc) * sizeof_virt_fastrpc_dmahandle +
    sizeof_uint64 * M_FDLIST

/-- The first two loops of `get_args`, which size the arguments with inline
payloads and create the mappings: the error and the state. -/
def get_args_inline (P : Params) (e : Env) (ctx : fastrpc_invoke_ctx) : Int × get_args_st :=
  let inbufs := REMOTE_SCALARS_INBUFS ctx.sc
  let bufs := inbufs + REMOTE_SCALARS_OUTBUFS ctx.sc
  let total := REMOTE_SCALARS_LENGTH ctx.sc
  let r1 := for_loop (get_args_len_body P e inbufs) (List.range' 0 bufs)
    { ctx := ctx, copylen := 0, handle_len := 0, effects := [] }
  if r1.1 ≠ 0 then r1
  else for_loop (get_args_handle_body P e) (List.range' bufs (total - bufs)) r1.2

/-- The local `size = metalen + copylen + handle_len` of `get_args`. -/
def wire_size (P : Params) (s : get_args_st) : Nat :=
  (metalen P s.ctx.sc + s.copylen + s.handle_len) % SIZE_T_MOD

/-- The wire size computed with inline payloads (`size` before the test
against `buf_size`). -/
def inline_size (P : Params) (e : Env) (ctx : fastrpc_invoke_ctx) : Nat :=
  wire_size P (get_args_inline P e ctx).2

/-- The internal-copy strategy of `get_args`, entered in state `s` when the
inline size exceeds `buf_size`. -/
def get_args_fallback (P : Params) (e : Env) (s : get_args_st) : Int × get_args_st :=
  let inbufs := REMOTE_SCALARS_INBUFS s.ctx.sc
  let bufs := inbufs + REMOTE_SCALARS_OUTBUFS s.ctx.sc
  let s0 : get_args_st := { s with copylen := 0, ctx := { s.ctx with outbufs_offset := 0 } }
  if ¬ e.kcalloc_desc then (-ENOMEM, s0)
  else
    for_loop (get_args_desc_body P e inbufs) (List.range' 0 bufs)
      { s0 with ctx := { s0.ctx with
          desc := some (fun _ => { type := FASTRPC_BUF_TYPE_NORMAL, buf := none }) } }

/-- The part of `get_args` before the slot is allocated: the error, the state
and the local `size`. -/
def get_args_size (P : Params) (e : Env) (fl : fastrpc_file) (ctx : fastrpc_invoke_ctx) :
    Int × get_args_st × Nat :=
  let r := get_args_inline P e ctx
  if r.1 ≠ 0 then (r.1, r.2, 0)
  else if (wire_size P r.2 : Int) > fl.apps.buf_size then
    let r3 := get_args_fallback P e r.2
    (r3.1, r3.2, wire_size P r3.2)
  else (0, r.2, wire_size P r.2)

/-- The stores of `get_args` into the transmit buffer `buf` before the
populate loops: the header, the handle, the descriptor and the zeroed fd
list. -/
def invoke_msg_init (e : Env) (fl : fastrpc_file) (ctx : fastrpc_invoke_ctx)
    (msgid size : Nat) (buf : virt_invoke_msg) : virt_invoke_msg :=
  { buf with
    hdr := { pid := fl.tgid, tid := e.current_pid, cid := fl.cid,
             cmd := VIRTIO_FASTRPC_CMD_INVOKE, len := size, msgid := msgid,
             result := 0xffffffff },
    handle := ctx.handle,
    sc := ctx.sc,
    fdlist := fun k => if k < M_FDLIST then 0 else buf.fdlist k }

/-- The loop of `get_args` that fills in the buffer arguments, run on the
sized context `ctx` and the message `vmsg0`. -/
def populate_bufs (e : Env) (ctx : fastrpc_invoke_ctx) (vmsg0 : virt_invoke_msg) :
    Int × populate_st :=
  for_loop (get_args_buf_body e (REMOTE_SCALARS_INBUFS ctx.sc))
    (List.range' 0 (REMOTE_SCALARS_INBUFS ctx.sc + REMOTE_SCALARS_OUTBUFS ctx.sc))
    { ctx := ctx, vmsg := vmsg0, payload := 0 }

/-- Both populate loops of `get_args`: the buffer arguments, then the handle
arguments. -/
def get_args_populate (e : Env) (ctx : fastrpc_invoke_ctx) (vmsg0 : virt_invoke_msg) :
    Int × populate_st :=
  let bufs := REMOTE_SCALARS_INBUFS ctx.sc + REMOTE_SCALARS_OUTBUFS ctx.sc
  let r4 := populate_bufs e ctx vmsg0
  if r4.1 ≠ 0 then r4
  else for_loop (get_args_dma_body bufs) (List.range' bufs (REMOTE_SCALARS_LENGTH ctx.sc - bufs)) r4.2

/-- `get_args(ctx)`. -/
def get_args (P : Params) (e : Env) (fl : fastrpc_file) (ctx : fastrpc_invoke_ctx) :
    get_args_result :=
  let r := get_args_size P e fl ctx
  let s := r.2.1
  let size := r.2.2
  if r.1 ≠ 0 then
    { err := r.1, ctx := s.ctx, apps := fl.apps, effects := s.effects, payload_end := 0 }
  else
    match virt_alloc_msg P fl.apps (int_of_bits32 size) e.kzalloc_msg e.get_a_tx_buf with
    | (none, me) =>
      { err := -ENOMEM, ctx := { s.ctx with msg := none }, apps := me, effects := s.effects,
        payload_end := 0 }
    | (some msg, me) =>
      match msg.txbuf with
      | none =>
        { err := -EFAULT, ctx := { s.ctx with msg := some msg }, apps := me,
          effects := s.effects, payload_end := 0 }
      | some buf =>
        let r4 := get_args_populate e s.ctx (invoke_msg_init e fl s.ctx msg.msgid size buf)
        { err := r4.1,
          ctx := { r4.2.ctx with msg := some { msg with txbuf := some r4.2.vmsg }, size := size },
          apps := me, effects := s.effects, payload_end := r4.2.payload }

/-- The local state of the output loop of `put_args`: the context (its
`maps`), the pointer `payload` as an offset into the payload region of the
reply, and the calls issued so far. -/
structure put_args_st where
  ctx : fastrpc_invoke_ctx
  payload : Nat
  effects : List Effect

/-- Body of the loop of `put_args` over the output buffers; `rsp` is the
reply. -/
def put_args_out_body (e : Env) (rsp : virt_invoke_msg) (i : Nat) (s : put_args_st) :
    Int × put_args_st :=
  let next (t : put_args_st) : put_args_st := { t with payload := t.payload + (rsp.pra i).len }
  match s.ctx.maps i with
  | some map =>
    (0, next { s with ctx := { s.ctx with maps := Function.update s.ctx.maps i none },
                      effects := s.effects ++ [Effect.mmap_free (some map) 0] })
  | none =>
    if s.ctx.desc.isSome ∧ (get_desc s.ctx i).type = FASTRPC_BUF_TYPE_INTERNAL then
      match (get_desc s.ctx i).buf with
      | none => (-EFAULT, s)
      | some buf =>
        if e.user_write_ok (s.ctx.lpra i).pv (s.ctx.lpra i).len then
          (0, next { s with effects := s.effects ++
            [Effect.copy_to_user (s.ctx.lpra i).pv (bytes_at buf.va 0 (s.ctx.lpra i).len)] })
        else (VERIFY 0 false, s)
    else
      if e.user_write_ok (s.ctx.lpra i).pv (rsp.pra i).len then
        (0, next { s with effects := s.effects ++
          [Effect.copy_to_user (s.ctx.lpra i).pv (bytes_at rsp.payload s.payload (rsp.pra i).len)] })
      else (VERIFY 0 false, s)

/-- The scan of the fd list in `put_args`, started at index `i` with `n`
iterations left: the calls it issues. -/
def put_args_fdlist (e : Env) (fdlist : Nat → Nat) : Nat → Nat → List Effect
  | 0, _ => []
  | n + 1, i =>
    if fdlist i = 0 then []
    else
      let fd := int_of_bits32 (fdlist i)
      (Effect.mmap_find fd ::
        (match e.mmap_find i fd with
         | some mmap => [Effect.mmap_free (some mmap) 0]
         | none => [])) ++ put_args_fdlist e fdlist n (i + 1)

/-- `put_args(ctx)`: the return value, the context and the calls issued. -/
def put_args (e : Env) (ctx : fastrpc_invoke_ctx) : Int × fastrpc_invoke_ctx × List Effect :=
  let inbufs := REMOTE_SCALARS_INBUFS ctx.sc
  let outbufs := REMOTE_SCALARS_OUTBUFS ctx.sc
  match ctx.msg with
  | none => (-EINVAL, ctx, [])
  | some msg =>
    match msg.rxbuf with
    | none => (-EINVAL, ctx, [])
    | some rsp =>
      let err := int_of_bits32 rsp.hdr.result
      if err ≠ 0 then (err, ctx, [])
      else
        let total := REMOTE_SCALARS_LENGTH ctx.sc
        let r := for_loop (put_args_out_body e rsp) (List.range' inbufs outbufs)
          { ctx := ctx, payload := ctx.outbufs_offset, effects := [] }
        if r.1 ≠ 0 then (r.1, r.2.ctx, r.2.effects)
        else
          (0, r.2.ctx,
           r.2.effects ++ (if total ≠ 0 then put_args_fdlist e rsp.fdlist M_FDLIST 0 else []))

/-- The output loop of `put_args` on a reply `rsp` with result 0: the error
and the state in which it stops. -/
def put_args_out (e : Env) (rsp : virt_invoke_msg) (ctx : fastrpc_invoke_ctx) :
    Int × put_args_st :=
  for_loop (put_args_out_body e rsp)
    (List.range' (REMOTE_SCALARS_INBUFS ctx.sc) (REMOTE_SCALARS_OUTBUFS ctx.sc))
    { ctx := ctx, payload := ctx.outbufs_offset, effects := [] }

/-! ## Invocation -/

/-- `virt_fastrpc_invoke(fl, ctx)`. -/
def virt_fastrpc_invoke (e : Env) (ctx : fastrpc_invoke_ctx) : Int × List Effect :=
  match ctx.msg with
  | none => (-EINVAL, [])
  | some msg =>
    match msg.txbuf with
    | none => (-EINVAL, [])
    | some _ => (e.txbuf_send, [Effect.txbuf_send ctx.size])

/-- What `fastrpc_internal_invoke` leaves behind: its return value, the locals
`ctx` and `interrupted` at the label `bail`, the session and the calls issued. -/
structure invoke_result where
  err : Int
  ctx : Option Nat
  interrupted : Int
  fl : fastrpc_file
  effects : List Effect

/-- The code at the label `bail` of `fastrpc_internal_invoke`. -/
def invoke_bail (fl : fastrpc_file) (err : Int) (ctx : Option Nat) (interrupted : Int)
    (eff : List Effect) : invoke_result :=
  match ctx with
  | none => { err := err, ctx := none, interrupted := interrupted, fl := fl, effects := eff }
  | some p =>
    if interrupted = -ERESTARTSYS then
      { err := err, ctx := ctx, interrupted := interrupted,
        fl := context_save_interrupted fl p, effects := eff }
    else
      let r := context_free fl p
      { err := err, ctx := ctx, interrupted := interrupted, fl := r.1, effects := eff ++ r.2 }

/-- Store of the context `c` at address `p`. -/
def store_ctx (fl : fastrpc_file) (p : Nat) (c : fastrpc_invoke_ctx) : fastrpc_file :=
  { fl with ctxs := Function.update fl.ctxs p (some c) }

/-- The code from the label `wait` of `fastrpc_internal_invoke` on: the wait
for the reply (when it returns the receive path has stored `e.rxbuf` in the
slot), `put_args`, and `bail`. -/
def invoke_wait (e : Env) (fl : fastrpc_file) (p : Nat) (eff : List Effect) : invoke_result :=
  match fl.ctxs p with
  | none => { err := -EFAULT, ctx := some p, interrupted := 0, fl := fl, effects := eff }
  | some c =>
    let c1 := { c with msg := c.msg.map (fun m => { m with rxbuf := e.rxbuf }) }
    let fl1 := store_ctx fl p c1
    let interrupted := e.wait
    let err := VERIFY interrupted (interrupted = 0)
    if err ≠ 0 then invoke_bail fl1 err (some p) interrupted eff
    else
      let r := put_args e c1
      let err1 := VERIFY 0 (r.1 = 0)
      invoke_bail (store_ctx fl1 p r.2.1) err1 (some p) interrupted (eff ++ r.2.2)

/-- The part of `fastrpc_internal_invoke` that follows a successful
`context_alloc` of the context `c` at address `p`: `get_args`,
`virt_fastrpc_invoke`, then the code from `wait` on. -/
def invoke_marshal (P : Params) (e : Env) (fl : fastrpc_file) (p : Nat)
    (c : fastrpc_invoke_ctx) (eff : List Effect) : invoke_result :=
  let g := get_args P e fl c
  let fl1 := store_ctx { fl with apps := g.apps } p g.ctx
  let eff1 := eff ++ g.effects
  let err := VERIFY 0 (g.err = 0)
  if err ≠ 0 then invoke_bail fl1 err (some p) 0 eff1
  else
    let v := virt_fastrpc_invoke e g.ctx
    let err := VERIFY 0 (v.1 = 0)
    if err ≠ 0 then invoke_bail fl1 err (some p) 0 (eff1 ++ v.2)
    else invoke_wait e fl1 p (eff1 ++ v.2)

/-- `fastrpc_internal_invoke(fl, mode, inv)`. -/
def fastrpc_internal_invoke (P : Params) (e : Env) (fl : fastrpc_file)
    (inv : fastrpc_ioctl_invoke_crc) : invoke_result :=
  let invoke := inv.inv
  let err := VERIFY 0 (invoke.handle ≠ FASTRPC_STATIC_HANDLE_KERNEL)
  if err ≠ 0 then invoke_bail fl err none 0 []
  else
    let err := VERIFY 0 (decide (fl.domain ≥ 0 ∧ fl.domain < fl.apps.num_channels))
    if err ≠ 0 then invoke_bail fl (-EBADR) none 0 []
    else
      let r := context_restore_interrupted e fl invoke
      let err := VERIFY 0 (r.1 = 0)
      if err ≠ 0 then invoke_bail r.2.2 err r.2.1 0 []
      else
        match r.2.1 with
        | some p => invoke_wait e r.2.2 p []
        | none =>
          let a := context_alloc e r.2.2 inv
          let err := VERIFY 0 (a.1 = 0)
          if err ≠ 0 then invoke_bail a.2.2.1 err a.2.1 0 a.2.2.2
          else
            match a.2.1 with
            | none => invoke_bail a.2.2.1 (-EFAULT) none 0 a.2.2.2
            | some p =>
              match a.2.2.1.ctxs p with
              | none => invoke_bail a.2.2.1 (-EFAULT) none 0 a.2.2.2
              | some c => invoke_marshal P e a.2.2.1 p c a.2.2.2

/-! ## Sequences of context operations -/

/-- `fastrpc_file_alloc()`: a session with empty lists and no context; `self`
is its address, `apps` the driver state it is attached to. -/
def fastrpc_file_alloc (self : Nat) (apps : fastrpc_apps) (tgid : Int) : fastrpc_file :=
  { self := self, apps := apps, clst := { interrupted := [], pending := [] },
    ctxs := fun _ => none, next_ctx := 0, tgid := tgid, cid := -1, domain := -1,
    maps := [], cached_bufs := [], remote_bufs := [], file_close := 0, dsp_proc_init := 0 }

/-- One call of the context manager.  `save` and `free` take the address of a
context. -/
inductive CtxOp where
  | alloc (e : Env) (inv : fastrpc_ioctl_invoke_crc)
  | save (p : Nat)
  | restore (e : Env) (invoke : fastrpc_ioctl_invoke)
  | free (p : Nat)

/-- The session after one call; `none` when `save` or `free` is handed an
address that is not an allocated context (not a legal call). -/
def ctx_step (fl : fastrpc_file) : CtxOp → Option fastrpc_file
  | CtxOp.alloc e inv => some (context_alloc e fl inv).2.2.1
  | CtxOp.save p => if (fl.ctxs p).isSome then some (context_save_interrupted fl p) else none
  | CtxOp.restore e invoke => some (context_restore_interrupted e fl invoke).2.2
  | CtxOp.free p => if (fl.ctxs p).isSome then some (context_free fl p).1 else none

def ctx_run (fl : fastrpc_file) : List CtxOp → Option fastrpc_file
  | [] => some fl
  | op :: ops =>
    match ctx_step fl op with
    | none => none
    | some fl1 => ctx_run fl1 ops

/-- A run of calls of `fastrpc_internal_invoke` on one session, each carried
to its end before the next starts, each with the answers of its own
environment: the session after the run. -/
def invoke_run (P : Params) (fl : fastrpc_file) :
    List (Env × fastrpc_ioctl_invoke_crc) → fastrpc_file
  | [] => fl
  | x :: rest => invoke_run P (fastrpc_internal_invoke P x.1 fl x.2).fl rest

/-! ## Round trips without arguments, unmapping, session teardown -/

/-- `struct virt_munmap_msg`, packed: the header, `u64 vdsp`, `u64 size`. -/
structure virt_munmap_msg where
  hdr : virt_msg_hdr
  vdsp : Nat
  size : Nat

/-- `sizeof(struct virt_munmap_msg)`. -/
def sizeof_virt_munmap_msg (P : Params) : Nat := P.sizeof_virt_msg_hdr + 8 + 8

/-- What a round trip leaves behind: its return value, the driver state, the
message it has built in the transmit buffer (if it got that far) and the calls
issued. -/
structure round_trip (μ : Type) where
  err : Int
  apps : fastrpc_apps
  sent : Option μ
  effects : List Effect

/-- `virt_fastrpc_close(fl)`.  When `wait_for_completion` returns the receive
path has stored `e.rxbuf` in the slot. -/
def virt_fastrpc_close (P : Params) (e : Env) (fl : fastrpc_file) : round_trip virt_msg_hdr :=
  if fl.cid < 0 then { err := -EINVAL, apps := fl.apps, sent := none, effects := [] }
  else
    match virt_alloc_msg P fl.apps (int_of_bits32 P.sizeof_virt_msg_hdr) e.kzalloc_msg
        e.get_a_tx_buf with
    | (none, me) => { err := -ENOMEM, apps := me, sent := none, effects := [] }
    | (some msg, me) =>
      let vmsg : virt_msg_hdr :=
        { pid := fl.tgid, tid := e.current_pid, cid := fl.cid, cmd := VIRTIO_FASTRPC_CMD_CLOSE,
          len := P.sizeof_virt_msg_hdr, msgid := msg.msgid, result := 0xffffffff }
      let send := [Effect.txbuf_send P.sizeof_virt_msg_hdr]
      let err := e.txbuf_send
      if err ≠ 0 then
        { err := err, apps := virt_free_msg me msg, sent := some vmsg, effects := send }
      else
        match e.rxbuf with
        | none => { err := err, apps := virt_free_msg me msg, sent := some vmsg, effects := send }
        | some rsp =>
          { err := int_of_bits32 rsp.hdr.result, apps := virt_free_msg me msg, sent := some vmsg,
            effects := send ++ [Effect.rxbuf_send] }

/-- `virt_fastrpc_munmap(fl, raddr, size)`. -/
def virt_fastrpc_munmap (P : Params) (e : Env) (fl : fastrpc_file) (raddr size : Nat) :
    round_trip virt_munmap_msg :=
  match virt_alloc_msg P fl.apps (int_of_bits32 (sizeof_virt_munmap_msg P)) e.kzalloc_msg
      e.get_a_tx_buf with
  | (none, me) => { err := -ENOMEM, apps := me, sent := none, effects := [] }
  | (some msg, me) =>
    let vmsg : virt_munmap_msg :=
      { hdr := { pid := fl.tgid, tid := e.current_pid, cid := fl.cid,
                 cmd := VIRTIO_FASTRPC_CMD_MUNMAP, len := sizeof_virt_munmap_msg P,
                 msgid := msg.msgid, result := 0xffffffff },
        vdsp := raddr, size := size }
    let send := [Effect.txbuf_send (sizeof_virt_munmap_msg P)]
    let err := e.txbuf_send
    if err ≠ 0 then
      { err := err, apps := virt_free_msg me msg, sent := some vmsg, effects := send }
    else
      match e.rxbuf with
      | none => { err := err, apps := virt_free_msg me msg, sent := some vmsg, effects := send }
      | some rsp =>
        { err := int_of_bits32 rsp.hdr.result, apps := virt_free_msg me msg, sent := some vmsg,
          effects := send ++ [Effect.rxbuf_send] }

/-- Modelled from the spec: `fastrpc_mmap_remove(fl, va, len, &map)` is defined
in `virtio_fastrpc_mem.c`, which is not part of the sources.  `remove(va, len)`
takes the first mapping with that remote address and length out of the
registry and hands it back; without such a mapping nothing changes. -/
def fastrpc_mmap_remove (va len : Nat) :
    List fastrpc_mmap → Option (fastrpc_mmap × List fastrpc_mmap)
  | [] => none
  | m :: rest =>
    if m.raddr = va ∧ m.size = len then some (m, rest)
    else
      match fastrpc_mmap_remove va len rest with
      | none => none
      | some (x, r) => some (x, m :: r)

/-- Modelled from the spec: `fastrpc_mmap_add(fl, map)` (same missing file):
`add(mapping)` puts the mapping into the registry. -/
def fastrpc_mmap_add (reg : List fastrpc_mmap) (map : fastrpc_mmap) : List fastrpc_mmap :=
  map :: reg

/-- Modelled from the spec: `fastrpc_buf_free(buf, 0)` (same missing file)
releases the buffer; a buffer that is linked in the list of remote buffers
leaves that list.  The call is logged. -/
def fastrpc_buf_free (fl : fastrpc_file) (buf : fastrpc_buf) : fastrpc_file × List Effect :=
  ({ fl with remote_bufs := fl.remote_bufs.filter (fun b => b.ptr ≠ buf.ptr) },
   [Effect.buf_free buf 0])

/-- `struct fastrpc_ioctl_munmap`. -/
structure fastrpc_ioctl_munmap where
  vaddrout : Nat
  size : Nat

/-- The scan of `fl->remote_bufs` in `fastrpc_internal_munmap`: the first
buffer that matches, if any. -/
def find_remote_buf (P : Params) (ud : fastrpc_ioctl_munmap) : List fastrpc_buf → Option fastrpc_buf
  | [] => none
  | rbuf :: rest =>
    if rbuf.raddr ≠ 0 ∧ rbuf.flags = P.ADSP_MMAP_ADD_PAGES ∧ rbuf.raddr = ud.vaddrout ∧
        rbuf.size = ud.size then some rbuf
    else find_remote_buf P ud rest

/-- What a call on a session leaves behind: its return value, the session and
the calls issued. -/
structure file_result where
  err : Int
  fl : fastrpc_file
  effects : List Effect

/-- `fastrpc_internal_munmap(fl, ud)`. -/
def fastrpc_internal_munmap (P : Params) (e : Env) (fl : fastrpc_file)
    (ud : fastrpc_ioctl_munmap) : file_result :=
  let err := VERIFY 0 (decide (fl.dsp_proc_init = 1))
  if err ≠ 0 then { err := -EBADR, fl := fl, effects := [] }
  else
    match find_remote_buf P ud fl.remote_bufs with
    | some free =>
      let r := virt_fastrpc_munmap P e fl free.raddr free.size
      let err := VERIFY 0 (decide (r.err = 0))
      let fl1 := { fl with apps := r.apps }
      if err ≠ 0 then { err := err, fl := fl1, effects := r.effects }
      else
        let f := fastrpc_buf_free fl1 free
        { err := err, fl := f.1, effects := r.effects ++ f.2 }
    | none =>
      match fastrpc_mmap_remove ud.vaddrout ud.size fl.maps with
      | none => { err := VERIFY 0 false, fl := fl, effects := [] }
      | some (map, rest) =>
        let fl1 := { fl with maps := rest }
        let r := virt_fastrpc_munmap P e fl1 map.raddr map.size
        let err := VERIFY 0 (decide (r.err = 0))
        let fl2 := { fl1 with apps := r.apps }
        if err ≠ 0 then
          { err := err, fl := { fl2 with maps := fastrpc_mmap_add fl2.maps map },
            effects := r.effects }
        else
          { err := err, fl := fl2, effects := r.effects ++ [Effect.mmap_free (some map) 0] }

/-- One of the two context lists: the interrupted list or the pending list. -/
def ctx_list (interrupted : Bool) (l : fastrpc_ctx_lst) : List Nat :=
  if interrupted then l.interrupted else l.pending

/-- One `do ... while (ctxfree)` loop of `fastrpc_context_list_dtor`, over the
interrupted list or over the pending list, with `fuel` iterations at most:
the head of the list is unlinked and passed to `context_free` until the list
is empty.  `none` when the fuel does not suffice. -/
def dtor_loop (interrupted : Bool) : Nat → fastrpc_file → Option (fastrpc_file × List Effect)
  | 0, _ => none
  | n + 1, fl =>
    match ctx_list interrupted fl.clst with
    | [] => some (fl, [])
    | ictx :: _ =>
      let fl1 := { fl with clst := hlist_del_init fl.clst ictx }
      let r := context_free fl1 ictx
      match dtor_loop interrupted n r.1 with
      | none => none
      | some (fl2, eff) => some (fl2, r.2 ++ eff)

/-- `fastrpc_context_list_dtor(fl)`. -/
def fastrpc_context_list_dtor (fuel : Nat) (fl : fastrpc_file) :
    Option (fastrpc_file × List Effect) :=
  match dtor_loop true fuel fl with
  | none => none
  | some (fl1, eff1) =>
    match dtor_loop false fuel fl1 with
    | none => none
    | some (fl2, eff2) => some (fl2, eff1 ++ eff2)

/-- `fastrpc_cached_buf_list_free(fl)`. -/
def fastrpc_cached_buf_list_free : Nat → fastrpc_file → Option (fastrpc_file × List Effect)
  | 0, _ => none
  | n + 1, fl =>
    match fl.cached_bufs with
    | [] => some (fl, [])
    | buf :: rest =>
      let f := fastrpc_buf_free { fl with cached_bufs := rest } buf
      match fastrpc_cached_buf_list_free n f.1 with
      | none => none
      | some (fl2, eff) => some (fl2, f.2 ++ eff)

/-- `fastrpc_remote_buf_list_free(fl)`: the loop itself does not unlink the
buffer it picks; `fastrpc_buf_free` does. -/
def fastrpc_remote_buf_list_free : Nat → fastrpc_file → Option (fastrpc_file × List Effect)
  | 0, _ => none
  | n + 1, fl =>
    match fl.remote_bufs with
    | [] => some (fl, [])
    | buf :: _ =>
      let f := fastrpc_buf_free fl buf
      match fastrpc_remote_buf_list_free n f.1 with
      | none => none
      | some (fl2, eff) => some (fl2, f.2 ++ eff)

/-- The loop of `fastrpc_file_free` over `fl->maps`: the head is unlinked and
passed to `fastrpc_mmap_free(fl, lmap, 1)`; the last pass finds the list empty
and calls it with `NULL`. -/
def file_free_maps : Nat → fastrpc_file → Option (fastrpc_file × List Effect)
  | 0, _ => none
  | n + 1, fl =>
    match fl.maps with
    | [] => some (fl, [Effect.mmap_free none 1])
    | map :: rest =>
      match file_free_maps n { fl with maps := rest } with
      | none => none
      | some (fl2, eff) => some (fl2, Effect.mmap_free (some map) 1 :: eff)

/-- What `fastrpc_file_free` leaves behind: its return value, the session as it
is when the session object itself is released (`none` for a null session) and
the calls issued. -/
structure file_free_result where
  ret : Int
  fl : Option fastrpc_file
  effects : List Effect

/-- `fastrpc_file_free(fl)` with `fuel` iterations at most for each of its
loops; `none` when the fuel does not suffice.  The releases of `debug_buf` and
of the session object are not logged. -/
def fastrpc_file_free (P : Params) (e : Env) (fuel : Nat) :
    Option fastrpc_file → Option file_free_result
  | none => some { ret := 0, fl := none, effects := [] }
  | some fl =>
    let c := virt_fastrpc_close P e fl
    let fl1 := { fl with apps := c.apps, file_close := 1 }
    match fastrpc_context_list_dtor fuel fl1 with
    | none => none
    | some (fl2, eff2) =>
      match fastrpc_cached_buf_list_free fuel fl2 with
      | none => none
      | some (fl3, eff3) =>
        match fastrpc_remote_buf_list_free fuel fl3 with
        | none => none
        | some (fl4, eff4) =>
          match file_free_maps fuel fl4 with
          | none => none
          | some (fl5, eff5) =>
            some { ret := 0, fl := some fl5, effects := c.effects ++ eff2 ++ eff3 ++ eff4 ++ eff5 }

/-- The addresses passed to `kfree` by `context_free`, in the order of the
log. -/
def ctx_frees (eff : List Effect) : List Nat :=
  eff.filterMap (fun x => match x with
    | Effect.kfree p => some p
    | _ => none)

/-- The mappings handed to `fastrpc_mmap_free` (a null pointer is not one), in
the order of the log. -/
def freed_maps (eff : List Effect) : List fastrpc_mmap :=
  eff.filterMap (fun x => match x with
    | Effect.mmap_free (some m) _ => some m
    | _ => none)

/-- The session reached from `fastrpc_file_alloc` (with the channel set to
`cid` and `domain`) by a run of calls. -/
def session_after (P : Params) (self : Nat) (apps : fastrpc_apps) (tgid cid domain : Int)
    (calls : List (Env × fastrpc_ioctl_invoke_crc)) : fastrpc_file :=
  invoke_run P { fastrpc_file_alloc self apps tgid with cid := cid, domain := domain } calls

/-! ## Concrete inputs -/

def apps0 : fastrpc_apps :=
  { buf_size := 4096, num_channels := 4, msgtable := fun _ => none }

def params0 : Params :=
  { FASTRPC_MSG_MAX := 4, PAGE_SIZE := 4096, sizeof_virt_msg_hdr := 28,
    FASTRPC_ATTR_NOMAP := 16, offset_bits := 32, ADSP_MMAP_ADD_PAGES := 4096 }

/-- A transport buffer filled with zeros. -/
def vmsg_zero : virt_invoke_msg :=
  { hdr := { pid := 0, tid := 0, cid := 0, cmd := 0, len := 0, msgid := 0, result := 0 },
    handle := 0, sc := 0, pra := fun _ => { pv := 0, len := 0 },
    dma := fun _ => { fd := 0, offset := 0 }, fdlist := fun _ => 0, payload := fun _ => 0 }

/-- An environment in which thread 7 calls, every allocation and copy
succeeds, the mapper refuses every request and the reply is `rx`. -/
def env0 (rx : Option virt_invoke_msg) : Env :=
  { current_pid := 7, umem := fun a => a % 256, user_read_ok := fun _ _ => true,
    user_write_ok := fun _ _ => true, copy_pra_ok := true, copy_fds_ok := true,
    copy_attrs_ok := true,
    mmap_create := fun _ _ _ _ _ => Except.error ⟨-12, by decide⟩,
    mmap_find := fun _ _ => none,
    buf_alloc := fun _ _ => Except.error ⟨-12, by decide⟩,
    kzalloc_ctx := true, kcalloc_desc := true, kzalloc_msg := some 1000,
    get_a_tx_buf := some vmsg_zero, txbuf_send := 0, wait := 0, rxbuf := rx }

/-- A fresh session at address 1 on channel 0. -/
def fl0 : fastrpc_file :=
  { fastrpc_file_alloc 1 apps0 50 with cid := 0, domain := 0 }

/-- A call without arguments to remote handle 5. -/
def invoke0 : fastrpc_ioctl_invoke :=
  { handle := 5, sc := 0, pra := fun _ => { pv := 0, len := 0 } }

def inv0 : fastrpc_ioctl_invoke_crc := { inv := invoke0, fds := none, attrs := none }

/-- A context of thread `pid` of session 1 with descriptor `sc`. -/
def ctx_of (pid : Int) (sc : Nat) : fastrpc_invoke_ctx :=
  { ctx_zero fl0 with pid := pid, sc := sc }

/-- The four context operations used as an example run: allocate, save the
context at address 0, allocate again. -/
def ops_example : List CtxOp :=
  [CtxOp.alloc (env0 none) inv0, CtxOp.save 0, CtxOp.alloc (env0 none) inv0]

/-- The environment `env0` with the wait for the reply interrupted by a
signal. -/
def env_intr : Env := { env0 none with wait := -ERESTARTSYS }

/-- A reply with result 0 and nothing else. -/
def reply_ok : virt_invoke_msg := vmsg_zero

/-- A slot whose reply is `rx`. -/
def msg_with (rx : Option virt_invoke_msg) : virt_fastrpc_msg :=
  { ptr := 1000, msgid := 0, txbuf := some vmsg_zero, rxbuf := rx }

/-- A reply that reports the remote error 7. -/
def reply_err : virt_invoke_msg :=
  { vmsg_zero with hdr := { vmsg_zero.hdr with result := 7 } }

/-- A reply with result 0 whose fd list is `0, 5, 0, ...`. -/
def reply_fd : virt_invoke_msg :=
  { vmsg_zero with fdlist := fun i => if i = 1 then 5 else 0 }

/-- A reply with result 0 whose fd list is `5, 0, ...`. -/
def reply_fd_head : virt_invoke_msg :=
  { vmsg_zero with fdlist := fun i => if i = 0 then 5 else 0 }

/-- The mapping registered under fd 5. -/
def map5 : fastrpc_mmap :=
  { ptr := 500, fd := 5, table := { sgl := [] }, raddr := 0, size := 0 }

/-- The environment `env0` with a mapping registered under fd 5. -/
def env_find : Env :=
  { env0 none with mmap_find := fun _ fd => if fd = 5 then some map5 else none }

/-- A context with one output buffer of length 0 (descriptor `1 << 8`) whose
slot holds the reply `rx`. -/
def ctx_out (rx : Option virt_invoke_msg) : fastrpc_invoke_ctx :=
  { ctx_of 7 256 with msg := some (msg_with rx), fds := none }

/-- A fresh context of session 1 with one input buffer (4 bytes at 100) and
one output buffer (3 bytes at 200), no fd table. -/
def ctx_io : fastrpc_invoke_ctx :=
  { ctx_zero fl0 with
    sc := 65792, pid := 7, fds := none,
    lpra := fun i => if i = 0 then { pv := 100, len := 4 }
      else if i = 1 then { pv := 200, len := 3 } else { pv := 0, len := 0 } }

/-- A reply to `ctx_io`: result 0, the records of the request, and a payload
whose byte at offset `a` is `a + 1`. -/
def reply_io : virt_invoke_msg :=
  { vmsg_zero with
    pra := fun i => if i = 0 then { pv := 0, len := 4 }
      else if i = 1 then { pv := 0, len := 3 } else { pv := 0, len := 0 },
    payload := fun a => a + 1 }

/-- A fresh context with one input and one output buffer of two pages each. -/
def ctx_big : fastrpc_invoke_ctx :=
  { ctx_zero fl0 with
    sc := 65792, pid := 7, fds := none,
    lpra := fun i => if i = 0 then { pv := 100, len := 8192 }
      else if i = 1 then { pv := 20000, len := 8192 } else { pv := 0, len := 0 } }

/-- A page-sized segment. -/
def sg_page : scatterlist :=
  { dma_address := 4096, dma_len := 4096, page_phys := 4096, length := 4096 }

/-- The environment `env0` with an allocator of internal buffers that returns
zeroed buffers of two segments. -/
def env_alloc (rx : Option virt_invoke_msg) : Env :=
  { env0 rx with
    buf_alloc := fun i size =>
      Except.ok { ptr := 700 + i, size := size, va := fun _ => 0,
                  sgt := { sgl := [sg_page, sg_page] }, raddr := 0, flags := 0 } }

/-- The context that `get_args` leaves for `ctx_big` (with the allocator of
`env_alloc`), with the reply `reply_ok` in its message slot. -/
def ctx_big_replied : fastrpc_invoke_ctx :=
  match (get_args params0 (env_alloc none) fl0 ctx_big).ctx.msg with
  | some m =>
    { (get_args params0 (env_alloc none) fl0 ctx_big).ctx with
      msg := some { m with rxbuf := some reply_ok } }
  | none => (get_args params0 (env_alloc none) fl0 ctx_big).ctx

/-- A fresh context with two output buffers of `2 ^ 63` bytes each, no fd
table. -/
def ctx_huge : fastrpc_invoke_ctx :=
  { ctx_zero fl0 with
    sc := 512, pid := 7, fds := none,
    lpra := fun _ => { pv := 1000, len := 2 ^ 63 } }

/-- A fresh context with one input buffer of 4 bytes whose fd is `-2`. -/
def ctx_neg : fastrpc_invoke_ctx :=
  { ctx_zero fl0 with
    sc := 65536, pid := 7, fds := some (fun _ => -2),
    lpra := fun i => if i = 0 then { pv := 100, len := 4 } else { pv := 0, len := 0 } }

/-- The state in which the first sizing loop of `get_args` starts on `ctx_neg`. -/
def st_neg : get_args_st := { ctx := ctx_neg, copylen := 0, handle_len := 0, effects := [] }

/-- A fresh context with one input buffer of 4 bytes with fd 5 and one output
buffer of 3 bytes with fd `-1`. -/
def ctx_fd : fastrpc_invoke_ctx :=
  { ctx_zero fl0 with
    sc := 65792, pid := 7, fds := some (fun i => if i = 0 then 5 else -1),
    lpra := fun i => if i = 0 then { pv := 100, len := 4 }
      else if i = 1 then { pv := 200, len := 3 } else { pv := 0, len := 0 } }

/-- A mapping of three segments for fd 5. -/
def map3 : fastrpc_mmap :=
  { ptr := 503, fd := 5, table := { sgl := [sg_page, sg_page, sg_page] }, raddr := 0, size := 0 }

/-- The environment `env0` with a mapper that maps fd 5 (to `map3`) and refuses
every other fd with `-EBADF`. -/
def env_map : Env :=
  { env0 none with
    mmap_create := fun _ fd _ _ _ =>
      if fd = 5 then Except.ok map3 else Except.error ⟨-9, by decide⟩ }

/-- A call with one input handle (descriptor `1 << 4`) whose fd is 5. -/
def inv_handle : fastrpc_ioctl_invoke_crc :=
  { inv := { handle := 5, sc := 16, pra := fun _ => { pv := 0, len := 0 } },
    fds := some (fun _ => 5), attrs := none }

/-- A call with one input buffer (4 bytes, fd 5) and one output buffer
(3 bytes, fd `-1`). -/
def inv_fd : fastrpc_ioctl_invoke_crc :=
  { inv := { handle := 5, sc := 65792, pra := ctx_fd.lpra }, fds := ctx_fd.fds, attrs := none }

/-- The environment `env_map` in which no message slot can be allocated. -/
def env_noslot : Env := { env_map with kzalloc_msg := none }

/-- The context of the call `inv_handle` after `get_args` has created the
mapping of its handle argument. -/
def ctx_handle : fastrpc_invoke_ctx :=
  { ctx_zero fl0 with
    sc := 16, handle := 5, pid := 7, tgid := 50, fds := some (fun _ => 5),
    maps := fun i => if i = 0 then some map3 else none }

/-- Session 1 with the context `ctx_handle` pending at address 0. -/
def fl_handle : fastrpc_file :=
  { fl0 with
    clst := { interrupted := [], pending := [0] },
    ctxs := fun p => if p = 0 then some ctx_handle else none,
    next_ctx := 1 }

/-- A mapping at remote address `0x1000` of 64 bytes. -/
def map_a : fastrpc_mmap :=
  { ptr := 510, fd := 6, table := { sgl := [sg_page] }, raddr := 4096, size := 64 }

/-- A mapping at remote address `0x2000` of 32 bytes. -/
def map_b : fastrpc_mmap :=
  { ptr := 511, fd := 7, table := { sgl := [sg_page] }, raddr := 8192, size := 32 }

/-- An initialised session 1 whose registry holds `map_b` and `map_a`. -/
def fl_reg : fastrpc_file := { fl0 with maps := [map_b, map_a], dsp_proc_init := 1 }

/-- The request to unmap 64 bytes at `0x1000`. -/
def ud_a : fastrpc_ioctl_munmap := { vaddrout := 4096, size := 64 }

/-- The environment `env0` in which the transport refuses to send. -/
def env_nosend : Env := { env0 none with txbuf_send := -5 }

/-- A cached buffer. -/
def buf_c : fastrpc_buf :=
  { ptr := 900, size := 4096, va := fun _ => 0, sgt := { sgl := [sg_page] }, raddr := 0,
    flags := 0 }

/-- A remote heap buffer at remote address `0x3000`. -/
def buf_r : fastrpc_buf :=
  { ptr := 901, size := 4096, va := fun _ => 0, sgt := { sgl := [sg_page] }, raddr := 12288,
    flags := 4096 }

/-- Session 1 after the example run `ops_example` (one interrupted context, at
address 0, and one pending context, at address 1), with two mappings in the
registry, one cached buffer and one remote buffer. -/
def fl_open : fastrpc_file :=
  match ctx_run fl0 ops_example with
  | some fl =>
    { fl with maps := [map_b, map_a], cached_bufs := [buf_c], remote_bufs := [buf_r],
              dsp_proc_init := 1 }
  | none => fl0

/-- A call with one output buffer of 4 bytes at the user address 200
(descriptor `1 << 8`), no fd table. -/
def inv_out4 : fastrpc_ioctl_invoke_crc :=
  { inv := { handle := 5, sc := 256, pra := fun _ => { pv := 200, len := 4 } },
    fds := none, attrs := none }

/-- A reply with result 0 whose record of argument 0 gives a length of 8 and
whose payload byte at offset `a` is `a + 1`. -/
def reply_long : virt_invoke_msg :=
  { vmsg_zero with pra := fun _ => { pv := 0, len := 8 }, payload := fun a => a + 1 }

/-- A context with one input and one output buffer, both mapped (`map_a` and
`map_b`), whose slot holds the reply `reply_ok`. -/
def ctx_mapped : fastrpc_invoke_ctx :=
  { ctx_zero fl0 with
    sc := 65792, pid := 7, fds := none, msg := some (msg_with (some reply_ok)),
    maps := fun i => if i = 0 then some map_a else if i = 1 then some map_b else none }

/-! ## Invariants used by the theorems -/

/-- The invariant of the context lists: an allocated context is linked in
exactly one of the two lists, once; an address that is not allocated is in
neither; allocated addresses lie below the next address handed out. -/
def ctx_inv (fl : fastrpc_file) : Prop :=
  (∀ p, fl.ctxs p ≠ none → p < fl.next_ctx) ∧
    (∀ p, fl.ctxs p ≠ none → (p ∈ fl.clst.pending ↔ p ∉ fl.clst.interrupted)) ∧
    (∀ p, fl.ctxs p = none → p ∉ fl.clst.pending ∧ p ∉ fl.clst.interrupted) ∧
    fl.clst.pending.Nodup ∧ fl.clst.interrupted.Nodup

/-- The invariant of the pool: every live slot sits in the table under its own
id, and live slots have pairwise different ids. -/
def pool_inv (P : Params) (r : PoolRun) : Prop :=
  (∀ m ∈ r.live, m.msgid < P.FASTRPC_MSG_MAX ∧ r.apps.msgtable m.msgid = some m.ptr) ∧
    r.live.Pairwise (fun a b => a.msgid ≠ b.msgid)

/-- Where the context `p` used by a call is when `fastrpc_internal_invoke`
returns: saved in the interrupted list (and not pending) when the wait was
interrupted, freed and in neither list otherwise. -/
def ctx_settled (r : invoke_result) (p : Nat) : Prop :=
  (p ∈ r.fl.clst.interrupted ↔ r.interrupted = -ERESTARTSYS) ∧
    p ∉ r.fl.clst.pending ∧
    (r.interrupted = -ERESTARTSYS → r.fl.ctxs p ≠ none) ∧
    (r.interrupted ≠ -ERESTARTSYS → r.fl.ctxs p = none)

/-- The state in which `fastrpc_internal_invoke` leaves the context it used:
settled as above, with the local `interrupted` equal to 0 (wait not reached)
or to the result of the wait. -/
def invoke_good (e : Env) (r : invoke_result) : Prop :=
  ∀ p, r.ctx = some p →
    ctx_settled r p ∧ (r.interrupted = 0 ∨ r.interrupted = e.wait)

/-- The fd-list rule as the claim words it: after a result-0 reply has been
unmarshalled, the mapping found for any nonzero entry of the 16-entry fd list
is released. -/
def fdlist_claim (e : Env) (ctx : fastrpc_invoke_ctx) : Prop :=
  ∀ msg rsp, ctx.msg = some msg → msg.rxbuf = some rsp → (put_args e ctx).1 = 0 →
    ∀ i, i < M_FDLIST → rsp.fdlist i ≠ 0 →
      ∀ m, e.mmap_find i (int_of_bits32 (rsp.fdlist i)) = some m →
        Effect.mmap_free (some m) 0 ∈ (put_args e ctx).2.2

/-- A context as `context_alloc` leaves it: no slot, no descriptor array, no
mapping, `outbufs_offset` zero. -/
def ctx_fresh (c : fastrpc_invoke_ctx) : Prop :=
  c.msg = none ∧ c.desc = none ∧ (∀ i, c.maps i = none) ∧ c.outbufs_offset = 0

/-- The number of payload bytes that argument `i` takes on the wire in the
state `ctx`: `16 * nents` for a mapped argument and for an internal-copy
argument, the declared length otherwise.  This is the value the populate
loops store in `rpra[i].len`. -/
def wire_len (ctx : fastrpc_invoke_ctx) (i : Nat) : Nat :=
  match ctx.maps i with
  | some map => map.table.nents * sizeof_virt_fastrpc_buf
  | none =>
    if ctx.desc.isSome ∧ (get_desc ctx i).type = FASTRPC_BUF_TYPE_INTERNAL then
      match (get_desc ctx i).buf with
      | some buf => buf.sgt.nents * sizeof_virt_fastrpc_buf
      | none => 0
    else (ctx.lpra i).len

/-- Invariant of the sizing loops before index `k`: `outbufs_offset` and
`copylen` are the sums of the wire lengths of the input buffers, and of all
buffers, below `k`. -/
def sized (P : Params) (inbufs k : Nat) (s : get_args_st) : Prop :=
  s.ctx.outbufs_offset =
      (∑ i ∈ Finset.range k, if i < inbufs then wire_len s.ctx i else 0) % 2 ^ P.offset_bits ∧
    s.copylen = (∑ i ∈ Finset.range k, wire_len s.ctx i) % SIZE_T_MOD

/-- Invariant of the first sizing loop of `get_args`, started on the context
`c0`, before index `k`. -/
structure len_inv (P : Params) (inbufs : Nat) (c0 : fastrpc_invoke_ctx) (k : Nat)
    (s : get_args_st) : Prop where
  desc : s.ctx.desc = none
  maps_hi : ∀ j, k ≤ j → s.ctx.maps j = none
  maps_lo : ∀ j, j < k → (fd_given c0.fds j = none ∨ (c0.lpra j).len = 0) → s.ctx.maps j = none
  sums : sized P inbufs k s
  lpra : s.ctx.lpra = c0.lpra
  fds : s.ctx.fds = c0.fds
  sc : s.ctx.sc = c0.sc
  handle : s.ctx.handle = c0.handle
  msg : s.ctx.msg = c0.msg
  handle_len : s.handle_len = 0

/-- What the sizing loops leave untouched in the context. -/
def same_call (c c0 : fastrpc_invoke_ctx) : Prop :=
  c.lpra = c0.lpra ∧ c.fds = c0.fds ∧ c.sc = c0.sc ∧ c.handle = c0.handle ∧ c.msg = c0.msg

/-- Invariant of the loop of the internal-copy strategy before index `k`:
every unmapped buffer below `k` is typed by its length against the page size,
an internal-copy buffer has the buffer that `fastrpc_buf_alloc` returned for
its page-aligned length, and the sums are those of the wire lengths. -/
structure desc_inv (P : Params) (e : Env) (inbufs : Nat) (k : Nat) (s : get_args_st) : Prop where
  desc_some : s.ctx.desc.isSome
  small : ∀ j, j < k → s.ctx.maps j = none → (s.ctx.lpra j).len < P.PAGE_SIZE →
    (get_desc s.ctx j).type ≠ FASTRPC_BUF_TYPE_INTERNAL
  large : ∀ j, j < k → s.ctx.maps j = none → P.PAGE_SIZE ≤ (s.ctx.lpra j).len →
    (get_desc s.ctx j).type = FASTRPC_BUF_TYPE_INTERNAL ∧
      ∃ buf, (get_desc s.ctx j).buf = some buf ∧
        e.buf_alloc j (PAGE_ALIGN P (s.ctx.lpra j).len % SIZE_T_MOD) = Except.ok buf
  sums : sized P inbufs k s

/-- Two internal buffers (or their absence) that differ in their contents at
most. -/
def buf_like (o1 o2 : Option fastrpc_buf) : Prop :=
  match o1, o2 with
  | none, none => True
  | some a, some b => a.sgt = b.sgt ∧ a.ptr = b.ptr ∧ a.size = b.size
  | _, _ => False

/-- Argument `j` travels inline in the state `c`: it has no mapping and is not
an internal-copy argument. -/
def is_inline (c : fastrpc_invoke_ctx) (j : Nat) : Prop :=
  c.maps j = none ∧ ¬ (c.desc.isSome ∧ (get_desc c j).type = FASTRPC_BUF_TYPE_INTERNAL)

/-- Argument `j` is an internal-copy argument in the state `c`. -/
def is_internal (c : fastrpc_invoke_ctx) (j : Nat) : Prop :=
  c.maps j = none ∧ c.desc.isSome ∧ (get_desc c j).type = FASTRPC_BUF_TYPE_INTERNAL

/-- Invariant of the loop of `get_args` that fills in the buffer arguments,
entered with the sized context `c`, before index `k`: the context keeps its
sizing, `rpra[j].len` is the wire length of argument `j`, the pointer
`payload` has advanced by the wire lengths so far, an inline input buffer has
its bytes at the offset where it was placed, and an internal-copy input buffer
has its bytes in its internal buffer. -/
structure pop_inv (e : Env) (inbufs : Nat) (c : fastrpc_invoke_ctx) (k : Nat)
    (t : populate_st) : Prop where
  maps : t.ctx.maps = c.maps
  call : same_call t.ctx c
  off : t.ctx.outbufs_offset = c.outbufs_offset
  desc_some : t.ctx.desc.isSome = c.desc.isSome
  dtype : ∀ j, (get_desc t.ctx j).type = (get_desc c j).type
  dbuf : ∀ j, buf_like (get_desc t.ctx j).buf (get_desc c j).buf
  pra : ∀ j, j < k → (t.vmsg.pra j).len = wire_len c j
  pos : t.payload = ∑ j ∈ Finset.range k, wire_len c j
  inline_bytes : ∀ j, j < k → j < inbufs → is_inline c j →
    bytes_at t.vmsg.payload (∑ i ∈ Finset.range j, wire_len c i) (c.lpra j).len =
      bytes_at e.umem (c.lpra j).pv (c.lpra j).len
  internal_bytes : ∀ j, j < k → j < inbufs → is_internal c j →
    ∃ b, (get_desc t.ctx j).buf = some b ∧
      bytes_at b.va 0 (c.lpra j).len = bytes_at e.umem (c.lpra j).pv (c.lpra j).len

/-- What the loop over the handle arguments keeps of the state `t0` in which
it starts: the context, the records of the buffer arguments (indices below
`bufs`) and the payload bytes below the position it starts at. -/
def dma_rel (bufs : Nat) (t0 t : populate_st) : Prop :=
  t.ctx = t0.ctx ∧ (∀ j, j < bufs → t.vmsg.pra j = t0.vmsg.pra j) ∧
    (∀ a, a < t0.payload → t.vmsg.payload a = t0.vmsg.payload a) ∧ t0.payload ≤ t.payload

/-- What a successful `get_args` on the fresh context `c0` has built: `s` is
the state after sizing and `size` the local `size`, `msg` the slot obtained,
`t0` the state after the loop over the buffer arguments and `t` the state
after the loop over the handle arguments. -/
structure marshalled (P : Params) (e : Env) (fl : fastrpc_file) (c0 : fastrpc_invoke_ctx)
    (s : get_args_st) (size : Nat) (msg : virt_fastrpc_msg) (t0 t : populate_st) : Prop where
  sizing : get_args_size P e fl c0 = (0, s, size)
  slot : (virt_alloc_msg P fl.apps (int_of_bits32 size) e.kzalloc_msg e.get_a_tx_buf).1 = some msg
  sc : s.ctx.sc = c0.sc
  buffers : pop_inv e (REMOTE_SCALARS_INBUFS c0.sc) s.ctx
    (REMOTE_SCALARS_INBUFS c0.sc + REMOTE_SCALARS_OUTBUFS c0.sc) t0
  handles : dma_rel (REMOTE_SCALARS_INBUFS c0.sc + REMOTE_SCALARS_OUTBUFS c0.sc) t0 t
  ctx : (get_args P e fl c0).ctx =
    { t.ctx with msg := some { msg with txbuf := some t.vmsg }, size := size }
  payload_end : (get_args P e fl c0).payload_end = t.payload

/-- The mapping rule as the claim words it, for one pass through the body of
the first sizing loop at index `i` in the state `s` (argument of nonzero
length, no mapping in its slot yet): when the pass succeeds the argument has a
mapping and is counted with `16 * nents` exactly when its fd is non-negative;
and with a negative fd, or without an fd table, the pass succeeds, the slot
stays empty and the argument is counted with its declared length. -/
def mapping_claim (P : Params) (e : Env) (inbufs i : Nat) (s : get_args_st) : Prop :=
  (s.ctx.lpra i).len ≠ 0 → s.ctx.maps i = none →
    ((get_args_len_body P e inbufs i s).1 = 0 →
      ((∃ map, (get_args_len_body P e inbufs i s).2.ctx.maps i = some map ∧
          (get_args_len_body P e inbufs i s).2.copylen =
            (s.copylen + map.table.nents * sizeof_virt_fastrpc_buf) % SIZE_T_MOD) ↔
        ∃ f, s.ctx.fds = some f ∧ 0 ≤ f i)) ∧
    ((s.ctx.fds = none ∨ ∃ f, s.ctx.fds = some f ∧ f i < 0) →
      (get_args_len_body P e inbufs i s).1 = 0 ∧
        (get_args_len_body P e inbufs i s).2.ctx.maps i = none ∧
        (get_args_len_body P e inbufs i s).2.copylen =
          (s.copylen + (s.ctx.lpra i).len) % SIZE_T_MOD)

/-- The release rule as the claim words it: `context_free` of the context at
`p` releases the mapping held in every argument slot, those of the handle
arguments included. -/
def rollback_claim (fl : fastrpc_file) (p : Nat) : Prop :=
  ∀ ctx, fl.ctxs p = some ctx → ∀ i, i < REMOTE_SCALARS_LENGTH ctx.sc →
    ∀ map, ctx.maps i = some map → Effect.mmap_free (some map) 0 ∈ (context_free fl p).2

/-- The thread and the session a context belongs to. -/
def ctx_owner (c : fastrpc_invoke_ctx) : Int × Nat := (c.pid, c.fl)

/-- The entries of the interrupted list that belong to thread `pid`. -/
def saved_of (fl : fastrpc_file) (pid : Int) : List Nat :=
  fl.clst.interrupted.filter (fun p =>
    match fl.ctxs p with
    | some c => decide (c.pid = pid)
    | none => false)

/-- The invariant of a session between calls: the invariant of the context
lists, at most one entry of the interrupted list per thread, and every
context records the session it was allocated for. -/
structure saved_inv (fl : fastrpc_file) : Prop where
  lists : ctx_inv fl
  one : ∀ p q c d, p ∈ fl.clst.interrupted → q ∈ fl.clst.interrupted →
    fl.ctxs p = some c → fl.ctxs q = some d → c.pid = d.pid → p = q
  own : ∀ p c, fl.ctxs p = some c → c.fl = fl.self

/-- A call of thread `pid` is under way with the context at `p`: the context is
allocated and not in the interrupted list, and the interrupted list holds no
context of that thread. -/
structure in_call (fl : fastrpc_file) (p : Nat) (pid : Int) : Prop where
  inv : saved_inv fl
  pend : p ∉ fl.clst.interrupted
  mine : ∃ c, fl.ctxs p = some c ∧ c.pid = pid
  none_saved : ∀ q ∈ fl.clst.interrupted, ∀ d, fl.ctxs q = some d → d.pid ≠ pid

end VirtioFastrpc

/-! # slatecom SPI link: transfers, interrupt service path, resume, power management

A shallow embedding of `drivers/soc/qcom/slatecom_spi.c`.

Conventions of the embedding

* The file-scope variables of the driver (`slate_com_drv`, `spi_state`, `state`,
  `ok_to_sleep`, `g_slav_status_reg`, the two lists) are the fields of
  `slate_drv`; every function takes the driver state and returns the new one.
* Calls that leave the file (`spi_sync`, the power-management calls, the
  callbacks of the listeners, `queue_work`, `complete`, the delays, `BUG`) are
  appended to the log `trace`; what they answer is read from the record `Hw`.
* The member `irq_lock` of the private data of the SPI device is a field of
  `slate_drv` as well; the power-management callbacks take the local handle
  `local_handle`.
* A buffer is a function from the offset to the byte; multi-byte values are
  little-endian; `uint32_t` arithmetic is taken modulo `2 ^ 32`.
* `pm_runtime_get_sync` belongs to the power-management core.  Where the
  driver calls it before its own tests (`slatecom_reg_write`) or takes the
  interrupt lock for it (`slate_irq_tasklet_hndlr`), the call is the definition
  `pm_runtime_get_sync`: it is logged and, when `slate_is_runtime_suspend` is
  set, runs the `.runtime_resume` callback `slatecom_pm_runtime_resume`.  In the
  other transfer operations, where the call follows the tests of the handle,
  the probe and the gate, it is a log entry only.
* `BUG()` does not return: a run that reaches it has no return value.
* The loop of `parse_fifo` has no bound of its own; it is run with fuel.
-/

namespace Slatecom

/-! ## Constants of the source file -/

def SLATE_SPI_WORD_SIZE : Nat := 0x04

def SLATE_SPI_READ_LEN : Nat := 0x04

def SLATE_SPI_WRITE_CMND_LEN : Nat := 0x01

def SLATE_SPI_FIFO_READ_CMD : Nat := 0x41

def SLATE_SPI_FIFO_WRITE_CMD : Nat := 0x40

def SLATE_SPI_AHB_READ_CMD : Nat := 0x43

def SLATE_SPI_AHB_WRITE_CMD : Nat := 0x42

def SLATE_SPI_AHB_CMD_LEN : Nat := 0x05

def SLATE_SPI_AHB_READ_CMD_LEN : Nat := 0x08

def SLATE_STATUS_REG : Nat := 0x05

def SLATE_CMND_REG : Nat := 0x14

def SLATE_SPI_MAX_WORDS : Nat := 0x3FFFFFFD

def SLATE_SPI_MAX_REGS : Nat := 0x0A

def HED_EVENT_ID_LEN : Nat := 0x02

def HED_EVENT_SIZE_LEN : Nat := 0x02

def HED_EVENT_DATA_STRT_LEN : Nat := 0x05

def CMA_BFFR_POOL_SIZE : Nat := 128 * 1024

def WR_PROTOCOL_OVERHEAD : Nat := 5

def WR_PROTOCOL_OVERHEAD_IN_WORDS : Nat := 2

def WR_BUF_SIZE_IN_BYTES : Nat := CMA_BFFR_POOL_SIZE

/-- `CMA_BFFR_POOL_SIZE / sizeof(uint32_t)`. -/
def WR_BUF_SIZE_IN_WORDS : Nat := CMA_BFFR_POOL_SIZE / 4

def WR_BUF_SIZE_IN_WORDS_FOR_USE : Nat := WR_BUF_SIZE_IN_WORDS - WR_PROTOCOL_OVERHEAD_IN_WORDS

def WR_BUF_SIZE_IN_BYTES_FOR_USE : Nat := WR_BUF_SIZE_IN_WORDS_FOR_USE * 4

def SLATE_RESUME_IRQ_TIMEOUT : Nat := 1000

def MIN_SLEEP_TIME : Int := 5

/-- `BIT(n)`. -/
def BIT (n : Nat) : Nat := 2 ^ n

/-- Is bit `n` of `v` set (`v & BIT(n)` is nonzero). -/
def bit_set (v n : Nat) : Bool := (v / 2 ^ n) % 2 = 1

/-- `Master_Command[27]`. -/
def SLATE_PAUSE_OK : Nat := BIT 27

/-- `SLAVE_STATUS_AUTO_CLEAR[15]`. -/
def SLATE_PAUSE_REQ : Nat := BIT 15

/-- `SLAVE_STATUS_AUTO_CLEAR[16]`. -/
def SLATE_RESUME_IND : Nat := BIT 16

def SLATE_OK_SLP_RBSC : Nat := BIT 30

def SLATE_OK_SLP_S2R : Nat := BIT 31

/-- `BIT(31) | BIT(30)`. -/
def SLATE_OK_SLP_S2D : Nat := BIT 31 + BIT 30

def SPI_FREQ_1MHZ : Nat := 1000000

def SPI_FREQ_40MHZ : Nat := 40000000

/-- Kernel errno values used by the file. -/
def EINVAL : Int := 22

def ENODEV : Int := 19

def EBUSY : Int := 16

def ECANCELED : Int := 125

def ENOMEM : Int := 12

def EAGAIN : Int := 11

def ETIMEDOUT : Int := 110

/-- One past the largest `uint32_t`. -/
def U32_MOD : Nat := 2 ^ 32

/-- Byte `k` of the little-endian image of a word. -/
def le_byte (v k : Nat) : Nat := (v / 256 ^ k) % 256

/-- The `uint32_t` stored little-endian at offset `off`. -/
def le32_at (mem : Nat → Nat) (off : Nat) : Nat :=
  mem off + 256 * mem (off + 1) + 65536 * mem (off + 2) + 16777216 * mem (off + 3)

/-- The `uint16_t` stored little-endian at offset `off`. -/
def le16_at (mem : Nat → Nat) (off : Nat) : Nat := mem off + 256 * mem (off + 1)

/-- The `int16_t` stored little-endian at offset `off`. -/
def int16_at (mem : Nat → Nat) (off : Nat) : Int :=
  if le16_at mem off < 2 ^ 15 then (le16_at mem off : Int) else (le16_at mem off : Int) - 2 ^ 16

/-- The `len` bytes found at offset `off`. -/
def bytes (mem : Nat → Nat) (off len : Nat) : List Nat :=
  (List.range len).map (fun k => mem (off + k))

/-! ## Data model -/

inductive slatecom_state where
  | SLATECOM_PROB_SUCCESS
  | SLATECOM_PROB_WAIT
  | SLATECOM_STATE_SUSPEND
  | SLATECOM_STATE_ACTIVE
  | SLATECOM_STATE_RUNTIME_SUSPEND
  | SLATECOM_STATE_HIBERNATE
deriving DecidableEq

inductive slatecom_req_type where
  | SLATECOM_READ_REG
  | SLATECOM_READ_FIFO
  | SLATECOM_READ_AHB
  | SLATECOM_WRITE_REG
deriving DecidableEq

/-- Modelled from the spec: `enum slatecom_spi_state` is declared in a header
that is not part of the sources; the transfer gate is one of free, busy,
pause. -/
inductive slatecom_spi_state where
  | SLATECOM_SPI_FREE
  | SLATECOM_SPI_BUSY
  | SLATECOM_SPI_PAUSE
deriving DecidableEq

/-- Modelled from the spec: `enum slatecom_event_type` is declared in a header
that is not part of the sources; these are the events the file sends. -/
inductive slatecom_event_type where
  | SLATECOM_EVENT_RESET_OCCURRED
  | SLATECOM_EVENT_ERROR_WRITE_FIFO_OVERRUN
  | SLATECOM_EVENT_ERROR_WRITE_FIFO_BUS_ERR
  | SLATECOM_EVENT_ERROR_WRITE_FIFO_ACCESS
  | SLATECOM_EVENT_ERROR_READ_FIFO_UNDERRUN
  | SLATECOM_EVENT_ERROR_READ_FIFO_BUS_ERR
  | SLATECOM_EVENT_ERROR_READ_FIFO_ACCESS
  | SLATECOM_EVENT_ERROR_TRUNCATED_READ
  | SLATECOM_EVENT_ERROR_TRUNCATED_WRITE
  | SLATECOM_EVENT_ERROR_AHB_ILLEGAL_ADDRESS
  | SLATECOM_EVENT_ERROR_AHB_BUS_ERR
  | SLATECOM_EVENT_APPLICATION_RUNNING
  | SLATECOM_EVENT_TO_SLAVE_FIFO_READY
  | SLATECOM_EVENT_TO_MASTER_FIFO_READY
  | SLATECOM_EVENT_AHB_READY
  | SLATECOM_EVENT_TO_MASTER_FIFO_USED
  | SLATECOM_EVENT_TO_SLAVE_FIFO_FREE
deriving DecidableEq

/-- `union slatecom_event_data_type`, kept as the record of its members: a
listener reads the member that belongs to the event it is handed.  The member
`fifo_data` is the pair `to_master_fifo_used`, `data` (`none` for a null
pointer). -/
structure slatecom_event_data_type where
  application_running : Bool
  to_slave_fifo_ready : Bool
  to_master_fifo_ready : Bool
  ahb_ready : Bool
  to_slave_fifo_free : Nat
  to_master_fifo_used : Nat
  data : Option (List Nat)
deriving DecidableEq

/-- `struct slate_context`: a client handle.  `slate_spi` says whether the
pointer of that name is set. -/
structure slate_context where
  slate_spi : Bool
  state : slatecom_state
  cb : Option Nat
deriving DecidableEq

/-- `struct cb_data`: a registered listener (its callback, handle and private
pointer, as addresses). -/
structure cb_data where
  priv : Nat
  handle : Nat
  slatecom_notification_cb : Nat
deriving DecidableEq

/-- `struct event` as `parse_fifo` fills it. -/
structure event where
  sub_id : Nat
  evnt_tm : Nat
  evnt_data : Int
deriving DecidableEq

/-- One `spi_sync` of the single transfer `xfer1`: the bytes of `tx_buf`,
whether an `rx_buf` is given, the length and the clock. -/
structure spi_transfer where
  tx_buf : List Nat
  rx_buf : Bool
  len : Nat
  speed_hz : Nat
deriving DecidableEq

/-- Calls that leave this file, in the order in which they are issued. -/
inductive call where
  | spi_sync (x : spi_transfer)
  | pm_runtime_get_sync
  | pm_runtime_mark_last_busy
  | pm_runtime_put_sync_autosuspend
  | msleep (ms : Int)
  | notify (cb : cb_data) (event : slatecom_event_type) (data : Option slatecom_event_data_type)
  | queue_work
  | set_slate_dsp_state (up : Bool)
  | set_slate_bt_state (up : Bool)
  | wait_for_completion_timeout (ms : Nat)
  | BUG
  | complete
  | mdelay (ms : Nat)
deriving DecidableEq

/-- The file-scope state of the driver and the interrupt lock of its one
device, with the log of the calls issued and the number of allocations
requested so far. -/
structure slate_drv where
  /-- is `slate_com_drv` set (the driver is probed) -/
  slate_com_drv : Bool
  /-- the transfer gate `spi_state` -/
  spi_state : slatecom_spi_state
  /-- the link state, the atomic `state` -/
  state : slatecom_state
  slate_is_spi_active : Nat
  slate_is_runtime_suspend : Nat
  ok_to_sleep : Nat
  g_slav_status_reg : Nat
  /-- the member `irq_lock` of `struct slate_spi_priv` -/
  irq_lock : Nat
  /-- the deferred-event list `pr_lst_hd` -/
  pr_lst_hd : List event
  /-- the registered listeners `cb_head` -/
  cb_head : List cb_data
  allocs : Nat
  trace : List call
deriving DecidableEq

/-- Answers of the collaborators outside this file. -/
structure Hw where
  /-- `spi_sync`: for the call made when the log has the given length, the
  return value and the bytes left in the receive buffer -/
  spi_sync : Nat → spi_transfer → Int × (Nat → Nat)
  /-- does the allocation with the given number and size succeed -/
  kmalloc : Nat → Nat → Bool
  /-- what `wait_for_completion_timeout` returns (0: timed out) -/
  wait_for_completion_timeout : Nat
  /-- `ktime_to_ms` of the time since `sleep_time_start` -/
  time_elapsed : Int
  /-- contents of the member `state` of a handle that lives on the stack and is
  never initialised -/
  stack_state : slatecom_state
  /-- contents of the local `ret` before its first assignment -/
  stack_ret : Int
  /-- the bytes that follow the FIFO buffer in memory -/
  heap : Nat → Nat
  /-- `sizeof(struct event)` and `sizeof(struct event_list)` -/
  sizeof_event : Nat
  sizeof_event_list : Nat

/-- How a run that contains a loop without a bound, or an unchecked
allocation, ends: it returns, it dereferences a null pointer, or it is still
running when the fuel is used up. -/
inductive outcome (α : Type) where
  | done (a : α)
  | oops
  | out_of_fuel

/-! ## Transfers -/

/-- Append a call to the log. -/
def log (s : slate_drv) (x : call) : slate_drv := { s with trace := s.trace ++ [x] }

/-- One allocation request: the answer and the state with the request
counted. -/
def alloc (h : Hw) (size : Nat) (s : slate_drv) : Bool × slate_drv :=
  (h.kmalloc s.allocs size, { s with allocs := s.allocs + 1 })

/-- `is_slatecom_ready()`. -/
def is_slatecom_ready (s : slate_drv) : Bool := s.slate_com_drv

/-- What a transfer operation leaves behind: its return value, the handle, the
bytes it has read (when it has) and the driver state. -/
structure xfer_result where
  ret : Int
  handle : Option slate_context
  data : Option (List Nat)
  s : slate_drv
deriving DecidableEq

/-- `slatecom_transfer(handle, tx_buf, rx_buf, txn_len, freq)`: the return
value, the handle, the receive buffer after the call and the driver state. -/
def slatecom_transfer (h : Hw) (handle : Option slate_context) (tx_buf : Option (Nat → Nat))
    (rx_buf : Bool) (txn_len freq : Nat) (s : slate_drv) :
    Int × Option slate_context × (Nat → Nat) × slate_drv :=
  match handle, tx_buf with
  | none, _ => (-EINVAL, handle, fun _ => 0, s)
  | some _, none => (-EINVAL, handle, fun _ => 0, s)
  | some cntx, some tx =>
    if cntx.state = slatecom_state.SLATECOM_PROB_WAIT ∧ ¬ is_slatecom_ready s then
      (-ENODEV, handle, fun _ => 0, s)
    else
      let cntx1 : slate_context :=
        if cntx.state = slatecom_state.SLATECOM_PROB_WAIT then
          { cntx with slate_spi := true, state := slatecom_state.SLATECOM_PROB_SUCCESS }
        else cntx
      if ¬ cntx1.slate_spi then (-ENODEV, some cntx1, fun _ => 0, s)
      else if s.slate_is_spi_active = 0 then (-ECANCELED, some cntx1, fun _ => 0, s)
      else
        let x : spi_transfer :=
          { tx_buf := bytes tx 0 txn_len, rx_buf := rx_buf, len := txn_len, speed_hz := freq }
        let a := h.spi_sync s.trace.length x
        (a.1, some cntx1, a.2, log s (call.spi_sync x))

/-- The three calls at the label `error_ret` of the transfer operations. -/
def pm_put (s : slate_drv) : slate_drv :=
  log (log s call.pm_runtime_mark_last_busy) call.pm_runtime_put_sync_autosuspend

/-- The transmit buffer of a read: zeroed by `kzalloc`, the command byte first,
then (for an AHB read) the address. -/
def cmd_buf (cmnd : Nat) (addr : Option Nat) : Nat → Nat :=
  fun k =>
    if k = 0 then cmnd
    else
      match addr with
      | some a => if k < 5 then le_byte a (k - 1) else 0
      | none => 0

/-- The transmit buffer of a write: the command byte, (for an AHB write) the
address, then `n` bytes of `write_buf` from offset `off` on; zero behind. -/
def write_buf_image (cmnd : Nat) (addr : Option Nat) (write_buf : Nat → Nat) (off n : Nat) :
    Nat → Nat :=
  fun k =>
    if k = 0 then cmnd
    else
      match addr with
      | some a =>
        if k < 5 then le_byte a (k - 1)
        else if k < 5 + n then write_buf (off + (k - 5)) else 0
      | none => if k < 1 + n then write_buf (off + (k - 1)) else 0

/-- `slatecom_ahb_read(handle, ahb_start_addr, num_words, read_buf)`;
`read_buf` says whether the pointer is set.  (Here and in the other transfer
operations the initial `get_spi_device()` only computes the device pointer that
the power-management calls are handed.) -/
def slatecom_ahb_read (h : Hw) (handle : Option slate_context) (ahb_start_addr num_words : Nat)
    (read_buf : Bool) (s : slate_drv) : xfer_result :=
  if handle.isNone ∨ ¬ read_buf ∨ num_words = 0 ∨ num_words > SLATE_SPI_MAX_WORDS then
    { ret := -EINVAL, handle := handle, data := none, s := s }
  else if ¬ is_slatecom_ready s then { ret := -ENODEV, handle := handle, data := none, s := s }
  else if s.spi_state = slatecom_spi_state.SLATECOM_SPI_BUSY then
    { ret := -EBUSY, handle := handle, data := none, s := s }
  else
    let s1 := log s call.pm_runtime_get_sync
    let size := (num_words * SLATE_SPI_WORD_SIZE) % U32_MOD
    let txn_len := (SLATE_SPI_AHB_READ_CMD_LEN + size) % U32_MOD
    let a1 := alloc h txn_len s1
    if ¬ a1.1 then { ret := -ENOMEM, handle := handle, data := none, s := pm_put a1.2 }
    else
      let a2 := alloc h txn_len a1.2
      if ¬ a2.1 then { ret := -ENOMEM, handle := handle, data := none, s := pm_put a2.2 }
      else
        let r := slatecom_transfer h handle
          (some (cmd_buf SLATE_SPI_AHB_READ_CMD (some (ahb_start_addr % U32_MOD)))) true txn_len
          SPI_FREQ_40MHZ a2.2
        { ret := r.1, handle := r.2.1,
          data := if r.1 = 0 then some (bytes r.2.2.1 SLATE_SPI_AHB_READ_CMD_LEN size) else none,
          s := pm_put r.2.2.2 }

/-- The loop `while (num_bytes)` of `slatecom_ahb_write_bytes`: `off` is the
distance `write_buf` has advanced, `ret` the value of the local `ret`.  The
buffer `fxd_mem_buffer` is taken to be allocated. -/
def ahb_write_bytes_loop (h : Hw) (write_buf : Nat → Nat) (num_bytes ahb_addr off : Nat)
    (ret : Int) (handle : Option slate_context) (s : slate_drv) :
    Int × Option slate_context × slate_drv :=
  if num_bytes = 0 then (ret, handle, s)
  else
    let curr_num_bytes :=
      if num_bytes < WR_BUF_SIZE_IN_BYTES_FOR_USE then num_bytes else WR_BUF_SIZE_IN_BYTES_FOR_USE
    let txn_len0 := (SLATE_SPI_AHB_CMD_LEN + curr_num_bytes) % U32_MOD
    let txn_len := if txn_len0 % 4 ≠ 0 then (txn_len0 + (4 - txn_len0 % 4)) % U32_MOD else txn_len0
    let r := slatecom_transfer h handle
      (some (write_buf_image SLATE_SPI_AHB_WRITE_CMD (some ahb_addr) write_buf off curr_num_bytes))
      false txn_len SPI_FREQ_40MHZ s
    if r.1 ≠ 0 then (r.1, r.2.1, r.2.2.2)
    else
      ahb_write_bytes_loop h write_buf (num_bytes - curr_num_bytes)
        ((ahb_addr + curr_num_bytes) % U32_MOD) (off + curr_num_bytes) r.1 r.2.1 r.2.2.2
termination_by num_bytes
decreasing_by
  simp_wf
  have hw : 0 < WR_BUF_SIZE_IN_BYTES_FOR_USE := by decide
  refine ⟨by omega, ?_⟩
  split <;> omega

/-- `slatecom_ahb_write_bytes(handle, ahb_start_addr, num_bytes, write_buf)`. -/
def slatecom_ahb_write_bytes (h : Hw) (handle : Option slate_context)
    (ahb_start_addr num_bytes : Nat) (write_buf : Option (Nat → Nat)) (s : slate_drv) :
    xfer_result :=
  match write_buf with
  | none => { ret := -EINVAL, handle := handle, data := none, s := s }
  | some wb =>
    if handle.isNone ∨ num_bytes = 0 ∨ num_bytes > SLATE_SPI_MAX_WORDS * 4 then
      { ret := -EINVAL, handle := handle, data := none, s := s }
    else if ¬ is_slatecom_ready s then { ret := -ENODEV, handle := handle, data := none, s := s }
    else if s.spi_state = slatecom_spi_state.SLATECOM_SPI_BUSY then
      { ret := -EBUSY, handle := handle, data := none, s := s }
    else
      let s1 := log s call.pm_runtime_get_sync
      let r := ahb_write_bytes_loop h wb num_bytes (ahb_start_addr % U32_MOD) 0 h.stack_ret
        handle s1
      { ret := r.1, handle := r.2.1, data := none, s := pm_put r.2.2 }

/-- The loop `while (num_words)` of `slatecom_ahb_write`. -/
def ahb_write_loop (h : Hw) (write_buf : Nat → Nat) (num_words ahb_addr off : Nat)
    (ret : Int) (handle : Option slate_context) (s : slate_drv) :
    Int × Option slate_context × slate_drv :=
  if num_words = 0 then (ret, handle, s)
  else
    let curr_num_words :=
      if num_words < WR_BUF_SIZE_IN_WORDS_FOR_USE then num_words else WR_BUF_SIZE_IN_WORDS_FOR_USE
    let curr_num_bytes := (curr_num_words * SLATE_SPI_WORD_SIZE) % U32_MOD
    let txn_len := (SLATE_SPI_AHB_CMD_LEN + curr_num_bytes) % U32_MOD
    let r := slatecom_transfer h handle
      (some (write_buf_image SLATE_SPI_AHB_WRITE_CMD (some ahb_addr) write_buf off curr_num_bytes))
      false txn_len SPI_FREQ_40MHZ s
    if r.1 ≠ 0 then (r.1, r.2.1, r.2.2.2)
    else
      ahb_write_loop h write_buf (num_words - curr_num_words)
        ((ahb_addr + curr_num_bytes) % U32_MOD) (off + curr_num_bytes) r.1 r.2.1 r.2.2.2
termination_by num_words
decreasing_by
  simp_wf
  have hw : 0 < WR_BUF_SIZE_IN_WORDS_FOR_USE := by decide
  refine ⟨by omega, ?_⟩
  split <;> omega

/-- `slatecom_ahb_write(handle, ahb_start_addr, num_words, write_buf)`. -/
def slatecom_ahb_write (h : Hw) (handle : Option slate_context) (ahb_start_addr num_words : Nat)
    (write_buf : Option (Nat → Nat)) (s : slate_drv) : xfer_result :=
  match write_buf with
  | none => { ret := -EINVAL, handle := handle, data := none, s := s }
  | some wb =>
    if handle.isNone ∨ num_words = 0 ∨ num_words > SLATE_SPI_MAX_WORDS then
      { ret := -EINVAL, handle := handle, data := none, s := s }
    else if ¬ is_slatecom_ready s then { ret := -ENODEV, handle := handle, data := none, s := s }
    else if s.spi_state = slatecom_spi_state.SLATECOM_SPI_BUSY then
      { ret := -EBUSY, handle := handle, data := none, s := s }
    else
      let s1 := log s call.pm_runtime_get_sync
      let r := ahb_write_loop h wb num_words (ahb_start_addr % U32_MOD) 0 h.stack_ret handle s1
      { ret := r.1, handle := r.2.1, data := none, s := pm_put r.2.2 }

/-- `slatecom_fifo_write(handle, num_words, write_buf)`. -/
def slatecom_fifo_write (h : Hw) (handle : Option slate_context) (num_words : Nat)
    (write_buf : Option (Nat → Nat)) (s : slate_drv) : xfer_result :=
  match write_buf with
  | none => { ret := -EINVAL, handle := handle, data := none, s := s }
  | some wb =>
    if handle.isNone ∨ num_words = 0 ∨ num_words > SLATE_SPI_MAX_WORDS then
      { ret := -EINVAL, handle := handle, data := none, s := s }
    else if ¬ is_slatecom_ready s then { ret := -ENODEV, handle := handle, data := none, s := s }
    else if s.spi_state = slatecom_spi_state.SLATECOM_SPI_BUSY then
      { ret := -EBUSY, handle := handle, data := none, s := s }
    else
      let s1 := log s call.pm_runtime_get_sync
      let size := (num_words * SLATE_SPI_WORD_SIZE) % U32_MOD
      let txn_len := (SLATE_SPI_WRITE_CMND_LEN + size) % U32_MOD
      let a1 := alloc h txn_len s1
      if ¬ a1.1 then { ret := -ENOMEM, handle := handle, data := none, s := pm_put a1.2 }
      else
        let r := slatecom_transfer h handle
          (some (write_buf_image SLATE_SPI_FIFO_WRITE_CMD none wb 0 size)) false txn_len
          SPI_FREQ_40MHZ a1.2
        { ret := r.1, handle := r.2.1, data := none, s := pm_put r.2.2.2 }

/-- `slatecom_fifo_read(handle, num_words, read_buf)`. -/
def slatecom_fifo_read (h : Hw) (handle : Option slate_context) (num_words : Nat)
    (read_buf : Bool) (s : slate_drv) : xfer_result :=
  if handle.isNone ∨ ¬ read_buf ∨ num_words = 0 ∨ num_words > SLATE_SPI_MAX_WORDS then
    { ret := -EINVAL, handle := handle, data := none, s := s }
  else if ¬ is_slatecom_ready s then { ret := -ENODEV, handle := handle, data := none, s := s }
  else if s.spi_state = slatecom_spi_state.SLATECOM_SPI_BUSY then
    { ret := -EBUSY, handle := handle, data := none, s := s }
  else
    let s1 := log s call.pm_runtime_get_sync
    let size := (num_words * SLATE_SPI_WORD_SIZE) % U32_MOD
    let txn_len := (SLATE_SPI_READ_LEN + size) % U32_MOD
    let a1 := alloc h txn_len s1
    if ¬ a1.1 then { ret := -ENOMEM, handle := handle, data := none, s := pm_put a1.2 }
    else
      let a2 := alloc h txn_len a1.2
      if ¬ a2.1 then { ret := -ENOMEM, handle := handle, data := none, s := pm_put a2.2 }
      else
        let r := slatecom_transfer h handle (some (cmd_buf SLATE_SPI_FIFO_READ_CMD none)) true
          txn_len SPI_FREQ_40MHZ a2.2
        { ret := r.1, handle := r.2.1,
          data := if r.1 = 0 then some (bytes r.2.2.1 SLATE_SPI_READ_LEN size) else none,
          s := pm_put r.2.2.2 }

/-- `slatecom_reg_write_cmd(handle, reg_start_addr, num_regs, write_buf)`; the
two `uint8_t` parameters hold the low eight bits of what is passed. -/
def slatecom_reg_write_cmd (h : Hw) (handle : Option slate_context)
    (reg_start_addr num_regs : Nat) (write_buf : Option (Nat → Nat)) (s : slate_drv) :
    xfer_result :=
  let num_regs8 := num_regs % 256
  match write_buf with
  | none => { ret := -EINVAL, handle := handle, data := none, s := s }
  | some wb =>
    if handle.isNone ∨ num_regs8 = 0 ∨ num_regs8 > SLATE_SPI_MAX_REGS then
      { ret := -EINVAL, handle := handle, data := none, s := s }
    else if ¬ is_slatecom_ready s then { ret := -ENODEV, handle := handle, data := none, s := s }
    else if s.spi_state = slatecom_spi_state.SLATECOM_SPI_BUSY then
      { ret := -EBUSY, handle := handle, data := none, s := s }
    else if s.spi_state = slatecom_spi_state.SLATECOM_SPI_PAUSE then
      { ret := -EBUSY, handle := handle, data := none, s := s }
    else
      let size := (num_regs8 * SLATE_SPI_WORD_SIZE) % U32_MOD
      let txn_len := (SLATE_SPI_WRITE_CMND_LEN + size) % U32_MOD
      let a1 := alloc h txn_len s
      if ¬ a1.1 then { ret := -ENOMEM, handle := handle, data := none, s := a1.2 }
      else
        let r := slatecom_transfer h handle
          (some (write_buf_image (reg_start_addr % 256) none wb 0 size)) false txn_len
          SPI_FREQ_40MHZ a1.2
        { ret := r.1, handle := r.2.1, data := none, s := r.2.2.2 }

/-- `slatecom_reg_read(handle, reg_start_addr, num_regs, read_buf)`. -/
def slatecom_reg_read (h : Hw) (handle : Option slate_context) (reg_start_addr num_regs : Nat)
    (read_buf : Bool) (s : slate_drv) : xfer_result :=
  if handle.isNone ∨ ¬ read_buf ∨ num_regs = 0 ∨ num_regs > SLATE_SPI_MAX_REGS then
    { ret := -EINVAL, handle := handle, data := none, s := s }
  else if ¬ is_slatecom_ready s then { ret := -ENODEV, handle := handle, data := none, s := s }
  else if s.spi_state = slatecom_spi_state.SLATECOM_SPI_BUSY then
    { ret := -EBUSY, handle := handle, data := none, s := s }
  else
    let s1 := log s call.pm_runtime_get_sync
    let size := (num_regs * SLATE_SPI_WORD_SIZE) % U32_MOD
    let txn_len := (SLATE_SPI_READ_LEN + size) % U32_MOD
    let a1 := alloc h txn_len s1
    if ¬ a1.1 then { ret := -ENOMEM, handle := handle, data := none, s := pm_put a1.2 }
    else
      let a2 := alloc h txn_len a1.2
      if ¬ a2.1 then { ret := -ENOMEM, handle := handle, data := none, s := pm_put a2.2 }
      else
        let r := slatecom_transfer h handle (some (cmd_buf (reg_start_addr % 256) none)) true
          txn_len SPI_FREQ_40MHZ a2.2
        { ret := r.1, handle := r.2.1,
          data := if r.1 = 0 then some (bytes r.2.2.1 SLATE_SPI_READ_LEN size) else none,
          s := pm_put r.2.2.2 }

/-! ## The handle of the driver itself -/

/-- A client handle that lives on the stack of the caller: `slate_spi` is set
from `slate_com_drv`, the other members are not initialised. -/
def local_handle (h : Hw) : slate_context :=
  { slate_spi := true, state := h.stack_state, cb := none }

/-! ## Resume -/

/-- `is_slate_resume(handle)`: the value of `cmnd_reg & BIT(31)` (as the `int`
it is returned in), the handle and the driver state.  The receive buffer
`fxd_mem_buffer` of the forced read is taken to be allocated. -/
def is_slate_resume (h : Hw) (handle : Option slate_context) (s : slate_drv) :
    Int × Option slate_context × slate_drv :=
  if s.spi_state = slatecom_spi_state.SLATECOM_SPI_BUSY then (0, handle, s)
  else
    let s1 :=
      if h.time_elapsed < MIN_SLEEP_TIME then log s (call.msleep (MIN_SLEEP_TIME - h.time_elapsed))
      else s
    let r := slatecom_transfer h handle (some (cmd_buf 0x05 none)) true 0x08 SPI_FREQ_40MHZ s1
    let cmnd_reg := if r.1 = 0 then le32_at r.2.2.1 SLATE_SPI_READ_LEN else 0
    if ¬ bit_set cmnd_reg 31 then
      let r2 := slatecom_transfer h r.2.1 (some (cmd_buf SLATE_SPI_AHB_READ_CMD (some 0x200E1800)))
        true 32 SPI_FREQ_1MHZ r.2.2.2
      (0, r2.2.1, r2.2.2.2)
    else (-(2 ^ 31 : Int), r.2.1, r.2.2.2)

/-- What `slatecom_resume_l` (and a caller that may run into it) leaves
behind: the value it returns (`none` when it has reached `BUG()`, which does
not return), the handle and the driver state. -/
structure resume_result where
  ret : Option Int
  handle : Option slate_context
  s : slate_drv
deriving DecidableEq

/-- `slatecom_resume_l(handle)`. -/
def slatecom_resume_l (h : Hw) (handle : Option slate_context) (s : slate_drv) : resume_result :=
  match handle with
  | none => { ret := some (-EINVAL), handle := none, s := s }
  | some cntx =>
    if s.slate_is_spi_active = 0 then { ret := some (-ECANCELED), handle := handle, s := s }
    else if cntx.state = slatecom_state.SLATECOM_PROB_WAIT ∧ ¬ is_slatecom_ready s then
      { ret := some (-EAGAIN), handle := handle, s := s }
    else
      let cntx1 : slate_context :=
        if cntx.state = slatecom_state.SLATECOM_PROB_WAIT then
          { cntx with slate_spi := true, state := slatecom_state.SLATECOM_PROB_SUCCESS }
        else cntx
      if s.state = slatecom_state.SLATECOM_STATE_ACTIVE then
        { ret := some 0, handle := some cntx1, s := s }
      else if ¬ bit_set s.g_slav_status_reg 31 then
        { ret := some 0, handle := some cntx1, s := s }
      else
        let r := is_slate_resume h (some cntx1) s
        if r.1 = 0 ∧ r.2.2.ok_to_sleep ≠ 0 then
          let s2 := log r.2.2 (call.wait_for_completion_timeout SLATE_RESUME_IRQ_TIMEOUT)
          if h.wait_for_completion_timeout = 0 then
            { ret := none, handle := r.2.1, s := log s2 call.BUG }
          else
            { ret := some 0, handle := r.2.1,
              s := { s2 with state := slatecom_state.SLATECOM_STATE_ACTIVE } }
        else
          { ret := some 0, handle := r.2.1,
            s := { r.2.2 with state := slatecom_state.SLATECOM_STATE_ACTIVE } }

/-- `slatecom_resume(handle)`: the forced resume of a client. -/
def slatecom_resume (h : Hw) (handle : Option slate_context) (s : slate_drv) : resume_result :=
  if s.slate_is_spi_active = 0 then
    let r := slatecom_resume_l h handle { s with slate_is_spi_active := 1 }
    { ret := r.ret.map (fun _ => 0), handle := r.handle, s := r.s }
  else { ret := some 0, handle := handle, s := s }

/-! ## The runtime resume inside `pm_runtime_get_sync`; `slatecom_reg_write` -/

/-- What a resume callback leaves behind: the value it returns (`none` when
it has reached `BUG()`) and the driver state. -/
structure pm_result where
  ret : Option Int
  s : slate_drv
deriving DecidableEq

/-- `slatecom_pm_runtime_resume(dev)`. -/
def slatecom_pm_runtime_resume (h : Hw) (s : slate_drv) : pm_result :=
  if s.irq_lock = 1 then
    { ret := some 0,
      s := { s with slate_is_spi_active := 1, slate_is_runtime_suspend := 0,
                    state := slatecom_state.SLATECOM_STATE_ACTIVE } }
  else
    let r := slatecom_resume_l h (some (local_handle h))
      { s with slate_is_spi_active := 1, slate_is_runtime_suspend := 0 }
    { ret := r.ret, s := r.s }

/-- Modelled from the spec: `pm_runtime_get_sync(&spi->dev)` belongs to the
power-management core, which is not part of the sources.  The call is logged;
when the device is runtime-suspended the core runs the `.runtime_resume`
callback that the driver registers in `slatecom_pm`, that is
`slatecom_pm_runtime_resume`, before it returns.  The device counts as
runtime-suspended when `slate_is_runtime_suspend` is set: the flag that
`slatecom_pm_runtime_suspend` sets when it reports success to the core, that
the resume callbacks clear, and that the interrupt handler tests before it
makes this call.  `ret` is `none` when the callback has reached `BUG()`; the
callers do not use the value returned. -/
def pm_runtime_get_sync (h : Hw) (s : slate_drv) : pm_result :=
  let s1 := log s call.pm_runtime_get_sync
  if s1.slate_is_runtime_suspend ≠ 0 then slatecom_pm_runtime_resume h s1
  else { ret := some 0, s := s1 }

/-- `slatecom_reg_write(handle, reg_start_addr, num_regs, write_buf)`: the
value it returns (`none` when `BUG()` was reached inside
`pm_runtime_get_sync`), the handle and the driver state.  The call of
`pm_runtime_get_sync` comes first, before any test of the arguments or of the
gate. -/
def slatecom_reg_write (h : Hw) (handle : Option slate_context) (reg_start_addr num_regs : Nat)
    (write_buf : Option (Nat → Nat)) (s : slate_drv) : resume_result :=
  let g := pm_runtime_get_sync h s
  match g.ret with
  | none => { ret := none, handle := handle, s := g.s }
  | some _ =>
    let r := slatecom_reg_write_cmd h handle reg_start_addr num_regs write_buf g.s
    { ret := some r.ret, handle := r.handle, s := pm_put r.s }

/-! ## Interrupt service path -/

/-- `read_slate_locl(req_type, no_of_words, buf)`; `buf` holds the bytes to be
written for a write request.  Neither caller in the file passes
`SLATECOM_WRITE_REG`; for that request a `BUG()` reached inside
`slatecom_reg_write` shows in the log and in the field `ret` as the 0 that the
local `ret` was initialised with. -/
def read_slate_locl (h : Hw) (req_type : slatecom_req_type) (no_of_words : Nat)
    (buf : Option (Nat → Nat)) (s : slate_drv) : xfer_result :=
  match buf with
  | none => { ret := -EINVAL, handle := none, data := none, s := s }
  | some b =>
    match req_type with
    | slatecom_req_type.SLATECOM_READ_REG =>
      slatecom_reg_read h (some (local_handle h)) SLATE_STATUS_REG no_of_words true s
    | slatecom_req_type.SLATECOM_READ_FIFO =>
      slatecom_fifo_read h (some (local_handle h)) no_of_words true s
    | slatecom_req_type.SLATECOM_WRITE_REG =>
      let w := slatecom_reg_write h (some (local_handle h)) SLATE_CMND_REG no_of_words (some b) s
      { ret := w.ret.getD 0, handle := w.handle, data := none, s := w.s }
    | slatecom_req_type.SLATECOM_READ_AHB =>
      { ret := 0, handle := some (local_handle h), data := none, s := s }

/-- `send_event(event, data)`: the callback of every registered listener is
called, in the order of the list. -/
def send_event (event : slatecom_event_type) (data : Option slatecom_event_data_type)
    (s : slate_drv) : slate_drv :=
  { s with trace := s.trace ++ s.cb_head.map (fun cb => call.notify cb event data) }

/-- `parse_fifo(data, event_data)` on the memory `mem` from offset `pos` on,
with `fuel` iterations of its loop at most. -/
def parse_fifo (h : Hw) (mem : Nat → Nat) :
    Nat → Nat → slatecom_event_data_type → slate_drv →
      outcome (slatecom_event_data_type × slate_drv)
  | 0, _, _, _ => outcome.out_of_fuel
  | n + 1, pos, event_data, s =>
    if mem pos = 0 then
      outcome.done (event_data, if s.pr_lst_hd ≠ [] then log s call.queue_work else s)
    else
      let event_id := le16_at mem pos
      let p_len := le16_at mem (pos + HED_EVENT_ID_LEN)
      let data := pos + HED_EVENT_ID_LEN + HED_EVENT_SIZE_LEN
      if event_id = 0xFFFE then
        let a1 := alloc h h.sizeof_event s
        if ¬ a1.1 then outcome.oops
        else
          let a2 := alloc h h.sizeof_event_list a1.2
          if ¬ a2.1 then outcome.oops
          else
            let evnt : event :=
              { sub_id := mem data, evnt_tm := le32_at mem (data + 1),
                evnt_data := int16_at mem (data + HED_EVENT_DATA_STRT_LEN) }
            parse_fifo h mem n (data + p_len) event_data
              { a2.2 with pr_lst_hd := a2.2.pr_lst_hd ++ [evnt] }
      else if event_id = 0x0001 then
        let a1 := alloc h p_len s
        if a1.1 then
          let event_data1 :=
            { event_data with to_master_fifo_used := p_len / SLATE_SPI_WORD_SIZE,
                              data := some (bytes mem data p_len) }
          parse_fifo h mem n (data + p_len) event_data1
            (send_event slatecom_event_type.SLATECOM_EVENT_TO_MASTER_FIFO_USED (some event_data1)
              a1.2)
        else parse_fifo h mem n (data + p_len) event_data a1.2
      else parse_fifo h mem n (data + p_len) event_data s

/-- The zeroed event data `{ .fifo_data = {0} }`. -/
def event_data_zero : slatecom_event_data_type :=
  { application_running := false, to_slave_fifo_ready := false, to_master_fifo_ready := false,
    ahb_ready := false, to_slave_fifo_free := 0, to_master_fifo_used := 0, data := none }

/-- The events of `send_back_notification` that carry no data: one for each of
the bits 31 down to 21 of the auto-clear status word that is set. -/
def error_events (slav_status_auto_clear_reg : Nat) (s : slate_drv) : slate_drv :=
  let ev (bit : Nat) (e : slatecom_event_type) (t : slate_drv) : slate_drv :=
    if bit_set slav_status_auto_clear_reg bit then send_event e none t else t
  ev 21 slatecom_event_type.SLATECOM_EVENT_ERROR_AHB_BUS_ERR
    (ev 22 slatecom_event_type.SLATECOM_EVENT_ERROR_AHB_ILLEGAL_ADDRESS
      (ev 23 slatecom_event_type.SLATECOM_EVENT_ERROR_TRUNCATED_WRITE
        (ev 24 slatecom_event_type.SLATECOM_EVENT_ERROR_TRUNCATED_READ
          (ev 25 slatecom_event_type.SLATECOM_EVENT_ERROR_READ_FIFO_ACCESS
            (ev 26 slatecom_event_type.SLATECOM_EVENT_ERROR_READ_FIFO_BUS_ERR
              (ev 27 slatecom_event_type.SLATECOM_EVENT_ERROR_READ_FIFO_UNDERRUN
                (ev 28 slatecom_event_type.SLATECOM_EVENT_ERROR_WRITE_FIFO_ACCESS
                  (ev 29 slatecom_event_type.SLATECOM_EVENT_ERROR_WRITE_FIFO_BUS_ERR
                    (ev 30 slatecom_event_type.SLATECOM_EVENT_ERROR_WRITE_FIFO_OVERRUN
                      (ev 31 slatecom_event_type.SLATECOM_EVENT_RESET_OCCURRED s))))))))))

/-- The block of `send_back_notification` entered when the status word has
changed: the event data and the driver state after it. -/
def status_events (slav_status_reg : Nat) (event_data : slatecom_event_data_type)
    (s : slate_drv) : slatecom_event_data_type × slate_drv :=
  let r1 : slatecom_event_data_type × slate_drv :=
    if bit_set slav_status_reg 30 then
      let d := { event_data with application_running := true }
      (d, send_event slatecom_event_type.SLATECOM_EVENT_APPLICATION_RUNNING (some d) s)
    else (event_data, s)
  let r2 : slatecom_event_data_type × slate_drv :=
    if bit_set slav_status_reg 29 then
      let d := { r1.1 with to_slave_fifo_ready := true }
      (d, send_event slatecom_event_type.SLATECOM_EVENT_TO_SLAVE_FIFO_READY (some d) r1.2)
    else r1
  let r3 : slatecom_event_data_type × slate_drv :=
    if bit_set slav_status_reg 28 then
      let d := { r2.1 with to_master_fifo_ready := true }
      (d, send_event slatecom_event_type.SLATECOM_EVENT_TO_MASTER_FIFO_READY (some d) r2.2)
    else r2
  let r4 : slatecom_event_data_type × slate_drv :=
    if bit_set slav_status_reg 27 then
      let d := { r3.1 with ahb_ready := true }
      (d, send_event slatecom_event_type.SLATECOM_EVENT_AHB_READY (some d) r3.2)
    else r3
  let s5 : slate_drv :=
    if bit_set slav_status_reg 26 then log r4.2 (call.set_slate_dsp_state false)
    else if bit_set slav_status_reg 30 then log r4.2 (call.set_slate_dsp_state true)
    else r4.2
  let s6 : slate_drv :=
    if bit_set slav_status_reg 25 then log s5 (call.set_slate_bt_state false)
    else if bit_set slav_status_reg 30 then log s5 (call.set_slate_bt_state true)
    else s5
  (r4.1, s6)

/-- The memory that `parse_fifo` walks in `send_back_notification`: the bytes
read from the FIFO, the zero byte that `augmnt_fifo` stores behind them, then
whatever follows the buffer. -/
def fifo_mem (h : Hw) (data : List Nat) (n : Nat) : Nat → Nat :=
  fun a => if a < n then data.getD a 0 else if a = n then 0 else h.heap a

/-- `send_back_notification(slav_status_reg, slav_status_auto_clear_reg,
fifo_fill_reg, fifo_size_reg)`, with `fuel` iterations at most for the loop of
`parse_fifo`. -/
def send_back_notification (h : Hw) (fuel : Nat) (slav_status_reg slav_status_auto_clear_reg
    fifo_fill_reg _fifo_size_reg : Nat) (s : slate_drv) : outcome slate_drv :=
  let master_fifo_used := fifo_fill_reg % 2 ^ 16
  let slave_fifo_free := (fifo_fill_reg / 2 ^ 16) % 2 ^ 16
  let s1 := error_events slav_status_auto_clear_reg s
  let r2 : slatecom_event_data_type × slate_drv :=
    if s1.g_slav_status_reg ≠ slav_status_reg then status_events slav_status_reg event_data_zero s1
    else (event_data_zero, s1)
  let finish (d : slatecom_event_data_type) (t : slate_drv) : outcome slate_drv :=
    let d1 := { d with to_slave_fifo_free := slave_fifo_free }
    outcome.done (send_event slatecom_event_type.SLATECOM_EVENT_TO_SLAVE_FIFO_FREE (some d1) t)
  if master_fifo_used > 0 then
    let a := alloc h (master_fifo_used * SLATE_SPI_WORD_SIZE + 1) r2.2
    if ¬ a.1 then finish r2.1 a.2
    else
      let r := read_slate_locl h slatecom_req_type.SLATECOM_READ_FIFO master_fifo_used
        (some (fun _ => 0)) a.2
      if r.ret ≠ 0 then finish r2.1 r.s
      else
        match r.data with
        | none => finish r2.1 r.s
        | some data =>
          match parse_fifo h (fifo_mem h data (master_fifo_used * SLATE_SPI_WORD_SIZE)) fuel 0
              r2.1 r.s with
          | outcome.done p => finish p.1 p.2
          | outcome.oops => outcome.oops
          | outcome.out_of_fuel => outcome.out_of_fuel
  else finish r2.1 r2.2

/-- The bytes of the word `v` as a buffer. -/
def word_buf (v : Nat) : Nat → Nat := fun k => if k < 4 then le_byte v k else 0

/-- The part of `slate_irq_tasklet_hndlr_l` between the status read and
`send_back_notification`: the pause request and the resume indication of the
auto-clear status word. -/
def irq_gate_step (h : Hw) (slav_status_auto_clear_reg : Nat) (s : slate_drv) : slate_drv :=
  let s1 : slate_drv :=
    if bit_set slav_status_auto_clear_reg 15 then
      let w := slatecom_reg_write_cmd h (some (local_handle h)) SLATE_CMND_REG 1
        (some (word_buf SLATE_PAUSE_OK)) s
      if w.ret = 0 then { w.s with spi_state := slatecom_spi_state.SLATECOM_SPI_PAUSE } else w.s
    else s
  if bit_set slav_status_auto_clear_reg 16 then
    { s1 with spi_state := slatecom_spi_state.SLATECOM_SPI_FREE }
  else s1

/-- Word `i` of the status words read into `irq_buf`. -/
def irq_word (data : List Nat) (i : Nat) : Nat := le32_at (fun a => data.getD a 0) (4 * i)

/-- `slate_irq_tasklet_hndlr_l()`, with `fuel` iterations at most for the loop
of `parse_fifo`. -/
def slate_irq_tasklet_hndlr_l (h : Hw) (fuel : Nat) (s : slate_drv) : outcome slate_drv :=
  let r := read_slate_locl h slatecom_req_type.SLATECOM_READ_REG 5 (some (fun _ => 0)) s
  if r.ret ≠ 0 then outcome.done r.s
  else
    match r.data with
    | none => outcome.done r.s
    | some irq_buf =>
      let slave_status_reg := irq_word irq_buf 0
      let slav_status_auto_clear_reg := irq_word irq_buf 2
      let fifo_fill_reg := irq_word irq_buf 3
      let fifo_size_reg := irq_word irq_buf 4
      let s1 := irq_gate_step h slav_status_auto_clear_reg r.s
      match send_back_notification h fuel slave_status_reg slav_status_auto_clear_reg
          fifo_fill_reg fifo_size_reg s1 with
      | outcome.done s2 => outcome.done { s2 with g_slav_status_reg := slave_status_reg }
      | outcome.oops => outcome.oops
      | outcome.out_of_fuel => outcome.out_of_fuel

/-! ## Interrupt entry -/

/-- `slate_irq_tasklet_hndlr(irq, device)`, the threaded interrupt handler,
with `fuel` iterations at most for the loop of `parse_fifo`.  In the branch
taken when `slate_is_runtime_suspend` is set the handler takes the interrupt
lock and calls `pm_runtime_get_sync`, which runs the resume callback with the
lock held. -/
def slate_irq_tasklet_hndlr (h : Hw) (fuel : Nat) (s : slate_drv) : outcome slate_drv :=
  let s1 : slate_drv := { log s call.complete with ok_to_sleep := 0 }
  if s1.slate_is_runtime_suspend ≠ 0 then
    let g := pm_runtime_get_sync h { s1 with irq_lock := 1 }
    match g.ret with
    | none => outcome.oops
    | some _ =>
      match slate_irq_tasklet_hndlr_l h fuel g.s with
      | outcome.done s2 => outcome.done { pm_put s2 with irq_lock := 0 }
      | outcome.oops => outcome.oops
      | outcome.out_of_fuel => outcome.out_of_fuel
  else if s1.cb_head = [] then outcome.done s1
  else if s1.spi_state = slatecom_spi_state.SLATECOM_SPI_BUSY then
    outcome.done (log s1 (call.msleep 50))
  else if s1.irq_lock = 0 then
    match slate_irq_tasklet_hndlr_l h fuel { s1 with irq_lock := 1 } with
    | outcome.done s2 => outcome.done { s2 with irq_lock := 0 }
    | outcome.oops => outcome.oops
    | outcome.out_of_fuel => outcome.out_of_fuel
  else outcome.done s1

/-! ## The gate setter -/

/-- The loop of `slatecom_set_spi_state` that waits for the parent of the SPI
master to be runtime-suspended: `suspended k` is the answer of poll `k` of
`pm_runtime_status_suspended`. -/
def set_spi_state_wait (suspended : Nat → Bool) : Nat → Nat → slate_drv → outcome slate_drv
  | 0, _, _ => outcome.out_of_fuel
  | n + 1, k, s =>
    if suspended k then outcome.done s
    else set_spi_state_wait suspended n (k + 1) (log s (call.msleep 100))

/-- `slatecom_set_spi_state(state)`, with `fuel` iterations at most for its
wait loop.  Modelled from the spec as far as the values of the enumeration go:
the test `state < 0 || state > 1` admits free and busy and rejects pause. -/
def slatecom_set_spi_state (suspended : Nat → Bool) (fuel : Nat) (state : slatecom_spi_state)
    (s : slate_drv) : outcome (Int × slate_drv) :=
  if ¬ s.slate_com_drv then outcome.oops
  else if state = slatecom_spi_state.SLATECOM_SPI_PAUSE then outcome.done (-EINVAL, s)
  else if state = s.spi_state then outcome.done (0, s)
  else if state = slatecom_spi_state.SLATECOM_SPI_BUSY then
    match set_spi_state_wait suspended fuel 0 s with
    | outcome.done s1 => outcome.done (0, { s1 with spi_state := state })
    | outcome.oops => outcome.oops
    | outcome.out_of_fuel => outcome.out_of_fuel
  else outcome.done (0, { s with spi_state := state })

/-! ## Probe and power management -/

/-- `slate_spi_init(slate_spi)` for a device that is there; the work queue and
the buffer `fxd_mem_buffer` are taken to be allocated. -/
def slate_spi_init (s : slate_drv) : slate_drv :=
  { s with irq_lock := 0, spi_state := slatecom_spi_state.SLATECOM_SPI_FREE,
           state := slatecom_state.SLATECOM_STATE_ACTIVE, slate_com_drv := true }

/-- `slate_spi_probe(spi)`: `kzalloc_ok` says whether the device record could
be allocated, `irq_ok` whether the GPIO and the interrupt could be set up. -/
def slate_spi_probe (kzalloc_ok irq_ok : Bool) (s : slate_drv) : Int × slate_drv :=
  if ¬ kzalloc_ok then (-ENOMEM, s)
  else
    let s1 := slate_spi_init s
    if ¬ irq_ok then (-ENODEV, { s1 with slate_com_drv := false })
    else (0, { s1 with slate_is_spi_active := 1 })

/-- The OK-to-sleep command of a suspend: `suspend_mem` is the test
`mem_sleep_current == PM_SUSPEND_MEM`. -/
def ok_to_sleep_cmnd (suspend_mem : Bool) : Nat :=
  if suspend_mem then SLATE_OK_SLP_S2R else SLATE_OK_SLP_RBSC

/-- `slatecom_pm_suspend(dev)`. -/
def slatecom_pm_suspend (h : Hw) (suspend_mem : Bool) (s : slate_drv) : Int × slate_drv :=
  if s.state = slatecom_state.SLATECOM_STATE_SUSPEND then (0, s)
  else if s.state = slatecom_state.SLATECOM_STATE_RUNTIME_SUSPEND then
    (0, { s with state := slatecom_state.SLATECOM_STATE_SUSPEND, slate_is_spi_active := 0,
                 slate_is_runtime_suspend := 0 })
  else if ¬ bit_set s.g_slav_status_reg 31 then (0, s)
  else
    let w := slatecom_reg_write_cmd h (some (local_handle h)) SLATE_CMND_REG 1
      (some (word_buf (ok_to_sleep_cmnd suspend_mem))) s
    let s1 : slate_drv :=
      if w.ret = 0 then
        { w.s with state := slatecom_state.SLATECOM_STATE_SUSPEND, slate_is_spi_active := 0,
                   slate_is_runtime_suspend := 0, ok_to_sleep := 1 }
      else w.s
    (w.ret, log s1 (call.mdelay 5))

/-- `slatecom_pm_resume(dev)`. -/
def slatecom_pm_resume (h : Hw) (s : slate_drv) : pm_result :=
  if s.irq_lock = 1 then
    { ret := some 0,
      s := { s with slate_is_spi_active := 1, slate_is_runtime_suspend := 0,
                    state := slatecom_state.SLATECOM_STATE_ACTIVE } }
  else if s.slate_is_spi_active ≠ 0 then { ret := some 0, s := s }
  else if ¬ bit_set s.g_slav_status_reg 31 then { ret := some 0, s := s }
  else
    let r := slatecom_resume_l h (some (local_handle h))
      { s with slate_is_spi_active := 1, slate_is_runtime_suspend := 0 }
    { ret := r.ret, s := r.s }

/-- `slatecom_pm_runtime_suspend(dev)`. -/
def slatecom_pm_runtime_suspend (h : Hw) (suspend_mem : Bool) (s : slate_drv) :
    Int × slate_drv :=
  if s.state = slatecom_state.SLATECOM_STATE_RUNTIME_SUSPEND then (0, s)
  else
    let w := slatecom_reg_write_cmd h (some (local_handle h)) SLATE_CMND_REG 1
      (some (word_buf (ok_to_sleep_cmnd suspend_mem))) s
    let s1 : slate_drv :=
      if w.ret = 0 then
        { w.s with state := slatecom_state.SLATECOM_STATE_RUNTIME_SUSPEND,
                   slate_is_spi_active := 0, slate_is_runtime_suspend := 1, ok_to_sleep := 1 }
      else w.s
    (w.ret, s1)

/-- `slatecom_pm_freeze(dev)`. -/
def slatecom_pm_freeze (h : Hw) (s : slate_drv) : Int × slate_drv :=
  if s.state = slatecom_state.SLATECOM_STATE_HIBERNATE then (0, s)
  else if s.state = slatecom_state.SLATECOM_STATE_RUNTIME_SUSPEND then
    (0, { s with state := slatecom_state.SLATECOM_STATE_HIBERNATE, slate_is_spi_active := 0,
                 slate_is_runtime_suspend := 0 })
  else if ¬ bit_set s.g_slav_status_reg 31 then (0, s)
  else
    let w := slatecom_reg_write_cmd h (some (local_handle h)) SLATE_CMND_REG 1
      (some (word_buf SLATE_OK_SLP_S2D)) s
    let s1 : slate_drv :=
      if w.ret = 0 then
        { w.s with state := slatecom_state.SLATECOM_STATE_HIBERNATE, slate_is_spi_active := 0,
                   slate_is_runtime_suspend := 0, ok_to_sleep := 1 }
      else w.s
    (w.ret, s1)

/-- `slatecom_pm_restore(dev)`. -/
def slatecom_pm_restore (h : Hw) (s : slate_drv) : pm_result :=
  if s.slate_is_spi_active ≠ 0 then { ret := some 0, s := s }
  else if ¬ bit_set s.g_slav_status_reg 31 then { ret := some 0, s := s }
  else
    let r := slatecom_resume_l h (some (local_handle h))
      { s with slate_is_spi_active := 1, slate_is_runtime_suspend := 0 }
    { ret := r.ret, s := r.s }

/-! ## Concrete inputs -/

/-- A handle obtained after the driver was probed. -/
def handle0 : slate_context :=
  { slate_spi := true, state := slatecom_state.SLATECOM_PROB_SUCCESS, cb := none }

/-- A listener. -/
def cb0 : cb_data := { priv := 1, handle := 2, slatecom_notification_cb := 3 }

/-- The driver after probe, with the remote booted and one listener. -/
def drv0 : slate_drv :=
  { slate_com_drv := true, spi_state := slatecom_spi_state.SLATECOM_SPI_FREE,
    state := slatecom_state.SLATECOM_STATE_ACTIVE, slate_is_spi_active := 1,
    slate_is_runtime_suspend := 0, ok_to_sleep := 0, g_slav_status_reg := BIT 31,
    irq_lock := 0, pr_lst_hd := [], cb_head := [cb0], allocs := 0, trace := [] }

/-- The driver `drv0` with the gate busy. -/
def drv_busy : slate_drv := { drv0 with spi_state := slatecom_spi_state.SLATECOM_SPI_BUSY }

/-- The driver resumed by force while suspended (`slate_is_spi_active` set
again), after an OK-to-sleep message, with the gate `gate`. -/
def drv_suspended (gate : slatecom_spi_state) : slate_drv :=
  { drv0 with spi_state := gate, state := slatecom_state.SLATECOM_STATE_SUSPEND,
              ok_to_sleep := 1 }

/-- Collaborators that let every allocation and transfer succeed, return
zeroed receive buffers and `wait` from the wait for the resume completion. -/
def hw0 (wait : Nat) : Hw :=
  { spi_sync := fun _ _ => (0, fun _ => 0), kmalloc := fun _ _ => true,
    wait_for_completion_timeout := wait, time_elapsed := 100,
    stack_state := slatecom_state.SLATECOM_PROB_SUCCESS, stack_ret := 0, heap := fun _ => 0,
    sizeof_event := 12, sizeof_event_list := 24 }

/-- The collaborators `hw0` with a remote whose status register reads
`0x80000000` (awake). -/
def hw_awake (wait : Nat) : Hw :=
  { hw0 wait with spi_sync := fun _ _ => (0, fun a => if a = 7 then 128 else 0) }

/-- Collaborators like `hw0` with a remote whose auto-clear status word reads
`0x00008000` (pause request) and `0x00018000` when `resume` is set; `spi_sync`
returns `wret` for a transfer without receive buffer. -/
def hw_pause (wret : Int) (resume : Bool) : Hw :=
  { hw0 1 with
    spi_sync := fun _ x =>
      if x.rx_buf then (0, fun a => if a = 13 then 128 else if a = 14 ∧ resume then 1 else 0)
      else (wret, fun _ => 0) }

/-- The transfer that carries the pause acknowledge: the command register,
then the four bytes of `BIT(27)`. -/
def pause_ok_xfer : spi_transfer :=
  { tx_buf := [SLATE_CMND_REG, 0, 0, 0, 8], rx_buf := false, len := 5,
    speed_hz := SPI_FREQ_40MHZ }

/-- The status words read from the remote of `hw_pause`: the auto-clear word
is `0x00008000`, the other four are zero. -/
def irq_buf_pause : List Nat := [0, 0, 0, 0, 0, 0, 0, 0, 0, 128, 0, 0, 0, 0, 0, 0, 0, 0, 0, 0]

/-- A FIFO image with three records and the closing zero byte: id `0xFFFE`
with eight data bytes, id `0x0001` with four, id `0x0007` with one. -/
def fifo_image : List Nat :=
  [0xFE, 0xFF, 8, 0, 3, 0x10, 0x20, 0, 0, 0xFF, 0xFF, 0, 1, 0, 4, 0, 1, 2, 3, 4, 7, 0, 1, 0, 9, 0]

/-- The records of `fifo_image`, each with its id and its data bytes. -/
def fifo_records : List (Nat × List Nat) :=
  [(0xFFFE, [3, 0x10, 0x20, 0, 0, 0xFF, 0xFF, 0]), (0x0001, [1, 2, 3, 4]), (0x0007, [9])]

/-- The statics of the driver before the probe: all zero. -/
def drv_zero : slate_drv :=
  { slate_com_drv := false, spi_state := slatecom_spi_state.SLATECOM_SPI_FREE,
    state := slatecom_state.SLATECOM_PROB_SUCCESS, slate_is_spi_active := 0,
    slate_is_runtime_suspend := 0, ok_to_sleep := 0, g_slav_status_reg := 0,
    irq_lock := 0, pr_lst_hd := [], cb_head := [], allocs := 0, trace := [] }

/-- The driver right after a successful probe: no interrupt has been served
yet, so the saved status word is still zero. -/
def drv_probed : slate_drv := (slate_spi_probe true true drv_zero).2

/-- The booted driver `drv0` suspended, with the interrupt lock held. -/
def drv_irq_locked : slate_drv :=
  { drv0 with state := slatecom_state.SLATECOM_STATE_SUSPEND, slate_is_spi_active := 0,
              ok_to_sleep := 1, irq_lock := 1 }

/-- A FIFO content of one word: a record with id 7 and length 1. -/
def fifo_skip : List Nat := [7, 0, 1, 0]

/-- Collaborators like `hw0` whose FIFO read returns `fifo_skip`, with the
memory behind the FIFO buffer holding the byte `b` everywhere. -/
def hw_skip (b : Nat) : Hw :=
  { hw0 1 with
    spi_sync := fun _ _ => (0, fun a => if a = 4 then 7 else if a = 6 then 1 else 0),
    heap := fun _ => b }

/-- The driver `drv_probed` after a runtime suspend whose OK-to-sleep command
was carried. -/
def drv_rt_suspended : slate_drv := (slatecom_pm_runtime_suspend (hw0 1) false drv_probed).2

/-- The driver `drv_rt_suspended` after the runtime resume that follows. -/
def drv_rt_resumed : slate_drv := (slatecom_pm_runtime_resume (hw0 1) drv_rt_suspended).s

/-- The booted driver `drv0` after a runtime suspend whose OK-to-sleep command
was carried. -/
def drv_rt_booted : slate_drv := (slatecom_pm_runtime_suspend (hw0 1) false drv0).2

/-- The driver `drv_rt_booted` after `slatecom_set_spi_state` has set the gate
busy (the parent of the SPI master being runtime-suspended at the first
poll). -/
def drv_rt_busy : slate_drv :=
  match slatecom_set_spi_state (fun _ => true) 1 slatecom_spi_state.SLATECOM_SPI_BUSY
      drv_rt_booted with
  | outcome.done r => r.2
  | _ => drv_rt_booted

/-! ## Relations used by the theorems -/

/-- The driver state `t` has the gate of `s` and the log of `s` with further
calls behind it. -/
def grows (s t : slate_drv) : Prop := t.spi_state = s.spi_state ∧ ∃ l, t.trace = s.trace ++ l

/-- The memory `mem` holds from `pos` on the records `rs` (id and data bytes
of each), one behind the other, each as a 2-byte id whose first byte is not
zero, a 2-byte length and the data bytes, and a zero byte behind the last. -/
def fifo_holds (mem : Nat → Nat) : Nat → List (Nat × List Nat) → Prop
  | pos, [] => mem pos = 0
  | pos, r :: rs =>
    mem pos ≠ 0 ∧ le16_at mem pos = r.1 ∧ le16_at mem (pos + HED_EVENT_ID_LEN) = r.2.length ∧
      bytes mem (pos + HED_EVENT_ID_LEN + HED_EVENT_SIZE_LEN) r.2.length = r.2 ∧
      fifo_holds mem (pos + HED_EVENT_ID_LEN + HED_EVENT_SIZE_LEN + r.2.length) rs

/-- The entries that the records `rs`, held from `pos` on, add to the
deferred-event list: one for each record with id `0xFFFE`, in their order. -/
def deferred (mem : Nat → Nat) : Nat → List (Nat × List Nat) → List event
  | _, [] => []
  | pos, r :: rs =>
    (if r.1 = 0xFFFE then
      [{ sub_id := mem (pos + HED_EVENT_ID_LEN + HED_EVENT_SIZE_LEN),
         evnt_tm := le32_at mem (pos + HED_EVENT_ID_LEN + HED_EVENT_SIZE_LEN + 1),
         evnt_data := int16_at mem
           (pos + HED_EVENT_ID_LEN + HED_EVENT_SIZE_LEN + HED_EVENT_DATA_STRT_LEN) }]
    else []) ++ deferred mem (pos + HED_EVENT_ID_LEN + HED_EVENT_SIZE_LEN + r.2.length) rs

/-- The calls of the listeners `cbs` for the records `rs`: for each record
with id `0x0001`, in their order, every listener once with the event
`SLATECOM_EVENT_TO_MASTER_FIFO_USED`, the word count and the data bytes. -/
def dispatched (d : slatecom_event_data_type) (cbs : List cb_data) :
    List (Nat × List Nat) → List call
  | [] => []
  | r :: rs =>
    (if r.1 = 0x0001 then
      cbs.map (fun cb => call.notify cb slatecom_event_type.SLATECOM_EVENT_TO_MASTER_FIFO_USED
        (some { d with to_master_fifo_used := r.2.length / SLATE_SPI_WORD_SIZE,
                       data := some r.2 }))
    else []) ++ dispatched d cbs rs

/-- What the transfer operations and the event dispatch leave as it is: the
link state, the three flags, the saved status word, the interrupt lock, the
probe pointer and the listeners. -/
structure keeps (s t : slate_drv) : Prop where
  state : t.state = s.state
  active : t.slate_is_spi_active = s.slate_is_spi_active
  runtime : t.slate_is_runtime_suspend = s.slate_is_runtime_suspend
  sleep : t.ok_to_sleep = s.ok_to_sleep
  status : t.g_slav_status_reg = s.g_slav_status_reg
  lock : t.irq_lock = s.irq_lock
  probed : t.slate_com_drv = s.slate_com_drv
  listeners : t.cb_head = s.cb_head

/-- The link is in one of the three sleeping states. -/
def is_suspended (st : slatecom_state) : Prop :=
  st = slatecom_state.SLATECOM_STATE_SUSPEND ∨
    st = slatecom_state.SLATECOM_STATE_RUNTIME_SUSPEND ∨
    st = slatecom_state.SLATECOM_STATE_HIBERNATE

/-- The resume sequence of `slatecom_resume_l` has run to its end from the
state `s` with the handle `handle` and has left the state `t`: the link was
flagged active and the remote was known to be booted; `is_slate_resume` has
made its status read and, the remote not being awake, its forced read
(neither with the gate busy); when the remote was not awake and had been told
that it may sleep the bounded wait was made and did not time out; and the link
state was set to active as the last step. -/
def resume_ran (h : Hw) (handle : Option slate_context) (s t : slate_drv) : Prop :=
  s.slate_is_spi_active ≠ 0 ∧ bit_set s.g_slav_status_reg 31 = true ∧
    ∃ cntx, handle = some cntx ∧
      ((¬ ((is_slate_resume h (some cntx) s).1 = 0 ∧
            (is_slate_resume h (some cntx) s).2.2.ok_to_sleep ≠ 0) ∧
          t = { (is_slate_resume h (some cntx) s).2.2 with
                state := slatecom_state.SLATECOM_STATE_ACTIVE }) ∨
        ((is_slate_resume h (some cntx) s).1 = 0 ∧
          (is_slate_resume h (some cntx) s).2.2.ok_to_sleep ≠ 0 ∧
          h.wait_for_completion_timeout ≠ 0 ∧
          t = { log (is_slate_resume h (some cntx) s).2.2
                  (call.wait_for_completion_timeout SLATE_RESUME_IRQ_TIMEOUT) with
                state := slatecom_state.SLATECOM_STATE_ACTIVE }))

/-! ## The transactions of an AHB write as documented -/

/-- The busy rule of the resume sequence as the claim words it: on a booted
link that is not active, with the gate busy, `slatecom_resume_l` fails with
`-EBUSY`, issues no `spi_sync` and does not set the link state to active. -/
def resume_busy_claim (h : Hw) (cntx : slate_context) (s : slate_drv) : Prop :=
  s.slate_is_spi_active ≠ 0 →
    (cntx.state = slatecom_state.SLATECOM_PROB_WAIT → s.slate_com_drv = true) →
    bit_set s.g_slav_status_reg 31 = true → s.state ≠ slatecom_state.SLATECOM_STATE_ACTIVE →
    s.spi_state = slatecom_spi_state.SLATECOM_SPI_BUSY →
      (slatecom_resume_l h (some cntx) s).ret = some (-EBUSY) ∧
        (∀ x, call.spi_sync x ∈ (slatecom_resume_l h (some cntx) s).s.trace →
          call.spi_sync x ∈ s.trace) ∧
        (slatecom_resume_l h (some cntx) s).s.state ≠ slatecom_state.SLATECOM_STATE_ACTIVE

/-- The pause and resume rule of the interrupt service path as the claim
words it: once the five status words are read, a pause request in the
auto-clear word has the acknowledge sent and the gate set to pause, a resume
indication has the gate set to free, and with neither the gate is as it was. -/
def pause_claim (h : Hw) (fuel : Nat) (s : slate_drv) : Prop :=
  ∀ (irq_buf : List Nat) (t : slate_drv),
    (read_slate_locl h slatecom_req_type.SLATECOM_READ_REG 5 (some (fun _ => 0)) s).ret = 0 →
    (read_slate_locl h slatecom_req_type.SLATECOM_READ_REG 5 (some (fun _ => 0)) s).data =
      some irq_buf →
    slate_irq_tasklet_hndlr_l h fuel s = outcome.done t →
      (bit_set (irq_word irq_buf 2) 15 = true →
        call.spi_sync pause_ok_xfer ∈ t.trace ∧
          t.spi_state = slatecom_spi_state.SLATECOM_SPI_PAUSE) ∧
      (bit_set (irq_word irq_buf 2) 16 = true →
        t.spi_state = slatecom_spi_state.SLATECOM_SPI_FREE) ∧
      (bit_set (irq_word irq_buf 2) 15 = false → bit_set (irq_word irq_buf 2) 16 = false →
        t.spi_state = s.spi_state)

/-- The way back to the active state as the claim words it: from a sleeping
state, each of the three resume callbacks and `slatecom_resume` leaves the
link active only with the driver state that `slatecom_resume_l` leaves (run
after the flags are set), and the interrupt handler does not leave it
active. -/
def resume_only_claim (h : Hw) (s : slate_drv) : Prop :=
  is_suspended s.state →
    ((slatecom_pm_resume h s).s.state = slatecom_state.SLATECOM_STATE_ACTIVE →
        (slatecom_pm_resume h s).s =
          (slatecom_resume_l h (some (local_handle h))
            { s with slate_is_spi_active := 1, slate_is_runtime_suspend := 0 }).s) ∧
      ((slatecom_pm_runtime_resume h s).s.state = slatecom_state.SLATECOM_STATE_ACTIVE →
        (slatecom_pm_runtime_resume h s).s =
          (slatecom_resume_l h (some (local_handle h))
            { s with slate_is_spi_active := 1, slate_is_runtime_suspend := 0 }).s) ∧
      ((slatecom_pm_restore h s).s.state = slatecom_state.SLATECOM_STATE_ACTIVE →
        (slatecom_pm_restore h s).s =
          (slatecom_resume_l h (some (local_handle h))
            { s with slate_is_spi_active := 1, slate_is_runtime_suspend := 0 }).s) ∧
      (∀ handle, (slatecom_resume h handle s).s.state = slatecom_state.SLATECOM_STATE_ACTIVE →
        (slatecom_resume h handle s).s =
          (slatecom_resume_l h handle { s with slate_is_spi_active := 1 }).s) ∧
      (∀ fuel t, slate_irq_tasklet_hndlr h fuel s = outcome.done t →
        t.state ≠ slatecom_state.SLATECOM_STATE_ACTIVE)

end Slatecom


/-! # Theorems -/

namespace VirtioFastrpc

open fastrpc_buf_type

/-! ## Message slot pool -/

theorem msg_scan_bounds (tbl : Nat → Option Nat) (n i : Nat) :
    i ≤ msg_scan tbl n i ∧ msg_scan tbl n i ≤ i + n := by
  induction n generalizing i with
  | zero => simp [msg_scan]
  | succ n ih =>
    unfold msg_scan
    split
    · omega
    · have := ih (i + 1); omega

theorem msg_scan_free (tbl : Nat → Option Nat) (n i : Nat)
    (h : msg_scan tbl n i ≠ i + n) : tbl (msg_scan tbl n i) = none := by
  induction n generalizing i with
  | zero => simp [msg_scan] at h
  | succ n ih =>
    unfold msg_scan at h ⊢
    split
    · assumption
    · rename_i hne
      rw [if_neg hne] at h
      exact ih (i + 1) (by omega)

theorem msg_scan_full (tbl : Nat → Option Nat) (n i : Nat)
    (h : ∀ k, i ≤ k → k < i + n → tbl k ≠ none) : msg_scan tbl n i = i + n := by
  induction n generalizing i with
  | zero => simp [msg_scan]
  | succ n ih =>
    unfold msg_scan
    rw [if_neg (h i (le_refl _) (by omega))]
    rw [ih (i + 1) (fun k h1 h2 => h k (by omega) (by omega))]
    omega

/-- What a successful `virt_alloc_msg` returns and does to the table. -/
theorem virt_alloc_msg_some (P : Params) (me me1 : fastrpc_apps) (size : Int)
    (kz : Option Nat) (tx : Option virt_invoke_msg) (m : virt_fastrpc_msg)
    (h : virt_alloc_msg P me size kz tx = (some m, me1)) :
    m.msgid < P.FASTRPC_MSG_MAX ∧ me.msgtable m.msgid = none ∧
      me1.msgtable = Function.update me.msgtable m.msgid (some m.ptr) ∧
      me1.buf_size = me.buf_size ∧ me1.num_channels = me.num_channels := by
  unfold virt_alloc_msg at h
  split at h
  · simp at h
  · split at h
    · simp at h
    · split at h
      · simp at h
      · dsimp only at h
        split at h
        · simp at h
        · rename_i hne
          simp only [Prod.mk.injEq, Option.some.injEq] at h
          obtain ⟨hm, hme⟩ := h
          subst hm; subst hme
          have hb := msg_scan_bounds me.msgtable P.FASTRPC_MSG_MAX 0
          have hf := msg_scan_free me.msgtable P.FASTRPC_MSG_MAX 0 (by simpa using hne)
          refine ⟨?_, hf, rfl, rfl, rfl⟩
          simp only [Nat.zero_add] at hb
          exact lt_of_le_of_ne hb.2 hne

/-- A failed `virt_alloc_msg` leaves the driver state as it was. -/
theorem virt_alloc_msg_none (P : Params) (me me1 : fastrpc_apps) (size : Int)
    (kz : Option Nat) (tx : Option virt_invoke_msg)
    (h : virt_alloc_msg P me size kz tx = (none, me1)) : me1 = me := by
  unfold virt_alloc_msg at h
  split at h
  · simp at h; exact h.symm
  · split at h
    · simp at h; exact h.symm
    · split at h
      · simp at h; exact h.symm
      · dsimp only at h
        split at h
        · simp at h; exact h.symm
        · simp at h

/-- With every entry occupied `virt_alloc_msg` returns no slot. -/
theorem virt_alloc_msg_full (P : Params) (me : fastrpc_apps) (size : Int)
    (kz : Option Nat) (tx : Option virt_invoke_msg)
    (h : ∀ k, k < P.FASTRPC_MSG_MAX → me.msgtable k ≠ none) :
    virt_alloc_msg P me size kz tx = (none, me) := by
  have hs : msg_scan me.msgtable P.FASTRPC_MSG_MAX 0 = P.FASTRPC_MSG_MAX := by
    have := msg_scan_full me.msgtable P.FASTRPC_MSG_MAX 0 (fun k _ h2 => h k (by omega))
    simpa using this
  unfold virt_alloc_msg
  split
  · rfl
  · split
    · rfl
    · split
      · rfl
      · simp [hs]

theorem pairwise_eraseIdx_ne {α : Type} (f : α → Nat) (l : List α)
    (h : l.Pairwise (fun a b => f a ≠ f b)) (k : Nat) (m : α) (hk : l.get? k = some m) :
    ∀ m1 ∈ l.eraseIdx k, f m1 ≠ f m := by
  induction l generalizing k with
  | nil => simp at hk
  | cons x xs ih =>
    rw [List.pairwise_cons] at h
    cases k with
    | zero =>
      simp at hk
      subst hk
      intro m1 hm1
      simp at hm1
      exact fun heq => h.1 m1 hm1 heq.symm
    | succ k =>
      simp at hk
      intro m1 hm1
      simp at hm1
      rcases hm1 with rfl | hm1
      · exact h.1 m (List.getElem?_mem (by simpa using hk))
      · exact ih h.2 k (by simpa using hk) m1 hm1

theorem pool_step_inv (P : Params) (r : PoolRun) (op : PoolOp) (h : pool_inv P r) :
    pool_inv P (pool_step P r op) := by
  obtain ⟨ha, hb⟩ := h
  cases op with
  | alloc size kz tx =>
    rcases heq : virt_alloc_msg P r.apps size kz tx with ⟨_ | m, me⟩
    · simp only [pool_step, heq]
      have := virt_alloc_msg_none P r.apps me size kz tx heq
      subst this
      exact ⟨ha, hb⟩
    · simp only [pool_step, heq]
      obtain ⟨h1, h2, h3, -, -⟩ := virt_alloc_msg_some P r.apps me size kz tx m heq
      refine ⟨?_, ?_⟩
      · intro m1 hm1
        simp only [List.mem_cons] at hm1
        rcases hm1 with rfl | hm1
        · exact ⟨h1, by simp [h3]⟩
        · have hm := ha m1 hm1
          refine ⟨hm.1, ?_⟩
          have hne : m1.msgid ≠ m.msgid := by
            intro heq1
            rw [heq1, h2] at hm
            simp at hm
          simp [h3, Function.update_noteq hne, hm.2]
      · rw [List.pairwise_cons]
        refine ⟨?_, hb⟩
        intro m1 hm1 heq1
        have hm := (ha m1 hm1).2
        rw [← heq1, h2] at hm
        simp at hm
  | free k =>
    rcases hk : r.live.get? k with _ | m
    · simp only [pool_step, hk]
      exact ⟨ha, hb⟩
    · simp only [pool_step, hk]
      have hmem : m ∈ r.live := List.getElem?_mem (by simpa using hk)
      have hm := ha m hmem
      have hne := pairwise_eraseIdx_ne (fun x : virt_fastrpc_msg => x.msgid) r.live hb k m hk
      refine ⟨?_, hb.sublist (List.eraseIdx_sublist _ _)⟩
      intro m1 hm1
      have hm1l : m1 ∈ r.live := (List.eraseIdx_sublist _ _).subset hm1
      refine ⟨(ha m1 hm1l).1, ?_⟩
      have hn : m1.msgid ≠ m.msgid := hne m1 hm1
      simp [virt_free_msg, hm.2, Function.update_noteq hn, (ha m1 hm1l).2]

theorem pool_foldl_inv (P : Params) (ops : List PoolOp) (r : PoolRun) (h : pool_inv P r) :
    pool_inv P (ops.foldl (pool_step P) r) := by
  induction ops generalizing r with
  | nil => exact h
  | cons op ops ih => exact ih _ (pool_step_inv P r op h)

theorem pool_run_inv (P : Params) (buf_size num_channels : Int) (ops : List PoolOp) :
    pool_inv P (pool_run P buf_size num_channels ops) := by
  apply pool_foldl_inv
  simp [pool_inv, pool_init]

/-- When as many slots are live as the table has entries, every entry is
occupied. -/
theorem pool_inv_full (P : Params) (r : PoolRun) (h : pool_inv P r)
    (hlen : r.live.length = P.FASTRPC_MSG_MAX) :
    ∀ k, k < P.FASTRPC_MSG_MAX → r.apps.msgtable k ≠ none := by
  obtain ⟨ha, hb⟩ := h
  have hnd : (r.live.map (fun m => m.msgid)).Nodup := by
    rw [List.Nodup, List.pairwise_map]
    exact hb
  have hsub : (r.live.map (fun m => m.msgid)).toFinset ⊆ Finset.range P.FASTRPC_MSG_MAX := by
    intro x hx
    simp only [List.mem_toFinset, List.mem_map] at hx
    obtain ⟨m, hm, rfl⟩ := hx
    exact Finset.mem_range.mpr (ha m hm).1
  have hcard : (r.live.map (fun m => m.msgid)).toFinset.card = P.FASTRPC_MSG_MAX := by
    rw [List.toFinset_card_of_nodup hnd, List.length_map, hlen]
  have heq : (r.live.map (fun m => m.msgid)).toFinset = Finset.range P.FASTRPC_MSG_MAX :=
    Finset.eq_of_subset_of_card_le hsub (by rw [hcard, Finset.card_range])
  intro k hk
  have hkm : k ∈ (r.live.map (fun m => m.msgid)).toFinset := by
    rw [heq]; exact Finset.mem_range.mpr hk
  simp only [List.mem_toFinset, List.mem_map] at hkm
  obtain ⟨m, hm, rfl⟩ := hkm
  rw [(ha m hm).2]
  simp

/-- C1: after every sequence of `virt_alloc_msg` / `virt_free_msg` calls on an
initially empty message table, each live slot is held by the table entry whose
index is its `msgid`, any two live slots have different `msgid`s, and once
`FASTRPC_MSG_MAX` slots are live a further `virt_alloc_msg` returns no slot and
leaves the driver state unchanged. -/
theorem C1_slot_ids_unique_and_exhaustion (P : Params) (buf_size num_channels : Int)
    (ops : List PoolOp) :
    (∀ m ∈ (pool_run P buf_size num_channels ops).live,
        m.msgid < P.FASTRPC_MSG_MAX ∧
        (pool_run P buf_size num_channels ops).apps.msgtable m.msgid = some m.ptr) ∧
      (pool_run P buf_size num_channels ops).live.Pairwise (fun a b => a.msgid ≠ b.msgid) ∧
      ((pool_run P buf_size num_channels ops).live.length = P.FASTRPC_MSG_MAX →
        ∀ (size : Int) (kz : Option Nat) (tx : Option virt_invoke_msg),
          virt_alloc_msg P (pool_run P buf_size num_channels ops).apps size kz tx =
            (none, (pool_run P buf_size num_channels ops).apps)) := by
  have h := pool_run_inv P buf_size num_channels ops
  refine ⟨h.1, h.2, ?_⟩
  intro hlen size kz tx
  exact virt_alloc_msg_full P _ size kz tx (pool_inv_full P _ h hlen)

/-! ## Invoke context manager -/

theorem find_interrupted_none (ctxs : Nat → Option fastrpc_invoke_ctx) (pid : Int)
    (l : List Nat) (h : ∀ q ∈ l, ∀ c, ctxs q = some c → c.pid ≠ pid) :
    find_interrupted ctxs pid l = none := by
  induction l with
  | nil => rfl
  | cons q l ih =>
    unfold find_interrupted
    have ih1 := ih (fun x hx => h x (List.mem_cons_of_mem _ hx))
    cases hq : ctxs q with
    | none => simpa using ih1
    | some c =>
      have := h q (List.mem_cons_self _ _) c hq
      simp [this, ih1]

theorem find_interrupted_some (ctxs : Nat → Option fastrpc_invoke_ctx) (pid : Int)
    (l : List Nat) (p : Nat) (c : fastrpc_invoke_ctx)
    (h : find_interrupted ctxs pid l = some (p, c)) :
    p ∈ l ∧ ctxs p = some c ∧ c.pid = pid := by
  induction l with
  | nil => simp [find_interrupted] at h
  | cons q l ih =>
    unfold find_interrupted at h
    cases hq : ctxs q with
    | none =>
      rw [hq] at h
      have := ih h
      exact ⟨List.mem_cons_of_mem _ this.1, this.2⟩
    | some c1 =>
      rw [hq] at h
      dsimp only at h
      split at h
      · rename_i hpid
        simp only [Option.some.injEq, Prod.mk.injEq] at h
        obtain ⟨rfl, rfl⟩ := h
        exact ⟨List.mem_cons_self _ _, hq, hpid⟩
      · have := ih h
        exact ⟨List.mem_cons_of_mem _ this.1, this.2⟩

theorem mem_filter_ne (l : List Nat) (p q : Nat) :
    q ∈ l.filter (fun x => x ≠ p) ↔ q ∈ l ∧ q ≠ p := by
  simp [List.mem_filter]

/-- Unlinking and freeing the context at `p` keeps the invariant. -/
theorem ctx_inv_remove (fl fl1 : fastrpc_file) (p : Nat) (h : ctx_inv fl)
    (hn : fl.next_ctx ≤ fl1.next_ctx)
    (hc : ∀ q, fl1.ctxs q = if q = p then none else fl.ctxs q)
    (hl : fl1.clst = hlist_del_init fl.clst p) : ctx_inv fl1 := by
  obtain ⟨h1, h2, h3, h4, h5⟩ := h
  have hlp : fl1.clst.pending = fl.clst.pending.filter (fun x => x ≠ p) := by rw [hl]; rfl
  have hli : fl1.clst.interrupted = fl.clst.interrupted.filter (fun x => x ≠ p) := by rw [hl]; rfl
  refine ⟨?_, ?_, ?_, ?_, ?_⟩
  · intro q hq
    rw [hc] at hq
    by_cases hqp : q = p
    · simp [hqp] at hq
    · simp only [hqp, if_false] at hq
      exact lt_of_lt_of_le (h1 q hq) hn
  · intro q hq
    rw [hc] at hq
    by_cases hqp : q = p
    · simp [hqp] at hq
    · simp only [hqp, if_false] at hq
      rw [hlp, hli, mem_filter_ne, mem_filter_ne]
      have := h2 q hq
      tauto
  · intro q hq
    rw [hlp, hli, mem_filter_ne, mem_filter_ne]
    rw [hc] at hq
    by_cases hqp : q = p
    · simp [hqp]
    · simp only [hqp, if_false] at hq
      have := h3 q hq
      tauto
  · rw [hlp]; exact h4.filter _
  · rw [hli]; exact h5.filter _

/-- Moving the allocated context at `p` to the head of the interrupted list
keeps the invariant. -/
theorem ctx_inv_save (fl : fastrpc_file) (p : Nat) (h : ctx_inv fl) (hp : fl.ctxs p ≠ none) :
    ctx_inv (context_save_interrupted fl p) := by
  obtain ⟨h1, h2, h3, h4, h5⟩ := h
  unfold context_save_interrupted hlist_del_init
  refine ⟨h1, ?_, ?_, ?_, ?_⟩
  · intro q hq
    have := h2 q hq
    by_cases hqp : q = p
    · subst hqp; simp [mem_filter_ne]
    · simp only [List.mem_cons, mem_filter_ne]
      tauto
  · intro q hq
    have hqp : q ≠ p := fun heq => hp (heq ▸ hq)
    have := h3 q hq
    simp only [List.mem_cons, mem_filter_ne]
    tauto
  · exact h4.filter _
  · refine List.nodup_cons.mpr ⟨?_, h5.filter _⟩
    simp [mem_filter_ne]

/-- Moving the allocated context at `p` to the head of the pending list keeps
the invariant. -/
theorem ctx_inv_to_pending (fl : fastrpc_file) (p : Nat) (h : ctx_inv fl)
    (hp : fl.ctxs p ≠ none) :
    ctx_inv { fl with clst :=
      { interrupted := fl.clst.interrupted.filter (fun q => q ≠ p),
        pending := p :: fl.clst.pending.filter (fun q => q ≠ p) } } := by
  obtain ⟨h1, h2, h3, h4, h5⟩ := h
  refine ⟨h1, ?_, ?_, ?_, ?_⟩
  · intro q hq
    have := h2 q hq
    by_cases hqp : q = p
    · subst hqp; simp [mem_filter_ne]
    · simp only [List.mem_cons, mem_filter_ne]
      tauto
  · intro q hq
    have hqp : q ≠ p := fun heq => hp (heq ▸ hq)
    have := h3 q hq
    simp only [List.mem_cons, mem_filter_ne]
    tauto
  · refine List.nodup_cons.mpr ⟨?_, h4.filter _⟩
    simp [mem_filter_ne]
  · exact h5.filter _

theorem ctx_inv_free (fl : fastrpc_file) (p : Nat) (h : ctx_inv fl) :
    ctx_inv (context_free fl p).1 := by
  unfold context_free
  cases hp : fl.ctxs p with
  | none => exact h
  | some ctx =>
    dsimp only
    refine ctx_inv_remove fl _ p h ?_ ?_ ?_
    · exact le_refl _
    · intro q
      by_cases hqp : q = p
      · subst hqp; simp
      · simp [Function.update_noteq hqp, hqp]
    · rfl

theorem ctx_inv_restore (e : Env) (fl : fastrpc_file) (invoke : fastrpc_ioctl_invoke)
    (h : ctx_inv fl) : ctx_inv (context_restore_interrupted e fl invoke).2.2 := by
  unfold context_restore_interrupted
  cases hf : find_interrupted fl.ctxs e.current_pid fl.clst.interrupted with
  | none => exact h
  | some pc =>
    obtain ⟨p, c⟩ := pc
    have hs := find_interrupted_some _ _ _ _ _ hf
    dsimp only
    split
    · exact h
    · exact ctx_inv_to_pending fl p h (by rw [hs.2.1]; simp)

/-- The failure path of `context_alloc`: the context just allocated at the
next address is freed again. -/
theorem ctx_inv_alloc_fail (fl : fastrpc_file) (ctx : fastrpc_invoke_ctx) (h : ctx_inv fl) :
    ctx_inv (context_free
      { fl with next_ctx := fl.next_ctx + 1,
                ctxs := Function.update fl.ctxs fl.next_ctx (some ctx) } fl.next_ctx).1 := by
  unfold context_free
  simp only [Function.update_same]
  refine ctx_inv_remove fl _ fl.next_ctx h ?_ ?_ ?_
  · exact Nat.le_succ _
  · intro q
    by_cases hqp : q = fl.next_ctx
    · subst hqp; simp
    · simp [Function.update_noteq hqp, hqp]
  · rfl

/-- The success path of `context_alloc`: the context allocated at the next
address becomes the head of the pending list. -/
theorem ctx_inv_alloc_ok (fl : fastrpc_file) (ctx : fastrpc_invoke_ctx) (h : ctx_inv fl) :
    ctx_inv { fl with next_ctx := fl.next_ctx + 1,
                      ctxs := Function.update fl.ctxs fl.next_ctx (some ctx),
                      clst := { fl.clst with pending := fl.next_ctx :: fl.clst.pending } } := by
  obtain ⟨h1, h2, h3, h4, h5⟩ := h
  have hfresh : fl.ctxs fl.next_ctx = none := by
    by_contra hne
    exact lt_irrefl _ (h1 _ hne)
  have hnot := h3 _ hfresh
  refine ⟨?_, ?_, ?_, ?_, h5⟩
  · intro q hq
    by_cases hqp : q = fl.next_ctx
    · subst hqp; exact Nat.lt_succ_self _
    · simp only [Function.update_noteq hqp] at hq
      exact Nat.lt_succ_of_lt (h1 q hq)
  · intro q hq
    by_cases hqp : q = fl.next_ctx
    · subst hqp
      simp [hnot.2]
    · simp only [Function.update_noteq hqp] at hq
      have := h2 q hq
      simp only [List.mem_cons, hqp, false_or]
      exact this
  · intro q hq
    by_cases hqp : q = fl.next_ctx
    · subst hqp; simp at hq
    · simp only [Function.update_noteq hqp] at hq
      have := h3 q hq
      simp only [List.mem_cons, hqp, false_or]
      exact this
  · exact List.nodup_cons.mpr ⟨hnot.1, h4⟩

theorem ctx_inv_alloc (e : Env) (fl : fastrpc_file) (inv : fastrpc_ioctl_invoke_crc)
    (h : ctx_inv fl) : ctx_inv (context_alloc e fl inv).2.2.1 := by
  obtain ⟨invoke, fds, attrs⟩ := inv
  cases fds <;> cases attrs <;> cases hk : e.kzalloc_ctx <;> cases h1 : e.copy_pra_ok <;>
    cases h2 : e.copy_fds_ok <;> cases h3 : e.copy_attrs_ok <;>
    simp only [context_alloc, VERIFY, hk, h1, h2, h3, if_true, if_false, not_true_eq_false,
      not_false_eq_true, Bool.false_eq_true, ne_eq, one_ne_zero, neg_eq_zero] <;>
    first
    | exact h
    | exact ctx_inv_alloc_fail fl _ h
    | exact ctx_inv_alloc_ok fl _ h

theorem ctx_step_inv (fl fl1 : fastrpc_file) (op : CtxOp) (h : ctx_inv fl)
    (hs : ctx_step fl op = some fl1) : ctx_inv fl1 := by
  cases op with
  | alloc e inv =>
    simp only [ctx_step, Option.some.injEq] at hs
    subst hs
    exact ctx_inv_alloc e fl inv h
  | save p =>
    simp only [ctx_step] at hs
    split at hs
    · rename_i hp
      simp only [Option.some.injEq] at hs
      subst hs
      exact ctx_inv_save fl p h (by
        intro hn; rw [hn] at hp; simp at hp)
    · simp at hs
  | restore e invoke =>
    simp only [ctx_step, Option.some.injEq] at hs
    subst hs
    exact ctx_inv_restore e fl invoke h
  | free p =>
    simp only [ctx_step] at hs
    split at hs
    · simp only [Option.some.injEq] at hs
      subst hs
      exact ctx_inv_free fl p h
    · simp at hs

theorem ctx_run_inv (ops : List CtxOp) (fl fl1 : fastrpc_file) (h : ctx_inv fl)
    (hr : ctx_run fl ops = some fl1) : ctx_inv fl1 := by
  induction ops generalizing fl with
  | nil =>
    simp only [ctx_run, Option.some.injEq] at hr
    subst hr
    exact h
  | cons op ops ih =>
    unfold ctx_run at hr
    cases hs : ctx_step fl op with
    | none => rw [hs] at hr; simp at hr
    | some fl2 =>
      rw [hs] at hr
      exact ih fl2 (ctx_step_inv fl fl2 op h hs) hr

theorem ctx_inv_file_alloc (self : Nat) (apps : fastrpc_apps) (tgid : Int) :
    ctx_inv (fastrpc_file_alloc self apps tgid) := by
  simp [ctx_inv, fastrpc_file_alloc]

/-- C3: after every sequence of `context_alloc`, `context_save_interrupted`,
`context_restore_interrupted` and `context_free` on a new session, a context
that is allocated and not yet freed is linked in exactly one of the pending
and interrupted lists (in one of them, not in both, and once), and an address
that is not an allocated context (in particular a freed one) is in neither
list. -/
theorem C3_context_in_exactly_one_list (self : Nat) (apps : fastrpc_apps) (tgid : Int)
    (ops : List CtxOp) (fl : fastrpc_file)
    (hr : ctx_run (fastrpc_file_alloc self apps tgid) ops = some fl) :
    (∀ p, fl.ctxs p ≠ none →
        ((p ∈ fl.clst.pending ∧ p ∉ fl.clst.interrupted) ∨
          (p ∉ fl.clst.pending ∧ p ∈ fl.clst.interrupted)) ∧
        fl.clst.pending.count p + fl.clst.interrupted.count p = 1) ∧
      (∀ p, fl.ctxs p = none → p ∉ fl.clst.pending ∧ p ∉ fl.clst.interrupted) := by
  obtain ⟨-, h2, h3, h4, h5⟩ := ctx_run_inv ops _ fl (ctx_inv_file_alloc self apps tgid) hr
  refine ⟨?_, h3⟩
  intro p hp
  have := h2 p hp
  by_cases hpp : p ∈ fl.clst.pending
  · have hni : p ∉ fl.clst.interrupted := this.mp hpp
    refine ⟨Or.inl ⟨hpp, hni⟩, ?_⟩
    rw [List.count_eq_one_of_mem h4 hpp, List.count_eq_zero_of_not_mem hni]
  · have hi : p ∈ fl.clst.interrupted := by
      by_contra hni
      exact hpp (this.mpr hni)
    refine ⟨Or.inr ⟨hpp, hi⟩, ?_⟩
    rw [List.count_eq_one_of_mem h5 hi, List.count_eq_zero_of_not_mem hpp]

/-- C3, at a concrete run: after allocate, save, allocate the first context is
interrupted and the second is pending. -/
theorem C3_context_in_exactly_one_list_witness :
    ∃ fl, ctx_run (fastrpc_file_alloc 1 apps0 50) ops_example = some fl ∧
      fl.clst.interrupted = [0] ∧ fl.clst.pending = [1] ∧
      ((∀ p, fl.ctxs p ≠ none →
          ((p ∈ fl.clst.pending ∧ p ∉ fl.clst.interrupted) ∨
            (p ∉ fl.clst.pending ∧ p ∈ fl.clst.interrupted)) ∧
          fl.clst.pending.count p + fl.clst.interrupted.count p = 1) ∧
        (∀ p, fl.ctxs p = none → p ∉ fl.clst.pending ∧ p ∉ fl.clst.interrupted)) :=
  ⟨_, rfl, rfl, rfl, C3_context_in_exactly_one_list 1 apps0 50 ops_example _ rfl⟩

/-! ## Invocation -/

theorem VERIFY_zero (b : Bool) : VERIFY 0 b = 0 ↔ b = true := by
  cases b <;> simp [VERIFY]

theorem invoke_bail_none (fl : fastrpc_file) (err i : Int) (eff : List Effect) :
    (invoke_bail fl err none i eff).ctx = none := rfl

theorem invoke_bail_settled (fl : fastrpc_file) (err i : Int) (eff : List Effect) (p : Nat)
    (c : fastrpc_invoke_ctx) (hp : fl.ctxs p = some c) :
    (invoke_bail fl err (some p) i eff).ctx = some p ∧
      (invoke_bail fl err (some p) i eff).interrupted = i ∧
      ctx_settled (invoke_bail fl err (some p) i eff) p := by
  unfold invoke_bail
  dsimp only
  split
  · rename_i hi
    refine ⟨rfl, rfl, ?_⟩
    simp only [ctx_settled, context_save_interrupted, hlist_del_init, hi, List.mem_cons,
      true_or, mem_filter_ne, ne_eq, not_true_eq_false, and_false, not_false_eq_true,
      true_and, iff_true, IsEmpty.forall_iff, and_true, hp]
    simp
  · rename_i hi
    refine ⟨rfl, rfl, ?_⟩
    simp only [ctx_settled, context_free, hp, hlist_del_init, hi, mem_filter_ne, ne_eq,
      not_true_eq_false, and_false, not_false_eq_true, Function.update_same, iff_self,
      IsEmpty.forall_iff, true_and, forall_true_left]

theorem store_ctx_same (fl : fastrpc_file) (p : Nat) (c : fastrpc_invoke_ctx) :
    (store_ctx fl p c).ctxs p = some c := by
  simp [store_ctx]

theorem invoke_wait_settled (e : Env) (fl : fastrpc_file) (p : Nat) (eff : List Effect)
    (c : fastrpc_invoke_ctx) (hp : fl.ctxs p = some c) :
    (invoke_wait e fl p eff).ctx = some p ∧ (invoke_wait e fl p eff).interrupted = e.wait ∧
      ctx_settled (invoke_wait e fl p eff) p := by
  unfold invoke_wait
  simp only [hp]
  split
  · exact invoke_bail_settled _ _ _ _ p _ (store_ctx_same _ _ _)
  · exact invoke_bail_settled _ _ _ _ p _ (store_ctx_same _ _ _)

theorem context_restore_some (e : Env) (fl : fastrpc_file) (invoke : fastrpc_ioctl_invoke)
    (p : Nat) (h : (context_restore_interrupted e fl invoke).2.1 = some p) :
    ∃ c, (context_restore_interrupted e fl invoke).2.2.ctxs p = some c := by
  unfold context_restore_interrupted at h ⊢
  cases hf : find_interrupted fl.ctxs e.current_pid fl.clst.interrupted with
  | none => rw [hf] at h; simp at h
  | some pc =>
    obtain ⟨q, c⟩ := pc
    have hs := find_interrupted_some _ _ _ _ _ hf
    rw [hf] at h
    dsimp only at h ⊢
    split at h
    · simp at h
    · rename_i hm
      simp only [Option.some.injEq] at h
      subst h
      rw [if_neg hm]
      exact ⟨c, hs.2.1⟩

theorem context_restore_err (e : Env) (fl : fastrpc_file) (invoke : fastrpc_ioctl_invoke)
    (h : (context_restore_interrupted e fl invoke).1 ≠ 0) :
    (context_restore_interrupted e fl invoke).2.1 = none := by
  unfold context_restore_interrupted at h ⊢
  split
  · rfl
  · dsimp only at h ⊢
    split
    · rfl
    · rename_i hf hm
      rw [hf] at h
      simp [hm] at h

/-- What `context_alloc` returns: no context, or the context stored at the next
address, zeroed apart from the members copied from the call. -/
theorem context_alloc_spec (e : Env) (fl : fastrpc_file) (inv : fastrpc_ioctl_invoke_crc) :
    ((context_alloc e fl inv).2.1 = none ∧ (context_alloc e fl inv).1 ≠ 0) ∨
      ∃ c : fastrpc_invoke_ctx,
        context_alloc e fl inv =
          (0, some fl.next_ctx,
           { fl with next_ctx := fl.next_ctx + 1,
                     ctxs := Function.update fl.ctxs fl.next_ctx (some c),
                     clst := { fl.clst with pending := fl.next_ctx :: fl.clst.pending } },
           []) ∧
        c.sc = inv.inv.sc ∧ c.msg = none ∧ c.desc = none ∧ c.maps = (fun _ => none) ∧
        c.outbufs_offset = 0 ∧ c.lpra = inv.inv.pra ∧ c.fds = inv.fds ∧
        c.pid = e.current_pid ∧ c.handle = inv.inv.handle := by
  obtain ⟨invoke, fds, attrs⟩ := inv
  cases fds <;> cases attrs <;> cases hk : e.kzalloc_ctx <;> cases h1 : e.copy_pra_ok <;>
    cases h2 : e.copy_fds_ok <;> cases h3 : e.copy_attrs_ok <;>
    simp only [context_alloc, VERIFY, hk, h1, h2, h3, if_true, if_false, not_true_eq_false,
      not_false_eq_true, Bool.false_eq_true, ne_eq, one_ne_zero, neg_eq_zero] <;>
    first
    | (left; refine ⟨?_, ?_⟩ <;> first | trivial | rfl | decide)
    | (right; exact ⟨_, rfl, rfl, rfl, rfl, rfl, rfl, rfl, rfl, rfl, rfl⟩)

theorem invoke_good_bail_none (e : Env) (fl : fastrpc_file) (err i : Int)
    (eff : List Effect) : invoke_good e (invoke_bail fl err none i eff) := by
  intro p hp
  simp [invoke_bail] at hp

theorem invoke_good_bail (e : Env) (fl : fastrpc_file) (err i : Int) (eff : List Effect)
    (q : Nat) (c : fastrpc_invoke_ctx) (hq : fl.ctxs q = some c) (hi : i = 0 ∨ i = e.wait) :
    invoke_good e (invoke_bail fl err (some q) i eff) := by
  intro p hp
  obtain ⟨h1, h2, h3⟩ := invoke_bail_settled fl err i eff q c hq
  rw [h1] at hp
  simp only [Option.some.injEq] at hp
  subst hp
  exact ⟨h3, by rw [h2]; exact hi⟩

theorem invoke_good_wait (e : Env) (fl : fastrpc_file) (eff : List Effect)
    (q : Nat) (c : fastrpc_invoke_ctx) (hq : fl.ctxs q = some c) :
    invoke_good e (invoke_wait e fl q eff) := by
  intro p hp
  obtain ⟨h1, h2, h3⟩ := invoke_wait_settled e fl q eff c hq
  rw [h1] at hp
  simp only [Option.some.injEq] at hp
  subst hp
  exact ⟨h3, Or.inr h2⟩

theorem invoke_good_marshal (P : Params) (e : Env) (fl : fastrpc_file) (eff : List Effect)
    (q : Nat) (c : fastrpc_invoke_ctx) : invoke_good e (invoke_marshal P e fl q c eff) := by
  unfold invoke_marshal
  dsimp only
  split
  · exact invoke_good_bail e _ _ 0 _ q _ (store_ctx_same _ _ _) (Or.inl rfl)
  · split
    · exact invoke_good_bail e _ _ 0 _ q _ (store_ctx_same _ _ _) (Or.inl rfl)
    · exact invoke_good_wait e _ _ q _ (store_ctx_same _ _ _)

theorem invoke_good_all (P : Params) (e : Env) (fl : fastrpc_file)
    (inv : fastrpc_ioctl_invoke_crc) : invoke_good e (fastrpc_internal_invoke P e fl inv) := by
  unfold fastrpc_internal_invoke
  dsimp only
  split
  · exact invoke_good_bail_none e _ _ _ _
  · split
    · exact invoke_good_bail_none e _ _ _ _
    · split
      · rename_i hv
        have hne : (context_restore_interrupted e fl inv.inv).1 ≠ 0 := by
          intro h0
          apply hv
          rw [VERIFY_zero]
          simpa using h0
        rw [context_restore_err e fl inv.inv hne]
        exact invoke_good_bail_none e _ _ _ _
      · split
        · rename_i q hq
          obtain ⟨c, hcq⟩ := context_restore_some e fl inv.inv q hq
          exact invoke_good_wait e _ _ q c hcq
        · rcases context_alloc_spec e (context_restore_interrupted e fl inv.inv).2.2 inv with
            ⟨ha1, ha2⟩ | ⟨c, ha, -⟩
          · have hv : VERIFY 0 (decide ((context_alloc e
                (context_restore_interrupted e fl inv.inv).2.2 inv).1 = 0)) ≠ 0 := by
              rw [ne_eq, VERIFY_zero]
              simpa using ha2
            rw [if_pos hv, ha1]
            exact invoke_good_bail_none e _ _ _ _
          · rw [ha]
            simp only [VERIFY_zero, decide_True, ne_eq, not_true_eq_false, if_false,
              Function.update_same]
            exact invoke_good_marshal P e _ _ _ _

/-- C4: when `fastrpc_internal_invoke` returns with a context `p` in use, `p`
is in the interrupted list exactly when the wait for the reply returned
`-ERESTARTSYS` (the local `interrupted` is 0 until the wait and the result of
the wait afterwards); in that case it is no longer pending and still
allocated.  For every other outcome the context has been freed and is in
neither list.  So no context of the call is left in the pending list. -/
theorem C4_context_saved_iff_interrupted (P : Params) (e : Env) (fl : fastrpc_file)
    (inv : fastrpc_ioctl_invoke_crc) (p : Nat)
    (hctx : (fastrpc_internal_invoke P e fl inv).ctx = some p) :
    (p ∈ (fastrpc_internal_invoke P e fl inv).fl.clst.interrupted ↔
        (fastrpc_internal_invoke P e fl inv).interrupted = -ERESTARTSYS) ∧
      p ∉ (fastrpc_internal_invoke P e fl inv).fl.clst.pending ∧
      ((fastrpc_internal_invoke P e fl inv).interrupted = -ERESTARTSYS →
        (fastrpc_internal_invoke P e fl inv).fl.ctxs p ≠ none) ∧
      ((fastrpc_internal_invoke P e fl inv).interrupted ≠ -ERESTARTSYS →
        (fastrpc_internal_invoke P e fl inv).fl.ctxs p = none ∧
        p ∉ (fastrpc_internal_invoke P e fl inv).fl.clst.interrupted) ∧
      ((fastrpc_internal_invoke P e fl inv).interrupted = 0 ∨
        (fastrpc_internal_invoke P e fl inv).interrupted = e.wait) := by
  obtain ⟨⟨h1, h2, h3, h4⟩, hi⟩ := invoke_good_all P e fl inv p hctx
  exact ⟨h1, h2, h3, fun hne => ⟨h4 hne, fun hmem => hne (h1.mp hmem)⟩, hi⟩

/-- C4, at concrete calls: a call whose wait is interrupted leaves its context
(at address 0) in the interrupted list; a call that completes leaves it freed. -/
theorem C4_context_saved_iff_interrupted_witness :
    ((fastrpc_internal_invoke params0 env_intr fl0 inv0).ctx = some 0 ∧
        0 ∈ (fastrpc_internal_invoke params0 env_intr fl0 inv0).fl.clst.interrupted) ∧
      ((fastrpc_internal_invoke params0 (env0 (some reply_ok)) fl0 inv0).ctx = some 0 ∧
        (fastrpc_internal_invoke params0 (env0 (some reply_ok)) fl0 inv0).err = 0 ∧
        (fastrpc_internal_invoke params0 (env0 (some reply_ok)) fl0 inv0).fl.ctxs 0 = none) :=
  ⟨⟨rfl, (C4_context_saved_iff_interrupted params0 env_intr fl0 inv0 0 rfl).1.mpr rfl⟩,
   ⟨rfl, rfl,
    ((C4_context_saved_iff_interrupted params0 (env0 (some reply_ok)) fl0 inv0 0 rfl).2.2.2.1
      (by decide)).1⟩⟩

/-! ## Unmarshalling: early exits and the fd list -/

theorem int_of_bits32_ne_zero (n : Nat) (h0 : n ≠ 0) (h : n < 2 ^ 32) :
    int_of_bits32 n ≠ 0 := by
  unfold int_of_bits32
  rw [Nat.mod_eq_of_lt h]
  split <;> omega

/-- C9: `put_args` returns `-EINVAL` when the context has no slot or the slot
has no reply, and returns the reply's result code when that code is nonzero;
in all three cases the context (its `maps` included) is unchanged and no call
is issued: no copy to the caller, no release of a mapping, no lookup for the
fd list. -/
theorem C9_put_args_early_exit (e : Env) (ctx : fastrpc_invoke_ctx) :
    (ctx.msg = none → put_args e ctx = (-EINVAL, ctx, [])) ∧
      (∀ msg, ctx.msg = some msg → msg.rxbuf = none → put_args e ctx = (-EINVAL, ctx, [])) ∧
      (∀ msg rsp, ctx.msg = some msg → msg.rxbuf = some rsp →
        rsp.hdr.result ≠ 0 → rsp.hdr.result < 2 ^ 32 →
        put_args e ctx = (int_of_bits32 rsp.hdr.result, ctx, []) ∧
          int_of_bits32 rsp.hdr.result ≠ 0) := by
  refine ⟨?_, ?_, ?_⟩
  · intro h
    simp [put_args, h]
  · intro msg h1 h2
    simp [put_args, h1, h2]
  · intro msg rsp h1 h2 h3 h4
    have hne := int_of_bits32_ne_zero _ h3 h4
    exact ⟨by simp [put_args, h1, h2, hne], hne⟩

/-- C9, at concrete contexts: no slot, no reply, and a reply with result 7. -/
theorem C9_put_args_early_exit_witness :
    put_args (env0 none) (ctx_of 7 256) = (-EINVAL, ctx_of 7 256, []) ∧
      put_args (env0 none) (ctx_out none) = (-EINVAL, ctx_out none, []) ∧
      put_args (env0 none) (ctx_out (some reply_err)) = (7, ctx_out (some reply_err), []) :=
  ⟨(C9_put_args_early_exit (env0 none) (ctx_of 7 256)).1 rfl,
   (C9_put_args_early_exit (env0 none) (ctx_out none)).2.1 (msg_with none) rfl rfl,
   ((C9_put_args_early_exit (env0 none) (ctx_out (some reply_err))).2.2
      (msg_with (some reply_err)) reply_err rfl rfl (by decide) (by decide)).1⟩

theorem put_args_fdlist_mem (e : Env) (fdlist : Nat → Nat) (n i0 i : Nat) (m : fastrpc_mmap)
    (h1 : i0 ≤ i) (h2 : i < i0 + n) (hnz : ∀ j, i0 ≤ j → j ≤ i → fdlist j ≠ 0)
    (hf : e.mmap_find i (int_of_bits32 (fdlist i)) = some m) :
    Effect.mmap_free (some m) 0 ∈ put_args_fdlist e fdlist n i0 := by
  induction n generalizing i0 with
  | zero => omega
  | succ n ih =>
    unfold put_args_fdlist
    rw [if_neg (hnz i0 (le_refl _) h1)]
    dsimp only
    by_cases hi : i = i0
    · subst hi
      rw [hf]
      simp
    · apply List.mem_append_right
      exact ih (i0 + 1) (by omega) (by omega) (fun j hj1 hj2 => hnz j (by omega) hj2)

/-- C10 (as stated) fails: with the fd list `0, 5, 0, ...` and a mapping
registered under fd 5, `put_args` succeeds and releases nothing, because the
scan stops at the first zero entry. -/
theorem C10_fdlist_claim_fails : ¬ fdlist_claim env_find (ctx_out (some reply_fd)) := by
  intro h
  have hmem := h (msg_with (some reply_fd)) reply_fd rfl rfl rfl 1 (by decide) (by decide)
    map5 rfl
  have heff : (put_args env_find (ctx_out (some reply_fd))).2.2 =
      [Effect.copy_to_user 0 (bytes_at reply_fd.payload 0 0)] := rfl
  rw [heff] at hmem
  simp at hmem

/-- C10 (amended): when `put_args` has unmarshalled a result-0 reply of a call
with at least one argument and returns 0, it has walked the fd list of the
reply from index 0 up to the first zero entry (at most 16 entries), and for
every index before that zero whose lookup finds a mapping, this mapping has
been released. -/
theorem C10_fdlist_released_before_first_zero (e : Env) (ctx : fastrpc_invoke_ctx)
    (msg : virt_fastrpc_msg) (rsp : virt_invoke_msg)
    (hmsg : ctx.msg = some msg) (hrsp : msg.rxbuf = some rsp)
    (hok : (put_args e ctx).1 = 0) (htotal : REMOTE_SCALARS_LENGTH ctx.sc ≠ 0)
    (i : Nat) (hi : i < M_FDLIST) (hnz : ∀ j, j ≤ i → rsp.fdlist j ≠ 0)
    (m : fastrpc_mmap) (hf : e.mmap_find i (int_of_bits32 (rsp.fdlist i)) = some m) :
    Effect.mmap_free (some m) 0 ∈ (put_args e ctx).2.2 := by
  have hscan := put_args_fdlist_mem e rsp.fdlist M_FDLIST 0 i m (Nat.zero_le _) (by omega)
    (fun j _ hj => hnz j hj) hf
  unfold put_args at hok ⊢
  simp only [hmsg, hrsp] at hok ⊢
  split
  · rename_i hres
    rw [if_pos hres] at hok
    exact absurd hok hres
  · rename_i hres
    rw [if_neg hres] at hok
    split
    · rename_i hloop
      rw [if_pos hloop] at hok
      exact absurd hok hloop
    · simp only [htotal, ne_eq, not_false_eq_true, if_true]
      exact List.mem_append_right _ hscan

/-- C10 (amended), at a concrete reply: the fd list `5, 0, ...` with a mapping
registered under fd 5. -/
theorem C10_fdlist_released_before_first_zero_witness :
    (put_args env_find (ctx_out (some reply_fd_head))).1 = 0 ∧
      Effect.mmap_free (some map5) 0 ∈ (put_args env_find (ctx_out (some reply_fd_head))).2.2 :=
  ⟨rfl,
   C10_fdlist_released_before_first_zero env_find (ctx_out (some reply_fd_head))
     (msg_with (some reply_fd_head)) reply_fd_head rfl rfl rfl (by decide) 0 (by decide)
     (by intro j hj
         have : j = 0 := by omega
         subst this
         decide)
     map5 rfl⟩

/-! ## Loops -/

theorem for_loop_cons {σ : Type} (body : Nat → σ → Int × σ) (i : Nat) (is : List Nat) (s : σ) :
    for_loop body (i :: is) s =
      if (body i s).1 ≠ 0 then body i s else for_loop body is (body i s).2 := rfl

/-- The rule for a counted loop that runs to its end: an invariant that holds
at the start and is kept by every iteration that does not fail holds at the
end. -/
theorem for_loop_range_inv {σ : Type} (body : Nat → σ → Int × σ) (I : Nat → σ → Prop)
    (n a : Nat) (s : σ) (h0 : I a s)
    (hstep : ∀ k t, a ≤ k → k < a + n → I k t → (body k t).1 = 0 → I (k + 1) (body k t).2)
    (hok : (for_loop body (List.range' a n) s).1 = 0) :
    I (a + n) (for_loop body (List.range' a n) s).2 := by
  induction n generalizing a s with
  | zero => simpa [for_loop] using h0
  | succ n ih =>
    rw [List.range'_succ, for_loop_cons] at hok ⊢
    by_cases hb : (body a s).1 ≠ 0
    · rw [if_pos hb] at hok
      exact absurd hok hb
    · rw [if_neg hb] at hok ⊢
      have hb0 : (body a s).1 = 0 := not_not.mp hb
      have h1 := hstep a s (le_refl _) (by omega) h0 hb0
      have := ih (a + 1) (body a s).2 h1
        (fun k t hk1 hk2 hI hbk => hstep k t (by omega) (by omega) hI hbk) hok
      rw [show a + (n + 1) = a + 1 + n by omega]
      exact this

/-- A quantity that no iteration over the listed indices changes is unchanged
by the loop, whether it runs to its end or fails. -/
theorem for_loop_frame {σ α : Type} (body : Nat → σ → Int × σ) (f : σ → α) (is : List Nat)
    (h : ∀ i ∈ is, ∀ t, f (body i t).2 = f t) (s : σ) :
    f (for_loop body is s).2 = f s := by
  induction is generalizing s with
  | nil => rfl
  | cons i is ih =>
    rw [for_loop_cons]
    split
    · exact h i (List.mem_cons_self _ _) s
    · rw [ih (fun j hj t => h j (List.mem_cons_of_mem _ hj) t)]
      exact h i (List.mem_cons_self _ _) s

theorem sum_ite_lt (f : Nat → Nat) (a b : Nat) :
    (∑ i ∈ Finset.range (a + b), if i < a then f i else 0) = ∑ i ∈ Finset.range a, f i := by
  induction b with
  | zero =>
    apply Finset.sum_congr rfl
    intro i hi
    have hlt : i < a := by simpa using hi
    rw [if_pos hlt]
  | succ b ih =>
    rw [← Nat.add_assoc, Finset.sum_range_succ, ih, if_neg (by omega)]
    rfl

/-! ## Sizing of the arguments -/

theorem add_outbufs_offset_maps (P : Params) (inbufs i len : Nat) (ctx : fastrpc_invoke_ctx) :
    (add_outbufs_offset P inbufs i len ctx).maps = ctx.maps := by
  unfold add_outbufs_offset; split <;> rfl

theorem add_outbufs_offset_desc (P : Params) (inbufs i len : Nat) (ctx : fastrpc_invoke_ctx) :
    (add_outbufs_offset P inbufs i len ctx).desc = ctx.desc := by
  unfold add_outbufs_offset; split <;> rfl

theorem add_outbufs_offset_lpra (P : Params) (inbufs i len : Nat) (ctx : fastrpc_invoke_ctx) :
    (add_outbufs_offset P inbufs i len ctx).lpra = ctx.lpra := by
  unfold add_outbufs_offset; split <;> rfl

theorem add_outbufs_offset_fds (P : Params) (inbufs i len : Nat) (ctx : fastrpc_invoke_ctx) :
    (add_outbufs_offset P inbufs i len ctx).fds = ctx.fds := by
  unfold add_outbufs_offset; split <;> rfl

theorem add_outbufs_offset_sc (P : Params) (inbufs i len : Nat) (ctx : fastrpc_invoke_ctx) :
    (add_outbufs_offset P inbufs i len ctx).sc = ctx.sc := by
  unfold add_outbufs_offset; split <;> rfl

theorem add_outbufs_offset_handle (P : Params) (inbufs i len : Nat) (ctx : fastrpc_invoke_ctx) :
    (add_outbufs_offset P inbufs i len ctx).handle = ctx.handle := by
  unfold add_outbufs_offset; split <;> rfl

theorem add_outbufs_offset_msg (P : Params) (inbufs i len : Nat) (ctx : fastrpc_invoke_ctx) :
    (add_outbufs_offset P inbufs i len ctx).msg = ctx.msg := by
  unfold add_outbufs_offset; split <;> rfl

theorem add_outbufs_offset_off (P : Params) (inbufs i len : Nat) (ctx : fastrpc_invoke_ctx) :
    (add_outbufs_offset P inbufs i len ctx).outbufs_offset =
      if i < inbufs then (ctx.outbufs_offset + len) % 2 ^ P.offset_bits
      else ctx.outbufs_offset := by
  unfold add_outbufs_offset; split <;> rfl

theorem wire_len_congr (c1 c2 : fastrpc_invoke_ctx) (i : Nat) (hm : c1.maps i = c2.maps i)
    (hd : c1.desc.isSome = c2.desc.isSome) (hg : get_desc c1 i = get_desc c2 i)
    (hl : c1.lpra i = c2.lpra i) : wire_len c1 i = wire_len c2 i := by
  unfold wire_len
  rw [hm, hd, hg, hl]

/-- The four ways through the body of the first sizing loop. -/
theorem len_body_cases (P : Params) (e : Env) (inbufs i : Nat) (s : get_args_st) :
    ((s.ctx.lpra i).len = 0 ∧ get_args_len_body P e inbufs i s = (0, s)) ∨
      ((s.ctx.lpra i).len ≠ 0 ∧ ∃ fd err, fd_given s.ctx.fds i = some fd ∧
        e.mmap_create i fd (s.ctx.lpra i).pv (s.ctx.lpra i).len 0 = Except.error err ∧
        get_args_len_body P e inbufs i s =
          (err.1, { s with effects := s.effects ++
            [Effect.mmap_create fd (s.ctx.lpra i).pv (s.ctx.lpra i).len 0] })) ∨
      ((s.ctx.lpra i).len ≠ 0 ∧ ∃ fd map, fd_given s.ctx.fds i = some fd ∧
        e.mmap_create i fd (s.ctx.lpra i).pv (s.ctx.lpra i).len 0 = Except.ok map ∧
        get_args_len_body P e inbufs i s =
          (0, { s with
                  ctx := add_outbufs_offset P inbufs i (map.table.nents * sizeof_virt_fastrpc_buf)
                    { s.ctx with maps := Function.update s.ctx.maps i (some map) },
                  copylen := (s.copylen + map.table.nents * sizeof_virt_fastrpc_buf) % SIZE_T_MOD,
                  effects := s.effects ++
                    [Effect.mmap_create fd (s.ctx.lpra i).pv (s.ctx.lpra i).len 0] })) ∨
      ((s.ctx.lpra i).len ≠ 0 ∧ fd_given s.ctx.fds i = none ∧
        get_args_len_body P e inbufs i s =
          (0, { s with ctx := add_outbufs_offset P inbufs i (s.ctx.lpra i).len s.ctx,
                       copylen := (s.copylen + (s.ctx.lpra i).len) % SIZE_T_MOD })) := by
  by_cases hlen : (s.ctx.lpra i).len = 0
  · left
    exact ⟨hlen, by simp [get_args_len_body, hlen]⟩
  · right
    cases hfd : fd_given s.ctx.fds i with
    | none =>
      right; right
      exact ⟨hlen, rfl, by simp [get_args_len_body, hlen, hfd]⟩
    | some fd =>
      cases hmc : e.mmap_create i fd (s.ctx.lpra i).pv (s.ctx.lpra i).len 0 with
      | error err =>
        left
        exact ⟨hlen, fd, err, rfl, hmc, by simp [get_args_len_body, hlen, hfd, hmc]⟩
      | ok map =>
        right; left
        exact ⟨hlen, fd, map, rfl, hmc, by simp [get_args_len_body, hlen, hfd, hmc]⟩

/-- One more argument of wire length `L` accounted for. -/
theorem sized_step (P : Params) (inbufs k : Nat) (s t : get_args_st) (L : Nat)
    (h : sized P inbufs k s)
    (hw : ∀ i, i < k → wire_len t.ctx i = wire_len s.ctx i)
    (hk : wire_len t.ctx k = L)
    (hoff : t.ctx.outbufs_offset =
      if k < inbufs then (s.ctx.outbufs_offset + L) % 2 ^ P.offset_bits
      else s.ctx.outbufs_offset)
    (hcopy : t.copylen = (s.copylen + L) % SIZE_T_MOD) : sized P inbufs (k + 1) t := by
  obtain ⟨h1, h2⟩ := h
  have e1 : (∑ i ∈ Finset.range k, if i < inbufs then wire_len t.ctx i else 0) =
      ∑ i ∈ Finset.range k, if i < inbufs then wire_len s.ctx i else 0 := by
    apply Finset.sum_congr rfl
    intro i hi
    rw [hw i (Finset.mem_range.mp hi)]
  have e2 : (∑ i ∈ Finset.range k, wire_len t.ctx i) = ∑ i ∈ Finset.range k, wire_len s.ctx i := by
    apply Finset.sum_congr rfl
    intro i hi
    rw [hw i (Finset.mem_range.mp hi)]
  refine ⟨?_, ?_⟩
  · rw [Finset.sum_range_succ, e1, hk, hoff, h1]
    by_cases hki : k < inbufs
    · rw [if_pos hki, if_pos hki, Nat.mod_add_mod]
    · rw [if_neg hki, if_neg hki, Nat.add_zero]
  · rw [Finset.sum_range_succ, e2, hk, hcopy, h2, Nat.mod_add_mod]

/-- An argument of wire length 0 that leaves the sums as they are. -/
theorem sized_step_zero (P : Params) (inbufs k : Nat) (s : get_args_st)
    (h : sized P inbufs k s) (hk : wire_len s.ctx k = 0) : sized P inbufs (k + 1) s := by
  obtain ⟨h1, h2⟩ := h
  refine ⟨?_, ?_⟩
  · rw [Finset.sum_range_succ, hk]
    simpa using h1
  · rw [Finset.sum_range_succ, hk]
    simpa using h2

theorem len_inv_step (P : Params) (e : Env) (inbufs : Nat) (c0 : fastrpc_invoke_ctx)
    (k : Nat) (s : get_args_st) (h : len_inv P inbufs c0 k s)
    (hb : (get_args_len_body P e inbufs k s).1 = 0) :
    len_inv P inbufs c0 (k + 1) (get_args_len_body P e inbufs k s).2 := by
  have hmk : s.ctx.maps k = none := h.maps_hi k (le_refl _)
  rcases len_body_cases P e inbufs k s with
    ⟨hlen, hbody⟩ | ⟨hlen, fd, err, hfd, hmc, hbody⟩ | ⟨hlen, fd, map, hfd, hmc, hbody⟩ |
    ⟨hlen, hfd, hbody⟩
  · rw [hbody]
    refine { h with maps_hi := fun j hj => h.maps_hi j (by omega), maps_lo := ?_, sums := ?_ }
    · intro j hj hu
      by_cases hjk : j = k
      · rw [hjk]; exact hmk
      · exact h.maps_lo j (by omega) hu
    · apply sized_step_zero P inbufs k s h.sums
      simp [wire_len, hmk, h.desc, hlen]
  · rw [hbody] at hb
    exact absurd hb err.2
  · rw [hbody]
    refine { desc := ?_, maps_hi := ?_, maps_lo := ?_, sums := ?_, lpra := ?_, fds := ?_, sc := ?_,
             handle := ?_, msg := ?_, handle_len := h.handle_len }
    · simp [add_outbufs_offset_desc, h.desc]
    · intro j hj
      have hjk : j ≠ k := by omega
      simp [add_outbufs_offset_maps, Function.update_noteq hjk, h.maps_hi j (by omega)]
    · intro j hj hu
      by_cases hjk : j = k
      · subst hjk
        rw [← h.fds, ← h.lpra] at hu
        rcases hu with hu | hu
        · rw [hfd] at hu; simp at hu
        · exact absurd hu hlen
      · simp [add_outbufs_offset_maps, Function.update_noteq hjk, h.maps_lo j (by omega) hu]
    · apply sized_step P inbufs k s _ (map.table.nents * sizeof_virt_fastrpc_buf) h.sums
      · intro i hi
        have hik : i ≠ k := by omega
        apply wire_len_congr
        · simp [add_outbufs_offset_maps, Function.update_noteq hik]
        · simp [add_outbufs_offset_desc]
        · simp [get_desc, add_outbufs_offset_desc]
        · simp [add_outbufs_offset_lpra]
      · simp [wire_len, add_outbufs_offset_maps]
      · simp [add_outbufs_offset_off]
      · rfl
    · simp [add_outbufs_offset_lpra, h.lpra]
    · simp [add_outbufs_offset_fds, h.fds]
    · simp [add_outbufs_offset_sc, h.sc]
    · simp [add_outbufs_offset_handle, h.handle]
    · simp [add_outbufs_offset_msg, h.msg]
  · rw [hbody]
    refine { desc := ?_, maps_hi := ?_, maps_lo := ?_, sums := ?_, lpra := ?_, fds := ?_, sc := ?_,
             handle := ?_, msg := ?_, handle_len := h.handle_len }
    · simp [add_outbufs_offset_desc, h.desc]
    · intro j hj
      simp [add_outbufs_offset_maps, h.maps_hi j (by omega)]
    · intro j hj hu
      by_cases hjk : j = k
      · subst hjk
        simp [add_outbufs_offset_maps, hmk]
      · simp [add_outbufs_offset_maps, h.maps_lo j (by omega) hu]
    · apply sized_step P inbufs k s _ (s.ctx.lpra k).len h.sums
      · intro i hi
        apply wire_len_congr
        · simp [add_outbufs_offset_maps]
        · simp [add_outbufs_offset_desc]
        · simp [get_desc, add_outbufs_offset_desc]
        · simp [add_outbufs_offset_lpra]
      · simp [wire_len, add_outbufs_offset_maps, add_outbufs_offset_desc, add_outbufs_offset_lpra,
          hmk, h.desc]
      · simp [add_outbufs_offset_off]
      · rfl
    · simp [add_outbufs_offset_lpra, h.lpra]
    · simp [add_outbufs_offset_fds, h.fds]
    · simp [add_outbufs_offset_sc, h.sc]
    · simp [add_outbufs_offset_handle, h.handle]
    · simp [add_outbufs_offset_msg, h.msg]

theorem sized_congr (P : Params) (inbufs k : Nat) (s t : get_args_st)
    (h : sized P inbufs k s)
    (hw : ∀ i, i < k → wire_len t.ctx i = wire_len s.ctx i)
    (hoff : t.ctx.outbufs_offset = s.ctx.outbufs_offset) (hcopy : t.copylen = s.copylen) :
    sized P inbufs k t := by
  obtain ⟨h1, h2⟩ := h
  refine ⟨?_, ?_⟩
  · rw [hoff, h1]
    congr 1
    apply Finset.sum_congr rfl
    intro i hi
    rw [hw i (Finset.mem_range.mp hi)]
  · rw [hcopy, h2]
    congr 1
    apply Finset.sum_congr rfl
    intro i hi
    rw [hw i (Finset.mem_range.mp hi)]

/-- The body of the handle loop changes `maps[i]`, `handle_len` and the log
only. -/
theorem handle_body_frame (P : Params) (e : Env) (i : Nat) (s : get_args_st) :
    (get_args_handle_body P e i s).2.ctx.desc = s.ctx.desc ∧
      same_call (get_args_handle_body P e i s).2.ctx s.ctx ∧
      (get_args_handle_body P e i s).2.ctx.outbufs_offset = s.ctx.outbufs_offset ∧
      (get_args_handle_body P e i s).2.copylen = s.copylen ∧
      ∀ j, j ≠ i → (get_args_handle_body P e i s).2.ctx.maps j = s.ctx.maps j := by
  unfold get_args_handle_body same_call
  dsimp only
  cases hfd : fd_given s.ctx.fds i with
  | none => simp
  | some fd =>
    dsimp only
    cases hmc : e.mmap_create i fd 0 0
        (if Nat.land (s.ctx.attrs i) P.FASTRPC_ATTR_NOMAP ≠ 0 then FASTRPC_DMAHANDLE_NOMAP else 0) with
    | error err => simp
    | ok map =>
      refine ⟨rfl, ⟨rfl, rfl, rfl, rfl, rfl⟩, rfl, rfl, ?_⟩
      intro j hj
      simp [Function.update_noteq hj]

/-- The handle loop over the indices from `bufs` on leaves the buffer
arguments as the first loop sized them. -/
theorem handle_loop_frame (P : Params) (e : Env) (bufs n : Nat) (s : get_args_st) :
    (for_loop (get_args_handle_body P e) (List.range' bufs n) s).2.ctx.desc = s.ctx.desc ∧
      same_call (for_loop (get_args_handle_body P e) (List.range' bufs n) s).2.ctx s.ctx ∧
      (for_loop (get_args_handle_body P e) (List.range' bufs n) s).2.ctx.outbufs_offset =
        s.ctx.outbufs_offset ∧
      (for_loop (get_args_handle_body P e) (List.range' bufs n) s).2.copylen = s.copylen ∧
      ∀ j, j < bufs →
        (for_loop (get_args_handle_body P e) (List.range' bufs n) s).2.ctx.maps j = s.ctx.maps j := by
  have hfr := for_loop_frame (get_args_handle_body P e)
    (fun t : get_args_st => (t.ctx.desc, t.ctx.lpra, t.ctx.fds, t.ctx.sc, t.ctx.handle, t.ctx.msg,
      t.ctx.outbufs_offset, t.copylen)) (List.range' bufs n)
    (by
      intro i _ t
      obtain ⟨h1, ⟨h2, h3, h4, h5, h6⟩, h7, h8, -⟩ := handle_body_frame P e i t
      simp only [h1, h2, h3, h4, h5, h6, h7, h8]) s
  simp only [Prod.mk.injEq] at hfr
  obtain ⟨h1, h2, h3, h4, h5, h6, h7, h8⟩ := hfr
  refine ⟨h1, ⟨h2, h3, h4, h5, h6⟩, h7, h8, ?_⟩
  intro j hj
  exact for_loop_frame (get_args_handle_body P e) (fun t : get_args_st => t.ctx.maps j)
    (List.range' bufs n)
    (by
      intro i hi t
      have hi1 : bufs ≤ i := (List.mem_range'_1.mp hi).1
      exact (handle_body_frame P e i t).2.2.2.2 j (by omega)) s

/-- The state after the two inline sizing loops of a successful run on a fresh
context. -/
theorem get_args_inline_ok (P : Params) (e : Env) (c0 : fastrpc_invoke_ctx)
    (hfresh : ctx_fresh c0) (hok : (get_args_inline P e c0).1 = 0) :
    (get_args_inline P e c0).2.ctx.desc = none ∧
      same_call (get_args_inline P e c0).2.ctx c0 ∧
      (∀ j, j < REMOTE_SCALARS_INBUFS c0.sc + REMOTE_SCALARS_OUTBUFS c0.sc →
        (fd_given c0.fds j = none ∨ (c0.lpra j).len = 0) →
        (get_args_inline P e c0).2.ctx.maps j = none) ∧
      sized P (REMOTE_SCALARS_INBUFS c0.sc)
        (REMOTE_SCALARS_INBUFS c0.sc + REMOTE_SCALARS_OUTBUFS c0.sc) (get_args_inline P e c0).2 := by
  obtain ⟨hf1, hf2, hf3, hf4⟩ := hfresh
  unfold get_args_inline at hok ⊢
  dsimp only at hok ⊢
  by_cases h1 : (for_loop (get_args_len_body P e (REMOTE_SCALARS_INBUFS c0.sc))
      (List.range' 0 (REMOTE_SCALARS_INBUFS c0.sc + REMOTE_SCALARS_OUTBUFS c0.sc))
      { ctx := c0, copylen := 0, handle_len := 0, effects := [] }).1 ≠ 0
  · rw [if_pos h1] at hok
    exact absurd hok h1
  · rw [if_neg h1] at hok ⊢
    have h10 := not_not.mp h1
    have hinv := for_loop_range_inv (get_args_len_body P e (REMOTE_SCALARS_INBUFS c0.sc))
      (len_inv P (REMOTE_SCALARS_INBUFS c0.sc) c0)
      (REMOTE_SCALARS_INBUFS c0.sc + REMOTE_SCALARS_OUTBUFS c0.sc) 0
      { ctx := c0, copylen := 0, handle_len := 0, effects := [] }
      { desc := hf2, maps_hi := fun j _ => hf3 j, maps_lo := fun j hj => absurd hj (Nat.not_lt_zero _),
        sums := ⟨by simp [hf4], by simp⟩, lpra := rfl, fds := rfl, sc := rfl, handle := rfl,
        msg := rfl, handle_len := rfl }
      (fun k t _ _ hI hb => len_inv_step P e _ c0 k t hI hb) h10
    rw [Nat.zero_add] at hinv
    obtain ⟨g1, ⟨g2, g3, g4, g5, g6⟩, g7, g8, g9⟩ := handle_loop_frame P e
      (REMOTE_SCALARS_INBUFS c0.sc + REMOTE_SCALARS_OUTBUFS c0.sc)
      (REMOTE_SCALARS_LENGTH c0.sc - (REMOTE_SCALARS_INBUFS c0.sc + REMOTE_SCALARS_OUTBUFS c0.sc))
      (for_loop (get_args_len_body P e (REMOTE_SCALARS_INBUFS c0.sc))
        (List.range' 0 (REMOTE_SCALARS_INBUFS c0.sc + REMOTE_SCALARS_OUTBUFS c0.sc))
        { ctx := c0, copylen := 0, handle_len := 0, effects := [] }).2
    refine ⟨?_, ⟨?_, ?_, ?_, ?_, ?_⟩, ?_, ?_⟩
    · rw [g1]; exact hinv.desc
    · rw [g2]; exact hinv.lpra
    · rw [g3]; exact hinv.fds
    · rw [g4]; exact hinv.sc
    · rw [g5]; exact hinv.handle
    · rw [g6]; exact hinv.msg
    · intro j hj hu
      rw [g9 j hj]
      exact hinv.maps_lo j hj hu
    · apply sized_congr P _ _ _ _ hinv.sums _ g7 g8
      intro i hi
      apply wire_len_congr
      · exact g9 i hi
      · rw [g1]
      · simp [get_desc, g1]
      · rw [g2]

/-! ### The internal-copy strategy -/

theorem set_desc_maps (ctx : fastrpc_invoke_ctx) (i : Nat) (d : fastrpc_buf_desc) :
    (set_desc ctx i d).maps = ctx.maps := rfl

theorem set_desc_lpra (ctx : fastrpc_invoke_ctx) (i : Nat) (d : fastrpc_buf_desc) :
    (set_desc ctx i d).lpra = ctx.lpra := rfl

theorem set_desc_off (ctx : fastrpc_invoke_ctx) (i : Nat) (d : fastrpc_buf_desc) :
    (set_desc ctx i d).outbufs_offset = ctx.outbufs_offset := rfl

theorem set_desc_isSome (ctx : fastrpc_invoke_ctx) (i : Nat) (d : fastrpc_buf_desc) :
    (set_desc ctx i d).desc.isSome = ctx.desc.isSome := by
  unfold set_desc
  cases ctx.desc <;> rfl

theorem get_desc_set_desc_same (ctx : fastrpc_invoke_ctx) (i : Nat) (d : fastrpc_buf_desc)
    (h : ctx.desc.isSome) : get_desc (set_desc ctx i d) i = d := by
  unfold get_desc set_desc
  cases hd : ctx.desc with
  | none => rw [hd] at h; simp at h
  | some f => simp

theorem get_desc_set_desc_ne (ctx : fastrpc_invoke_ctx) (i j : Nat) (d : fastrpc_buf_desc)
    (h : j ≠ i) : get_desc (set_desc ctx i d) j = get_desc ctx j := by
  unfold get_desc set_desc
  cases hd : ctx.desc with
  | none => simp
  | some f => simp [Function.update_noteq h]

/-- The four ways through the body of the loop of the internal-copy strategy. -/
theorem desc_body_cases (P : Params) (e : Env) (inbufs i : Nat) (s : get_args_st) :
    (∃ map, s.ctx.maps i = some map ∧
        get_args_desc_body P e inbufs i s =
          (0, { s with
            ctx := add_outbufs_offset P inbufs i (map.table.nents * sizeof_virt_fastrpc_buf)
              (set_desc s.ctx i { get_desc s.ctx i with type := FASTRPC_BUF_TYPE_ION }),
            copylen := (s.copylen + map.table.nents * sizeof_virt_fastrpc_buf) % SIZE_T_MOD })) ∨
      (s.ctx.maps i = none ∧ (s.ctx.lpra i).len < P.PAGE_SIZE ∧
        get_args_desc_body P e inbufs i s =
          (0, { s with
            ctx := add_outbufs_offset P inbufs i (s.ctx.lpra i).len
              (set_desc s.ctx i { get_desc s.ctx i with type := FASTRPC_BUF_TYPE_NORMAL }),
            copylen := (s.copylen + (s.ctx.lpra i).len) % SIZE_T_MOD })) ∨
      (s.ctx.maps i = none ∧ P.PAGE_SIZE ≤ (s.ctx.lpra i).len ∧ ∃ err : Errno,
        get_args_desc_body P e inbufs i s =
          (err.1, { s with
            ctx := set_desc s.ctx i { get_desc s.ctx i with type := FASTRPC_BUF_TYPE_INTERNAL },
            effects := s.effects ++
              [Effect.buf_alloc (PAGE_ALIGN P (s.ctx.lpra i).len % SIZE_T_MOD)] })) ∨
      (s.ctx.maps i = none ∧ P.PAGE_SIZE ≤ (s.ctx.lpra i).len ∧ ∃ buf,
        e.buf_alloc i (PAGE_ALIGN P (s.ctx.lpra i).len % SIZE_T_MOD) = Except.ok buf ∧
        get_args_desc_body P e inbufs i s =
          (0, { s with
            ctx := add_outbufs_offset P inbufs i (buf.sgt.nents * sizeof_virt_fastrpc_buf)
              (set_desc (set_desc s.ctx i
                  { get_desc s.ctx i with type := FASTRPC_BUF_TYPE_INTERNAL }) i
                { get_desc (set_desc s.ctx i
                    { get_desc s.ctx i with type := FASTRPC_BUF_TYPE_INTERNAL }) i with
                  buf := some buf }),
            copylen := (s.copylen + buf.sgt.nents * sizeof_virt_fastrpc_buf) % SIZE_T_MOD,
            effects := s.effects ++
              [Effect.buf_alloc (PAGE_ALIGN P (s.ctx.lpra i).len % SIZE_T_MOD)] })) := by
  cases hm : s.ctx.maps i with
  | some map =>
    left
    exact ⟨map, rfl, by simp [get_args_desc_body, hm]⟩
  | none =>
    right
    by_cases hlen : (s.ctx.lpra i).len < P.PAGE_SIZE
    · left
      exact ⟨rfl, hlen, by simp [get_args_desc_body, hm, hlen]⟩
    · right
      cases hb : e.buf_alloc i (PAGE_ALIGN P (s.ctx.lpra i).len % SIZE_T_MOD) with
      | error err =>
        left
        exact ⟨rfl, by omega, err, by simp [get_args_desc_body, hm, hlen, hb]⟩
      | ok buf =>
        right
        exact ⟨rfl, by omega, buf, by first | exact hb | rfl, by simp [get_args_desc_body, hm, hlen, hb]⟩

theorem wire_len_mapped (c : fastrpc_invoke_ctx) (i : Nat) (map : fastrpc_mmap)
    (hm : c.maps i = some map) :
    wire_len c i = map.table.nents * sizeof_virt_fastrpc_buf := by
  simp [wire_len, hm]

theorem wire_len_internal (c : fastrpc_invoke_ctx) (i : Nat) (buf : fastrpc_buf)
    (hm : c.maps i = none) (hs : c.desc.isSome)
    (ht : (get_desc c i).type = FASTRPC_BUF_TYPE_INTERNAL)
    (hb : (get_desc c i).buf = some buf) :
    wire_len c i = buf.sgt.nents * sizeof_virt_fastrpc_buf := by
  unfold wire_len
  rw [hm]
  dsimp only
  rw [if_pos ⟨hs, ht⟩, hb]

theorem wire_len_inline (c : fastrpc_invoke_ctx) (i : Nat) (hm : c.maps i = none)
    (hn : ¬ (c.desc.isSome ∧ (get_desc c i).type = FASTRPC_BUF_TYPE_INTERNAL)) :
    wire_len c i = (c.lpra i).len := by
  unfold wire_len
  rw [hm]
  dsimp only
  rw [if_neg hn]

theorem get_desc_congr (c1 c2 : fastrpc_invoke_ctx) (j : Nat) (h : c1.desc = c2.desc) :
    get_desc c1 j = get_desc c2 j := by
  unfold get_desc
  rw [h]

/-- One iteration of the loop of the internal-copy strategy, in general form:
the record of index `k` becomes `d`, the argument counts `L` bytes. -/
theorem desc_step_generic (P : Params) (e : Env) (inbufs k : Nat) (s : get_args_st)
    (h : desc_inv P e inbufs k s) (d : fastrpc_buf_desc) (c1 : fastrpc_invoke_ctx) (L : Nat)
    (eff : List Effect)
    (hmaps : c1.maps = s.ctx.maps) (hlpra : c1.lpra = s.ctx.lpra) (hsome : c1.desc.isSome)
    (hsame : get_desc c1 k = d) (hne : ∀ j, j ≠ k → get_desc c1 j = get_desc s.ctx j)
    (hoff : c1.outbufs_offset = s.ctx.outbufs_offset) (hwire : wire_len c1 k = L)
    (hsmall : s.ctx.maps k = none → (s.ctx.lpra k).len < P.PAGE_SIZE →
      d.type ≠ FASTRPC_BUF_TYPE_INTERNAL)
    (hlarge : s.ctx.maps k = none → P.PAGE_SIZE ≤ (s.ctx.lpra k).len →
      d.type = FASTRPC_BUF_TYPE_INTERNAL ∧ ∃ buf, d.buf = some buf ∧
        e.buf_alloc k (PAGE_ALIGN P (s.ctx.lpra k).len % SIZE_T_MOD) = Except.ok buf) :
    desc_inv P e inbufs (k + 1)
      { s with ctx := add_outbufs_offset P inbufs k L c1,
               copylen := (s.copylen + L) % SIZE_T_MOD, effects := eff } := by
  have hg : ∀ j, get_desc (add_outbufs_offset P inbufs k L c1) j = get_desc c1 j :=
    fun j => get_desc_congr _ _ j (add_outbufs_offset_desc P inbufs k L c1)
  refine { desc_some := ?_, small := ?_, large := ?_, sums := ?_ }
  · simp only [add_outbufs_offset_desc]; exact hsome
  · intro j hj hm hl
    simp only [add_outbufs_offset_maps, add_outbufs_offset_lpra, hmaps, hlpra] at hm hl
    rw [hg]
    by_cases hjk : j = k
    · subst hjk
      rw [hsame]
      exact hsmall hm hl
    · rw [hne j hjk]
      exact h.small j (by omega) hm hl
  · intro j hj hm hl
    simp only [add_outbufs_offset_maps, add_outbufs_offset_lpra, hmaps, hlpra] at hm hl ⊢
    rw [hg]
    by_cases hjk : j = k
    · subst hjk
      rw [hsame]
      exact hlarge hm hl
    · rw [hne j hjk]
      exact h.large j (by omega) hm hl
  · apply sized_step P inbufs k s _ L h.sums
    · intro i hi
      have hik : i ≠ k := by omega
      apply wire_len_congr
      · simp only [add_outbufs_offset_maps, hmaps]
      · simp only [add_outbufs_offset_desc]
        rw [Bool.eq_iff_iff]
        simp [hsome, h.desc_some]
      · rw [hg, hne i hik]
      · simp only [add_outbufs_offset_lpra, hlpra]
    · show wire_len (add_outbufs_offset P inbufs k L c1) k = L
      rw [← hwire]
      apply wire_len_congr
      · simp only [add_outbufs_offset_maps]
      · simp only [add_outbufs_offset_desc]
      · exact get_desc_congr _ _ k (add_outbufs_offset_desc P inbufs k _ c1)
      · simp only [add_outbufs_offset_lpra]
    · simp only [add_outbufs_offset_off, hoff]
    · rfl

theorem desc_inv_step (P : Params) (e : Env) (inbufs k : Nat) (s : get_args_st)
    (h : desc_inv P e inbufs k s) (hb : (get_args_desc_body P e inbufs k s).1 = 0) :
    desc_inv P e inbufs (k + 1) (get_args_desc_body P e inbufs k s).2 := by
  have hs := h.desc_some
  rcases desc_body_cases P e inbufs k s with
    ⟨map, hm, hbody⟩ | ⟨hm, hlen, hbody⟩ | ⟨hm, hlen, err, hbody⟩ | ⟨hm, hlen, buf, halloc, hbody⟩
  · rw [hbody]
    dsimp only
    apply desc_step_generic P e inbufs k s h
      { get_desc s.ctx k with type := FASTRPC_BUF_TYPE_ION }
      (set_desc s.ctx k { get_desc s.ctx k with type := FASTRPC_BUF_TYPE_ION }) _ s.effects rfl rfl
    · rw [set_desc_isSome]; exact hs
    · exact get_desc_set_desc_same _ _ _ hs
    · intro j hj; exact get_desc_set_desc_ne _ _ _ _ hj
    · rfl
    · simp [wire_len, set_desc_maps, hm]
    · intro hn; rw [hm] at hn; simp at hn
    · intro hn; rw [hm] at hn; simp at hn
  · rw [hbody]
    dsimp only
    apply desc_step_generic P e inbufs k s h
      { get_desc s.ctx k with type := FASTRPC_BUF_TYPE_NORMAL }
      (set_desc s.ctx k { get_desc s.ctx k with type := FASTRPC_BUF_TYPE_NORMAL }) _ s.effects
      rfl rfl
    · rw [set_desc_isSome]; exact hs
    · exact get_desc_set_desc_same _ _ _ hs
    · intro j hj; exact get_desc_set_desc_ne _ _ _ _ hj
    · rfl
    · simp [wire_len, set_desc_maps, hm, get_desc_set_desc_same _ _ _ hs, set_desc_lpra]
    · intro _ _; simp
    · intro _ hl; omega
  · rw [hbody] at hb
    exact absurd hb err.2
  · rw [hbody]
    have hs1 : (set_desc s.ctx k
        { get_desc s.ctx k with type := FASTRPC_BUF_TYPE_INTERNAL }).desc.isSome := by
      rw [set_desc_isSome]; exact hs
    dsimp only
    apply desc_step_generic P e inbufs k s h
      { type := FASTRPC_BUF_TYPE_INTERNAL, buf := some buf }
      (set_desc (set_desc s.ctx k
          { get_desc s.ctx k with type := FASTRPC_BUF_TYPE_INTERNAL }) k
        { get_desc (set_desc s.ctx k
            { get_desc s.ctx k with type := FASTRPC_BUF_TYPE_INTERNAL }) k with
          buf := some buf }) _ _ rfl rfl
    · rw [set_desc_isSome]; exact hs1
    · rw [get_desc_set_desc_same _ _ _ hs1, get_desc_set_desc_same _ _ _ hs]
    · intro j hj
      rw [get_desc_set_desc_ne _ _ _ _ hj, get_desc_set_desc_ne _ _ _ _ hj]
    · rfl
    · have hsome2 : (set_desc (set_desc s.ctx k
          { get_desc s.ctx k with type := FASTRPC_BUF_TYPE_INTERNAL }) k
          { get_desc (set_desc s.ctx k
              { get_desc s.ctx k with type := FASTRPC_BUF_TYPE_INTERNAL }) k with
            buf := some buf }).desc.isSome := by
        rw [set_desc_isSome]; exact hs1
      refine wire_len_internal _ _ buf ?_ hsome2 ?_ ?_
      · exact hm
      · rw [get_desc_set_desc_same _ _ _ hs1, get_desc_set_desc_same _ _ _ hs]
      · rw [get_desc_set_desc_same _ _ _ hs1]
    · intro _ hl; omega
    · intro _ _
      exact ⟨rfl, buf, rfl, halloc⟩

/-- The body of the loop of the internal-copy strategy leaves the mappings,
the caller's tables and `handle_len` alone. -/
theorem desc_body_frame (P : Params) (e : Env) (inbufs i : Nat) (s : get_args_st) :
    (get_args_desc_body P e inbufs i s).2.ctx.maps = s.ctx.maps ∧
      same_call (get_args_desc_body P e inbufs i s).2.ctx s.ctx ∧
      (get_args_desc_body P e inbufs i s).2.handle_len = s.handle_len := by
  unfold same_call
  rcases desc_body_cases P e inbufs i s with
    ⟨map, -, hbody⟩ | ⟨-, -, hbody⟩ | ⟨-, -, err, hbody⟩ | ⟨-, -, buf, -, hbody⟩ <;>
  · rw [hbody]
    simp [add_outbufs_offset_maps, add_outbufs_offset_lpra, add_outbufs_offset_fds,
      add_outbufs_offset_sc, add_outbufs_offset_handle, add_outbufs_offset_msg, set_desc]

/-- The state after a successful run of the internal-copy strategy. -/
theorem get_args_fallback_ok (P : Params) (e : Env) (s : get_args_st)
    (hok : (get_args_fallback P e s).1 = 0) :
    desc_inv P e (REMOTE_SCALARS_INBUFS s.ctx.sc)
        (REMOTE_SCALARS_INBUFS s.ctx.sc + REMOTE_SCALARS_OUTBUFS s.ctx.sc)
        (get_args_fallback P e s).2 ∧
      (get_args_fallback P e s).2.ctx.maps = s.ctx.maps ∧
      same_call (get_args_fallback P e s).2.ctx s.ctx ∧
      (get_args_fallback P e s).2.handle_len = s.handle_len := by
  unfold get_args_fallback at hok ⊢
  dsimp only at hok ⊢
  by_cases hk : ¬ e.kcalloc_desc = true
  · rw [if_pos hk] at hok
    simp [ENOMEM] at hok
  · rw [if_neg hk] at hok ⊢
    have hinv := for_loop_range_inv (get_args_desc_body P e (REMOTE_SCALARS_INBUFS s.ctx.sc))
      (desc_inv P e (REMOTE_SCALARS_INBUFS s.ctx.sc))
      (REMOTE_SCALARS_INBUFS s.ctx.sc + REMOTE_SCALARS_OUTBUFS s.ctx.sc) 0
      { ctx := { s.ctx with outbufs_offset := 0,
                            desc := some (fun _ => { type := FASTRPC_BUF_TYPE_NORMAL, buf := none }) },
        copylen := 0, handle_len := s.handle_len, effects := s.effects }
      { desc_some := rfl,
        small := fun j hj => absurd hj (Nat.not_lt_zero _),
        large := fun j hj => absurd hj (Nat.not_lt_zero _),
        sums := ⟨by simp, by simp⟩ }
      (fun k t _ _ hI hb => desc_inv_step P e _ k t hI hb) hok
    rw [Nat.zero_add] at hinv
    refine ⟨hinv, ?_⟩
    have hfr := for_loop_frame (get_args_desc_body P e (REMOTE_SCALARS_INBUFS s.ctx.sc))
      (fun t : get_args_st => (t.ctx.maps, t.ctx.lpra, t.ctx.fds, t.ctx.sc, t.ctx.handle,
        t.ctx.msg, t.handle_len))
      (List.range' 0 (REMOTE_SCALARS_INBUFS s.ctx.sc + REMOTE_SCALARS_OUTBUFS s.ctx.sc))
      (by
        intro i _ t
        obtain ⟨h1, ⟨h2, h3, h4, h5, h6⟩, h7⟩ := desc_body_frame P e
          (REMOTE_SCALARS_INBUFS s.ctx.sc) i t
        simp only [h1, h2, h3, h4, h5, h6, h7])
      { ctx := { s.ctx with outbufs_offset := 0,
                            desc := some (fun _ => { type := FASTRPC_BUF_TYPE_NORMAL, buf := none }) },
        copylen := 0, handle_len := s.handle_len, effects := s.effects }
    simp only [Prod.mk.injEq] at hfr
    obtain ⟨h1, h2, h3, h4, h5, h6, h7⟩ := hfr
    exact ⟨h1, ⟨h2, h3, h4, h5, h6⟩, h7⟩

/-! ## Building the message -/

theorem blit_below (mem : Nat → Nat) (off len : Nat) (src : Nat → Nat) (a : Nat)
    (h : a < off) : blit mem off len src a = mem a := by
  unfold blit
  rw [if_neg (by omega)]

theorem blit_at (mem : Nat → Nat) (off len : Nat) (src : Nat → Nat) (k : Nat) (h : k < len) :
    blit mem off len src (off + k) = src k := by
  unfold blit
  rw [if_pos (by omega)]
  congr 1
  omega

theorem bytes_at_congr (m1 m2 : Nat → Nat) (o1 o2 len : Nat)
    (h : ∀ k, k < len → m1 (o1 + k) = m2 (o2 + k)) :
    bytes_at m1 o1 len = bytes_at m2 o2 len := by
  unfold bytes_at
  apply List.map_congr_left
  intro k hk
  exact h k (List.mem_range.mp hk)

theorem bytes_at_blit (mem : Nat → Nat) (off len : Nat) (src : Nat → Nat) (o2 : Nat)
    (m2 : Nat → Nat) (h : ∀ k, k < len → src k = m2 (o2 + k)) :
    bytes_at (blit mem off len src) off len = bytes_at m2 o2 len := by
  apply bytes_at_congr
  intro k hk
  rw [blit_at _ _ _ _ _ hk, h k hk]

theorem put_sg_below (mem : Nat → Nat) (off index pv len a : Nat) (h : a < off) :
    put_sg mem off index pv len a = mem a := by
  unfold put_sg
  rw [blit_below _ _ _ _ _ (by omega), blit_below _ _ _ _ _ (by omega)]

theorem write_sgl_below (f : scatterlist → Nat × Nat) (off : Nat) (l : List scatterlist)
    (index : Nat) (mem : Nat → Nat) (a : Nat) (h : a < off) :
    write_sgl f off l index mem a = mem a := by
  induction l generalizing index mem with
  | nil => rfl
  | cons sg rest ih =>
    unfold write_sgl
    rw [ih, put_sg_below _ _ _ _ _ _ h]

theorem buf_like_refl (o : Option fastrpc_buf) : buf_like o o := by
  cases o <;> simp [buf_like]

theorem buf_like_trans (o1 o2 o3 : Option fastrpc_buf) (h1 : buf_like o1 o2)
    (h2 : buf_like o2 o3) : buf_like o1 o3 := by
  cases o1 <;> cases o2 <;> cases o3 <;> simp_all [buf_like]

theorem wire_len_like (c1 c2 : fastrpc_invoke_ctx) (i : Nat) (hm : c1.maps i = c2.maps i)
    (hd : c1.desc.isSome = c2.desc.isSome)
    (ht : (get_desc c1 i).type = (get_desc c2 i).type)
    (hb : buf_like (get_desc c1 i).buf (get_desc c2 i).buf)
    (hl : c1.lpra i = c2.lpra i) : wire_len c1 i = wire_len c2 i := by
  unfold wire_len
  rw [hm, hd, ht, hl]
  cases c2.maps i with
  | some map => rfl
  | none =>
    dsimp only
    split
    · cases h1 : (get_desc c1 i).buf <;> cases h2 : (get_desc c2 i).buf <;>
        simp_all [buf_like]
    · rfl

theorem sum_wire_le (c : fastrpc_invoke_ctx) (j k : Nat) (h : j ≤ k) :
    (∑ i ∈ Finset.range j, wire_len c i) ≤ ∑ i ∈ Finset.range k, wire_len c i :=
  Finset.sum_le_sum_of_subset (Finset.range_mono h)

theorem same_call_trans (c1 c2 c3 : fastrpc_invoke_ctx) (h1 : same_call c1 c2)
    (h2 : same_call c2 c3) : same_call c1 c3 := by
  obtain ⟨a1, a2, a3, a4, a5⟩ := h1
  obtain ⟨b1, b2, b3, b4, b5⟩ := h2
  exact ⟨a1.trans b1, a2.trans b2, a3.trans b3, a4.trans b4, a5.trans b5⟩

theorem same_call_refl (c : fastrpc_invoke_ctx) : same_call c c := ⟨rfl, rfl, rfl, rfl, rfl⟩

/-- The five ways through the body of the loop over the buffer arguments that
do not fail. -/
theorem buf_body_ok (e : Env) (inbufs i : Nat) (t : populate_st)
    (hb : (get_args_buf_body e inbufs i t).1 = 0) :
    (∃ map, t.ctx.maps i = some map ∧
        get_args_buf_body e inbufs i t =
          (0, { ctx := t.ctx,
                vmsg := { t.vmsg with
                  pra := Function.update t.vmsg.pra i
                    { pv := (t.ctx.lpra i).len, len := map.table.nents * sizeof_virt_fastrpc_buf },
                  payload := write_sgl sg_dma t.payload map.table.sgl 0 t.vmsg.payload },
                payload := t.payload + map.table.nents * sizeof_virt_fastrpc_buf })) ∨
      (∃ buf, t.ctx.maps i = none ∧
        (t.ctx.desc.isSome ∧ (get_desc t.ctx i).type = FASTRPC_BUF_TYPE_INTERNAL) ∧
        (get_desc t.ctx i).buf = some buf ∧
        (((i < inbufs ∧ (t.ctx.lpra i).len ≠ 0) ∧
          get_args_buf_body e inbufs i t =
            (0, { ctx := set_desc t.ctx i { get_desc t.ctx i with
                    buf := some { buf with va := (blit buf.va 0 (t.ctx.lpra i).len
                      (fun k => e.umem ((t.ctx.lpra i).pv + k))) } },
                  vmsg := { t.vmsg with
                    pra := Function.update t.vmsg.pra i
                      { pv := (t.ctx.lpra i).len, len := buf.sgt.nents * sizeof_virt_fastrpc_buf },
                    payload := write_sgl sg_phys t.payload buf.sgt.sgl 0 t.vmsg.payload },
                  payload := t.payload + buf.sgt.nents * sizeof_virt_fastrpc_buf })) ∨
         (¬ (i < inbufs ∧ (t.ctx.lpra i).len ≠ 0) ∧
          get_args_buf_body e inbufs i t =
            (0, { ctx := t.ctx,
                  vmsg := { t.vmsg with
                    pra := Function.update t.vmsg.pra i
                      { pv := (t.ctx.lpra i).len, len := buf.sgt.nents * sizeof_virt_fastrpc_buf },
                    payload := write_sgl sg_phys t.payload buf.sgt.sgl 0 t.vmsg.payload },
                  payload := t.payload + buf.sgt.nents * sizeof_virt_fastrpc_buf })))) ∨
      (t.ctx.maps i = none ∧
        ¬ (t.ctx.desc.isSome ∧ (get_desc t.ctx i).type = FASTRPC_BUF_TYPE_INTERNAL) ∧
        (((i < inbufs ∧ (t.ctx.lpra i).len ≠ 0) ∧
          get_args_buf_body e inbufs i t =
            (0, { ctx := t.ctx,
                  vmsg := { t.vmsg with
                    pra := Function.update t.vmsg.pra i { pv := 0, len := (t.ctx.lpra i).len },
                    payload := blit t.vmsg.payload t.payload (t.ctx.lpra i).len
                      (fun k => e.umem ((t.ctx.lpra i).pv + k)) },
                  payload := t.payload + (t.ctx.lpra i).len })) ∨
         (¬ (i < inbufs ∧ (t.ctx.lpra i).len ≠ 0) ∧
          get_args_buf_body e inbufs i t =
            (0, { ctx := t.ctx,
                  vmsg := { t.vmsg with
                    pra := Function.update t.vmsg.pra i { pv := 0, len := (t.ctx.lpra i).len } },
                  payload := t.payload + (t.ctx.lpra i).len })))) := by
  cases hm : t.ctx.maps i with
  | some map =>
    left
    exact ⟨map, rfl, by simp [get_args_buf_body, hm]⟩
  | none =>
    right
    by_cases hint : t.ctx.desc.isSome ∧ (get_desc t.ctx i).type = FASTRPC_BUF_TYPE_INTERNAL
    · left
      cases hbuf : (get_desc t.ctx i).buf with
      | none =>
        exfalso
        simp [get_args_buf_body, hm, hint, hbuf, EFAULT] at hb
      | some buf =>
        refine ⟨buf, rfl, hint, by first | exact hbuf | rfl, ?_⟩
        by_cases hc : i < inbufs ∧ (t.ctx.lpra i).len ≠ 0
        · left
          refine ⟨hc, ?_⟩
          by_cases hr : e.user_read_ok (t.ctx.lpra i).pv (t.ctx.lpra i).len = true
          · simp [get_args_buf_body, hm, hint, hbuf, hc, hr]
          · exfalso
            simp [get_args_buf_body, hm, hint, hbuf, hc, hr, VERIFY] at hb
        · right
          refine ⟨hc, ?_⟩
          simp only [get_args_buf_body, hm, hint, hbuf, hc, and_self, if_true, if_false]
    · right
      refine ⟨rfl, hint, ?_⟩
      by_cases hc : i < inbufs ∧ (t.ctx.lpra i).len ≠ 0
      · left
        refine ⟨hc, ?_⟩
        by_cases hr : e.user_read_ok (t.ctx.lpra i).pv (t.ctx.lpra i).len = true
        · have hc1 := hc.1
          have hc2 := hc.2
          simp [get_args_buf_body, hm, hint, hc1, hc2, hr]
        · exfalso
          simp [get_args_buf_body, hm, hint, hc, hr, VERIFY] at hb
      · right
        refine ⟨hc, ?_⟩
        simp only [get_args_buf_body, hm, hint, hc, if_false]

/-- One iteration of the loop over the buffer arguments, in general form:
the context becomes `ctx1`, the message `vmsg1`, and the pointer `payload`
advances by `L`. -/
theorem pop_step_generic (e : Env) (inbufs : Nat) (c : fastrpc_invoke_ctx) (k : Nat)
    (t : populate_st) (h : pop_inv e inbufs c k t)
    (ctx1 : fastrpc_invoke_ctx) (vmsg1 : virt_invoke_msg) (L : Nat)
    (hmaps : ctx1.maps = t.ctx.maps) (hcall : same_call ctx1 t.ctx)
    (hoff : ctx1.outbufs_offset = t.ctx.outbufs_offset)
    (hsome : ctx1.desc.isSome = t.ctx.desc.isSome)
    (htype : ∀ j, (get_desc ctx1 j).type = (get_desc t.ctx j).type)
    (hbuf : ∀ j, buf_like (get_desc ctx1 j).buf (get_desc t.ctx j).buf)
    (hkeep : ∀ j, j ≠ k → (get_desc ctx1 j).buf = (get_desc t.ctx j).buf)
    (hprak : (vmsg1.pra k).len = L) (hprane : ∀ j, j ≠ k → vmsg1.pra j = t.vmsg.pra j)
    (hL : wire_len c k = L)
    (hframe : ∀ a, a < t.payload → vmsg1.payload a = t.vmsg.payload a)
    (hinl : k < inbufs → is_inline c k →
      bytes_at vmsg1.payload t.payload (c.lpra k).len =
        bytes_at e.umem (c.lpra k).pv (c.lpra k).len)
    (hint : k < inbufs → is_internal c k →
      ∃ b, (get_desc ctx1 k).buf = some b ∧
        bytes_at b.va 0 (c.lpra k).len = bytes_at e.umem (c.lpra k).pv (c.lpra k).len) :
    pop_inv e inbufs c (k + 1) { ctx := ctx1, vmsg := vmsg1, payload := t.payload + L } := by
  refine { maps := hmaps.trans h.maps, call := same_call_trans _ _ _ hcall h.call,
           off := hoff.trans h.off, desc_some := hsome.trans h.desc_some,
           dtype := fun j => (htype j).trans (h.dtype j),
           dbuf := fun j => buf_like_trans _ _ _ (hbuf j) (h.dbuf j),
           pra := ?_, pos := ?_, inline_bytes := ?_, internal_bytes := ?_ }
  · intro j hj
    by_cases hjk : j = k
    · subst hjk
      show (vmsg1.pra j).len = wire_len c j
      rw [hprak, hL]
    · show (vmsg1.pra j).len = wire_len c j
      rw [hprane j hjk]
      exact h.pra j (by omega)
  · show t.payload + L = _
    rw [Finset.sum_range_succ, h.pos, hL]
  · intro j hj hji hin
    show bytes_at vmsg1.payload _ _ = _
    by_cases hjk : j = k
    · subst hjk
      rw [← h.pos]
      exact hinl hji hin
    · have hjk1 : j < k := by omega
      rw [← h.inline_bytes j hjk1 hji hin]
      apply bytes_at_congr
      intro idx hidx
      apply hframe
      have hw : wire_len c j = (c.lpra j).len := wire_len_inline c j hin.1 hin.2
      have hle := sum_wire_le c (j + 1) k (by omega)
      rw [Finset.sum_range_succ, hw] at hle
      rw [h.pos]
      omega
  · intro j hj hji hin
    show ∃ b, (get_desc ctx1 j).buf = some b ∧ _
    by_cases hjk : j = k
    · subst hjk
      exact hint hji hin
    · rw [hkeep j hjk]
      exact h.internal_bytes j (by omega) hji hin

theorem pop_inv_step (e : Env) (inbufs : Nat) (c : fastrpc_invoke_ctx) (k : Nat)
    (t : populate_st) (h : pop_inv e inbufs c k t)
    (hb : (get_args_buf_body e inbufs k t).1 = 0) :
    pop_inv e inbufs c (k + 1) (get_args_buf_body e inbufs k t).2 := by
  have hlpra : t.ctx.lpra = c.lpra := h.call.1
  rcases buf_body_ok e inbufs k t hb with
    ⟨map, hm, hbody⟩ | ⟨buf, hm, hint, hbuf, ⟨hc, hbody⟩ | ⟨hc, hbody⟩⟩ |
    ⟨hm, hint, ⟨hc, hbody⟩ | ⟨hc, hbody⟩⟩
  · -- mapped
    rw [hbody]
    dsimp only
    have hcm : c.maps k = some map := by rw [← h.maps]; exact hm
    apply pop_step_generic e inbufs c k t h t.ctx _ _ rfl (same_call_refl _) rfl rfl
      (fun _ => rfl) (fun _ => buf_like_refl _) (fun _ _ => rfl)
    · simp
    · intro j hj
      simp [Function.update_noteq hj]
    · exact wire_len_mapped c k map hcm
    · intro a ha
      dsimp only
      exact write_sgl_below _ _ _ _ _ _ ha
    · intro _ hin
      rw [hin.1] at hcm
      simp at hcm
    · intro _ hin
      rw [hin.1] at hcm
      simp at hcm
  · -- internal copy, input bytes copied
    rw [hbody]
    dsimp only
    have hcm : c.maps k = none := by rw [← h.maps]; exact hm
    have hs : t.ctx.desc.isSome := hint.1
    have hlike := h.dbuf k
    rw [hbuf] at hlike
    obtain ⟨b0, hb0, hsgt⟩ : ∃ b0, (get_desc c k).buf = some b0 ∧ buf.sgt = b0.sgt := by
      cases hcb : (get_desc c k).buf with
      | none => rw [hcb] at hlike; simp [buf_like] at hlike
      | some b0 => rw [hcb] at hlike; exact ⟨b0, rfl, hlike.1⟩
    apply pop_step_generic e inbufs c k t h
      (set_desc t.ctx k { get_desc t.ctx k with
        buf := some { buf with va := (blit buf.va 0 (t.ctx.lpra k).len
          (fun idx => e.umem ((t.ctx.lpra k).pv + idx))) } }) _ _ rfl (same_call_refl _) rfl
    · exact set_desc_isSome _ _ _
    · intro j
      by_cases hjk : j = k
      · subst hjk; rw [get_desc_set_desc_same _ _ _ hs]
      · rw [get_desc_set_desc_ne _ _ _ _ hjk]
    · intro j
      by_cases hjk : j = k
      · subst hjk
        rw [get_desc_set_desc_same _ _ _ hs, hbuf]
        simp [buf_like]
      · rw [get_desc_set_desc_ne _ _ _ _ hjk]
        exact buf_like_refl _
    · intro j hjk
      rw [get_desc_set_desc_ne _ _ _ _ hjk]
    · simp
    · intro j hj
      simp [Function.update_noteq hj]
    · rw [wire_len_internal c k b0 hcm (by rw [← h.desc_some]; exact hs)
        (by rw [← h.dtype]; exact hint.2) hb0, sg_table.nents, sg_table.nents, hsgt]
    · intro a ha
      dsimp only
      exact write_sgl_below _ _ _ _ _ _ ha
    · intro _ hin
      exact absurd ⟨by rw [← h.desc_some]; exact hs, by rw [← h.dtype]; exact hint.2⟩ hin.2
    · intro _ _
      rw [get_desc_set_desc_same _ _ _ hs]
      refine ⟨_, rfl, ?_⟩
      rw [← hlpra]
      dsimp only
      apply bytes_at_blit
      intro idx _
      rfl
  · -- internal copy, nothing to copy
    rw [hbody]
    dsimp only
    have hcm : c.maps k = none := by rw [← h.maps]; exact hm
    have hs : t.ctx.desc.isSome := hint.1
    have hlike := h.dbuf k
    rw [hbuf] at hlike
    obtain ⟨b0, hb0, hsgt⟩ : ∃ b0, (get_desc c k).buf = some b0 ∧ buf.sgt = b0.sgt := by
      cases hcb : (get_desc c k).buf with
      | none => rw [hcb] at hlike; simp [buf_like] at hlike
      | some b0 => rw [hcb] at hlike; exact ⟨b0, rfl, hlike.1⟩
    apply pop_step_generic e inbufs c k t h t.ctx _ _ rfl (same_call_refl _) rfl rfl
      (fun _ => rfl) (fun _ => buf_like_refl _) (fun _ _ => rfl)
    · simp
    · intro j hj
      simp [Function.update_noteq hj]
    · rw [wire_len_internal c k b0 hcm (by rw [← h.desc_some]; exact hs)
        (by rw [← h.dtype]; exact hint.2) hb0, sg_table.nents, sg_table.nents, hsgt]
    · intro a ha
      dsimp only
      exact write_sgl_below _ _ _ _ _ _ ha
    · intro _ hin
      exact absurd ⟨by rw [← h.desc_some]; exact hs, by rw [← h.dtype]; exact hint.2⟩ hin.2
    · intro hki _
      have hlen : (c.lpra k).len = 0 := by
        rw [← hlpra]
        by_contra hne
        exact hc ⟨hki, hne⟩
      refine ⟨buf, hbuf, ?_⟩
      rw [hlen]
      rfl
  · -- inline, input bytes copied
    rw [hbody]
    dsimp only
    have hcm : c.maps k = none := by rw [← h.maps]; exact hm
    have hcin : ¬ (c.desc.isSome ∧ (get_desc c k).type = FASTRPC_BUF_TYPE_INTERNAL) := by
      rw [← h.desc_some, ← h.dtype]; exact hint
    apply pop_step_generic e inbufs c k t h t.ctx _ _ rfl (same_call_refl _) rfl rfl
      (fun _ => rfl) (fun _ => buf_like_refl _) (fun _ _ => rfl)
    · simp
    · intro j hj
      simp [Function.update_noteq hj]
    · rw [wire_len_inline c k hcm hcin, hlpra]
    · intro a ha
      dsimp only
      exact blit_below _ _ _ _ _ ha
    · intro _ _
      rw [← hlpra]
      dsimp only
      apply bytes_at_blit
      intro idx _
      rfl
    · intro _ hin
      exact absurd ⟨hin.2.1, hin.2.2⟩ hcin
  · -- inline, nothing to copy
    rw [hbody]
    dsimp only
    have hcm : c.maps k = none := by rw [← h.maps]; exact hm
    have hcin : ¬ (c.desc.isSome ∧ (get_desc c k).type = FASTRPC_BUF_TYPE_INTERNAL) := by
      rw [← h.desc_some, ← h.dtype]; exact hint
    apply pop_step_generic e inbufs c k t h t.ctx _ _ rfl (same_call_refl _) rfl rfl
      (fun _ => rfl) (fun _ => buf_like_refl _) (fun _ _ => rfl)
    · simp
    · intro j hj
      simp [Function.update_noteq hj]
    · rw [wire_len_inline c k hcm hcin, hlpra]
    · intro a _
      rfl
    · intro hki _
      have hlen : (c.lpra k).len = 0 := by
        rw [← hlpra]
        by_contra hne
        exact hc ⟨hki, hne⟩
      rw [hlen]
      rfl
    · intro _ hin
      exact absurd ⟨hin.2.1, hin.2.2⟩ hcin

theorem dma_body_rel (bufs i : Nat) (t0 t : populate_st) (h : dma_rel bufs t0 t)
    (hi : bufs ≤ i) : dma_rel bufs t0 (get_args_dma_body bufs i t).2 := by
  obtain ⟨h1, h2, h3, h4⟩ := h
  unfold get_args_dma_body
  split
  · rename_i fds map _ _
    refine ⟨h1, ?_, ?_, ?_⟩
    · intro j hj
      have hji : j ≠ i := by omega
      dsimp only
      rw [Function.update_noteq hji]
      exact h2 j hj
    · intro a ha
      dsimp only
      rw [write_sgl_below _ _ _ _ _ _ (by omega)]
      exact h3 a ha
    · dsimp only
      omega
  · exact ⟨h1, h2, h3, h4⟩

theorem dma_body_ok (bufs i : Nat) (t : populate_st) : (get_args_dma_body bufs i t).1 = 0 := by
  unfold get_args_dma_body
  split <;> rfl

theorem for_loop_all_ok {σ : Type} (body : Nat → σ → Int × σ) (is : List Nat) (s : σ)
    (h : ∀ i t, (body i t).1 = 0) : (for_loop body is s).1 = 0 := by
  induction is generalizing s with
  | nil => rfl
  | cons i is ih =>
    rw [for_loop_cons, if_neg (by rw [h i s]; simp)]
    exact ih _

theorem dma_loop_rel (bufs n : Nat) (t0 : populate_st) :
    dma_rel bufs t0 (for_loop (get_args_dma_body bufs) (List.range' bufs n) t0).2 := by
  have := for_loop_range_inv (get_args_dma_body bufs) (fun _ t => dma_rel bufs t0 t) n bufs t0
    ⟨rfl, fun _ _ => rfl, fun _ _ => rfl, le_refl _⟩
    (fun k t hk _ hI _ => dma_body_rel bufs k t0 t hI hk)
    (for_loop_all_ok _ _ _ (dma_body_ok bufs))
  exact this

/-- The state after the sizing part of a successful `get_args` on a fresh
context, under either strategy. -/
theorem get_args_size_ok (P : Params) (e : Env) (fl : fastrpc_file) (c0 : fastrpc_invoke_ctx)
    (hfresh : ctx_fresh c0) (hok : (get_args_size P e fl c0).1 = 0) :
    same_call (get_args_size P e fl c0).2.1.ctx c0 ∧
      (∀ j, j < REMOTE_SCALARS_INBUFS c0.sc + REMOTE_SCALARS_OUTBUFS c0.sc →
        (fd_given c0.fds j = none ∨ (c0.lpra j).len = 0) →
        (get_args_size P e fl c0).2.1.ctx.maps j = none) ∧
      sized P (REMOTE_SCALARS_INBUFS c0.sc)
        (REMOTE_SCALARS_INBUFS c0.sc + REMOTE_SCALARS_OUTBUFS c0.sc) (get_args_size P e fl c0).2.1 ∧
      (get_args_size P e fl c0).2.2 = wire_size P (get_args_size P e fl c0).2.1 ∧
      (get_args_inline P e c0).1 = 0 ∧
      ((¬ ((inline_size P e c0 : Int) > fl.apps.buf_size) ∧
          (get_args_size P e fl c0).2.1 = (get_args_inline P e c0).2 ∧
          (get_args_size P e fl c0).2.1.ctx.desc = none) ∨
        ((inline_size P e c0 : Int) > fl.apps.buf_size ∧
          (get_args_size P e fl c0).2.1 = (get_args_fallback P e (get_args_inline P e c0).2).2 ∧
          desc_inv P e (REMOTE_SCALARS_INBUFS c0.sc)
            (REMOTE_SCALARS_INBUFS c0.sc + REMOTE_SCALARS_OUTBUFS c0.sc)
            (get_args_size P e fl c0).2.1)) := by
  unfold get_args_size at hok ⊢
  dsimp only at hok ⊢
  by_cases h1 : (get_args_inline P e c0).1 ≠ 0
  · rw [if_pos h1] at hok
    exact absurd hok h1
  · rw [if_neg h1] at hok ⊢
    have h10 := not_not.mp h1
    obtain ⟨i1, i2, i3, i4⟩ := get_args_inline_ok P e c0 hfresh h10
    by_cases h2 : (wire_size P (get_args_inline P e c0).2 : Int) > fl.apps.buf_size
    · rw [if_pos h2] at hok ⊢
      dsimp only at hok ⊢
      obtain ⟨f1, f2, f3, f4⟩ := get_args_fallback_ok P e (get_args_inline P e c0).2 hok
      have hsc : (get_args_inline P e c0).2.ctx.sc = c0.sc := i2.2.2.1
      rw [hsc] at f1
      refine ⟨same_call_trans _ _ _ f3 i2, ?_, f1.sums, rfl, h10, Or.inr ⟨h2, rfl, f1⟩⟩
      intro j hj hu
      rw [f2]
      exact i3 j hj hu
    · rw [if_neg h2]
      exact ⟨i2, i3, i4, rfl, h10, Or.inl ⟨h2, rfl, i1⟩⟩

theorem populate_bufs_ok (e : Env) (c : fastrpc_invoke_ctx) (vmsg0 : virt_invoke_msg)
    (hok : (populate_bufs e c vmsg0).1 = 0) :
    pop_inv e (REMOTE_SCALARS_INBUFS c.sc) c
      (REMOTE_SCALARS_INBUFS c.sc + REMOTE_SCALARS_OUTBUFS c.sc) (populate_bufs e c vmsg0).2 := by
  have := for_loop_range_inv (get_args_buf_body e (REMOTE_SCALARS_INBUFS c.sc))
    (pop_inv e (REMOTE_SCALARS_INBUFS c.sc) c)
    (REMOTE_SCALARS_INBUFS c.sc + REMOTE_SCALARS_OUTBUFS c.sc) 0
    { ctx := c, vmsg := vmsg0, payload := 0 }
    { maps := rfl, call := same_call_refl _, off := rfl, desc_some := rfl,
      dtype := fun _ => rfl, dbuf := fun _ => buf_like_refl _,
      pra := fun j hj => absurd hj (Nat.not_lt_zero _), pos := by simp,
      inline_bytes := fun j hj => absurd hj (Nat.not_lt_zero _),
      internal_bytes := fun j hj => absurd hj (Nat.not_lt_zero _) }
    (fun k t _ _ hI hb => pop_inv_step e _ c k t hI hb) hok
  rw [Nat.zero_add] at this
  exact this

/-- A successful `get_args` on a fresh context has sized the arguments,
obtained a slot and run both populate loops to their end. -/
theorem get_args_ok (P : Params) (e : Env) (fl : fastrpc_file) (c0 : fastrpc_invoke_ctx)
    (hfresh : ctx_fresh c0) (hok : (get_args P e fl c0).err = 0) :
    ∃ s size msg t0 t, marshalled P e fl c0 s size msg t0 t := by
  have hok0 := hok
  unfold get_args at hok
  dsimp only at hok
  by_cases h1 : (get_args_size P e fl c0).1 ≠ 0
  · rw [if_pos h1] at hok
    exact absurd hok h1
  · rw [if_neg h1] at hok
    have h10 := not_not.mp h1
    have hsc : (get_args_size P e fl c0).2.1.ctx.sc = c0.sc :=
      (get_args_size_ok P e fl c0 hfresh h10).1.2.2.1
    rcases hva : virt_alloc_msg P fl.apps (int_of_bits32 (get_args_size P e fl c0).2.2)
        e.kzalloc_msg e.get_a_tx_buf with ⟨_ | msg, me⟩
    · rw [hva] at hok
      simp [ENOMEM] at hok
    · rw [hva] at hok
      dsimp only at hok
      cases htx : msg.txbuf with
      | none =>
        rw [htx] at hok
        simp [EFAULT] at hok
      | some buf =>
        rw [htx] at hok
        dsimp only at hok
        unfold get_args_populate at hok
        dsimp only at hok
        by_cases h4 : (populate_bufs e (get_args_size P e fl c0).2.1.ctx
            (invoke_msg_init e fl (get_args_size P e fl c0).2.1.ctx msg.msgid
              (get_args_size P e fl c0).2.2 buf)).1 ≠ 0
        · rw [if_pos h4] at hok
          exact absurd hok h4
        · have h40 := not_not.mp h4
          have hpop := populate_bufs_ok e _ _ h40
          rw [hsc] at hpop
          have hdma := dma_loop_rel
            (REMOTE_SCALARS_INBUFS c0.sc + REMOTE_SCALARS_OUTBUFS c0.sc)
            (REMOTE_SCALARS_LENGTH c0.sc -
              (REMOTE_SCALARS_INBUFS c0.sc + REMOTE_SCALARS_OUTBUFS c0.sc))
            (populate_bufs e (get_args_size P e fl c0).2.1.ctx
              (invoke_msg_init e fl (get_args_size P e fl c0).2.1.ctx msg.msgid
                (get_args_size P e fl c0).2.2 buf)).2
          refine ⟨(get_args_size P e fl c0).2.1, (get_args_size P e fl c0).2.2, msg, _, _,
            { sizing := ?_, slot := ?_, sc := hsc, buffers := hpop, handles := hdma,
              ctx := ?_, payload_end := ?_ }⟩
          · rw [← h10]
          · rw [hva]
          · unfold get_args
            dsimp only
            rw [if_neg h1, hva]
            dsimp only
            rw [htx]
            dsimp only
            unfold get_args_populate
            dsimp only
            rw [if_neg h4, hsc]
          · unfold get_args
            dsimp only
            rw [if_neg h1, hva]
            dsimp only
            rw [htx]
            dsimp only
            unfold get_args_populate
            dsimp only
            rw [if_neg h4, hsc]

/-! ## Unmarshalling: the output buffers -/

/-- The three ways through the body of the output loop of `put_args` that do
not fail. -/
theorem put_out_ok (e : Env) (rsp : virt_invoke_msg) (i : Nat) (s : put_args_st)
    (hb : (put_args_out_body e rsp i s).1 = 0) :
    (∃ map, s.ctx.maps i = some map ∧
        put_args_out_body e rsp i s =
          (0, { ctx := { s.ctx with maps := Function.update s.ctx.maps i none },
                payload := s.payload + (rsp.pra i).len,
                effects := s.effects ++ [Effect.mmap_free (some map) 0] })) ∨
      (∃ buf, is_internal s.ctx i ∧ (get_desc s.ctx i).buf = some buf ∧
        put_args_out_body e rsp i s =
          (0, { ctx := s.ctx,
                payload := s.payload + (rsp.pra i).len,
                effects := s.effects ++
                  [Effect.copy_to_user (s.ctx.lpra i).pv
                    (bytes_at buf.va 0 (s.ctx.lpra i).len)] })) ∨
      (is_inline s.ctx i ∧
        put_args_out_body e rsp i s =
          (0, { ctx := s.ctx,
                payload := s.payload + (rsp.pra i).len,
                effects := s.effects ++
                  [Effect.copy_to_user (s.ctx.lpra i).pv
                    (bytes_at rsp.payload s.payload (rsp.pra i).len)] })) := by
  cases hm : s.ctx.maps i with
  | some map =>
    left
    exact ⟨map, rfl, by simp [put_args_out_body, hm]⟩
  | none =>
    right
    by_cases hint : s.ctx.desc.isSome ∧ (get_desc s.ctx i).type = FASTRPC_BUF_TYPE_INTERNAL
    · left
      cases hbuf : (get_desc s.ctx i).buf with
      | none =>
        exfalso
        simp [put_args_out_body, hm, hint, hbuf, EFAULT] at hb
      | some buf =>
        refine ⟨buf, ⟨hm, hint.1, hint.2⟩, by first | exact hbuf | rfl, ?_⟩
        by_cases hw : e.user_write_ok (s.ctx.lpra i).pv (s.ctx.lpra i).len = true
        · simp [put_args_out_body, hm, hint, hbuf, hw]
        · exfalso
          simp [put_args_out_body, hm, hint, hbuf, hw, VERIFY] at hb
    · right
      refine ⟨⟨hm, hint⟩, ?_⟩
      by_cases hw : e.user_write_ok (s.ctx.lpra i).pv (rsp.pra i).len = true
      · simp [put_args_out_body, hm, hint, hw]
      · exfalso
        simp [put_args_out_body, hm, hint, hw, VERIFY] at hb

/-- What one iteration of the output loop keeps: the descriptor array, the
caller's table, mappings that are already absent, and the calls logged so
far. -/
theorem put_out_frame (e : Env) (rsp : virt_invoke_msg) (i : Nat) (s : put_args_st)
    (hb : (put_args_out_body e rsp i s).1 = 0) :
    (put_args_out_body e rsp i s).2.ctx.desc = s.ctx.desc ∧
      (put_args_out_body e rsp i s).2.ctx.lpra = s.ctx.lpra ∧
      (∀ j, s.ctx.maps j = none → (put_args_out_body e rsp i s).2.ctx.maps j = none) ∧
      (∀ x, x ∈ s.effects → x ∈ (put_args_out_body e rsp i s).2.effects) ∧
      (put_args_out_body e rsp i s).2.payload = s.payload + (rsp.pra i).len := by
  rcases put_out_ok e rsp i s hb with ⟨map, -, hbody⟩ | ⟨buf, -, -, hbody⟩ | ⟨-, hbody⟩
  · rw [hbody]
    refine ⟨rfl, rfl, ?_, ?_, rfl⟩
    · intro j hj
      by_cases hji : j = i
      · subst hji; simp
      · simp [Function.update_noteq hji, hj]
    · intro x hx
      exact List.mem_append_left _ hx
  · rw [hbody]
    exact ⟨rfl, rfl, fun _ hj => hj, fun x hx => List.mem_append_left _ hx, rfl⟩
  · rw [hbody]
    exact ⟨rfl, rfl, fun _ hj => hj, fun x hx => List.mem_append_left _ hx, rfl⟩

theorem for_loop_ok_cons {σ : Type} (body : Nat → σ → Int × σ) (i : Nat) (is : List Nat)
    (s : σ) (hok : (for_loop body (i :: is) s).1 = 0) :
    (body i s).1 = 0 ∧ for_loop body (i :: is) s = for_loop body is (body i s).2 := by
  rw [for_loop_cons] at hok ⊢
  by_cases hb : (body i s).1 ≠ 0
  · rw [if_pos hb] at hok
    exact absurd hok hb
  · rw [if_neg hb]
    exact ⟨not_not.mp hb, rfl⟩

/-- Calls logged before the output loop are still in the log after it. -/
theorem put_out_loop_mono (e : Env) (rsp : virt_invoke_msg) (is : List Nat) (s : put_args_st)
    (hok : (for_loop (put_args_out_body e rsp) is s).1 = 0) :
    ∀ x, x ∈ s.effects → x ∈ (for_loop (put_args_out_body e rsp) is s).2.effects := by
  induction is generalizing s with
  | nil => intro x hx; exact hx
  | cons i is ih =>
    obtain ⟨hb, heq⟩ := for_loop_ok_cons _ i is s hok
    rw [heq] at hok ⊢
    intro x hx
    exact ih _ hok x ((put_out_frame e rsp i s hb).2.2.2.1 x hx)

/-- An internal-copy output argument inside the range of the output loop is
copied back to the caller from its internal buffer. -/
theorem put_out_loop_internal (e : Env) (rsp : virt_invoke_msg) (n a : Nat) (s : put_args_st)
    (i : Nat) (b : fastrpc_buf) (hi1 : a ≤ i) (hi2 : i < a + n) (hint : is_internal s.ctx i)
    (hbuf : (get_desc s.ctx i).buf = some b)
    (hok : (for_loop (put_args_out_body e rsp) (List.range' a n) s).1 = 0) :
    Effect.copy_to_user (s.ctx.lpra i).pv (bytes_at b.va 0 (s.ctx.lpra i).len) ∈
      (for_loop (put_args_out_body e rsp) (List.range' a n) s).2.effects := by
  induction n generalizing a s with
  | zero => omega
  | succ n ih =>
    rw [List.range'_succ] at hok ⊢
    obtain ⟨hb, heq⟩ := for_loop_ok_cons _ a _ s hok
    rw [heq] at hok ⊢
    by_cases hia : i = a
    · subst hia
      apply put_out_loop_mono e rsp _ _ hok
      rcases put_out_ok e rsp i s hb with ⟨map, hm, -⟩ | ⟨buf, -, hbuf2, hbody⟩ | ⟨hinl, -⟩
      · rw [hint.1] at hm; simp at hm
      · rw [hbody]
        rw [hbuf] at hbuf2
        simp only [Option.some.injEq] at hbuf2
        subst hbuf2
        simp
      · exact absurd ⟨hint.2.1, hint.2.2⟩ hinl.2
    · obtain ⟨f1, f2, f3, -, -⟩ := put_out_frame e rsp a s hb
      have hint1 : is_internal (put_args_out_body e rsp a s).2.ctx i := by
        refine ⟨f3 i hint.1, ?_, ?_⟩
        · rw [f1]; exact hint.2.1
        · rw [get_desc_congr _ _ i f1]; exact hint.2.2
      have hbuf1 : (get_desc (put_args_out_body e rsp a s).2.ctx i).buf = some b := by
        rw [get_desc_congr _ _ i f1]; exact hbuf
      have := ih (a + 1) (put_args_out_body e rsp a s).2 (by omega) (by omega) hint1 hbuf1 hok
      rw [f2] at this
      exact this

theorem sum_shift (f : Nat → Nat) (a k : Nat) :
    (∑ i ∈ Finset.range (k + 1), f (a + i)) = f a + ∑ i ∈ Finset.range k, f (a + 1 + i) := by
  rw [Finset.sum_range_succ', Nat.add_zero, Nat.add_comm]
  congr 1
  apply Finset.sum_congr rfl
  intro i _
  congr 1
  omega

/-- On the inline path (no descriptor array, no mapping in the range) the
output loop copies, for each index in order, `rpra[i].len` bytes of the reply
payload, starting where the previous argument ended. -/
theorem put_out_loop_inline (e : Env) (rsp : virt_invoke_msg) (n a : Nat) (s : put_args_st)
    (hm : ∀ j, a ≤ j → j < a + n → s.ctx.maps j = none) (hd : s.ctx.desc = none)
    (hok : (for_loop (put_args_out_body e rsp) (List.range' a n) s).1 = 0) :
    (for_loop (put_args_out_body e rsp) (List.range' a n) s).2.effects =
        s.effects ++ (List.range n).map (fun k =>
          Effect.copy_to_user (s.ctx.lpra (a + k)).pv
            (bytes_at rsp.payload (s.payload + ∑ i ∈ Finset.range k, (rsp.pra (a + i)).len)
              (rsp.pra (a + k)).len)) ∧
      (for_loop (put_args_out_body e rsp) (List.range' a n) s).2.ctx = s.ctx := by
  induction n generalizing a s with
  | zero => simp [for_loop]
  | succ n ih =>
    rw [List.range'_succ] at hok ⊢
    obtain ⟨hb, heq⟩ := for_loop_ok_cons _ a _ s hok
    rw [heq] at hok ⊢
    rcases put_out_ok e rsp a s hb with ⟨map, hma, -⟩ | ⟨buf, hint, -, -⟩ | ⟨-, hbody⟩
    · rw [hm a (le_refl _) (by omega)] at hma; simp at hma
    · have := hint.2.1
      rw [hd] at this
      simp at this
    · rw [hbody] at hok ⊢
      dsimp only at hok ⊢
      obtain ⟨ih1, ih2⟩ := ih (a + 1)
        { ctx := s.ctx, payload := s.payload + (rsp.pra a).len,
          effects := s.effects ++
            [Effect.copy_to_user (s.ctx.lpra a).pv
              (bytes_at rsp.payload s.payload (rsp.pra a).len)] }
        (fun j hj1 hj2 => hm j (by omega) (by omega)) hd hok
      refine ⟨?_, ih2⟩
      rw [ih1, List.range_succ_eq_map, List.map_cons, List.map_map, List.append_assoc]
      congr 1
      simp only [List.singleton_append, Finset.range_zero, Finset.sum_empty, Nat.add_zero]
      congr 1
      apply List.map_congr_left
      intro k _
      simp only [Function.comp]
      have e1 : a + 1 + k = a + (k + 1) := by omega
      have e2 : s.payload + (rsp.pra a).len + ∑ i ∈ Finset.range k, (rsp.pra (a + 1 + i)).len =
          s.payload + ∑ i ∈ Finset.range (k + 1), (rsp.pra (a + i)).len := by
        rw [sum_shift (fun j => (rsp.pra j).len) a k]
        omega
      rw [e1, e2]

/-! ## The marshalled message -/

/-- The message found in the slot of the context after a successful `get_args`
is the one the populate loops built. -/
theorem marshalled_vmsg (P : Params) (e : Env) (fl : fastrpc_file) (c0 : fastrpc_invoke_ctx)
    (s : get_args_st) (size : Nat) (msg0 : virt_fastrpc_msg) (t0 t : populate_st)
    (m : marshalled P e fl c0 s size msg0 t0 t) (msg : virt_fastrpc_msg) (vmsg : virt_invoke_msg)
    (hmsg : (get_args P e fl c0).ctx.msg = some msg) (htx : msg.txbuf = some vmsg) :
    vmsg = t.vmsg ∧ msg.ptr = msg0.ptr ∧ msg.msgid = msg0.msgid := by
  rw [m.ctx] at hmsg
  simp only [Option.some.injEq] at hmsg
  subst hmsg
  simp only [Option.some.injEq] at htx
  exact ⟨htx.symm, rfl, rfl⟩

/-- The records of the buffer arguments in the built message carry the wire
lengths of the sized context. -/
theorem marshalled_pra (P : Params) (e : Env) (fl : fastrpc_file) (c0 : fastrpc_invoke_ctx)
    (s : get_args_st) (size : Nat) (msg0 : virt_fastrpc_msg) (t0 t : populate_st)
    (m : marshalled P e fl c0 s size msg0 t0 t) (i : Nat)
    (hi : i < REMOTE_SCALARS_INBUFS c0.sc + REMOTE_SCALARS_OUTBUFS c0.sc) :
    (t.vmsg.pra i).len = wire_len s.ctx i := by
  rw [m.handles.2.1 i hi]
  exact m.buffers.pra i hi

/-- After a successful `get_args` on a fresh context, `outbufs_offset` is the
sum of the lengths written to `rpra[i].len` for the input buffers, reduced
modulo the width of the field. -/
theorem get_args_outbufs_offset_mod (P : Params) (e : Env) (fl : fastrpc_file)
    (c0 : fastrpc_invoke_ctx) (hfresh : ctx_fresh c0) (hok : (get_args P e fl c0).err = 0)
    (msg : virt_fastrpc_msg) (vmsg : virt_invoke_msg)
    (hmsg : (get_args P e fl c0).ctx.msg = some msg) (htx : msg.txbuf = some vmsg) :
    (get_args P e fl c0).ctx.outbufs_offset =
      (∑ i ∈ Finset.range (REMOTE_SCALARS_INBUFS c0.sc), (vmsg.pra i).len) % 2 ^ P.offset_bits := by
  obtain ⟨s, size, msg0, t0, t, m⟩ := get_args_ok P e fl c0 hfresh hok
  obtain ⟨hv, -, -⟩ := marshalled_vmsg P e fl c0 s size msg0 t0 t m msg vmsg hmsg htx
  subst hv
  have hsz : (get_args_size P e fl c0).1 = 0 := by rw [m.sizing]
  have hsized := (get_args_size_ok P e fl c0 hfresh hsz).2.2.1
  rw [m.sizing] at hsized
  have hoff : (get_args P e fl c0).ctx.outbufs_offset = s.ctx.outbufs_offset := by
    rw [m.ctx]
    show t.ctx.outbufs_offset = _
    rw [m.handles.1]
    exact m.buffers.off
  rw [hoff, hsized.1, sum_ite_lt]
  congr 1
  apply Finset.sum_congr rfl
  intro i hi
  have hi1 : i < REMOTE_SCALARS_INBUFS c0.sc := Finset.mem_range.mp hi
  rw [marshalled_pra P e fl c0 s size msg0 t0 t m i (by omega)]

/-- C7: after a successful `get_args` on a context as `context_alloc` leaves
it, under either sizing strategy, `ctx->outbufs_offset` equals the sum of the
lengths `rpra[i].len` written for the input-buffer arguments, provided this
sum can be represented in the field (its width is a parameter of the
embedding). -/
theorem C7_outbufs_offset_is_input_sum (P : Params) (e : Env) (fl : fastrpc_file)
    (c0 : fastrpc_invoke_ctx) (hfresh : ctx_fresh c0) (hok : (get_args P e fl c0).err = 0)
    (msg : virt_fastrpc_msg) (vmsg : virt_invoke_msg)
    (hmsg : (get_args P e fl c0).ctx.msg = some msg) (htx : msg.txbuf = some vmsg)
    (hfit : ∑ i ∈ Finset.range (REMOTE_SCALARS_INBUFS c0.sc), (vmsg.pra i).len <
      2 ^ P.offset_bits) :
    (get_args P e fl c0).ctx.outbufs_offset =
      ∑ i ∈ Finset.range (REMOTE_SCALARS_INBUFS c0.sc), (vmsg.pra i).len := by
  rw [get_args_outbufs_offset_mod P e fl c0 hfresh hok msg vmsg hmsg htx]
  exact Nat.mod_eq_of_lt hfit

/-- One iteration of the output loop of `put_args` does not fail when the
caller's memory can be written and an internal-copy argument has its buffer. -/
theorem put_out_body_succeeds (e : Env) (rsp : virt_invoke_msg) (i : Nat) (s : put_args_st)
    (hw : ∀ pv len, e.user_write_ok pv len = true)
    (hb : s.ctx.maps i = none → s.ctx.desc.isSome →
      (get_desc s.ctx i).type = FASTRPC_BUF_TYPE_INTERNAL →
      ((get_desc s.ctx i).buf).isSome = true) :
    (put_args_out_body e rsp i s).1 = 0 := by
  cases hm : s.ctx.maps i with
  | some map => simp [put_args_out_body, hm]
  | none =>
    by_cases hint : s.ctx.desc.isSome ∧ (get_desc s.ctx i).type = FASTRPC_BUF_TYPE_INTERNAL
    · cases hbuf : (get_desc s.ctx i).buf with
      | none =>
        have h1 := hb hm hint.1 hint.2
        rw [hbuf] at h1
        simp at h1
      | some buf => simp [put_args_out_body, hm, hint, hbuf, hw]
    · simp [put_args_out_body, hm, hint, hw]

/-- The output loop of `put_args` runs to its end when the caller's memory can
be written and every internal-copy argument in its range has its buffer. -/
theorem put_out_loop_succeeds (e : Env) (rsp : virt_invoke_msg) (n a : Nat) (s : put_args_st)
    (hw : ∀ pv len, e.user_write_ok pv len = true)
    (hb : ∀ j, a ≤ j → j < a + n → s.ctx.maps j = none → s.ctx.desc.isSome →
      (get_desc s.ctx j).type = FASTRPC_BUF_TYPE_INTERNAL →
      ((get_desc s.ctx j).buf).isSome = true) :
    (for_loop (put_args_out_body e rsp) (List.range' a n) s).1 = 0 := by
  induction n generalizing a s with
  | zero => rfl
  | succ n ih =>
    have h0 := put_out_body_succeeds e rsp a s hw (hb a le_rfl (by omega))
    rw [List.range'_succ, for_loop_cons, if_neg (not_not.mpr h0)]
    apply ih
    intro j h1 h2 hm hd ht
    have hfr := put_out_frame e rsp a s h0
    have hg : get_desc (put_args_out_body e rsp a s).2.ctx j = get_desc s.ctx j :=
      get_desc_congr _ _ j hfr.1
    rw [hg] at ht ⊢
    rw [hfr.1] at hd
    have hja : j ≠ a := by omega
    have hms : s.ctx.maps j = none := by
      rcases put_out_ok e rsp a s h0 with ⟨map, -, hbody⟩ | ⟨buf, -, -, hbody⟩ | ⟨-, hbody⟩
      · rw [hbody] at hm
        simpa [Function.update_noteq hja] using hm
      · rw [hbody] at hm
        exact hm
      · rw [hbody] at hm
        exact hm
    exact hb j (by omega) (by omega) hms hd ht

/-- On a result-0 reply `put_args` returns 0 when the caller's memory can be
written and every internal-copy output argument has its buffer. -/
theorem put_args_succeeds (e : Env) (ctx : fastrpc_invoke_ctx) (msg : virt_fastrpc_msg)
    (rsp : virt_invoke_msg) (hmsg : ctx.msg = some msg) (hrx : msg.rxbuf = some rsp)
    (hres : int_of_bits32 rsp.hdr.result = 0)
    (hw : ∀ pv len, e.user_write_ok pv len = true)
    (hb : ∀ j, REMOTE_SCALARS_INBUFS ctx.sc ≤ j →
      j < REMOTE_SCALARS_INBUFS ctx.sc + REMOTE_SCALARS_OUTBUFS ctx.sc →
      ctx.maps j = none → ctx.desc.isSome →
      (get_desc ctx j).type = FASTRPC_BUF_TYPE_INTERNAL →
      ((get_desc ctx j).buf).isSome = true) :
    (put_args e ctx).1 = 0 := by
  have hl := put_out_loop_succeeds e rsp (REMOTE_SCALARS_OUTBUFS ctx.sc)
    (REMOTE_SCALARS_INBUFS ctx.sc)
    { ctx := ctx, payload := ctx.outbufs_offset, effects := [] } hw hb
  unfold put_args
  simp only [hmsg, hrx, hres, ne_eq, not_true_eq_false, if_false]
  rw [if_neg (by rw [hl]; simp)]

/-- A `put_args` that returns 0 on a result-0 reply has run the output loop to
its end and then scanned the fd list. -/
theorem put_args_ok_eq (e : Env) (ctx : fastrpc_invoke_ctx) (msg : virt_fastrpc_msg)
    (rsp : virt_invoke_msg) (hmsg : ctx.msg = some msg) (hrx : msg.rxbuf = some rsp)
    (hres : int_of_bits32 rsp.hdr.result = 0) (hput : (put_args e ctx).1 = 0) :
    (for_loop (put_args_out_body e rsp)
        (List.range' (REMOTE_SCALARS_INBUFS ctx.sc) (REMOTE_SCALARS_OUTBUFS ctx.sc))
        { ctx := ctx, payload := ctx.outbufs_offset, effects := [] }).1 = 0 ∧
      (put_args e ctx).2.2 =
        (for_loop (put_args_out_body e rsp)
          (List.range' (REMOTE_SCALARS_INBUFS ctx.sc) (REMOTE_SCALARS_OUTBUFS ctx.sc))
          { ctx := ctx, payload := ctx.outbufs_offset, effects := [] }).2.effects ++
          (if REMOTE_SCALARS_LENGTH ctx.sc ≠ 0 then put_args_fdlist e rsp.fdlist M_FDLIST 0
           else []) ∧
      (put_args e ctx).2.1 =
        (for_loop (put_args_out_body e rsp)
          (List.range' (REMOTE_SCALARS_INBUFS ctx.sc) (REMOTE_SCALARS_OUTBUFS ctx.sc))
          { ctx := ctx, payload := ctx.outbufs_offset, effects := [] }).2.ctx := by
  unfold put_args at hput ⊢
  simp only [hmsg, hrx, hres, ne_eq, not_true_eq_false, if_false] at hput ⊢
  by_cases hl : (for_loop (put_args_out_body e rsp)
      (List.range' (REMOTE_SCALARS_INBUFS ctx.sc) (REMOTE_SCALARS_OUTBUFS ctx.sc))
      { ctx := ctx, payload := ctx.outbufs_offset, effects := [] }).1 = 0
  · rw [if_neg (by rw [hl]; simp)]
    exact ⟨hl, rfl, rfl⟩
  · rw [if_pos hl] at hput
    exact absurd hput hl

/-- The context that a successful `get_args` leaves differs from the state
after the populate loops in its slot and its `size` only. -/
theorem marshalled_ctx_fields (P : Params) (e : Env) (fl : fastrpc_file)
    (c0 : fastrpc_invoke_ctx) (s : get_args_st) (size : Nat) (msg0 : virt_fastrpc_msg)
    (t0 t : populate_st) (m : marshalled P e fl c0 s size msg0 t0 t)
    (hfresh : ctx_fresh c0) :
    (get_args P e fl c0).ctx.maps = s.ctx.maps ∧
      (get_args P e fl c0).ctx.lpra = c0.lpra ∧
      (get_args P e fl c0).ctx.sc = c0.sc ∧
      (get_args P e fl c0).ctx.desc.isSome = s.ctx.desc.isSome ∧
      (∀ j, (get_desc (get_args P e fl c0).ctx j).type = (get_desc s.ctx j).type) ∧
      (∀ j, buf_like (get_desc (get_args P e fl c0).ctx j).buf (get_desc s.ctx j).buf) ∧
      (∀ j, (get_desc (get_args P e fl c0).ctx j).buf = (get_desc t0.ctx j).buf) ∧
      s.ctx.lpra = c0.lpra := by
  have hsz : (get_args_size P e fl c0).1 = 0 := by rw [m.sizing]
  have hcall := (get_args_size_ok P e fl c0 hfresh hsz).1
  rw [m.sizing] at hcall
  have hb := m.buffers
  have hd := m.handles.1
  have hg : ∀ j, get_desc (get_args P e fl c0).ctx j = get_desc t0.ctx j := by
    intro j
    apply get_desc_congr
    rw [m.ctx]
    show t.ctx.desc = _
    rw [hd]
  refine ⟨?_, ?_, ?_, ?_, ?_, ?_, ?_, hcall.1⟩
  · rw [m.ctx]; show t.ctx.maps = _; rw [hd]; exact hb.maps
  · rw [m.ctx]; show t.ctx.lpra = _; rw [hd, hb.call.1]; exact hcall.1
  · rw [m.ctx]; show t.ctx.sc = _; rw [hd, hb.call.2.2.1]; exact hcall.2.2.1
  · rw [m.ctx]; show t.ctx.desc.isSome = _; rw [hd]; exact hb.desc_some
  · intro j; rw [hg]; exact hb.dtype j
  · intro j; rw [hg]; exact hb.dbuf j
  · intro j; rw [hg]

/-- C5: marshal/unmarshal round trip on the inline path.  For a call on a
context as `context_alloc` leaves it whose buffer arguments are all unmapped
and whose inline wire size is at most `buf_size`, a successful `get_args` has
placed the bytes of input buffer `j` in the payload region at the offset equal
to the sum of the lengths of the input buffers before it; and when the reply
has result 0 and carries the descriptor records of the request, a `put_args`
that returns 0 has copied to the caller, for the output buffers in declared
order, the declared-length bytes of the reply payload that start at
`outbufs_offset` plus the sum of the lengths of the output buffers before it
(followed, in the log of calls, by the scan of the fd list). -/
theorem C5_inline_round_trip (P : Params) (e : Env) (fl : fastrpc_file)
    (c0 : fastrpc_invoke_ctx) (hfresh : ctx_fresh c0)
    (hunmapped : ∀ j, j < REMOTE_SCALARS_INBUFS c0.sc + REMOTE_SCALARS_OUTBUFS c0.sc →
      (fd_given c0.fds j = none ∨ (c0.lpra j).len = 0))
    (hfits : (inline_size P e c0 : Int) ≤ fl.apps.buf_size)
    (hok : (get_args P e fl c0).err = 0)
    (msg : virt_fastrpc_msg) (vmsg : virt_invoke_msg)
    (hmsg : (get_args P e fl c0).ctx.msg = some msg) (htx : msg.txbuf = some vmsg) :
    (∀ j, j < REMOTE_SCALARS_INBUFS c0.sc →
        bytes_at vmsg.payload (∑ i ∈ Finset.range j, (c0.lpra i).len) (c0.lpra j).len =
          bytes_at e.umem (c0.lpra j).pv (c0.lpra j).len) ∧
      (∀ (e2 : Env) (rsp : virt_invoke_msg),
        int_of_bits32 rsp.hdr.result = 0 →
        (∀ j, j < REMOTE_SCALARS_INBUFS c0.sc + REMOTE_SCALARS_OUTBUFS c0.sc →
          rsp.pra j = vmsg.pra j) →
        (put_args e2 { (get_args P e fl c0).ctx with
            msg := some { msg with rxbuf := some rsp } }).1 = 0 →
        (put_args e2 { (get_args P e fl c0).ctx with
            msg := some { msg with rxbuf := some rsp } }).2.2 =
          (List.range (REMOTE_SCALARS_OUTBUFS c0.sc)).map (fun k =>
            Effect.copy_to_user (c0.lpra (REMOTE_SCALARS_INBUFS c0.sc + k)).pv
              (bytes_at rsp.payload
                ((get_args P e fl c0).ctx.outbufs_offset +
                  ∑ i ∈ Finset.range k, (c0.lpra (REMOTE_SCALARS_INBUFS c0.sc + i)).len)
                (c0.lpra (REMOTE_SCALARS_INBUFS c0.sc + k)).len)) ++
            (if REMOTE_SCALARS_LENGTH c0.sc ≠ 0 then put_args_fdlist e2 rsp.fdlist M_FDLIST 0
             else [])) := by
  obtain ⟨s, size, msg0, t0, t, m⟩ := get_args_ok P e fl c0 hfresh hok
  obtain ⟨hv, -, -⟩ := marshalled_vmsg P e fl c0 s size msg0 t0 t m msg vmsg hmsg htx
  subst hv
  have hsz : (get_args_size P e fl c0).1 = 0 := by rw [m.sizing]
  obtain ⟨-, hmapsnone, -, -, -, hstrat⟩ := get_args_size_ok P e fl c0 hfresh hsz
  rw [m.sizing] at hmapsnone hstrat
  dsimp only at hmapsnone hstrat
  obtain ⟨g1, g2, g3, g4, g5, g6, g7, g8⟩ := marshalled_ctx_fields P e fl c0 s size msg0 t0 t m hfresh
  have hdesc : s.ctx.desc = none := by
    rcases hstrat with ⟨-, -, hd⟩ | ⟨hgt, -, -⟩
    · exact hd
    · exact absurd hfits (not_le.mpr hgt)
  have hinl : ∀ j, j < REMOTE_SCALARS_INBUFS c0.sc + REMOTE_SCALARS_OUTBUFS c0.sc →
      is_inline s.ctx j := by
    intro j hj
    refine ⟨hmapsnone j hj (hunmapped j hj), ?_⟩
    rw [hdesc]
    simp
  have hwl : ∀ j, j < REMOTE_SCALARS_INBUFS c0.sc + REMOTE_SCALARS_OUTBUFS c0.sc →
      wire_len s.ctx j = (c0.lpra j).len := by
    intro j hj
    rw [wire_len_inline s.ctx j (hinl j hj).1 (hinl j hj).2, g8]
  have hsum : ∀ j, j ≤ REMOTE_SCALARS_INBUFS c0.sc + REMOTE_SCALARS_OUTBUFS c0.sc →
      (∑ i ∈ Finset.range j, wire_len s.ctx i) = ∑ i ∈ Finset.range j, (c0.lpra i).len := by
    intro j hj
    apply Finset.sum_congr rfl
    intro i hi
    exact hwl i (by have := Finset.mem_range.mp hi; omega)
  refine ⟨?_, ?_⟩
  · intro j hj
    have hjb : j < REMOTE_SCALARS_INBUFS c0.sc + REMOTE_SCALARS_OUTBUFS c0.sc := by omega
    have hb := m.buffers.inline_bytes j hjb hj (hinl j hjb)
    rw [hsum j (by omega), g8] at hb
    rw [← hb]
    apply bytes_at_congr
    intro idx hidx
    apply m.handles.2.2.1
    rw [m.buffers.pos]
    have hle := sum_wire_le s.ctx (j + 1) _ hjb
    rw [Finset.sum_range_succ, hwl j hjb, hsum j (by omega)] at hle
    omega
  · intro e2 rsp hres hsame hput
    have hpra : ∀ j, j < REMOTE_SCALARS_INBUFS c0.sc + REMOTE_SCALARS_OUTBUFS c0.sc →
        (rsp.pra j).len = (c0.lpra j).len := by
      intro j hj
      rw [hsame j hj, marshalled_pra P e fl c0 s size msg0 t0 t m j hj, hwl j hj]
    have hgd : (get_args P e fl c0).ctx.desc = none := by
      have := g4
      rw [hdesc] at this
      cases hd : (get_args P e fl c0).ctx.desc with
      | none => rfl
      | some d => rw [hd] at this; simp at this
    have key : ∀ (ctx2 : fastrpc_invoke_ctx) (m2 : virt_fastrpc_msg),
        ctx2.msg = some m2 → m2.rxbuf = some rsp →
        ctx2.maps = (get_args P e fl c0).ctx.maps → ctx2.desc = (get_args P e fl c0).ctx.desc →
        ctx2.lpra = (get_args P e fl c0).ctx.lpra → ctx2.sc = (get_args P e fl c0).ctx.sc →
        ctx2.outbufs_offset = (get_args P e fl c0).ctx.outbufs_offset →
        (put_args e2 ctx2).1 = 0 →
        (put_args e2 ctx2).2.2 =
          (List.range (REMOTE_SCALARS_OUTBUFS c0.sc)).map (fun k =>
            Effect.copy_to_user (c0.lpra (REMOTE_SCALARS_INBUFS c0.sc + k)).pv
              (bytes_at rsp.payload
                ((get_args P e fl c0).ctx.outbufs_offset +
                  ∑ i ∈ Finset.range k, (c0.lpra (REMOTE_SCALARS_INBUFS c0.sc + i)).len)
                (c0.lpra (REMOTE_SCALARS_INBUFS c0.sc + k)).len)) ++
            (if REMOTE_SCALARS_LENGTH c0.sc ≠ 0 then put_args_fdlist e2 rsp.fdlist M_FDLIST 0
             else []) := by
      intro ctx2 m2 k1 k2 k3 k4 k5 k6 k7 k8
      obtain ⟨hl, heff, -⟩ := put_args_ok_eq e2 ctx2 m2 rsp k1 k2 hres k8
      rw [k6, g3, k7] at hl heff
      obtain ⟨he, -⟩ := put_out_loop_inline e2 rsp (REMOTE_SCALARS_OUTBUFS c0.sc)
        (REMOTE_SCALARS_INBUFS c0.sc)
        { ctx := ctx2, payload := (get_args P e fl c0).ctx.outbufs_offset, effects := [] }
        (by
          intro j hj1 hj2
          show ctx2.maps j = none
          rw [k3, g1]
          exact (hinl j hj2).1)
        (by show ctx2.desc = none; rw [k4]; exact hgd) hl
      rw [heff, he]
      simp only [List.nil_append]
      congr 1
      apply List.map_congr_left
      intro k hk
      have hk1 : k < REMOTE_SCALARS_OUTBUFS c0.sc := List.mem_range.mp hk
      show Effect.copy_to_user (ctx2.lpra _).pv _ = _
      rw [k5, g2, hpra _ (by omega)]
      congr 2
      congr 1
      apply Finset.sum_congr rfl
      intro i hi
      have hi1 : i < k := Finset.mem_range.mp hi
      exact hpra _ (by omega)
    exact key _ _ rfl rfl rfl rfl rfl rfl rfl hput

/-- C8: the oversized-argument fallback.  When the wire size computed with
inline payloads exceeds `buf_size` and `get_args` succeeds on a context as
`context_alloc` leaves it, and either `buf_size` is at least a page minus one
or the recomputed message size is below `2 ^ 31` (it is passed to
`virt_alloc_msg` as an `int`), every unmapped buffer
argument `i` that is longer than `buf_size` is an internal-copy argument: its
descriptor holds the buffer that `fastrpc_buf_alloc` returned for the
page-aligned length, its record carries `16 * nents` of that buffer, and the
recomputed size is `metalen` plus the lengths in the records of the buffer
arguments plus the handle lengths.  For an input argument the declared-length
bytes of the caller are in the internal buffer.  For an output argument
a `put_args` that returns 0 on a result-0 reply, run on that context with
whatever the internal buffer holds by then, has copied the declared-length
bytes of the internal buffer to the caller's buffer; and `put_args` does
return 0 there when the caller's memory can be written and the internal
buffers that `get_args` attached are still attached. -/
theorem C8_oversized_fallback (P : Params) (e : Env) (fl : fastrpc_file)
    (c0 : fastrpc_invoke_ctx) (hfresh : ctx_fresh c0) (hok : (get_args P e fl c0).err = 0)
    (hfb : (inline_size P e c0 : Int) > fl.apps.buf_size)
    (i : Nat) (hi : i < REMOTE_SCALARS_INBUFS c0.sc + REMOTE_SCALARS_OUTBUFS c0.sc)
    (hunm : fd_given c0.fds i = none) (hbig : ((c0.lpra i).len : Int) > fl.apps.buf_size)
    (msg : virt_fastrpc_msg) (vmsg : virt_invoke_msg)
    (hmsg : (get_args P e fl c0).ctx.msg = some msg) (htx : msg.txbuf = some vmsg)
    (hrep : (P.PAGE_SIZE : Int) ≤ fl.apps.buf_size + 1 ∨
      metalen P c0.sc +
        (∑ j ∈ Finset.range (REMOTE_SCALARS_INBUFS c0.sc + REMOTE_SCALARS_OUTBUFS c0.sc),
          (vmsg.pra j).len) +
        (get_args_inline P e c0).2.handle_len < 2 ^ 31) :
    ∃ buf b0,
      is_internal (get_args P e fl c0).ctx i ∧
      (get_desc (get_args P e fl c0).ctx i).buf = some buf ∧
      e.buf_alloc i (PAGE_ALIGN P (c0.lpra i).len % SIZE_T_MOD) = Except.ok b0 ∧
      buf.sgt = b0.sgt ∧ buf.ptr = b0.ptr ∧
      (vmsg.pra i).len = buf.sgt.nents * sizeof_virt_fastrpc_buf ∧
      (get_args P e fl c0).ctx.size =
        (metalen P c0.sc +
          (∑ j ∈ Finset.range (REMOTE_SCALARS_INBUFS c0.sc + REMOTE_SCALARS_OUTBUFS c0.sc),
            (vmsg.pra j).len) % SIZE_T_MOD +
          (get_args_inline P e c0).2.handle_len) % SIZE_T_MOD ∧
      (i < REMOTE_SCALARS_INBUFS c0.sc →
        bytes_at buf.va 0 (c0.lpra i).len = bytes_at e.umem (c0.lpra i).pv (c0.lpra i).len) ∧
      (REMOTE_SCALARS_INBUFS c0.sc ≤ i →
        ∀ (e2 : Env) (rsp : virt_invoke_msg) (ctx2 : fastrpc_invoke_ctx)
          (m2 : virt_fastrpc_msg) (b2 : fastrpc_buf),
          ctx2.msg = some m2 → m2.rxbuf = some rsp → int_of_bits32 rsp.hdr.result = 0 →
          ctx2.sc = (get_args P e fl c0).ctx.sc → ctx2.lpra = (get_args P e fl c0).ctx.lpra →
          ctx2.maps = (get_args P e fl c0).ctx.maps → ctx2.desc.isSome →
          (∀ j, (get_desc ctx2 j).type = (get_desc (get_args P e fl c0).ctx j).type) →
          (get_desc ctx2 i).buf = some b2 →
          ((put_args e2 ctx2).1 = 0 →
            Effect.copy_to_user (c0.lpra i).pv (bytes_at b2.va 0 (c0.lpra i).len) ∈
              (put_args e2 ctx2).2.2) ∧
          ((∀ pv len, e2.user_write_ok pv len = true) →
            (∀ j, ((get_desc ctx2 j).buf).isSome =
              ((get_desc (get_args P e fl c0).ctx j).buf).isSome) →
            (put_args e2 ctx2).1 = 0 ∧
              Effect.copy_to_user (c0.lpra i).pv (bytes_at b2.va 0 (c0.lpra i).len) ∈
                (put_args e2 ctx2).2.2)) := by
  obtain ⟨s, size, msg0, t0, t, m⟩ := get_args_ok P e fl c0 hfresh hok
  obtain ⟨hv, -, -⟩ := marshalled_vmsg P e fl c0 s size msg0 t0 t m msg vmsg hmsg htx
  subst hv
  have hsz : (get_args_size P e fl c0).1 = 0 := by rw [m.sizing]
  obtain ⟨-, hmapsnone, hsized, hsize, hinl0, hstrat⟩ := get_args_size_ok P e fl c0 hfresh hsz
  rw [m.sizing] at hmapsnone hstrat hsized hsize
  dsimp only at hmapsnone hstrat hsized hsize
  obtain ⟨g1, g2, g3, g4, g5, g6, g7, g8⟩ := marshalled_ctx_fields P e fl c0 s size msg0 t0 t m hfresh
  obtain ⟨hseq, hdinv⟩ : s = (get_args_fallback P e (get_args_inline P e c0).2).2 ∧
      desc_inv P e (REMOTE_SCALARS_INBUFS c0.sc)
        (REMOTE_SCALARS_INBUFS c0.sc + REMOTE_SCALARS_OUTBUFS c0.sc) s := by
    rcases hstrat with ⟨hle, -, -⟩ | ⟨-, h1, h2⟩
    · exact absurd hfb hle
    · exact ⟨h1, h2⟩
  have hfbok : (get_args_fallback P e (get_args_inline P e c0).2).1 = 0 := by
    have h0 := hsz
    unfold get_args_size at h0
    dsimp only at h0
    rw [if_neg (by rw [hinl0]; simp)] at h0
    have hgt : (wire_size P (get_args_inline P e c0).2 : Int) > fl.apps.buf_size := hfb
    rw [if_pos hgt] at h0
    exact h0
  have hhl : s.handle_len = (get_args_inline P e c0).2.handle_len := by
    rw [hseq]
    exact (get_args_fallback_ok P e _ hfbok).2.2.2
  have hsm : s.ctx.maps i = none := hmapsnone i hi (Or.inl hunm)
  have hs : (∑ j ∈ Finset.range (REMOTE_SCALARS_INBUFS c0.sc + REMOTE_SCALARS_OUTBUFS c0.sc),
      wire_len s.ctx j) =
      ∑ j ∈ Finset.range (REMOTE_SCALARS_INBUFS c0.sc + REMOTE_SCALARS_OUTBUFS c0.sc),
        (t.vmsg.pra j).len := by
    apply Finset.sum_congr rfl
    intro j hj
    rw [marshalled_pra P e fl c0 s size msg0 t0 t m j (Finset.mem_range.mp hj)]
  have hlen : P.PAGE_SIZE ≤ (s.ctx.lpra i).len := by
    rw [g8]
    rcases hrep with hp | hrep
    · omega
    · by_contra hlt
      have hlt2 : (s.ctx.lpra i).len < P.PAGE_SIZE := by
        rw [g8]
        omega
      have hsmall := hdinv.small i hi hsm hlt2
      have hw : wire_len s.ctx i = (c0.lpra i).len := by
        rw [wire_len_inline s.ctx i hsm (fun h => hsmall h.2), g8]
      have hp : (t.vmsg.pra i).len = (c0.lpra i).len := by
        rw [marshalled_pra P e fl c0 s size msg0 t0 t m i hi, hw]
      have hle : (t.vmsg.pra i).len ≤
          ∑ j ∈ Finset.range (REMOTE_SCALARS_INBUFS c0.sc + REMOTE_SCALARS_OUTBUFS c0.sc),
            (t.vmsg.pra j).len :=
        Finset.single_le_sum (f := fun j => (t.vmsg.pra j).len) (fun _ _ => Nat.zero_le _)
          (Finset.mem_range.mpr hi)
      have hsizeeq : size = metalen P c0.sc +
          (∑ j ∈ Finset.range (REMOTE_SCALARS_INBUFS c0.sc + REMOTE_SCALARS_OUTBUFS c0.sc),
            (t.vmsg.pra j).len) + (get_args_inline P e c0).2.handle_len := by
        rw [hsize]
        unfold wire_size
        rw [m.sc, hsized.2, hhl, hs]
        unfold SIZE_T_MOD
        omega
      have hslot := m.slot
      unfold virt_alloc_msg at hslot
      by_cases hgt : int_of_bits32 size > fl.apps.buf_size
      · rw [if_pos hgt] at hslot
        simp at hslot
      · have h32 : int_of_bits32 size = (size : Int) := by
          unfold int_of_bits32
          have h1 : size % 2 ^ 32 = size := Nat.mod_eq_of_lt (by omega)
          rw [h1, if_pos (by omega)]
        rw [h32] at hgt
        omega
  obtain ⟨htype, buf0, hbuf0, halloc⟩ := hdinv.large i hi hsm hlen
  rw [g8] at halloc
  have hsint : is_internal s.ctx i := ⟨hsm, hdinv.desc_some, htype⟩
  have hgint : is_internal (get_args P e fl c0).ctx i := by
    refine ⟨by rw [g1]; exact hsm, by rw [g4]; exact hdinv.desc_some, by rw [g5]; exact htype⟩
  have hlike := g6 i
  rw [hbuf0] at hlike
  obtain ⟨buf, hbuf, hsgt, hptr⟩ : ∃ buf, (get_desc (get_args P e fl c0).ctx i).buf = some buf ∧
      buf.sgt = buf0.sgt ∧ buf.ptr = buf0.ptr := by
    cases hgb : (get_desc (get_args P e fl c0).ctx i).buf with
    | none => rw [hgb] at hlike; simp [buf_like] at hlike
    | some b => rw [hgb] at hlike; exact ⟨b, rfl, hlike.1, hlike.2.1⟩
  refine ⟨buf, buf0, hgint, hbuf, halloc, hsgt, hptr, ?_, ?_, ?_, ?_⟩
  · rw [marshalled_pra P e fl c0 s size msg0 t0 t m i hi,
      wire_len_internal s.ctx i buf0 hsm hdinv.desc_some htype hbuf0, sg_table.nents,
      sg_table.nents, hsgt]
  · have hsize2 : (get_args P e fl c0).ctx.size = size := by rw [m.ctx]
    rw [hsize2, hsize]
    unfold wire_size
    rw [m.sc, hsized.2, hhl, hs]
  · intro hin
    obtain ⟨b, hb1, hb2⟩ := m.buffers.internal_bytes i hi hin hsint
    rw [g7 i, hb1] at hbuf
    simp only [Option.some.injEq] at hbuf
    subst hbuf
    rw [g8] at hb2
    exact hb2
  · intro hout e2 rsp ctx2 m2 b2 k1 k2 hres k3 k4 k5 k6 k7 k8
    have hcopy : (put_args e2 ctx2).1 = 0 →
        Effect.copy_to_user (c0.lpra i).pv (bytes_at b2.va 0 (c0.lpra i).len) ∈
          (put_args e2 ctx2).2.2 := by
      intro hput
      obtain ⟨hl, heff, -⟩ := put_args_ok_eq e2 ctx2 m2 rsp k1 k2 hres hput
      rw [k3, g3] at hl heff
      have hc2int : is_internal ctx2 i :=
        ⟨by rw [k5]; exact hgint.1, k6, by rw [k7]; exact hgint.2.2⟩
      have hmem := put_out_loop_internal e2 rsp (REMOTE_SCALARS_OUTBUFS c0.sc)
        (REMOTE_SCALARS_INBUFS c0.sc)
        { ctx := ctx2, payload := ctx2.outbufs_offset, effects := [] } i b2 hout hi hc2int k8 hl
      rw [heff]
      apply List.mem_append_left
      have hl2 : ctx2.lpra = c0.lpra := by rw [k4, g2]
      rw [← hl2]
      exact hmem
    refine ⟨hcopy, ?_⟩
    intro hw hsame
    have hput : (put_args e2 ctx2).1 = 0 := by
      apply put_args_succeeds e2 ctx2 m2 rsp k1 k2 hres hw
      intro j hj1 hj2 hm hd ht
      rw [k3, g3] at hj2
      rw [k5, g1] at hm
      rw [k7, g5] at ht
      rw [hsame j]
      have hlarge : P.PAGE_SIZE ≤ (s.ctx.lpra j).len := by
        by_contra hlt
        exact hdinv.small j hj2 hm (by omega) ht
      obtain ⟨-, bj, hbj, -⟩ := hdinv.large j hj2 hm hlarge
      have hlk := g6 j
      rw [hbj] at hlk
      cases hgb : (get_desc (get_args P e fl c0).ctx j).buf with
      | none => rw [hgb] at hlk; simp [buf_like] at hlk
      | some b => rfl
    exact ⟨hput, hcopy hput⟩

/-! ## Concrete runs of the marshaller -/

theorem ctx_io_fresh : ctx_fresh ctx_io := ⟨rfl, rfl, fun _ => rfl, rfl⟩

theorem ctx_big_fresh : ctx_fresh ctx_big := ⟨rfl, rfl, fun _ => rfl, rfl⟩

/-- C6 (the code at the failing input): for two output buffers of `2 ^ 63`
bytes each `get_args` succeeds on the inline path; the length in the header
and in `ctx->size` is 196 (the bare `metalen`), while the two records carry
`2 ^ 63` each and the pointer `payload` has advanced by `2 ^ 64`. -/
theorem C6_size_wraps_at_huge_lengths :
    (get_args params0 (env0 none) fl0 ctx_huge).err = 0 ∧
      (get_args params0 (env0 none) fl0 ctx_huge).ctx.size = 196 ∧
      (get_args params0 (env0 none) fl0 ctx_huge).ctx.desc.isNone ∧
      metalen params0 ctx_huge.sc = 196 ∧
      (get_args params0 (env0 none) fl0 ctx_huge).payload_end = 2 ^ 64 ∧
      ∃ msg vmsg, (get_args params0 (env0 none) fl0 ctx_huge).ctx.msg = some msg ∧
        msg.txbuf = some vmsg ∧ vmsg.hdr.len = 196 ∧
        (vmsg.pra 0).len = 2 ^ 63 ∧ (vmsg.pra 1).len = 2 ^ 63 :=
  ⟨rfl, rfl, rfl, rfl, rfl, _, _, rfl, rfl, rfl, rfl, rfl⟩

/-- C5, at a concrete call with a 4-byte input buffer and a 3-byte output
buffer and the reply `reply_io`. -/
theorem C5_inline_round_trip_witness :
    (get_args params0 (env0 none) fl0 ctx_io).err = 0 ∧
      ∃ msg vmsg, (get_args params0 (env0 none) fl0 ctx_io).ctx.msg = some msg ∧
        msg.txbuf = some vmsg ∧
        (∀ j, j < REMOTE_SCALARS_INBUFS ctx_io.sc →
          bytes_at vmsg.payload (∑ i ∈ Finset.range j, (ctx_io.lpra i).len) (ctx_io.lpra j).len =
            bytes_at (env0 none).umem (ctx_io.lpra j).pv (ctx_io.lpra j).len) ∧
        (put_args (env0 none) { (get_args params0 (env0 none) fl0 ctx_io).ctx with
            msg := some { msg with rxbuf := some reply_io } }).2.2 =
          (List.range (REMOTE_SCALARS_OUTBUFS ctx_io.sc)).map (fun k =>
            Effect.copy_to_user (ctx_io.lpra (REMOTE_SCALARS_INBUFS ctx_io.sc + k)).pv
              (bytes_at reply_io.payload
                ((get_args params0 (env0 none) fl0 ctx_io).ctx.outbufs_offset +
                  ∑ i ∈ Finset.range k, (ctx_io.lpra (REMOTE_SCALARS_INBUFS ctx_io.sc + i)).len)
                (ctx_io.lpra (REMOTE_SCALARS_INBUFS ctx_io.sc + k)).len)) ++
            (if REMOTE_SCALARS_LENGTH ctx_io.sc ≠ 0 then
              put_args_fdlist (env0 none) reply_io.fdlist M_FDLIST 0
             else []) :=
  ⟨rfl, _, _, rfl, rfl,
   (C5_inline_round_trip params0 (env0 none) fl0 ctx_io ctx_io_fresh (fun _ _ => Or.inl rfl)
      (by decide) rfl _ _ rfl rfl).1,
   (C5_inline_round_trip params0 (env0 none) fl0 ctx_io ctx_io_fresh (fun _ _ => Or.inl rfl)
      (by decide) rfl _ _ rfl rfl).2 (env0 none) reply_io rfl
      (fun j hj =>
        have h2 : j < 2 := hj
        match j, h2 with
        | 0, _ => rfl
        | 1, _ => rfl)
      rfl⟩

/-- C7, at concrete calls: the inline strategy (offset 4) and the internal-copy
strategy (offset 32, two segments). -/
theorem C7_outbufs_offset_is_input_sum_witness :
    ((get_args params0 (env0 none) fl0 ctx_io).err = 0 ∧
        (get_args params0 (env0 none) fl0 ctx_io).ctx.outbufs_offset = 4 ∧
        ∃ msg vmsg, (get_args params0 (env0 none) fl0 ctx_io).ctx.msg = some msg ∧
          msg.txbuf = some vmsg ∧
          (get_args params0 (env0 none) fl0 ctx_io).ctx.outbufs_offset =
            ∑ i ∈ Finset.range (REMOTE_SCALARS_INBUFS ctx_io.sc), (vmsg.pra i).len) ∧
      ((get_args params0 (env_alloc none) fl0 ctx_big).err = 0 ∧
        (get_args params0 (env_alloc none) fl0 ctx_big).ctx.outbufs_offset = 32 ∧
        ∃ msg vmsg, (get_args params0 (env_alloc none) fl0 ctx_big).ctx.msg = some msg ∧
          msg.txbuf = some vmsg ∧
          (get_args params0 (env_alloc none) fl0 ctx_big).ctx.outbufs_offset =
            ∑ i ∈ Finset.range (REMOTE_SCALARS_INBUFS ctx_big.sc), (vmsg.pra i).len) :=
  ⟨⟨rfl, rfl, _, _, rfl, rfl,
    C7_outbufs_offset_is_input_sum params0 (env0 none) fl0 ctx_io ctx_io_fresh rfl _ _ rfl rfl
      (by decide)⟩,
   ⟨rfl, rfl, _, _, rfl, rfl,
    C7_outbufs_offset_is_input_sum params0 (env_alloc none) fl0 ctx_big ctx_big_fresh rfl _ _
      rfl rfl (by decide)⟩⟩


/-- C8, at a concrete call with an input and an output buffer of two pages each
against a channel buffer of one page: both are routed through internal buffers
of two segments (the input argument by the bound on `buf_size`, the output
argument by the bound on the message size); on `ctx_big_replied`, the context
with the reply `reply_ok` in its slot, `put_args` returns 0 and has copied the
8192 bytes of the internal buffer of the output argument to the caller's
address 20000. -/
theorem C8_oversized_fallback_witness :
    (get_args params0 (env_alloc none) fl0 ctx_big).err = 0 ∧
      (inline_size params0 (env_alloc none) ctx_big : Int) > fl0.apps.buf_size ∧
      (get_args params0 (env_alloc none) fl0 ctx_big).ctx.size = 260 ∧
      ∃ msg vmsg, (get_args params0 (env_alloc none) fl0 ctx_big).ctx.msg = some msg ∧
        msg.txbuf = some vmsg ∧
        (∃ buf b0,
          is_internal (get_args params0 (env_alloc none) fl0 ctx_big).ctx 0 ∧
          (get_desc (get_args params0 (env_alloc none) fl0 ctx_big).ctx 0).buf = some buf ∧
          (env_alloc none).buf_alloc 0 (PAGE_ALIGN params0 (ctx_big.lpra 0).len % SIZE_T_MOD) =
            Except.ok b0 ∧
          buf.sgt = b0.sgt ∧ buf.ptr = b0.ptr ∧
          (vmsg.pra 0).len = buf.sgt.nents * sizeof_virt_fastrpc_buf ∧
          (get_args params0 (env_alloc none) fl0 ctx_big).ctx.size =
            (metalen params0 ctx_big.sc +
              (∑ j ∈ Finset.range
                  (REMOTE_SCALARS_INBUFS ctx_big.sc + REMOTE_SCALARS_OUTBUFS ctx_big.sc),
                (vmsg.pra j).len) % SIZE_T_MOD +
              (get_args_inline params0 (env_alloc none) ctx_big).2.handle_len) % SIZE_T_MOD ∧
          (0 < REMOTE_SCALARS_INBUFS ctx_big.sc →
            bytes_at buf.va 0 (ctx_big.lpra 0).len =
              bytes_at (env_alloc none).umem (ctx_big.lpra 0).pv (ctx_big.lpra 0).len) ∧
          (REMOTE_SCALARS_INBUFS ctx_big.sc ≤ 0 →
            ∀ (e2 : Env) (rsp : virt_invoke_msg) (ctx2 : fastrpc_invoke_ctx)
              (m2 : virt_fastrpc_msg) (b2 : fastrpc_buf),
              ctx2.msg = some m2 → m2.rxbuf = some rsp → int_of_bits32 rsp.hdr.result = 0 →
              ctx2.sc = (get_args params0 (env_alloc none) fl0 ctx_big).ctx.sc →
              ctx2.lpra = (get_args params0 (env_alloc none) fl0 ctx_big).ctx.lpra →
              ctx2.maps = (get_args params0 (env_alloc none) fl0 ctx_big).ctx.maps →
              ctx2.desc.isSome →
              (∀ j, (get_desc ctx2 j).type = (get_desc (get_args params0 (env_alloc none) fl0 ctx_big).ctx j).type) →
              (get_desc ctx2 0).buf = some b2 →
              ((put_args e2 ctx2).1 = 0 →
                Effect.copy_to_user (ctx_big.lpra 0).pv
                    (bytes_at b2.va 0 (ctx_big.lpra 0).len) ∈
                  (put_args e2 ctx2).2.2) ∧
              ((∀ pv len, e2.user_write_ok pv len = true) →
                (∀ j, ((get_desc ctx2 j).buf).isSome =
                  ((get_desc (get_args params0 (env_alloc none) fl0 ctx_big).ctx j).buf).isSome) →
                (put_args e2 ctx2).1 = 0 ∧
                  Effect.copy_to_user (ctx_big.lpra 0).pv
                      (bytes_at b2.va 0 (ctx_big.lpra 0).len) ∈
                    (put_args e2 ctx2).2.2))) ∧
        (∃ buf b0,
          is_internal (get_args params0 (env_alloc none) fl0 ctx_big).ctx 1 ∧
          (get_desc (get_args params0 (env_alloc none) fl0 ctx_big).ctx 1).buf = some buf ∧
          (env_alloc none).buf_alloc 1 (PAGE_ALIGN params0 (ctx_big.lpra 1).len % SIZE_T_MOD) =
            Except.ok b0 ∧
          buf.sgt = b0.sgt ∧ buf.ptr = b0.ptr ∧
          (vmsg.pra 1).len = buf.sgt.nents * sizeof_virt_fastrpc_buf ∧
          (get_args params0 (env_alloc none) fl0 ctx_big).ctx.size =
            (metalen params0 ctx_big.sc +
              (∑ j ∈ Finset.range
                  (REMOTE_SCALARS_INBUFS ctx_big.sc + REMOTE_SCALARS_OUTBUFS ctx_big.sc),
                (vmsg.pra j).len) % SIZE_T_MOD +
              (get_args_inline params0 (env_alloc none) ctx_big).2.handle_len) % SIZE_T_MOD ∧
          (1 < REMOTE_SCALARS_INBUFS ctx_big.sc →
            bytes_at buf.va 0 (ctx_big.lpra 1).len =
              bytes_at (env_alloc none).umem (ctx_big.lpra 1).pv (ctx_big.lpra 1).len) ∧
          (REMOTE_SCALARS_INBUFS ctx_big.sc ≤ 1 →
            ∀ (e2 : Env) (rsp : virt_invoke_msg) (ctx2 : fastrpc_invoke_ctx)
              (m2 : virt_fastrpc_msg) (b2 : fastrpc_buf),
              ctx2.msg = some m2 → m2.rxbuf = some rsp → int_of_bits32 rsp.hdr.result = 0 →
              ctx2.sc = (get_args params0 (env_alloc none) fl0 ctx_big).ctx.sc →
              ctx2.lpra = (get_args params0 (env_alloc none) fl0 ctx_big).ctx.lpra →
              ctx2.maps = (get_args params0 (env_alloc none) fl0 ctx_big).ctx.maps →
              ctx2.desc.isSome →
              (∀ j, (get_desc ctx2 j).type = (get_desc (get_args params0 (env_alloc none) fl0 ctx_big).ctx j).type) →
              (get_desc ctx2 1).buf = some b2 →
              ((put_args e2 ctx2).1 = 0 →
                Effect.copy_to_user (ctx_big.lpra 1).pv
                    (bytes_at b2.va 0 (ctx_big.lpra 1).len) ∈
                  (put_args e2 ctx2).2.2) ∧
              ((∀ pv len, e2.user_write_ok pv len = true) →
                (∀ j, ((get_desc ctx2 j).buf).isSome =
                  ((get_desc (get_args params0 (env_alloc none) fl0 ctx_big).ctx j).buf).isSome) →
                (put_args e2 ctx2).1 = 0 ∧
                  Effect.copy_to_user (ctx_big.lpra 1).pv
                      (bytes_at b2.va 0 (ctx_big.lpra 1).len) ∈
                    (put_args e2 ctx2).2.2))) ∧
        (∃ buf, (get_desc ctx_big_replied 1).buf = some buf ∧
          (put_args (env_alloc none) ctx_big_replied).1 = 0 ∧
          Effect.copy_to_user 20000 (bytes_at buf.va 0 8192) ∈
            (put_args (env_alloc none) ctx_big_replied).2.2) :=
  ⟨rfl, by decide, rfl, _, _, rfl, rfl,
   C8_oversized_fallback params0 (env_alloc none) fl0 ctx_big ctx_big_fresh rfl (by decide)
     0 (by decide) rfl (by decide) _ _ rfl rfl (Or.inl (by decide)),
   C8_oversized_fallback params0 (env_alloc none) fl0 ctx_big ctx_big_fresh rfl (by decide)
     1 (by decide) rfl (by decide) _ _ rfl rfl (Or.inr (by decide)),
   match C8_oversized_fallback params0 (env_alloc none) fl0 ctx_big ctx_big_fresh rfl (by decide)
     1 (by decide) rfl (by decide) _ _ rfl rfl (Or.inr (by decide)) with
   | ⟨buf, _, _, hbuf, _, _, _, _, _, _, hout⟩ =>
     ⟨buf, hbuf,
      (hout (by decide) (env_alloc none) reply_ok ctx_big_replied _ buf rfl rfl rfl rfl rfl rfl
        rfl (fun _ => rfl) hbuf).2 (fun _ _ => rfl) (fun _ => rfl)⟩⟩

/-! ## Message slot pool: one allocation -/

/-- Every entry that the scan has passed is occupied. -/
theorem msg_scan_lowest (tbl : Nat → Option Nat) (n i : Nat) :
    ∀ k, i ≤ k → k < msg_scan tbl n i → tbl k ≠ none := by
  induction n generalizing i with
  | zero =>
    intro k h1 h2
    simp [msg_scan] at h2
    omega
  | succ n ih =>
    intro k h1 h2
    unfold msg_scan at h2
    by_cases hi : tbl i = none
    · rw [if_pos hi] at h2
      omega
    · rw [if_neg hi] at h2
      by_cases hk : k = i
      · rw [hk]
        exact hi
      · exact ih (i + 1) k (by omega) h2

/-- With a free entry below the bound the scan stops before the bound. -/
theorem msg_scan_lt (tbl : Nat → Option Nat) (n : Nat)
    (h : ∃ k, k < n ∧ tbl k = none) : msg_scan tbl n 0 < n := by
  obtain ⟨k, hk, hf⟩ := h
  have hb := msg_scan_bounds tbl n 0
  by_contra hge
  have heq : msg_scan tbl n 0 = n := by omega
  exact msg_scan_lowest tbl n 0 k (Nat.zero_le _) (by omega) hf

/-- C13: `virt_alloc_msg(fl, size)` returns no slot and leaves the driver
state (the message table with it) unchanged whenever `size` exceeds `buf_size`
or every one of the `FASTRPC_MSG_MAX` entries is occupied.  When
`size <= buf_size`, the slot object is allocated at `p`, the transmit buffer
`buf` is available and some entry is free, it returns the slot at `p` bound to
`buf` whose `msgid` is the lowest free index `i`, and the table changes at
entry `i` only (to `p`). -/
theorem C13_virt_alloc_msg_contract (P : Params) (me : fastrpc_apps) (size : Int)
    (kz : Option Nat) (tx : Option virt_invoke_msg) :
    ((size > me.buf_size ∨ ∀ k, k < P.FASTRPC_MSG_MAX → me.msgtable k ≠ none) →
        virt_alloc_msg P me size kz tx = (none, me)) ∧
      (∀ p buf, size ≤ me.buf_size → kz = some p → tx = some buf →
        (∃ k, k < P.FASTRPC_MSG_MAX ∧ me.msgtable k = none) →
        ∃ i, i < P.FASTRPC_MSG_MAX ∧ me.msgtable i = none ∧
          (∀ k, k < i → me.msgtable k ≠ none) ∧
          virt_alloc_msg P me size kz tx =
            (some { ptr := p, msgid := i, txbuf := some buf, rxbuf := none },
             { me with msgtable := Function.update me.msgtable i (some p) }) ∧
          (∀ k, k ≠ i →
            (virt_alloc_msg P me size kz tx).2.msgtable k = me.msgtable k)) := by
  constructor
  · rintro (hbig | hfull)
    · unfold virt_alloc_msg
      rw [if_pos hbig]
    · exact virt_alloc_msg_full P me size kz tx hfull
  · intro p buf hsize hkz htx hfree
    have hlt := msg_scan_lt me.msgtable P.FASTRPC_MSG_MAX hfree
    have hf := msg_scan_free me.msgtable P.FASTRPC_MSG_MAX 0 (by omega)
    have hlow := msg_scan_lowest me.msgtable P.FASTRPC_MSG_MAX 0
    have heq : virt_alloc_msg P me size kz tx =
        (some { ptr := p, msgid := msg_scan me.msgtable P.FASTRPC_MSG_MAX 0,
                txbuf := some buf, rxbuf := none },
         { me with msgtable := (Function.update me.msgtable
             (msg_scan me.msgtable P.FASTRPC_MSG_MAX 0) (some p)) }) := by
      unfold virt_alloc_msg
      rw [if_neg (by omega), hkz, htx]
      dsimp only
      rw [if_neg (by omega)]
    refine ⟨_, hlt, hf, fun k hk => hlow k (Nat.zero_le _) hk, heq, ?_⟩
    intro k hk
    rw [heq]
    exact Function.update_noteq hk _ _

/-- C13, on a table of four entries whose entry 0 is occupied: the slot gets
`msgid` 1. -/
theorem C13_virt_alloc_msg_contract_witness :
    ∃ i, i < params0.FASTRPC_MSG_MAX ∧
      ({ apps0 with msgtable := fun k => if k = 0 then some 9 else none } : fastrpc_apps).msgtable i
        = none ∧
      (∀ k, k < i →
        ({ apps0 with msgtable := fun k => if k = 0 then some 9 else none } :
          fastrpc_apps).msgtable k ≠ none) ∧
      virt_alloc_msg params0 { apps0 with msgtable := fun k => if k = 0 then some 9 else none }
          100 (some 77) (some vmsg_zero) =
        (some { ptr := 77, msgid := i, txbuf := some vmsg_zero, rxbuf := none },
         { ({ apps0 with msgtable := fun k => if k = 0 then some 9 else none } : fastrpc_apps) with
           msgtable := (Function.update
             ({ apps0 with msgtable := fun k => if k = 0 then some 9 else none } :
               fastrpc_apps).msgtable i (some 77)) }) ∧
      (∀ k, k ≠ i →
        (virt_alloc_msg params0 { apps0 with msgtable := fun k => if k = 0 then some 9 else none }
          100 (some 77) (some vmsg_zero)).2.msgtable k =
          ({ apps0 with msgtable := fun k => if k = 0 then some 9 else none } :
            fastrpc_apps).msgtable k) :=
  (C13_virt_alloc_msg_contract params0
    { apps0 with msgtable := fun k => if k = 0 then some 9 else none } 100 (some 77)
    (some vmsg_zero)).2 77 vmsg_zero (by decide) rfl rfl ⟨1, by decide, rfl⟩

/-! ## Which buffer arguments are mapped -/

theorem add_outbufs_offset_maps_at (P : Params) (inbufs i len : Nat) (c : fastrpc_invoke_ctx)
    (j : Nat) : (add_outbufs_offset P inbufs i len c).maps j = c.maps j := by
  unfold add_outbufs_offset
  split <;> rfl

/-- C14 (the claim as worded fails): for an argument of 4 bytes with fd `-2` the
first sizing loop asks the mapper for a mapping of fd `-2`, whatever the mapper
answers: either the pass fails with the mapper's error, or the slot holds the
mapping it returned.  The argument is never counted with its declared length
in an empty slot. -/
theorem C14_negative_fd_claim_fails : ¬ ∃ e, mapping_claim params0 e 1 0 st_neg := by
  rintro ⟨e, h⟩
  have h2 := (h (by decide) rfl).2 (Or.inr ⟨fun _ => -2, rfl, by decide⟩)
  obtain ⟨h21, h22, -⟩ := h2
  rcases len_body_cases params0 e 1 0 st_neg with ⟨h0, -⟩ | ⟨-, fd, err, -, -, hb⟩ |
    ⟨-, fd, map, -, -, hb⟩ | ⟨-, hfd, -⟩
  · exact absurd h0 (by decide)
  · rw [hb] at h21
    exact err.2 h21
  · rw [hb] at h22
    dsimp only at h22
    rw [add_outbufs_offset_maps_at] at h22
    simp at h22
  · exact absurd hfd (by decide)

theorem fd_given_some_iff (fds : Option (Nat → Int)) (i : Nat) :
    (∃ fd, fd_given fds i = some fd) ↔ ∃ f, fds = some f ∧ f i ≠ -1 := by
  cases fds with
  | none => simp [fd_given]
  | some f =>
    by_cases h : f i = -1
    · simp [fd_given, h]
    · simp [fd_given, h]

theorem fd_given_none_iff (fds : Option (Nat → Int)) (i : Nat) :
    fd_given fds i = none ↔ (fds = none ∨ ∃ f, fds = some f ∧ f i = -1) := by
  cases fds with
  | none => simp [fd_given]
  | some f =>
    by_cases h : f i = -1
    · simp [fd_given, h]
    · simp [fd_given, h]

/-- After the sizing loops of `get_args` have run to their end on the fresh
context `c0`, the slot of every buffer argument of nonzero length whose fd is
given holds the mapping that `fastrpc_mmap_create` returned for it. -/
theorem inline_maps_given (P : Params) (e : Env) (c0 : fastrpc_invoke_ctx)
    (hfresh : ctx_fresh c0) (hok : (get_args_inline P e c0).1 = 0) (j : Nat)
    (hj : j < REMOTE_SCALARS_INBUFS c0.sc + REMOTE_SCALARS_OUTBUFS c0.sc)
    (hlen : (c0.lpra j).len ≠ 0) (fd : Int) (hfd : fd_given c0.fds j = some fd) :
    ∃ map, e.mmap_create j fd (c0.lpra j).pv (c0.lpra j).len 0 = Except.ok map ∧
      (get_args_inline P e c0).2.ctx.maps j = some map := by
  obtain ⟨hf1, hf2, hf3, hf4⟩ := hfresh
  unfold get_args_inline at hok ⊢
  dsimp only at hok ⊢
  by_cases h1 : (for_loop (get_args_len_body P e (REMOTE_SCALARS_INBUFS c0.sc))
      (List.range' 0 (REMOTE_SCALARS_INBUFS c0.sc + REMOTE_SCALARS_OUTBUFS c0.sc))
      { ctx := c0, copylen := 0, handle_len := 0, effects := [] }).1 ≠ 0
  · rw [if_pos h1] at hok
    exact absurd hok h1
  · rw [if_neg h1]
    have h10 := not_not.mp h1
    have hinv := for_loop_range_inv (get_args_len_body P e (REMOTE_SCALARS_INBUFS c0.sc))
      (fun k t => len_inv P (REMOTE_SCALARS_INBUFS c0.sc) c0 k t ∧
        ∀ i, i < k → (c0.lpra i).len ≠ 0 → ∀ fd, fd_given c0.fds i = some fd →
          ∃ map, e.mmap_create i fd (c0.lpra i).pv (c0.lpra i).len 0 = Except.ok map ∧
            t.ctx.maps i = some map)
      (REMOTE_SCALARS_INBUFS c0.sc + REMOTE_SCALARS_OUTBUFS c0.sc) 0
      { ctx := c0, copylen := 0, handle_len := 0, effects := [] }
      ⟨{ desc := hf2, maps_hi := fun j _ => hf3 j,
         maps_lo := fun j hj => absurd hj (Nat.not_lt_zero _),
         sums := ⟨by simp [hf4], by simp⟩, lpra := rfl, fds := rfl, sc := rfl, handle := rfl,
         msg := rfl, handle_len := rfl },
       fun i hi => absurd hi (Nat.not_lt_zero _)⟩
      (by
        intro k t _ _ hI hb
        obtain ⟨hL, hM⟩ := hI
        refine ⟨len_inv_step P e _ c0 k t hL hb, ?_⟩
        intro i hi hleni fdi hfdi
        rcases len_body_cases P e (REMOTE_SCALARS_INBUFS c0.sc) k t with
          ⟨hl, hbody⟩ | ⟨hl, fd1, err, hfd1, hmc, hbody⟩ | ⟨hl, fd1, map, hfd1, hmc, hbody⟩ |
          ⟨hl, hfd1, hbody⟩
        · rw [hbody]
          by_cases hik : i = k
          · subst hik
            rw [hL.lpra] at hl
            exact absurd hl hleni
          · exact hM i (by omega) hleni fdi hfdi
        · rw [hbody] at hb
          exact absurd hb err.2
        · rw [hbody]
          dsimp only
          rw [add_outbufs_offset_maps_at]
          dsimp only
          by_cases hik : i = k
          · subst hik
            rw [hL.fds, hfdi] at hfd1
            simp only [Option.some.injEq] at hfd1
            subst hfd1
            rw [hL.lpra] at hmc
            exact ⟨map, hmc, by simp⟩
          · rw [Function.update_noteq hik]
            exact hM i (by omega) hleni fdi hfdi
        · rw [hbody]
          dsimp only
          rw [add_outbufs_offset_maps_at]
          by_cases hik : i = k
          · subst hik
            rw [hL.fds, hfdi] at hfd1
            simp at hfd1
          · exact hM i (by omega) hleni fdi hfdi) h10
    rw [Nat.zero_add] at hinv
    obtain ⟨map, hmc, hm⟩ := hinv.2 j hj hlen fd hfd
    refine ⟨map, hmc, ?_⟩
    rw [(handle_loop_frame P e
      (REMOTE_SCALARS_INBUFS c0.sc + REMOTE_SCALARS_OUTBUFS c0.sc)
      (REMOTE_SCALARS_LENGTH c0.sc - (REMOTE_SCALARS_INBUFS c0.sc + REMOTE_SCALARS_OUTBUFS c0.sc))
      _).2.2.2.2 j hj]
    exact hm

/-- C14 (amended): in the first sizing loop of `get_args` the test is
`fds && fds[i] != -1`.  For one pass through the loop body at a buffer argument
of nonzero length with an empty slot: when the pass succeeds, the argument has
a mapping and is counted with `16 * nents` exactly when there is an fd table
and its fd is not `-1`; with no fd table or with fd `-1` the pass succeeds, the
slot stays empty and the argument is counted with its declared length.  And
after the sizing loops have run to their end on a context as `context_alloc`
leaves it, a buffer argument of nonzero length has a mapping, and the wire
length `16 * nents`, exactly when there is an fd table and its fd is not `-1`;
every buffer argument with no fd table or with fd `-1` has no mapping and the
wire length it declares. -/
theorem C14_mapped_iff_fd_given (P : Params) (e : Env) :
    (∀ (inbufs i : Nat) (s : get_args_st), (s.ctx.lpra i).len ≠ 0 → s.ctx.maps i = none →
      ((get_args_len_body P e inbufs i s).1 = 0 →
        ((∃ map, (get_args_len_body P e inbufs i s).2.ctx.maps i = some map ∧
            (get_args_len_body P e inbufs i s).2.copylen =
              (s.copylen + map.table.nents * sizeof_virt_fastrpc_buf) % SIZE_T_MOD) ↔
          ∃ f, s.ctx.fds = some f ∧ f i ≠ -1)) ∧
      ((s.ctx.fds = none ∨ ∃ f, s.ctx.fds = some f ∧ f i = -1) →
        (get_args_len_body P e inbufs i s).1 = 0 ∧
          (get_args_len_body P e inbufs i s).2.ctx.maps i = none ∧
          (get_args_len_body P e inbufs i s).2.copylen =
            (s.copylen + (s.ctx.lpra i).len) % SIZE_T_MOD)) ∧
      (∀ c0, ctx_fresh c0 → (get_args_inline P e c0).1 = 0 →
        ∀ j, j < REMOTE_SCALARS_INBUFS c0.sc + REMOTE_SCALARS_OUTBUFS c0.sc →
          ((c0.lpra j).len ≠ 0 →
            ((∃ map, (get_args_inline P e c0).2.ctx.maps j = some map ∧
                wire_len (get_args_inline P e c0).2.ctx j =
                  map.table.nents * sizeof_virt_fastrpc_buf) ↔
              ∃ f, c0.fds = some f ∧ f j ≠ -1)) ∧
          ((c0.fds = none ∨ ∃ f, c0.fds = some f ∧ f j = -1) →
            (get_args_inline P e c0).2.ctx.maps j = none ∧
              wire_len (get_args_inline P e c0).2.ctx j = (c0.lpra j).len)) := by
  constructor
  · intro inbufs i s hlen hmaps
    rcases len_body_cases P e inbufs i s with
      ⟨hl, -⟩ | ⟨-, fd, err, hfd, -, hbody⟩ | ⟨-, fd, map, hfd, -, hbody⟩ | ⟨-, hfd, hbody⟩
    · exact absurd hl hlen
    · refine ⟨fun hb => ?_, fun hn => ?_⟩
      · rw [hbody] at hb
        exact absurd hb err.2
      · rw [(fd_given_none_iff s.ctx.fds i).mpr hn] at hfd
        simp at hfd
    · refine ⟨fun _ => ⟨fun _ => (fd_given_some_iff s.ctx.fds i).mp ⟨fd, hfd⟩, fun _ => ?_⟩,
        fun hn => ?_⟩
      · rw [hbody]
        dsimp only
        rw [add_outbufs_offset_maps_at]
        exact ⟨map, by simp, rfl⟩
      · rw [(fd_given_none_iff s.ctx.fds i).mpr hn] at hfd
        simp at hfd
    · have hm : (get_args_len_body P e inbufs i s).2.ctx.maps i = none := by
        rw [hbody]
        dsimp only
        rw [add_outbufs_offset_maps_at]
        exact hmaps
      refine ⟨fun _ => ⟨fun ⟨map, h1, _⟩ => ?_, fun hg => ?_⟩, fun _ => ⟨?_, hm, ?_⟩⟩
      · rw [hm] at h1
        simp at h1
      · obtain ⟨fd, hfd2⟩ := (fd_given_some_iff s.ctx.fds i).mpr hg
        rw [hfd] at hfd2
        simp at hfd2
      · rw [hbody]
      · rw [hbody]
  · intro c0 hfresh hok j hj
    obtain ⟨hdesc, -, hnone, -⟩ := get_args_inline_ok P e c0 hfresh hok
    have hinl : ∀ k, (get_args_inline P e c0).2.ctx.maps k = none →
        wire_len (get_args_inline P e c0).2.ctx k = ((get_args_inline P e c0).2.ctx.lpra k).len :=
      fun k hk => wire_len_inline _ k hk (by rw [hdesc]; simp)
    have hlpra : (get_args_inline P e c0).2.ctx.lpra = c0.lpra :=
      (get_args_inline_ok P e c0 hfresh hok).2.1.1
    refine ⟨fun hlen => ⟨fun ⟨map, h1, _⟩ => ?_, fun hg => ?_⟩, fun hn => ?_⟩
    · by_contra hng
      have hfn : fd_given c0.fds j = none := by
        cases hc : fd_given c0.fds j with
        | none => rfl
        | some fd => exact absurd ((fd_given_some_iff c0.fds j).mp ⟨fd, hc⟩) hng
      rw [hnone j hj (Or.inl hfn)] at h1
      simp at h1
    · obtain ⟨fd, hfd⟩ := (fd_given_some_iff c0.fds j).mpr hg
      obtain ⟨map, -, hm⟩ := inline_maps_given P e c0 hfresh hok j hj hlen fd hfd
      exact ⟨map, hm, wire_len_mapped _ j map hm⟩
    · have hm := hnone j hj (Or.inl ((fd_given_none_iff c0.fds j).mpr hn))
      refine ⟨hm, ?_⟩
      rw [hinl j hm, hlpra]

/-- C14, on a call whose input buffer has fd 5 (mapped with three segments) and
whose output buffer has fd `-1`. -/
theorem C14_mapped_iff_fd_given_witness :
    (get_args_inline params0 env_map ctx_fd).1 = 0 ∧
      (((∃ map, (get_args_inline params0 env_map ctx_fd).2.ctx.maps 0 = some map ∧
            wire_len (get_args_inline params0 env_map ctx_fd).2.ctx 0 =
              map.table.nents * sizeof_virt_fastrpc_buf) ↔
          ∃ f, ctx_fd.fds = some f ∧ f 0 ≠ -1) ∧
        (get_args_inline params0 env_map ctx_fd).2.ctx.maps 0 = some map3 ∧
        wire_len (get_args_inline params0 env_map ctx_fd).2.ctx 0 = 48) ∧
      ((get_args_inline params0 env_map ctx_fd).2.ctx.maps 1 = none ∧
        wire_len (get_args_inline params0 env_map ctx_fd).2.ctx 1 = (ctx_fd.lpra 1).len) :=
  ⟨rfl,
   ⟨((C14_mapped_iff_fd_given params0 env_map).2 ctx_fd ⟨rfl, rfl, fun _ => rfl, rfl⟩ rfl 0
      (by decide)).1 (by decide), rfl, rfl⟩,
   ((C14_mapped_iff_fd_given params0 env_map).2 ctx_fd ⟨rfl, rfl, fun _ => rfl, rfl⟩ rfl 1
      (by decide)).2 (Or.inr ⟨fun i => if i = 0 then 5 else -1, rfl, rfl⟩)⟩

/-! ## Release of the mappings of a context -/

/-- C11 (the claim as worded fails): the call `inv_handle` has one handle
argument with fd 5.  With no message slot to be had, `get_args` creates the
mapping of the handle and fails; `fastrpc_internal_invoke` returns an error
after `context_free`, and the only calls issued are the creation of the mapping
and the release of the context object: the mapping is not released.  At the
state in which `context_free` runs (`fl_handle`) the release rule fails. -/
theorem C11_handle_mapping_not_released :
    (fastrpc_internal_invoke params0 env_noslot fl0 inv_handle).err = -1 ∧
      (fastrpc_internal_invoke params0 env_noslot fl0 inv_handle).effects =
        [Effect.mmap_create 5 0 0 0, Effect.kfree 0] ∧
      (get_args params0 env_noslot fl0
        { ctx_handle with maps := fun _ => none }).ctx.maps 0 = some map3 ∧
      (context_free fl_handle 0).2 = [Effect.kfree 0] ∧
      ¬ rollback_claim fl_handle 0 := by
  refine ⟨rfl, rfl, rfl, rfl, ?_⟩
  intro h
  have h1 := h ctx_handle rfl 0 (by decide) map3 rfl
  rw [show (context_free fl_handle 0).2 = [Effect.kfree 0] from rfl] at h1
  simp at h1

/-- C11 (amended): `context_free` passes the slot of every buffer argument
(index below `inbufs + outbufs`) to `fastrpc_mmap_free`; and when `get_args`
fails and `fastrpc_internal_invoke` goes on to free the context, the mapping
held in the slot of every buffer argument is released. -/
theorem C11_context_free_releases_buffer_maps :
    (∀ (fl : fastrpc_file) (p : Nat) (ctx : fastrpc_invoke_ctx), fl.ctxs p = some ctx →
      ∀ i, i < REMOTE_SCALARS_INBUFS ctx.sc + REMOTE_SCALARS_OUTBUFS ctx.sc →
        Effect.mmap_free (ctx.maps i) 0 ∈ (context_free fl p).2) ∧
      (∀ (P : Params) (e : Env) (fl : fastrpc_file) (p : Nat) (c : fastrpc_invoke_ctx)
        (eff : List Effect), (get_args P e fl c).err ≠ 0 →
        ∀ j, j < REMOTE_SCALARS_INBUFS (get_args P e fl c).ctx.sc +
              REMOTE_SCALARS_OUTBUFS (get_args P e fl c).ctx.sc →
          ∀ map, (get_args P e fl c).ctx.maps j = some map →
            Effect.mmap_free (some map) 0 ∈ (invoke_marshal P e fl p c eff).effects) := by
  have key : ∀ (fl : fastrpc_file) (p : Nat) (ctx : fastrpc_invoke_ctx), fl.ctxs p = some ctx →
      ∀ i, i < REMOTE_SCALARS_INBUFS ctx.sc + REMOTE_SCALARS_OUTBUFS ctx.sc →
        Effect.mmap_free (ctx.maps i) 0 ∈ (context_free fl p).2 := by
    intro fl p ctx h i hi
    unfold context_free
    rw [h]
    dsimp only
    apply List.mem_append_left
    apply List.mem_append_left
    apply List.mem_append_left
    unfold free_maps_effects
    exact List.mem_map.mpr ⟨i, List.mem_range.mpr hi, rfl⟩
  refine ⟨key, ?_⟩
  intro P e fl p c eff herr j hj map hm
  unfold invoke_marshal
  dsimp only
  have hv : VERIFY 0 (decide ((get_args P e fl c).err = 0)) ≠ 0 := by
    simp [VERIFY, herr]
  rw [if_pos hv]
  unfold invoke_bail
  dsimp only
  rw [if_neg (by unfold ERESTARTSYS; decide)]
  dsimp only
  apply List.mem_append_right
  have := key (store_ctx { fl with apps := (get_args P e fl c).apps } p (get_args P e fl c).ctx) p
    (get_args P e fl c).ctx (by simp [store_ctx]) j hj
  rw [hm] at this
  exact this

/-- C11, on the call `inv_fd`: with no message slot to be had the mapping
created for the input buffer (fd 5) is released when the context is freed. -/
theorem C11_context_free_releases_buffer_maps_witness :
    (get_args params0 env_noslot fl0 ctx_fd).err ≠ 0 ∧
      (get_args params0 env_noslot fl0 ctx_fd).ctx.maps 0 = some map3 ∧
      Effect.mmap_free (some map3) 0 ∈ (invoke_marshal params0 env_noslot fl0 0 ctx_fd []).effects :=
  ⟨by rw [show (get_args params0 env_noslot fl0 ctx_fd).err = -12 from rfl]; decide, rfl,
   C11_context_free_releases_buffer_maps.2 params0 env_noslot fl0 0 ctx_fd []
     (by rw [show (get_args params0 env_noslot fl0 ctx_fd).err = -12 from rfl]; decide)
     0 (by decide) map3 rfl⟩

/-! ## Unmapping with rollback -/

theorem fastrpc_mmap_remove_none (va len : Nat) (l : List fastrpc_mmap) :
    fastrpc_mmap_remove va len l = none ↔ ∀ m ∈ l, ¬ (m.raddr = va ∧ m.size = len) := by
  induction l with
  | nil => simp [fastrpc_mmap_remove]
  | cons m rest ih =>
    unfold fastrpc_mmap_remove
    by_cases h : m.raddr = va ∧ m.size = len
    · rw [if_pos h]
      simp only [List.mem_cons, forall_eq_or_imp, reduceCtorEq, false_iff, not_and]
      intro h1
      exact absurd h.2 (h1 h.1)
    · rw [if_neg h]
      cases hr : fastrpc_mmap_remove va len rest with
      | none =>
        simp only [List.mem_cons, forall_eq_or_imp, true_iff]
        exact ⟨h, ih.mp hr⟩
      | some x =>
        simp only [List.mem_cons, forall_eq_or_imp, reduceCtorEq, false_iff, not_and]
        intro _ h2
        rw [ih.mpr (fun a ha hh => h2 a ha hh.1 hh.2)] at hr
        simp at hr

theorem fastrpc_mmap_remove_some (va len : Nat) (l : List fastrpc_mmap) (x : fastrpc_mmap)
    (r : List fastrpc_mmap) (h : fastrpc_mmap_remove va len l = some (x, r)) :
    x.raddr = va ∧ x.size = len ∧ l.Perm (x :: r) := by
  induction l generalizing r with
  | nil => simp [fastrpc_mmap_remove] at h
  | cons m rest ih =>
    unfold fastrpc_mmap_remove at h
    by_cases hm : m.raddr = va ∧ m.size = len
    · rw [if_pos hm] at h
      simp only [Option.some.injEq, Prod.mk.injEq] at h
      obtain ⟨h1, h2⟩ := h
      subst h1; subst h2
      exact ⟨hm.1, hm.2, List.Perm.refl _⟩
    · rw [if_neg hm] at h
      cases hr : fastrpc_mmap_remove va len rest with
      | none => rw [hr] at h; simp at h
      | some y =>
        obtain ⟨y1, y2⟩ := y
        rw [hr] at h
        simp only [Option.some.injEq, Prod.mk.injEq] at h
        obtain ⟨h1, h2⟩ := h
        subst h1; subst h2
        obtain ⟨i1, i2, i3⟩ := ih y2 hr
        exact ⟨i1, i2, (List.Perm.cons m i3).trans (List.Perm.swap _ _ _)⟩

/-- C15: `fastrpc_internal_munmap` on an initialised session, when no remote
buffer matches the request so that the mapping registry is searched.  When no
mapping matches `(vaddrout, size)` an error is returned, the registry is as it
was and nothing is sent.  When a mapping matches, `fastrpc_mmap_remove` takes
it out of the registry (the registry before the call is that mapping plus the
rest).  If the munmap round trip then fails, the call returns an error (the
`-1` of `VERIFY`), the mapping is added back, the registry holds the same
mappings as before the call and `fastrpc_mmap_free` is not called.  If the
round trip succeeds, the call returns 0, the mapping is passed to
`fastrpc_mmap_free` and the registry is the rest: no entry with the address of
the released mapping is left when the entries of the registry are distinct
objects. -/
theorem C15_munmap_rollback (P : Params) (e : Env) (fl : fastrpc_file)
    (ud : fastrpc_ioctl_munmap) (hinit : fl.dsp_proc_init = 1)
    (hnr : find_remote_buf P ud fl.remote_bufs = none) :
    ((∀ m ∈ fl.maps, ¬ (m.raddr = ud.vaddrout ∧ m.size = ud.size)) →
        (fastrpc_internal_munmap P e fl ud).err ≠ 0 ∧
          (fastrpc_internal_munmap P e fl ud).fl.maps = fl.maps ∧
          (fastrpc_internal_munmap P e fl ud).effects = []) ∧
      ((∃ m ∈ fl.maps, m.raddr = ud.vaddrout ∧ m.size = ud.size) →
        ∃ map rest, fastrpc_mmap_remove ud.vaddrout ud.size fl.maps = some (map, rest) ∧
          map.raddr = ud.vaddrout ∧ map.size = ud.size ∧ fl.maps.Perm (map :: rest) ∧
          ((virt_fastrpc_munmap P e { fl with maps := rest } map.raddr map.size).err ≠ 0 →
            (fastrpc_internal_munmap P e fl ud).err = VERIFY 0 false ∧
              (fastrpc_internal_munmap P e fl ud).err ≠ 0 ∧
              (fastrpc_internal_munmap P e fl ud).fl.maps = map :: rest ∧
              (fastrpc_internal_munmap P e fl ud).fl.maps.Perm fl.maps ∧
              ∀ m f, Effect.mmap_free m f ∉ (fastrpc_internal_munmap P e fl ud).effects) ∧
          ((virt_fastrpc_munmap P e { fl with maps := rest } map.raddr map.size).err = 0 →
            (fastrpc_internal_munmap P e fl ud).err = 0 ∧
              (fastrpc_internal_munmap P e fl ud).fl.maps = rest ∧
              Effect.mmap_free (some map) 0 ∈ (fastrpc_internal_munmap P e fl ud).effects ∧
              ((fl.maps.map (fun m => m.ptr)).Nodup →
                ∀ m ∈ (fastrpc_internal_munmap P e fl ud).fl.maps, m.ptr ≠ map.ptr))) := by
  have hv : VERIFY 0 (decide (fl.dsp_proc_init = 1)) = 0 := by simp [VERIFY, hinit]
  constructor
  · intro hno
    have hr := (fastrpc_mmap_remove_none ud.vaddrout ud.size fl.maps).mpr hno
    unfold fastrpc_internal_munmap
    simp only [hv, hnr, hr, ne_eq, not_true_eq_false, if_false]
    refine ⟨by simp [VERIFY], by first | rfl | trivial, by first | rfl | trivial⟩
  · rintro ⟨m, hm, hmatch⟩
    cases hr : fastrpc_mmap_remove ud.vaddrout ud.size fl.maps with
    | none =>
      exact absurd hmatch ((fastrpc_mmap_remove_none ud.vaddrout ud.size fl.maps).mp hr m hm)
    | some x =>
      obtain ⟨map, rest⟩ := x
      obtain ⟨h1, h2, h3⟩ := fastrpc_mmap_remove_some ud.vaddrout ud.size fl.maps map rest hr
      refine ⟨map, rest, rfl, h1, h2, h3, ?_, ?_⟩
      · intro hfail
        have hv2 : VERIFY 0 (decide ((virt_fastrpc_munmap P e { fl with maps := rest }
            map.raddr map.size).err = 0)) = VERIFY 0 false := by
          simp [hfail]
        have hne : VERIFY 0 false ≠ 0 := by simp [VERIFY]
        unfold fastrpc_internal_munmap
        simp only [hv, hnr, hr, ne_eq, not_true_eq_false, if_false]
        rw [hv2, if_pos hne]
        refine ⟨rfl, hne, rfl, h3.symm, ?_⟩
        intro m1 f hmem
        dsimp only at hmem
        unfold virt_fastrpc_munmap at hmem
        split at hmem
        · simp at hmem
        · dsimp only at hmem
          split at hmem
          · simp at hmem
          · split at hmem
            · simp at hmem
            · simp at hmem
      · intro hok
        have hv2 : VERIFY 0 (decide ((virt_fastrpc_munmap P e { fl with maps := rest }
            map.raddr map.size).err = 0)) = 0 := by
          simp [VERIFY, hok]
        unfold fastrpc_internal_munmap
        simp only [hv, hnr, hr, ne_eq, not_true_eq_false, if_false]
        rw [hv2]
        simp only [not_true_eq_false, if_false]
        refine ⟨by first | rfl | trivial, by first | rfl | trivial,
          List.mem_append_right _ (List.mem_singleton.mpr rfl), ?_⟩
        intro hnd m1 hm1
        have hp : (fl.maps.map (fun m => m.ptr)).Perm ((map :: rest).map (fun m => m.ptr)) :=
          h3.map _
        have hnd2 := (List.Perm.nodup_iff hp).mp hnd
        rw [List.map_cons, List.nodup_cons] at hnd2
        intro heq
        exact hnd2.1 (List.mem_map.mpr ⟨m1, hm1, heq⟩)

/-- C15, on a registry holding `map_b` and `map_a`, for the request to unmap
`map_a`: when the transport refuses to send, the call fails and the registry
holds both mappings again; when the remote answers with result 0, `map_a` is
released and the registry holds `map_b` only. -/
theorem C15_munmap_rollback_witness :
    ((fastrpc_internal_munmap params0 env_nosend fl_reg ud_a).err ≠ 0 ∧
        (fastrpc_internal_munmap params0 env_nosend fl_reg ud_a).fl.maps.Perm fl_reg.maps) ∧
      ((fastrpc_internal_munmap params0 (env0 (some reply_ok)) fl_reg ud_a).err = 0 ∧
        (fastrpc_internal_munmap params0 (env0 (some reply_ok)) fl_reg ud_a).fl.maps = [map_b] ∧
        Effect.mmap_free (some map_a) 0 ∈
          (fastrpc_internal_munmap params0 (env0 (some reply_ok)) fl_reg ud_a).effects) := by
  have hmem : ∃ m ∈ fl_reg.maps, m.raddr = ud_a.vaddrout ∧ m.size = ud_a.size :=
    ⟨map_a, List.mem_cons_of_mem _ (List.mem_cons_self _ _), rfl, rfl⟩
  have hrem : fastrpc_mmap_remove ud_a.vaddrout ud_a.size fl_reg.maps = some (map_a, [map_b]) :=
    rfl
  constructor
  · obtain ⟨map, rest, hr, -, -, -, hfail, -⟩ :=
      (C15_munmap_rollback params0 env_nosend fl_reg ud_a rfl rfl).2 hmem
    rw [hrem] at hr
    simp only [Option.some.injEq, Prod.mk.injEq] at hr
    obtain ⟨h1, h2⟩ := hr
    subst h1; subst h2
    obtain ⟨-, g2, -, g4, -⟩ := hfail (by
      rw [show (virt_fastrpc_munmap params0 env_nosend { fl_reg with maps := [map_b] }
        map_a.raddr map_a.size).err = -5 from rfl]
      decide)
    exact ⟨g2, g4⟩
  · obtain ⟨map, rest, hr, -, -, -, -, hok⟩ :=
      (C15_munmap_rollback params0 (env0 (some reply_ok)) fl_reg ud_a rfl rfl).2 hmem
    rw [hrem] at hr
    simp only [Option.some.injEq, Prod.mk.injEq] at hr
    obtain ⟨h1, h2⟩ := hr
    subst h1; subst h2
    obtain ⟨g1, g2, g3, -⟩ := hok rfl
    exact ⟨g1, g2, g3⟩

/-! ## Session teardown -/

theorem ctx_frees_append (a b : List Effect) : ctx_frees (a ++ b) = ctx_frees a ++ ctx_frees b := by
  unfold ctx_frees
  exact List.filterMap_append _ _ _

theorem ctx_frees_free_maps (maps : Nat → Option fastrpc_mmap) (n : Nat) :
    ctx_frees (free_maps_effects maps n) = [] := by
  unfold ctx_frees free_maps_effects
  rw [List.filterMap_eq_nil_iff]
  intro x hx
  obtain ⟨i, -, rfl⟩ := List.mem_map.mp hx
  rfl

theorem ctx_frees_free_desc (desc : Nat → fastrpc_buf_desc) (n : Nat) :
    ctx_frees (free_desc_effects desc n) = [] := by
  unfold ctx_frees free_desc_effects
  rw [List.filterMap_eq_nil_iff]
  intro x hx
  obtain ⟨i, -, hi⟩ := List.mem_filterMap.mp hx
  cases hb : (desc i).buf with
  | none => rw [hb] at hi; simp at hi
  | some b =>
    rw [hb] at hi
    simp only [Option.map_some', Option.some.injEq] at hi
    rw [← hi]

theorem filter_ne_of_not_mem (l : List Nat) (p : Nat) (h : p ∉ l) :
    l.filter (fun q => q ≠ p) = l := by
  rw [List.filter_eq_self]
  intro a ha
  have : a ≠ p := fun hap => h (hap ▸ ha)
  simpa using this

theorem ctx_list_del (w : Bool) (l : fastrpc_ctx_lst) (p : Nat) :
    ctx_list w (hlist_del_init l p) = (ctx_list w l).filter (fun q => q ≠ p) := by
  cases w <;> rfl

/-- What `context_free` does to the session when the context is allocated. -/
theorem context_free_spec (fl : fastrpc_file) (p : Nat) (ctx : fastrpc_invoke_ctx)
    (h : fl.ctxs p = some ctx) :
    (context_free fl p).1.clst = hlist_del_init fl.clst p ∧
      (context_free fl p).1.ctxs = Function.update fl.ctxs p none ∧
      (context_free fl p).1.maps = fl.maps ∧
      (context_free fl p).1.cached_bufs = fl.cached_bufs ∧
      (context_free fl p).1.remote_bufs = fl.remote_bufs ∧
      (context_free fl p).1.file_close = fl.file_close ∧
      ctx_frees (context_free fl p).2 = [p] := by
  unfold context_free
  rw [h]
  dsimp only
  refine ⟨rfl, rfl, rfl, rfl, rfl, rfl, ?_⟩
  rw [ctx_frees_append, ctx_frees_append, ctx_frees_append, ctx_frees_free_maps]
  have h2 : ctx_frees (match ctx.msg with
      | none => (fl.apps, ([] : List Effect))
      | some msg => (virt_free_msg fl.apps msg,
          match msg.rxbuf with
          | none => []
          | some _ => [Effect.rxbuf_send])).2 = [] := by
    cases ctx.msg with
    | none => rfl
    | some msg =>
      dsimp only
      cases msg.rxbuf <;> rfl
  have h3 : ctx_frees (match ctx.desc with
      | none => []
      | some desc => free_desc_effects desc
          (REMOTE_SCALARS_INBUFS ctx.sc + REMOTE_SCALARS_OUTBUFS ctx.sc)) = [] := by
    cases ctx.desc with
    | none => rfl
    | some d => exact ctx_frees_free_desc _ _
  rw [h2, h3]
  rfl

/-- One loop of `fastrpc_context_list_dtor` on a list of distinct allocated
contexts none of which is in the other list: with more fuel than the list is
long it ends with the list empty, the other list untouched, every context of
the list released, and `kfree` called once for each, in the order of the list. -/
theorem dtor_loop_spec (w : Bool) (n : Nat) (fl : fastrpc_file)
    (hnd : (ctx_list w fl.clst).Nodup)
    (hall : ∀ p ∈ ctx_list w fl.clst, fl.ctxs p ≠ none)
    (hdis : ∀ p ∈ ctx_list w fl.clst, p ∉ ctx_list (!w) fl.clst)
    (hn : (ctx_list w fl.clst).length < n) :
    ∃ fl1 eff, dtor_loop w n fl = some (fl1, eff) ∧
      ctx_list w fl1.clst = [] ∧ ctx_list (!w) fl1.clst = ctx_list (!w) fl.clst ∧
      (∀ q, fl1.ctxs q = if q ∈ ctx_list w fl.clst then none else fl.ctxs q) ∧
      ctx_frees eff = ctx_list w fl.clst ∧
      fl1.maps = fl.maps ∧ fl1.cached_bufs = fl.cached_bufs ∧
      fl1.remote_bufs = fl.remote_bufs ∧ fl1.file_close = fl.file_close := by
  induction n generalizing fl with
  | zero => exact absurd hn (Nat.not_lt_zero _)
  | succ n ih =>
    cases hl : ctx_list w fl.clst with
    | nil =>
      refine ⟨fl, [], ?_, hl, rfl, ?_, rfl, rfl, rfl, rfl, rfl⟩
      · simp only [dtor_loop, hl]
      · intro q
        simp
    | cons p t =>
      rw [hl] at hnd hall hdis hn
      have hpt : p ∉ t := (List.nodup_cons.mp hnd).1
      have hpo : p ∉ ctx_list (!w) fl.clst := hdis p (List.mem_cons_self _ _)
      cases hc : fl.ctxs p with
      | none => exact absurd hc (hall p (List.mem_cons_self _ _))
      | some ctx =>
        obtain ⟨s1, s2, s3, s4, s5, s6, s7⟩ :=
          context_free_spec { fl with clst := hlist_del_init fl.clst p } p ctx hc
        dsimp only at s1 s2 s3 s4 s5 s6
        have hhead : (p :: t).filter (fun q => q ≠ p) = t := by
          rw [List.filter_cons_of_neg (by simp)]
          exact filter_ne_of_not_mem t p hpt
        have hw : ctx_list w (context_free { fl with clst := hlist_del_init fl.clst p } p).1.clst
            = t := by
          rw [s1, ctx_list_del, ctx_list_del, hl, hhead, filter_ne_of_not_mem t p hpt]
        have ho : ctx_list (!w)
            (context_free { fl with clst := hlist_del_init fl.clst p } p).1.clst =
            ctx_list (!w) fl.clst := by
          rw [s1, ctx_list_del, ctx_list_del, filter_ne_of_not_mem _ p hpo,
            filter_ne_of_not_mem _ p hpo]
        obtain ⟨fl2, eff, e1, e2, e3, e4, e5, e6, e7, e8, e9⟩ :=
          ih (context_free { fl with clst := hlist_del_init fl.clst p } p).1
            (by rw [hw]; exact (List.nodup_cons.mp hnd).2)
            (by
              rw [hw]
              intro q hq
              rw [s2]
              have hqp : q ≠ p := fun h => hpt (h ▸ hq)
              rw [Function.update_noteq hqp]
              exact hall q (List.mem_cons_of_mem _ hq))
            (by
              rw [hw, ho]
              intro q hq
              exact hdis q (List.mem_cons_of_mem _ hq))
            (by
              rw [hw]
              simp only [List.length_cons] at hn
              omega)
        refine ⟨fl2, (context_free { fl with clst := hlist_del_init fl.clst p } p).2 ++ eff,
          ?_, e2, ?_, ?_, ?_, ?_, ?_, ?_, ?_⟩
        · simp only [dtor_loop, hl, e1]
        · rw [e3, ho]
        · intro q
          rw [e4, hw, s2]
          by_cases hqp : q = p
          · subst hqp
            simp [hpt]
          · simp [hqp, Function.update_noteq hqp]
        · rw [ctx_frees_append, s7, e5, hw]
          rfl
        · rw [e6, s3]
        · rw [e7, s4]
        · rw [e8, s5]
        · rw [e9, s6]

/-- The loop over the cached buffers ends, with more fuel than the list is
long, with the list empty and every buffer of it passed to
`fastrpc_buf_free`. -/
theorem cached_free_spec (n : Nat) (fl : fastrpc_file) (hn : fl.cached_bufs.length < n) :
    ∃ fl1 eff, fastrpc_cached_buf_list_free n fl = some (fl1, eff) ∧
      fl1.cached_bufs = [] ∧ fl1.clst = fl.clst ∧ fl1.ctxs = fl.ctxs ∧ fl1.maps = fl.maps ∧
      fl1.remote_bufs.length ≤ fl.remote_bufs.length ∧ fl1.file_close = fl.file_close ∧
      ctx_frees eff = [] ∧ ∀ b ∈ fl.cached_bufs, Effect.buf_free b 0 ∈ eff := by
  induction n generalizing fl with
  | zero => exact absurd hn (Nat.not_lt_zero _)
  | succ n ih =>
    cases hl : fl.cached_bufs with
    | nil =>
      refine ⟨fl, [], ?_, hl, rfl, rfl, rfl, le_refl _, rfl, rfl, ?_⟩
      · simp only [fastrpc_cached_buf_list_free, hl]
      · intro b hb
        simp at hb
    | cons buf rest =>
      rw [hl] at hn
      simp only [List.length_cons] at hn
      obtain ⟨fl2, eff, e1, e2, e3, e4, e5, e6, e7, e8, e9⟩ :=
        ih (fastrpc_buf_free { fl with cached_bufs := rest } buf).1 (by
          show rest.length < n
          omega)
      refine ⟨fl2, [Effect.buf_free buf 0] ++ eff, ?_, e2, e3, e4, e5, ?_, e7, ?_, ?_⟩
      · simp only [fastrpc_cached_buf_list_free, hl, e1]
        rfl
      · refine le_trans e6 ?_
        show (fl.remote_bufs.filter _).length ≤ _
        exact List.length_filter_le _ _
      · rw [ctx_frees_append, e8]
        rfl
      · intro b hb
        rcases List.mem_cons.mp hb with h | h
        · rw [h]
          exact List.mem_append_left _ (List.mem_singleton.mpr rfl)
        · exact List.mem_append_right _ (e9 b h)

/-- The loop over the remote buffers ends, with more fuel than the list is
long, with the list empty. -/
theorem remote_free_spec (n : Nat) (fl : fastrpc_file) (hn : fl.remote_bufs.length < n) :
    ∃ fl1 eff, fastrpc_remote_buf_list_free n fl = some (fl1, eff) ∧
      fl1.remote_bufs = [] ∧ fl1.clst = fl.clst ∧ fl1.ctxs = fl.ctxs ∧ fl1.maps = fl.maps ∧
      fl1.cached_bufs = fl.cached_bufs ∧ fl1.file_close = fl.file_close ∧
      ctx_frees eff = [] := by
  induction n generalizing fl with
  | zero => exact absurd hn (Nat.not_lt_zero _)
  | succ n ih =>
    cases hl : fl.remote_bufs with
    | nil =>
      refine ⟨fl, [], ?_, hl, rfl, rfl, rfl, rfl, rfl, rfl⟩
      simp only [fastrpc_remote_buf_list_free, hl]
    | cons buf rest =>
      have hlen : (fastrpc_buf_free fl buf).1.remote_bufs.length < n := by
        show (fl.remote_bufs.filter _).length < n
        rw [hl, List.filter_cons_of_neg (by simp)]
        have := List.length_filter_le (fun b : fastrpc_buf => decide (b.ptr ≠ buf.ptr)) rest
        rw [hl] at hn
        simp only [List.length_cons] at hn
        omega
      obtain ⟨fl2, eff, e1, e2, e3, e4, e5, e6, e7, e8⟩ := ih (fastrpc_buf_free fl buf).1 hlen
      refine ⟨fl2, [Effect.buf_free buf 0] ++ eff, ?_, e2, e3, e4, e5, e6, e7, ?_⟩
      · simp only [fastrpc_remote_buf_list_free, hl, e1]
        rfl
      · rw [ctx_frees_append, e8]
        rfl

/-- The loop over the mapping registry ends, with more fuel than the registry
is long, with the registry empty and every mapping of it passed to
`fastrpc_mmap_free`. -/
theorem file_free_maps_spec (n : Nat) (fl : fastrpc_file) (hn : fl.maps.length < n) :
    ∃ fl1 eff, file_free_maps n fl = some (fl1, eff) ∧
      fl1.maps = [] ∧ fl1.clst = fl.clst ∧ fl1.ctxs = fl.ctxs ∧
      fl1.cached_bufs = fl.cached_bufs ∧ fl1.remote_bufs = fl.remote_bufs ∧
      fl1.file_close = fl.file_close ∧ ctx_frees eff = [] ∧
      ∀ m ∈ fl.maps, Effect.mmap_free (some m) 1 ∈ eff := by
  induction n generalizing fl with
  | zero => exact absurd hn (Nat.not_lt_zero _)
  | succ n ih =>
    cases hl : fl.maps with
    | nil =>
      refine ⟨fl, [Effect.mmap_free none 1], ?_, hl, rfl, rfl, rfl, rfl, rfl, rfl, ?_⟩
      · simp only [file_free_maps, hl]
      · intro m hm
        simp at hm
    | cons map rest =>
      rw [hl] at hn
      simp only [List.length_cons] at hn
      obtain ⟨fl2, eff, e1, e2, e3, e4, e5, e6, e7, e8, e9⟩ :=
        ih { fl with maps := rest } (by
          show rest.length < n
          omega)
      refine ⟨fl2, Effect.mmap_free (some map) 1 :: eff, ?_, e2, e3, e4, e5, e6, e7, ?_, ?_⟩
      · simp only [file_free_maps, hl, e1]
      · show ctx_frees ([Effect.mmap_free (some map) 1] ++ eff) = []
        rw [ctx_frees_append, e8]
        rfl
      · intro m hm
        rcases List.mem_cons.mp hm with h | h
        · rw [h]
          exact List.mem_cons_self _ _
        · exact List.mem_cons_of_mem _ (e9 m h)

theorem ctx_frees_close (P : Params) (e : Env) (fl : fastrpc_file) :
    ctx_frees (virt_fastrpc_close P e fl).effects = [] := by
  unfold virt_fastrpc_close
  split
  · rfl
  · split
    · rfl
    · dsimp only
      split
      · rfl
      · split <;> rfl

/-- The two loops of `fastrpc_context_list_dtor` on a session whose lists
satisfy the invariant of the context lists. -/
theorem context_list_dtor_spec (fuel : Nat) (fl : fastrpc_file) (hinv : ctx_inv fl)
    (h1 : fl.clst.interrupted.length < fuel) (h2 : fl.clst.pending.length < fuel) :
    ∃ fl1 eff, fastrpc_context_list_dtor fuel fl = some (fl1, eff) ∧
      fl1.clst.interrupted = [] ∧ fl1.clst.pending = [] ∧ (∀ q, fl1.ctxs q = none) ∧
      ctx_frees eff = fl.clst.interrupted ++ fl.clst.pending ∧
      fl1.maps = fl.maps ∧ fl1.cached_bufs = fl.cached_bufs ∧
      fl1.remote_bufs = fl.remote_bufs ∧ fl1.file_close = fl.file_close := by
  obtain ⟨-, i2, i3, i4, i5⟩ := hinv
  have hdisj : ∀ p, p ∈ fl.clst.interrupted → p ∉ fl.clst.pending := by
    intro p hp hq
    have hne : fl.ctxs p ≠ none := fun hn => (i3 p hn).2 hp
    exact ((i2 p hne).mp hq) hp
  obtain ⟨fl1, eff1, a1, a2, a3, a4, a5, a6, a7, a8, a9⟩ := dtor_loop_spec true fuel fl i5
    (fun p hp hn => (i3 p hn).2 hp) (fun p hp => hdisj p hp) h1
  have a2s : fl1.clst.interrupted = [] := a2
  have a3s : fl1.clst.pending = fl.clst.pending := a3
  have a4s : ∀ q, fl1.ctxs q = if q ∈ fl.clst.interrupted then none else fl.ctxs q := a4
  have a5s : ctx_frees eff1 = fl.clst.interrupted := a5
  obtain ⟨fl2, eff2, b1, b2, b3, b4, b5, b6, b7, b8, b9⟩ := dtor_loop_spec false fuel fl1
    (by show fl1.clst.pending.Nodup; rw [a3s]; exact i4)
    (by
      intro p hp
      have hp1 : p ∈ fl.clst.pending := by
        have : p ∈ fl1.clst.pending := hp
        rwa [a3s] at this
      rw [a4s, if_neg (fun hi => hdisj p hi hp1)]
      exact fun hn => (i3 p hn).1 hp1)
    (by
      intro p _
      show p ∉ fl1.clst.interrupted
      rw [a2s]
      simp)
    (by show fl1.clst.pending.length < fuel; rw [a3s]; exact h2)
  have b2s : fl2.clst.pending = [] := b2
  have b3s : fl2.clst.interrupted = fl1.clst.interrupted := b3
  have b4s : ∀ q, fl2.ctxs q = if q ∈ fl1.clst.pending then none else fl1.ctxs q := b4
  have b5s : ctx_frees eff2 = fl1.clst.pending := b5
  refine ⟨fl2, eff1 ++ eff2, ?_, by rw [b3s, a2s], b2s, ?_, ?_, by rw [b6, a6], by rw [b7, a7],
    by rw [b8, a8], by rw [b9, a9]⟩
  · simp only [fastrpc_context_list_dtor, a1, b1]
  · intro q
    rw [b4s, a3s, a4s]
    by_cases hq : q ∈ fl.clst.pending
    · rw [if_pos hq]
    · rw [if_neg hq]
      by_cases hi : q ∈ fl.clst.interrupted
      · rw [if_pos hi]
      · rw [if_neg hi]
        by_contra hne
        exact hi (not_not.mp (fun hni => hq ((i2 q hne).mpr hni)))
  · rw [ctx_frees_append, a5s, b5s, a3s]

/-- C12: `fastrpc_file_free` on a null session returns 0 and does nothing.  On
a session whose context lists satisfy the invariant of the lists, whatever the
close round trip does (every answer of the collaborators), with more fuel than
each list is long every loop ends and the call returns 0 with both context
lists empty, no context allocated any more, `kfree` called exactly once for
each context of the interrupted list and then of the pending list (which have
no element in common and no repetition), the list of cached buffers, the list
of remote buffers and the mapping registry empty, every cached buffer passed to
`fastrpc_buf_free` and every mapping passed to `fastrpc_mmap_free`, and
`file_close` set. -/
theorem C12_file_free_releases_all (P : Params) (e : Env) (fl : fastrpc_file) (fuel : Nat)
    (hinv : ctx_inv fl)
    (hfuel : fl.clst.interrupted.length < fuel ∧ fl.clst.pending.length < fuel ∧
      fl.cached_bufs.length < fuel ∧ fl.remote_bufs.length < fuel ∧ fl.maps.length < fuel) :
    fastrpc_file_free P e fuel none = some { ret := 0, fl := none, effects := [] } ∧
      ∃ fl1 eff, fastrpc_file_free P e fuel (some fl) =
          some { ret := 0, fl := some fl1, effects := eff } ∧
        fl1.clst.interrupted = [] ∧ fl1.clst.pending = [] ∧ (∀ p, fl1.ctxs p = none) ∧
        fl1.cached_bufs = [] ∧ fl1.remote_bufs = [] ∧ fl1.maps = [] ∧ fl1.file_close = 1 ∧
        ctx_frees eff = fl.clst.interrupted ++ fl.clst.pending ∧
        (fl.clst.interrupted ++ fl.clst.pending).Nodup ∧
        (∀ b ∈ fl.cached_bufs, Effect.buf_free b 0 ∈ eff) ∧
        (∀ m ∈ fl.maps, Effect.mmap_free (some m) 1 ∈ eff) := by
  refine ⟨rfl, ?_⟩
  obtain ⟨f1, f2, f3, f4, f5⟩ := hfuel
  have hinv1 : ctx_inv { fl with apps := (virt_fastrpc_close P e fl).apps, file_close := 1 } :=
    hinv
  obtain ⟨fl2, eff2, a1, a2, a3, a4, a5, a6, a7, a8, a9⟩ := context_list_dtor_spec fuel
    { fl with apps := (virt_fastrpc_close P e fl).apps, file_close := 1 } hinv1 f1 f2
  dsimp only at a5 a6 a7 a8 a9
  obtain ⟨fl3, eff3, b1, b2, b3, b4, b5, b6, b7, b8, b9⟩ := cached_free_spec fuel fl2
    (by rw [a7]; exact f3)
  obtain ⟨fl4, eff4, c1, c2, c3, c4, c5, c6, c7, c8⟩ := remote_free_spec fuel fl3
    (by
      have := a8 ▸ b6
      omega)
  obtain ⟨fl5, eff5, d1, d2, d3, d4, d5, d6, d7, d8, d9⟩ := file_free_maps_spec fuel fl4
    (by rw [c5, b5, a6]; exact f5)
  refine ⟨fl5, (virt_fastrpc_close P e fl).effects ++ eff2 ++ eff3 ++ eff4 ++ eff5, ?_,
    ?_, ?_, ?_, ?_, ?_, d2, ?_, ?_, ?_, ?_, ?_⟩
  · simp only [fastrpc_file_free, a1, b1, c1, d1]
  · rw [d3, c3, b3, a2]
  · rw [d3, c3, b3, a3]
  · intro p
    rw [d4, c4, b4]
    exact a4 p
  · rw [d5, c6, b2]
  · rw [d6, c2]
  · rw [d7, c7, b7, a9]
  · rw [ctx_frees_append, ctx_frees_append, ctx_frees_append, ctx_frees_append, ctx_frees_close,
      a5, b8, c8, d8]
    simp
  · obtain ⟨-, i2, i3, i4, i5⟩ := hinv
    rw [List.nodup_append]
    refine ⟨i5, i4, ?_⟩
    intro p hp hq
    have hne : fl.ctxs p ≠ none := fun hn => (i3 p hn).2 hp
    exact ((i2 p hne).mp hq) hp
  · intro b hb
    apply List.mem_append_left
    apply List.mem_append_left
    apply List.mem_append_right
    exact b9 b (by rw [a7]; exact hb)
  · intro m hm
    apply List.mem_append_right
    exact d9 m (by rw [c5, b5, a6]; exact hm)

theorem fl_open_inv : ctx_inv fl_open := by
  have h0 : ctx_inv fl0 := ctx_inv_file_alloc 1 apps0 50
  have h := ctx_run_inv ops_example fl0
    (match ctx_run fl0 ops_example with
      | some fl => fl
      | none => fl0) h0 rfl
  exact h

/-- C12, on the session `fl_open` (interrupted context 0, pending context 1, two
mappings, one cached and one remote buffer) with fuel 3: once with a transport
that refuses to send the close message, once with a close round trip that
succeeds. -/
theorem C12_file_free_releases_all_witness :
    (virt_fastrpc_close params0 env_nosend fl_open).err = -5 ∧
      (virt_fastrpc_close params0 (env0 (some reply_ok)) fl_open).err = 0 ∧
      fl_open.clst.interrupted = [0] ∧ fl_open.clst.pending = [1] ∧
      (fastrpc_file_free params0 env_nosend 3 none = some { ret := 0, fl := none, effects := [] } ∧
      ∃ fl1 eff, fastrpc_file_free params0 env_nosend 3 (some fl_open) =
          some { ret := 0, fl := some fl1, effects := eff } ∧
        fl1.clst.interrupted = [] ∧ fl1.clst.pending = [] ∧ (∀ p, fl1.ctxs p = none) ∧
        fl1.cached_bufs = [] ∧ fl1.remote_bufs = [] ∧ fl1.maps = [] ∧ fl1.file_close = 1 ∧
        ctx_frees eff = fl_open.clst.interrupted ++ fl_open.clst.pending ∧
        (fl_open.clst.interrupted ++ fl_open.clst.pending).Nodup ∧
        (∀ b ∈ fl_open.cached_bufs, Effect.buf_free b 0 ∈ eff) ∧
        (∀ m ∈ fl_open.maps, Effect.mmap_free (some m) 1 ∈ eff)) ∧
      (fastrpc_file_free params0 (env0 (some reply_ok)) 3 none = some { ret := 0, fl := none, effects := [] } ∧
      ∃ fl1 eff, fastrpc_file_free params0 (env0 (some reply_ok)) 3 (some fl_open) =
          some { ret := 0, fl := some fl1, effects := eff } ∧
        fl1.clst.interrupted = [] ∧ fl1.clst.pending = [] ∧ (∀ p, fl1.ctxs p = none) ∧
        fl1.cached_bufs = [] ∧ fl1.remote_bufs = [] ∧ fl1.maps = [] ∧ fl1.file_close = 1 ∧
        ctx_frees eff = fl_open.clst.interrupted ++ fl_open.clst.pending ∧
        (fl_open.clst.interrupted ++ fl_open.clst.pending).Nodup ∧
        (∀ b ∈ fl_open.cached_bufs, Effect.buf_free b 0 ∈ eff) ∧
        (∀ m ∈ fl_open.maps, Effect.mmap_free (some m) 1 ∈ eff)) :=
  ⟨rfl, rfl, rfl, rfl,
   C12_file_free_releases_all params0 env_nosend fl_open 3 fl_open_inv (by decide),
   C12_file_free_releases_all params0 (env0 (some reply_ok)) fl_open 3 fl_open_inv (by decide)⟩

/-! ## Reply lengths -/

/-- C26 (the code departs from the claim): a call with one output buffer of 4
bytes at the user address 200 is marshalled into a message of 184 bytes (180
bytes before the payload, 4 bytes of payload).  When the reply has result 0
and its record of argument 0 gives a length of 8, the call returns 0 and
`put_args` has copied 8 bytes to address 200: the payload bytes at offsets 0
to 7, of which those at offsets 4 to 7 lie behind the 184 bytes of the
message. -/
theorem C26_copy_length_taken_from_reply :
    (inv_out4.inv.pra 0).len = 4 ∧
      metalen params0 inv_out4.inv.sc = 180 ∧
      (fastrpc_internal_invoke params0 (env0 (some reply_long)) fl0 inv_out4).err = 0 ∧
      (fastrpc_internal_invoke params0 (env0 (some reply_long)) fl0 inv_out4).effects =
        [Effect.txbuf_send 184, Effect.copy_to_user 200 [1, 2, 3, 4, 5, 6, 7, 8],
          Effect.mmap_free none 0, Effect.rxbuf_send, Effect.kfree 0] :=
  ⟨rfl, rfl, rfl, rfl⟩

/-! ## Mappings released by `put_args` and `context_free` -/

theorem freed_maps_append (a b : List Effect) :
    freed_maps (a ++ b) = freed_maps a ++ freed_maps b := by
  unfold freed_maps
  exact List.filterMap_append _ _ _

theorem freed_maps_free_maps (maps : Nat → Option fastrpc_mmap) (l : List Nat) :
    freed_maps (l.map (fun i => Effect.mmap_free (maps i) 0)) = l.filterMap maps := by
  induction l with
  | nil => rfl
  | cons i is ih =>
    rw [List.map_cons, show (Effect.mmap_free (maps i) 0 :: is.map
      (fun i => Effect.mmap_free (maps i) 0)) = [Effect.mmap_free (maps i) 0] ++ is.map
      (fun i => Effect.mmap_free (maps i) 0) from rfl, freed_maps_append, ih]
    cases hm : maps i with
    | none => simp [freed_maps, List.filterMap_cons, hm]
    | some m => simp [freed_maps, List.filterMap_cons, hm]

/-- One pass of the output loop: it either fails and changes nothing, or
releases the mapping of slot `i` and clears the slot, or leaves the mappings
as they are and releases none. -/
theorem put_out_step (e : Env) (rsp : virt_invoke_msg) (i : Nat) (s : put_args_st) :
    ((put_args_out_body e rsp i s).1 ≠ 0 ∧ (put_args_out_body e rsp i s).2 = s ∧
        s.ctx.maps i = none) ∨
      ((put_args_out_body e rsp i s).1 = 0 ∧
        ∃ l, (put_args_out_body e rsp i s).2.effects = s.effects ++ l ∧
          (put_args_out_body e rsp i s).2.ctx =
            { s.ctx with maps := Function.update s.ctx.maps i none } ∧
          freed_maps l = (s.ctx.maps i).toList) := by
  by_cases hb : (put_args_out_body e rsp i s).1 = 0
  · right
    refine ⟨hb, ?_⟩
    rcases put_out_ok e rsp i s hb with ⟨map, hm, hbody⟩ | ⟨buf, hi, -, hbody⟩ | ⟨hi, hbody⟩
    · rw [hbody, hm]
      exact ⟨_, rfl, rfl, rfl⟩
    · rw [hbody, hi.1]
      refine ⟨_, rfl, ?_, rfl⟩
      have : Function.update s.ctx.maps i none = s.ctx.maps := by
        rw [← hi.1]; exact Function.update_eq_self _ _
      rw [this]
    · rw [hbody, hi.1]
      refine ⟨_, rfl, ?_, rfl⟩
      have : Function.update s.ctx.maps i none = s.ctx.maps := by
        rw [← hi.1]; exact Function.update_eq_self _ _
      rw [this]
  · left
    refine ⟨hb, ?_⟩
    cases hm : s.ctx.maps i with
    | some map =>
      exfalso
      apply hb
      simp [put_args_out_body, hm]
    | none =>
      refine ⟨?_, rfl⟩
      by_cases hint : s.ctx.desc.isSome ∧ (get_desc s.ctx i).type = FASTRPC_BUF_TYPE_INTERNAL
      · cases hbuf : (get_desc s.ctx i).buf with
        | none => simp [put_args_out_body, hm, hint, hbuf]
        | some buf =>
          by_cases hw : e.user_write_ok (s.ctx.lpra i).pv (s.ctx.lpra i).len = true
          · exfalso
            apply hb
            simp [put_args_out_body, hm, hint, hbuf, hw]
          · simp [put_args_out_body, hm, hint, hbuf, hw]
      · by_cases hw : e.user_write_ok (s.ctx.lpra i).pv (rsp.pra i).len = true
        · exfalso
          apply hb
          simp [put_args_out_body, hm, hint, hw]
        · simp [put_args_out_body, hm, hint, hw]


/-- The output loop over a list of distinct slots: a slot it does not visit
keeps its mapping, a slot it visits keeps its mapping or is cleared, and the
mappings it releases are those of the slots it has cleared, each once, in the
order of the slots. -/
theorem put_out_loop_released (e : Env) (rsp : virt_invoke_msg) (is : List Nat) :
    ∀ s : put_args_st, is.Nodup →
      (∀ j, j ∉ is → (for_loop (put_args_out_body e rsp) is s).2.ctx.maps j = s.ctx.maps j) ∧
      (∀ j, (for_loop (put_args_out_body e rsp) is s).2.ctx.maps j = s.ctx.maps j ∨
        (for_loop (put_args_out_body e rsp) is s).2.ctx.maps j = none) ∧
      (for_loop (put_args_out_body e rsp) is s).2.ctx =
        { s.ctx with maps := (for_loop (put_args_out_body e rsp) is s).2.ctx.maps } ∧
      ∃ l, (for_loop (put_args_out_body e rsp) is s).2.effects = s.effects ++ l ∧
        freed_maps l = is.filterMap (fun j =>
          if ((for_loop (put_args_out_body e rsp) is s).2.ctx.maps j).isNone then s.ctx.maps j
          else none) := by
  induction is with
  | nil =>
    intro s _
    exact ⟨fun _ _ => rfl, fun _ => Or.inl rfl, rfl, [], (List.append_nil _).symm, rfl⟩
  | cons i is ih =>
    intro s hnd
    have hi : i ∉ is := (List.nodup_cons.1 hnd).1
    have hnd1 : is.Nodup := (List.nodup_cons.1 hnd).2
    rw [for_loop_cons]
    rcases put_out_step e rsp i s with ⟨hb, hs, hm⟩ | ⟨hb, l1, hl1, hc1, hf1⟩
    · rw [if_pos hb, hs]
      refine ⟨fun _ _ => rfl, fun _ => Or.inl rfl, rfl, [], (List.append_nil _).symm, ?_⟩
      symm
      show List.filterMap _ _ = []
      rw [List.filterMap_eq_nil_iff]
      intro j _
      cases hj : s.ctx.maps j <;> simp
    · rw [if_neg (not_not.2 hb)]
      obtain ⟨h1, h2, h3, l2, hl2, hf2⟩ := ih (put_args_out_body e rsp i s).2 hnd1
      generalize hr : for_loop (put_args_out_body e rsp) is (put_args_out_body e rsp i s).2 = r
        at h1 h2 h3 hl2 hf2 ⊢
      have hmaps : ∀ j, j ≠ i → (put_args_out_body e rsp i s).2.ctx.maps j = s.ctx.maps j := by
        intro j hj
        rw [hc1]
        exact Function.update_noteq hj _ _
      have hmi : (put_args_out_body e rsp i s).2.ctx.maps i = none := by
        rw [hc1]
        exact Function.update_same _ _ _
      refine ⟨?_, ?_, ?_, l1 ++ l2, ?_, ?_⟩
      · intro j hj
        have hji : j ≠ i := fun hc => hj (hc ▸ List.mem_cons_self _ _)
        rw [h1 j (fun hc => hj (List.mem_cons_of_mem _ hc)), hmaps j hji]
      · intro j
        by_cases hji : j = i
        · right
          rw [hji, h1 i hi, hmi]
        · rcases h2 j with h | h
          · left; rw [h, hmaps j hji]
          · right; exact h
      · rw [h3, hc1]
      · rw [hl2, hl1, List.append_assoc]
      · rw [freed_maps_append, hf1, hf2, List.filterMap_cons]
        have hri : r.2.ctx.maps i = none := by rw [h1 i hi, hmi]
        have htail : is.filterMap (fun j =>
            if (r.2.ctx.maps j).isNone then (put_args_out_body e rsp i s).2.ctx.maps j
            else none) =
            is.filterMap (fun j => if (r.2.ctx.maps j).isNone then s.ctx.maps j else none) := by
          apply List.filterMap_congr
          intro j hj
          rw [hmaps j (fun hc => hi (hc ▸ hj))]
        rw [htail]
        simp only [hri, Option.isNone_none, if_true]
        cases hm : s.ctx.maps i with
        | none => rfl
        | some m => rfl

theorem freed_maps_free_desc (desc : Nat → fastrpc_buf_desc) (n : Nat) :
    freed_maps (free_desc_effects desc n) = [] := by
  unfold freed_maps free_desc_effects
  rw [List.filterMap_eq_nil_iff]
  intro x hx
  obtain ⟨i, -, hi⟩ := List.mem_filterMap.mp hx
  cases hb : (desc i).buf with
  | none => rw [hb] at hi; simp at hi
  | some b =>
    rw [hb] at hi
    simp only [Option.map_some', Option.some.injEq] at hi
    rw [← hi]

/-- Slots that are either released now and cleared, or kept for later: the
mappings released now and later are those of the slots, each once. -/
theorem perm_released {α : Type} (l : List Nat) (f f1 g : Nat → Option α)
    (h : ∀ j ∈ l, (g j = f j ∧ f1 j = none) ∨ (g j = none ∧ f1 j = f j)) :
    (l.filterMap g ++ l.filterMap f1).Perm (l.filterMap f) := by
  induction l with
  | nil => exact List.Perm.refl _
  | cons j l ih =>
    have ih1 := ih (fun k hk => h k (List.mem_cons_of_mem _ hk))
    rcases h j (List.mem_cons_self _ _) with ⟨h1, h2⟩ | ⟨h1, h2⟩
    · cases hf : f j with
      | none =>
        rw [hf] at h1
        rw [List.filterMap_cons_none h1, List.filterMap_cons_none h2,
          List.filterMap_cons_none hf]
        exact ih1
      | some m =>
        rw [hf] at h1
        rw [List.filterMap_cons_some h1, List.filterMap_cons_none h2,
          List.filterMap_cons_some hf]
        exact List.Perm.cons m ih1
    · cases hf : f j with
      | none =>
        rw [hf] at h2
        rw [List.filterMap_cons_none h1, List.filterMap_cons_none h2,
          List.filterMap_cons_none hf]
        exact ih1
      | some m =>
        rw [hf] at h2
        rw [List.filterMap_cons_none h1, List.filterMap_cons_some h2,
          List.filterMap_cons_some hf]
        exact List.Perm.trans List.perm_middle (List.Perm.cons m ih1)

theorem put_args_eq_out (e : Env) (ctx : fastrpc_invoke_ctx) (msg : virt_fastrpc_msg)
    (rsp : virt_invoke_msg) (hmsg : ctx.msg = some msg) (hrx : msg.rxbuf = some rsp)
    (hres : int_of_bits32 rsp.hdr.result = 0) :
    (put_args e ctx).1 = (put_args_out e rsp ctx).1 ∧
      (put_args e ctx).2.1 = (put_args_out e rsp ctx).2.ctx ∧
      (put_args e ctx).2.2 = (put_args_out e rsp ctx).2.effects ++
        (if (put_args_out e rsp ctx).1 = 0 ∧ REMOTE_SCALARS_LENGTH ctx.sc ≠ 0 then
          put_args_fdlist e rsp.fdlist M_FDLIST 0
         else []) := by
  unfold put_args put_args_out
  simp only [hmsg, hrx, hres]
  by_cases hb : (for_loop (put_args_out_body e rsp)
      (List.range' (REMOTE_SCALARS_INBUFS ctx.sc) (REMOTE_SCALARS_OUTBUFS ctx.sc))
      { ctx := ctx, payload := ctx.outbufs_offset, effects := [] }).1 = 0
  · simp [hb]
  · simp [hb]

/-- C30: for a context whose slot holds a reply with result 0, the output loop
of `put_args` and the mapping loop of `context_free` together hand the mapping
of every buffer-argument slot to `fastrpc_mmap_free` once and no more.  The
loop of `put_args` (which may stop early on a copy fault, and is followed only
by the scan of the fd list) leaves every slot as it was or cleared, leaves
the slots outside the output range as they were, and releases exactly the
mappings of the slots it has cleared; `context_free` of the context as
`put_args` leaves it calls `fastrpc_mmap_free` on what the slots hold then,
and nowhere else; and the mappings released by the two loops are, up to their
order, the mappings the slots held when `put_args` was entered. -/
theorem C30_mapping_released_once (e : Env) (ctx : fastrpc_invoke_ctx)
    (msg : virt_fastrpc_msg) (rsp : virt_invoke_msg) (hmsg : ctx.msg = some msg)
    (hrx : msg.rxbuf = some rsp) (hres : int_of_bits32 rsp.hdr.result = 0) :
    ((put_args e ctx).1 = (put_args_out e rsp ctx).1 ∧
      (put_args e ctx).2.2 = (put_args_out e rsp ctx).2.effects ++
        (if (put_args_out e rsp ctx).1 = 0 ∧ REMOTE_SCALARS_LENGTH ctx.sc ≠ 0 then
          put_args_fdlist e rsp.fdlist M_FDLIST 0
         else [])) ∧
    (put_args e ctx).2.1 = { ctx with maps := (put_args e ctx).2.1.maps } ∧
    (∀ j, (put_args e ctx).2.1.maps j = ctx.maps j ∨ (put_args e ctx).2.1.maps j = none) ∧
    (∀ j, (j < REMOTE_SCALARS_INBUFS ctx.sc ∨
        REMOTE_SCALARS_INBUFS ctx.sc + REMOTE_SCALARS_OUTBUFS ctx.sc ≤ j) →
      (put_args e ctx).2.1.maps j = ctx.maps j) ∧
    freed_maps (put_args_out e rsp ctx).2.effects =
      (List.range' (REMOTE_SCALARS_INBUFS ctx.sc) (REMOTE_SCALARS_OUTBUFS ctx.sc)).filterMap
        (fun j => if ((put_args e ctx).2.1.maps j).isNone then ctx.maps j else none) ∧
    (∀ (fl : fastrpc_file) (p : Nat), fl.ctxs p = some (put_args e ctx).2.1 →
      ∃ rest, (context_free fl p).2 =
          free_maps_effects (put_args e ctx).2.1.maps
            (REMOTE_SCALARS_INBUFS ctx.sc + REMOTE_SCALARS_OUTBUFS ctx.sc) ++ rest ∧
        freed_maps rest = []) ∧
    (freed_maps (put_args_out e rsp ctx).2.effects ++
        freed_maps (free_maps_effects (put_args e ctx).2.1.maps
          (REMOTE_SCALARS_INBUFS ctx.sc + REMOTE_SCALARS_OUTBUFS ctx.sc))).Perm
      ((List.range (REMOTE_SCALARS_INBUFS ctx.sc + REMOTE_SCALARS_OUTBUFS ctx.sc)).filterMap
        ctx.maps) := by
  obtain ⟨he1, he2, he3⟩ := put_args_eq_out e ctx msg rsp hmsg hrx hres
  obtain ⟨h1, h2, h3, l, hl, hf⟩ := put_out_loop_released e rsp
    (List.range' (REMOTE_SCALARS_INBUFS ctx.sc) (REMOTE_SCALARS_OUTBUFS ctx.sc))
    { ctx := ctx, payload := ctx.outbufs_offset, effects := [] }
    (List.nodup_range' _ _)
  have hout : for_loop (put_args_out_body e rsp)
      (List.range' (REMOTE_SCALARS_INBUFS ctx.sc) (REMOTE_SCALARS_OUTBUFS ctx.sc))
      { ctx := ctx, payload := ctx.outbufs_offset, effects := [] } = put_args_out e rsp ctx :=
    rfl
  rw [hout] at h1 h2 h3 hl hf
  rw [← he2] at h1 h2 h3 hf
  have hl1 : (put_args_out e rsp ctx).2.effects = l := by
    rw [hl]; exact List.nil_append _
  have hin : ∀ j, (j < REMOTE_SCALARS_INBUFS ctx.sc ∨
      REMOTE_SCALARS_INBUFS ctx.sc + REMOTE_SCALARS_OUTBUFS ctx.sc ≤ j) →
      (put_args e ctx).2.1.maps j = ctx.maps j := by
    intro j hj
    apply h1 j
    intro hmem
    rw [List.mem_range'_1] at hmem
    omega
  have hsc : (put_args e ctx).2.1.sc = ctx.sc := by rw [h3]
  have hfree : freed_maps (put_args_out e rsp ctx).2.effects =
      (List.range' (REMOTE_SCALARS_INBUFS ctx.sc) (REMOTE_SCALARS_OUTBUFS ctx.sc)).filterMap
        (fun j => if ((put_args e ctx).2.1.maps j).isNone then ctx.maps j else none) := by
    rw [hl1]; exact hf
  refine ⟨⟨he1, he3⟩, h3, h2, hin, hfree, ?_, ?_⟩
  · intro fl p hp
    unfold context_free
    simp only [hp, hsc]
    refine ⟨_, List.append_assoc _ _ _ |>.trans (List.append_assoc _ _ _), ?_⟩
    rw [freed_maps_append, freed_maps_append]
    have e1 : freed_maps [Effect.kfree p] = [] := rfl
    have e2 : freed_maps (match (put_args e ctx).2.1.desc with
        | none => []
        | some desc => free_desc_effects desc
            (REMOTE_SCALARS_INBUFS ctx.sc + REMOTE_SCALARS_OUTBUFS ctx.sc)) = [] := by
      cases (put_args e ctx).2.1.desc with
      | none => rfl
      | some desc => exact freed_maps_free_desc _ _
    have e3 : freed_maps (match (put_args e ctx).2.1.msg with
        | none => (fl.apps, ([] : List Effect))
        | some msg => (virt_free_msg fl.apps msg,
            match msg.rxbuf with
            | none => []
            | some _ => [Effect.rxbuf_send])).2 = [] := by
      cases (put_args e ctx).2.1.msg with
      | none => rfl
      | some m =>
        cases hr : m.rxbuf with
        | none => simp [hr, freed_maps]
        | some r => simp [hr, freed_maps]
    rw [e1, e2, e3]
    rfl
  · rw [hfree]
    unfold free_maps_effects
    rw [freed_maps_free_maps]
    have hsplit : List.range (REMOTE_SCALARS_INBUFS ctx.sc + REMOTE_SCALARS_OUTBUFS ctx.sc) =
        List.range' 0 (REMOTE_SCALARS_INBUFS ctx.sc) ++
          List.range' (REMOTE_SCALARS_INBUFS ctx.sc) (REMOTE_SCALARS_OUTBUFS ctx.sc) := by
      rw [List.range_eq_range', Nat.add_comm, ← List.range'_append_1 0, Nat.zero_add]
    rw [hsplit, List.filterMap_append, List.filterMap_append]
    have hfirst : (List.range' 0 (REMOTE_SCALARS_INBUFS ctx.sc)).filterMap
        (put_args e ctx).2.1.maps =
        (List.range' 0 (REMOTE_SCALARS_INBUFS ctx.sc)).filterMap ctx.maps := by
      apply List.filterMap_congr
      intro j hj
      rw [List.mem_range'_1] at hj
      exact hin j (Or.inl (by omega))
    rw [hfirst, ← List.append_assoc]
    refine List.Perm.trans (List.Perm.append_right _ List.perm_append_comm) ?_
    rw [List.append_assoc]
    apply List.Perm.append_left
    apply perm_released
    intro j _
    cases hm : (put_args e ctx).2.1.maps j with
    | none => left; simp
    | some m =>
      right
      refine ⟨by simp, ?_⟩
      rcases h2 j with h | h
      · rw [← h, hm]
      · rw [hm] at h; exact absurd h (by simp)

/-- C30 at a context whose input slot holds `map_a` and whose output slot
holds `map_b`: `put_args` releases `map_b` and clears its slot, and
`context_free` is left with `map_a`. -/
theorem C30_mapping_released_once_witness :
    freed_maps (put_args (env0 none) ctx_mapped).2.2 = [map_b] ∧
      (put_args (env0 none) ctx_mapped).2.1.maps 1 = none ∧
      freed_maps (free_maps_effects (put_args (env0 none) ctx_mapped).2.1.maps 2) = [map_a] ∧
      (freed_maps (put_args_out (env0 none) reply_ok ctx_mapped).2.effects ++
          freed_maps (free_maps_effects (put_args (env0 none) ctx_mapped).2.1.maps
            (REMOTE_SCALARS_INBUFS ctx_mapped.sc + REMOTE_SCALARS_OUTBUFS ctx_mapped.sc))).Perm
        ((List.range
          (REMOTE_SCALARS_INBUFS ctx_mapped.sc + REMOTE_SCALARS_OUTBUFS ctx_mapped.sc)).filterMap
          ctx_mapped.maps) :=
  ⟨rfl, rfl, rfl,
   (C30_mapping_released_once (env0 none) ctx_mapped (msg_with (some reply_ok)) reply_ok
      rfl rfl rfl).2.2.2.2.2.2⟩

/-! ## One saved context per thread -/

theorem add_outbufs_offset_owner (P : Params) (inbufs i len : Nat) (ctx : fastrpc_invoke_ctx) :
    ctx_owner (add_outbufs_offset P inbufs i len ctx) = ctx_owner ctx := by
  unfold add_outbufs_offset; split <;> rfl

theorem set_desc_owner (ctx : fastrpc_invoke_ctx) (i : Nat) (d : fastrpc_buf_desc) :
    ctx_owner (set_desc ctx i d) = ctx_owner ctx := rfl

theorem len_body_owner (P : Params) (e : Env) (inbufs i : Nat) (s : get_args_st) :
    ctx_owner (get_args_len_body P e inbufs i s).2.ctx = ctx_owner s.ctx := by
  unfold get_args_len_body
  dsimp only
  split_ifs
  · rfl
  · split
    · split
      · rfl
      · exact add_outbufs_offset_owner _ _ _ _ _
    · exact add_outbufs_offset_owner _ _ _ _ _

theorem handle_body_owner (P : Params) (e : Env) (i : Nat) (s : get_args_st) :
    ctx_owner (get_args_handle_body P e i s).2.ctx = ctx_owner s.ctx := by
  unfold get_args_handle_body
  dsimp only
  split
  · split <;> rfl
  · rfl

theorem desc_body_owner (P : Params) (e : Env) (inbufs i : Nat) (s : get_args_st) :
    ctx_owner (get_args_desc_body P e inbufs i s).2.ctx = ctx_owner s.ctx := by
  unfold get_args_desc_body
  dsimp only
  split
  · exact add_outbufs_offset_owner _ _ _ _ _
  · split_ifs
    · exact add_outbufs_offset_owner _ _ _ _ _
    · split
      · rfl
      · exact add_outbufs_offset_owner _ _ _ _ _

theorem buf_body_owner (e : Env) (inbufs i : Nat) (s : populate_st) :
    ctx_owner (get_args_buf_body e inbufs i s).2.ctx = ctx_owner s.ctx := by
  unfold get_args_buf_body
  dsimp only
  split
  · rfl
  · split_ifs <;> first | rfl | (split <;> rfl)

theorem dma_body_owner (bufs i : Nat) (s : populate_st) :
    ctx_owner (get_args_dma_body bufs i s).2.ctx = ctx_owner s.ctx := by
  unfold get_args_dma_body
  split <;> rfl

theorem get_args_size_owner (P : Params) (e : Env) (fl : fastrpc_file)
    (c : fastrpc_invoke_ctx) : ctx_owner (get_args_size P e fl c).2.1.ctx = ctx_owner c := by
  have hinl : ctx_owner (get_args_inline P e c).2.ctx = ctx_owner c := by
    unfold get_args_inline
    dsimp only
    split_ifs
    · exact for_loop_frame _ (fun s => ctx_owner s.ctx) _
        (fun i _ t => len_body_owner P e _ i t) _
    · rw [for_loop_frame _ (fun s => ctx_owner s.ctx) _
        (fun i _ t => handle_body_owner P e i t)]
      exact for_loop_frame _ (fun s => ctx_owner s.ctx) _
        (fun i _ t => len_body_owner P e _ i t) _
  have hfb : ∀ s, ctx_owner (get_args_fallback P e s).2.ctx = ctx_owner s.ctx := by
    intro s
    unfold get_args_fallback
    dsimp only
    split_ifs
    · exact (for_loop_frame _ (fun s => ctx_owner s.ctx) _
        (fun i _ t => desc_body_owner P e _ i t) _).trans rfl
    · rfl
  unfold get_args_size
  dsimp only
  split_ifs
  · exact hinl
  · rw [hfb]; exact hinl
  · exact hinl

theorem get_args_populate_owner (e : Env) (c : fastrpc_invoke_ctx) (vmsg0 : virt_invoke_msg) :
    ctx_owner (get_args_populate e c vmsg0).2.ctx = ctx_owner c := by
  have hb : ctx_owner (populate_bufs e c vmsg0).2.ctx = ctx_owner c := by
    unfold populate_bufs
    exact for_loop_frame _ (fun s => ctx_owner s.ctx) _
      (fun i _ t => buf_body_owner e _ i t) _
  unfold get_args_populate
  dsimp only
  split_ifs
  · exact hb
  · rw [for_loop_frame _ (fun s => ctx_owner s.ctx) _ (fun i _ t => dma_body_owner _ i t)]
    exact hb

theorem get_args_owner (P : Params) (e : Env) (fl : fastrpc_file) (c : fastrpc_invoke_ctx) :
    ctx_owner (get_args P e fl c).ctx = ctx_owner c := by
  have hs := get_args_size_owner P e fl c
  unfold get_args
  dsimp only
  split_ifs
  · exact hs
  · split
    · exact hs
    · split
      · exact hs
      · have hp := get_args_populate_owner e (get_args_size P e fl c).2.1.ctx
        show ctx_owner _ = _
        rw [← hs]
        exact hp _

theorem put_args_owner (e : Env) (c : fastrpc_invoke_ctx) :
    ctx_owner (put_args e c).2.1 = ctx_owner c := by
  cases hmsg : c.msg with
  | none => simp only [put_args, hmsg]
  | some msg =>
    cases hrx : msg.rxbuf with
    | none => simp only [put_args, hmsg, hrx]
    | some rsp =>
      by_cases hres : int_of_bits32 rsp.hdr.result = 0
      · rw [(put_args_eq_out e c msg rsp hmsg hrx hres).2.1]
        obtain ⟨-, -, h3, -⟩ := put_out_loop_released e rsp
          (List.range' (REMOTE_SCALARS_INBUFS c.sc) (REMOTE_SCALARS_OUTBUFS c.sc))
          { ctx := c, payload := c.outbufs_offset, effects := [] } (List.nodup_range' _ _)
        unfold put_args_out
        rw [h3]
        rfl
      · simp only [put_args, hmsg, hrx, ne_eq, hres, not_false_eq_true, if_true]

theorem find_interrupted_none_all (ctxs : Nat → Option fastrpc_invoke_ctx) (pid : Int)
    (l : List Nat) (h : find_interrupted ctxs pid l = none) :
    ∀ q ∈ l, ∀ c, ctxs q = some c → c.pid ≠ pid := by
  induction l with
  | nil => intro q hq; simp at hq
  | cons a l ih =>
    unfold find_interrupted at h
    intro q hq c hc
    cases ha : ctxs a with
    | none =>
      rw [ha] at h
      rcases List.mem_cons.1 hq with rfl | hq1
      · rw [ha] at hc; simp at hc
      · exact ih h q hq1 c hc
    | some d =>
      rw [ha] at h
      dsimp only at h
      split at h
      · simp at h
      · rename_i hd
        rcases List.mem_cons.1 hq with rfl | hq1
        · rw [ha] at hc
          simp only [Option.some.injEq] at hc
          rw [← hc]; exact hd
        · exact ih h q hq1 c hc

theorem ctx_inv_store (fl : fastrpc_file) (p : Nat) (c : fastrpc_invoke_ctx) (h : ctx_inv fl)
    (hp : fl.ctxs p ≠ none) : ctx_inv (store_ctx fl p c) := by
  obtain ⟨h1, h2, h3, h4, h5⟩ := h
  have hiff : ∀ q, (store_ctx fl p c).ctxs q = none ↔ fl.ctxs q = none := by
    intro q
    by_cases hqp : q = p
    · subst hqp; simp [store_ctx, hp]
    · simp [store_ctx, Function.update_noteq hqp]
  refine ⟨?_, ?_, ?_, h4, h5⟩
  · intro q hq
    exact h1 q (fun hn => hq ((hiff q).2 hn))
  · intro q hq
    exact h2 q (fun hn => hq ((hiff q).2 hn))
  · intro q hq
    exact h3 q ((hiff q).1 hq)

/-- A session whose interrupted list has shrunk, with the contexts of its
entries as they were, keeps the invariant. -/
theorem saved_inv_of (fl fl1 : fastrpc_file) (h : saved_inv fl) (hl : ctx_inv fl1)
    (hs : ∀ q ∈ fl1.clst.interrupted, q ∈ fl.clst.interrupted ∧ fl1.ctxs q = fl.ctxs q)
    (ho : ∀ q c, fl1.ctxs q = some c → c.fl = fl1.self) : saved_inv fl1 := by
  refine ⟨hl, ?_, ho⟩
  intro p q c d hp hq hc hd hpid
  obtain ⟨hp1, hp2⟩ := hs p hp
  obtain ⟨hq1, hq2⟩ := hs q hq
  rw [hp2] at hc
  rw [hq2] at hd
  exact h.one p q c d hp1 hq1 hc hd hpid

theorem in_call_store (fl : fastrpc_file) (p : Nat) (pid : Int) (c : fastrpc_invoke_ctx)
    (h : in_call fl p pid) (hc : ctx_owner c = (pid, fl.self)) :
    in_call (store_ctx fl p c) p pid := by
  obtain ⟨c0, hc0, hpid0⟩ := h.mine
  have hcpid : c.pid = pid := congrArg Prod.fst hc
  have hcfl : c.fl = fl.self := congrArg Prod.snd hc
  have hother : ∀ q ∈ fl.clst.interrupted, (store_ctx fl p c).ctxs q = fl.ctxs q := by
    intro q hq
    have hqp : q ≠ p := fun heq => h.pend (heq ▸ hq)
    simp [store_ctx, Function.update_noteq hqp]
  refine ⟨saved_inv_of fl _ h.inv (ctx_inv_store fl p c h.inv.lists (by rw [hc0]; simp))
    (fun q hq => ⟨hq, hother q hq⟩) ?_, h.pend, ⟨c, store_ctx_same _ _ _, hcpid⟩, ?_⟩
  · intro q d hd
    by_cases hqp : q = p
    · subst hqp
      rw [store_ctx_same] at hd
      simp only [Option.some.injEq] at hd
      rw [← hd]; exact hcfl
    · have : (store_ctx fl p c).ctxs q = fl.ctxs q := by
        simp [store_ctx, Function.update_noteq hqp]
      rw [this] at hd
      exact h.inv.own q d hd
  · intro q hq d hd
    rw [hother q hq] at hd
    exact h.none_saved q hq d hd

theorem in_call_apps (fl : fastrpc_file) (p : Nat) (pid : Int) (a : fastrpc_apps)
    (h : in_call fl p pid) : in_call { fl with apps := a } p pid :=
  ⟨⟨h.inv.lists, h.inv.one, h.inv.own⟩, h.pend, h.mine, h.none_saved⟩

theorem saved_inv_free (fl : fastrpc_file) (p : Nat) (h : saved_inv fl) :
    saved_inv (context_free fl p).1 := by
  refine saved_inv_of fl _ h (ctx_inv_free fl p h.lists) ?_ ?_
  · intro q hq
    unfold context_free at hq ⊢
    cases hp : fl.ctxs p with
    | none =>
      rw [hp] at hq
      exact ⟨hq, rfl⟩
    | some c =>
      rw [hp] at hq
      have hq1 : q ∈ fl.clst.interrupted ∧ q ≠ p := (mem_filter_ne _ _ _).1 hq
      exact ⟨hq1.1, by simp [Function.update_noteq hq1.2]⟩
  · intro q c hc
    unfold context_free at hc ⊢
    cases hp : fl.ctxs p with
    | none =>
      rw [hp] at hc
      exact h.own q c hc
    | some c0 =>
      rw [hp] at hc
      by_cases hqp : q = p
      · subst hqp; simp at hc
      · simp only [Function.update_noteq hqp] at hc
        exact h.own q c hc

theorem bail_saved (fl : fastrpc_file) (p : Nat) (pid : Int) (err i : Int)
    (eff : List Effect) (h : in_call fl p pid) :
    saved_inv (invoke_bail fl err (some p) i eff).fl := by
  obtain ⟨c, hc, hpid⟩ := h.mine
  unfold invoke_bail
  dsimp only
  split
  · refine ⟨ctx_inv_save fl p h.inv.lists (by rw [hc]; simp), ?_, h.inv.own⟩
    intro a b ca cb ha hb hca hcb hpe
    have hmem : ∀ x, x ∈ (context_save_interrupted fl p).clst.interrupted →
        x = p ∨ x ∈ fl.clst.interrupted := by
      intro x hx
      rcases List.mem_cons.1 hx with hx1 | hx1
      · exact Or.inl hx1
      · exact Or.inr ((mem_filter_ne _ _ _).1 hx1).1
    have hca1 : fl.ctxs a = some ca := hca
    have hcb1 : fl.ctxs b = some cb := hcb
    rcases hmem a ha with rfl | ha1 <;> rcases hmem b hb with rfl | hb1
    · rfl
    · exfalso
      rw [hc] at hca1
      simp only [Option.some.injEq] at hca1
      exact h.none_saved b hb1 cb hcb1 (by rw [← hpe, ← hca1]; exact hpid)
    · exfalso
      rw [hc] at hcb1
      simp only [Option.some.injEq] at hcb1
      exact h.none_saved a ha1 ca hca1 (by rw [hpe, ← hcb1]; exact hpid)
    · exact h.inv.one a b ca cb ha1 hb1 hca1 hcb1 hpe
  · exact saved_inv_free fl p h.inv

theorem wait_saved (e : Env) (fl : fastrpc_file) (p : Nat) (pid : Int) (eff : List Effect)
    (h : in_call fl p pid) : saved_inv (invoke_wait e fl p eff).fl := by
  obtain ⟨c, hc, hpid⟩ := h.mine
  have hown : ctx_owner c = (pid, fl.self) := by
    unfold ctx_owner
    rw [hpid, h.inv.own p c hc]
  unfold invoke_wait
  simp only [hc]
  have h1 := in_call_store fl p pid
    { c with msg := c.msg.map (fun m => { m with rxbuf := e.rxbuf }) } h hown
  split
  · exact bail_saved _ p pid _ _ _ h1
  · refine bail_saved _ p pid _ _ _ (in_call_store _ p pid _ h1 ?_)
    rw [put_args_owner]
    exact hown

theorem marshal_saved (P : Params) (e : Env) (fl : fastrpc_file) (p : Nat) (pid : Int)
    (c : fastrpc_invoke_ctx) (eff : List Effect) (h : in_call fl p pid)
    (hc : fl.ctxs p = some c) : saved_inv (invoke_marshal P e fl p c eff).fl := by
  obtain ⟨c1, hc1, hpid⟩ := h.mine
  rw [hc] at hc1
  simp only [Option.some.injEq] at hc1
  subst hc1
  have hown : ctx_owner (get_args P e fl c).ctx = (pid, fl.self) := by
    rw [get_args_owner]
    unfold ctx_owner
    rw [hpid, h.inv.own p c hc]
  have h1 : in_call (store_ctx { fl with apps := (get_args P e fl c).apps } p
      (get_args P e fl c).ctx) p pid :=
    in_call_store _ p pid _ (in_call_apps fl p pid _ h) hown
  unfold invoke_marshal
  dsimp only
  split
  · exact bail_saved _ p pid _ _ _ h1
  · split
    · exact bail_saved _ p pid _ _ _ h1
    · exact wait_saved e _ p pid _ h1

theorem restore_in_call (e : Env) (fl : fastrpc_file) (invoke : fastrpc_ioctl_invoke)
    (p : Nat) (h : saved_inv fl)
    (hp : (context_restore_interrupted e fl invoke).2.1 = some p) :
    in_call (context_restore_interrupted e fl invoke).2.2 p e.current_pid ∧
      (context_restore_interrupted e fl invoke).2.2.next_ctx = fl.next_ctx ∧
      ∃ c, find_interrupted fl.ctxs e.current_pid fl.clst.interrupted = some (p, c) ∧
        invoke.sc = c.sc := by
  have hl := ctx_inv_restore e fl invoke h.lists
  unfold context_restore_interrupted at hp hl ⊢
  cases hf : find_interrupted fl.ctxs e.current_pid fl.clst.interrupted with
  | none => rw [hf] at hp; simp at hp
  | some pc =>
    obtain ⟨q, c⟩ := pc
    obtain ⟨hs1, hs2, hs3⟩ := find_interrupted_some _ _ _ _ _ hf
    rw [hf] at hp hl
    dsimp only at hp hl ⊢
    split at hp
    · simp at hp
    · rename_i hm
      simp only [Option.some.injEq] at hp
      subst hp
      rw [if_neg hm] at hl ⊢
      have hsc : invoke.sc = c.sc := by
        by_contra hne
        exact hm (Or.inl hne)
      refine ⟨⟨saved_inv_of fl _ h hl ?_ h.own, ?_, ⟨c, hs2, hs3⟩, ?_⟩, rfl, c, rfl, hsc⟩
      · intro x hx
        exact ⟨((mem_filter_ne _ _ _).1 hx).1, rfl⟩
      · intro hx
        exact ((mem_filter_ne _ _ _).1 hx).2 rfl
      · intro x hx d hd hpid
        have hx1 := (mem_filter_ne _ _ _).1 hx
        exact hx1.2 (h.one x q d c hx1.1 hs1 hd hs2 (by rw [hpid, hs3]))

theorem restore_none (e : Env) (fl : fastrpc_file) (invoke : fastrpc_ioctl_invoke)
    (hp : (context_restore_interrupted e fl invoke).2.1 = none) :
    (context_restore_interrupted e fl invoke).2.2 = fl ∧
      ((context_restore_interrupted e fl invoke).1 = 0 →
        find_interrupted fl.ctxs e.current_pid fl.clst.interrupted = none) := by
  unfold context_restore_interrupted at hp ⊢
  cases hf : find_interrupted fl.ctxs e.current_pid fl.clst.interrupted with
  | none => exact ⟨rfl, fun _ => rfl⟩
  | some pc =>
    obtain ⟨q, c⟩ := pc
    rw [hf] at hp
    dsimp only at hp ⊢
    split at hp
    · rename_i hm
      rw [if_pos hm]
      refine ⟨rfl, ?_⟩
      intro h0
      exact absurd h0 (show (-EINVAL : Int) ≠ 0 by decide)
    · simp at hp

theorem saved_inv_alloc_fail (fl : fastrpc_file) (ctx : fastrpc_invoke_ctx)
    (h : saved_inv fl) :
    saved_inv (context_free
      { fl with next_ctx := fl.next_ctx + 1,
                ctxs := Function.update fl.ctxs fl.next_ctx (some ctx) } fl.next_ctx).1 := by
  have hl := ctx_inv_alloc_fail fl ctx h.lists
  have hfresh : fl.ctxs fl.next_ctx = none := by
    by_contra hne
    exact lt_irrefl _ (h.lists.1 _ hne)
  refine saved_inv_of fl _ h hl ?_ ?_
  · intro q hq
    unfold context_free at hq ⊢
    simp only [Function.update_same] at hq ⊢
    have hq1 : q ∈ fl.clst.interrupted ∧ q ≠ fl.next_ctx := (mem_filter_ne _ _ _).1 hq
    refine ⟨hq1.1, ?_⟩
    simp [Function.update_noteq hq1.2]
  · intro q c hc
    unfold context_free at hc ⊢
    simp only [Function.update_same] at hc ⊢
    by_cases hqp : q = fl.next_ctx
    · subst hqp; simp at hc
    · simp only [Function.update_idem, Function.update_noteq hqp] at hc
      exact h.own q c hc

theorem saved_inv_alloc_ok (fl : fastrpc_file) (ctx : fastrpc_invoke_ctx) (h : saved_inv fl)
    (hfl : ctx.fl = fl.self) :
    saved_inv { fl with next_ctx := fl.next_ctx + 1,
                        ctxs := Function.update fl.ctxs fl.next_ctx (some ctx),
                        clst := { fl.clst with pending := fl.next_ctx :: fl.clst.pending } } := by
  have hl := ctx_inv_alloc_ok fl ctx h.lists
  have hfresh : fl.ctxs fl.next_ctx = none := by
    by_contra hne
    exact lt_irrefl _ (h.lists.1 _ hne)
  have hnot := (h.lists.2.2.1 _ hfresh).2
  refine saved_inv_of fl _ h hl ?_ ?_
  · intro q hq
    have hq1 : q ∈ fl.clst.interrupted := hq
    have hqp : q ≠ fl.next_ctx := fun heq => hnot (heq ▸ hq1)
    exact ⟨hq1, by simp [Function.update_noteq hqp]⟩
  · intro q c hc
    by_cases hqp : q = fl.next_ctx
    · subst hqp
      simp only [Function.update_same, Option.some.injEq] at hc
      rw [← hc]; exact hfl
    · simp only [Function.update_noteq hqp] at hc
      exact h.own q c hc

theorem saved_inv_alloc (e : Env) (fl : fastrpc_file) (inv : fastrpc_ioctl_invoke_crc)
    (h : saved_inv fl) : saved_inv (context_alloc e fl inv).2.2.1 := by
  obtain ⟨invoke, fds, attrs⟩ := inv
  cases fds <;> cases attrs <;> cases hk : e.kzalloc_ctx <;> cases h1 : e.copy_pra_ok <;>
    cases h2 : e.copy_fds_ok <;> cases h3 : e.copy_attrs_ok <;>
    simp only [context_alloc, VERIFY, hk, h1, h2, h3, if_true, if_false, not_true_eq_false,
      not_false_eq_true, Bool.false_eq_true, ne_eq, one_ne_zero, neg_eq_zero] <;>
    first
    | exact h
    | exact saved_inv_alloc_fail fl _ h
    | exact saved_inv_alloc_ok fl _ h rfl

theorem bail_none_fl (fl : fastrpc_file) (err i : Int) (eff : List Effect) :
    (invoke_bail fl err none i eff).fl = fl := rfl

/-- A call of `fastrpc_internal_invoke` keeps the invariant of the session. -/
theorem invoke_saved (P : Params) (e : Env) (fl : fastrpc_file)
    (inv : fastrpc_ioctl_invoke_crc) (h : saved_inv fl) :
    saved_inv (fastrpc_internal_invoke P e fl inv).fl := by
  unfold fastrpc_internal_invoke
  dsimp only
  split
  · exact h
  · split
    · exact h
    · split
      · rename_i hv
        have hne : (context_restore_interrupted e fl inv.inv).1 ≠ 0 := by
          intro h0
          apply hv
          rw [VERIFY_zero]
          simpa using h0
        have hnone := context_restore_err e fl inv.inv hne
        rw [hnone, bail_none_fl, (restore_none e fl inv.inv hnone).1]
        exact h
      · rename_i hv
        have h0 : (context_restore_interrupted e fl inv.inv).1 = 0 := by
          have := not_not.1 hv
          rw [VERIFY_zero] at this
          simpa using this
        split
        · rename_i q hq
          exact wait_saved e _ q e.current_pid _ (restore_in_call e fl inv.inv q h hq).1
        · rename_i hq
          obtain ⟨hfl, hfind⟩ := restore_none e fl inv.inv hq
          rw [hfl]
          have hnone := find_interrupted_none_all _ _ _ (hfind h0)
          have hsa := saved_inv_alloc e fl inv h
          rcases context_alloc_spec e fl inv with ⟨ha1, ha2⟩ | ⟨c, ha, hc⟩
          · have hv2 : VERIFY 0 (decide ((context_alloc e fl inv).1 = 0)) ≠ 0 := by
              rw [ne_eq, VERIFY_zero]
              simpa using ha2
            rw [if_pos hv2, ha1, bail_none_fl]
            exact hsa
          · rw [ha] at hsa ⊢
            simp only [VERIFY_zero, decide_True, ne_eq, not_true_eq_false, if_false,
              Function.update_same]
            have hfresh : fl.ctxs fl.next_ctx = none := by
              by_contra hne
              exact lt_irrefl _ (h.lists.1 _ hne)
            have hnot := (h.lists.2.2.1 _ hfresh).2
            refine marshal_saved P e _ fl.next_ctx e.current_pid c _
              ⟨hsa, hnot, ⟨c, by simp, hc.2.2.2.2.2.2.2.1⟩, ?_⟩ (by simp)
            intro x hx d hd
            have hx1 : x ∈ fl.clst.interrupted := hx
            have hxp : x ≠ fl.next_ctx := fun heq => hnot (heq ▸ hx1)
            simp only [Function.update_noteq hxp] at hd
            exact hnone x hx1 d hd

theorem invoke_run_saved (P : Params) (calls : List (Env × fastrpc_ioctl_invoke_crc)) :
    ∀ fl, saved_inv fl → saved_inv (invoke_run P fl calls) := by
  induction calls with
  | nil => intro fl h; exact h
  | cons x rest ih =>
    intro fl h
    exact ih _ (invoke_saved P x.1 fl x.2 h)

theorem saved_inv_file_alloc (self : Nat) (apps : fastrpc_apps) (tgid cid domain : Int) :
    saved_inv { fastrpc_file_alloc self apps tgid with cid := cid, domain := domain } := by
  refine ⟨?_, ?_, ?_⟩
  · simp [ctx_inv, fastrpc_file_alloc]
  · intro p q c d hp
    simp [fastrpc_file_alloc] at hp
  · intro p c hc
    simp [fastrpc_file_alloc] at hc

theorem saved_of_le_one (fl : fastrpc_file) (pid : Int) (h : saved_inv fl) :
    (saved_of fl pid).length ≤ 1 := by
  have hnd : (saved_of fl pid).Nodup := h.lists.2.2.2.2.filter _
  have heq : ∀ a ∈ saved_of fl pid, ∀ b ∈ saved_of fl pid, a = b := by
    intro a ha b hb
    unfold saved_of at ha hb
    rw [List.mem_filter] at ha hb
    obtain ⟨ha1, ha2⟩ := ha
    obtain ⟨hb1, hb2⟩ := hb
    cases hca : fl.ctxs a with
    | none => rw [hca] at ha2; simp at ha2
    | some ca =>
      cases hcb : fl.ctxs b with
      | none => rw [hcb] at hb2; simp at hb2
      | some cb =>
        rw [hca] at ha2
        rw [hcb] at hb2
        simp only [decide_eq_true_eq] at ha2 hb2
        exact h.one a b ca cb ha1 hb1 hca hcb (by rw [ha2, hb2])
  match hl : saved_of fl pid with
  | [] => simp
  | [_] => simp
  | a :: b :: rest =>
    exfalso
    rw [hl] at hnd heq
    have hab : a = b := heq a (List.mem_cons_self _ _) b
      (List.mem_cons_of_mem _ (List.mem_cons_self _ _))
    subst hab
    exact (List.nodup_cons.1 hnd).1 (List.mem_cons_self _ _)

theorem find_saved (fl : fastrpc_file) (pid : Int) (p : Nat) (c : fastrpc_invoke_ctx)
    (h : saved_inv fl) (hp : p ∈ fl.clst.interrupted) (hc : fl.ctxs p = some c)
    (hpid : c.pid = pid) :
    find_interrupted fl.ctxs pid fl.clst.interrupted = some (p, c) := by
  cases hf : find_interrupted fl.ctxs pid fl.clst.interrupted with
  | none => exact absurd hpid (find_interrupted_none_all _ _ _ hf p hp c hc)
  | some qd =>
    obtain ⟨q, d⟩ := qd
    obtain ⟨h1, h2, h3⟩ := find_interrupted_some _ _ _ _ _ hf
    have hqp : q = p := h.one q p d c h1 hp h2 hc (by rw [h3, hpid])
    subst hqp
    rw [hc] at h2
    simp only [Option.some.injEq] at h2
    rw [h2]

theorem context_free_next (fl : fastrpc_file) (p : Nat) :
    (context_free fl p).1.next_ctx = fl.next_ctx := by
  unfold context_free
  split <;> rfl

theorem bail_next (fl : fastrpc_file) (err i : Int) (ctx : Option Nat) (eff : List Effect) :
    (invoke_bail fl err ctx i eff).fl.next_ctx = fl.next_ctx := by
  unfold invoke_bail
  split
  · rfl
  · dsimp only
    split
    · rfl
    · exact context_free_next _ _

theorem wait_next (e : Env) (fl : fastrpc_file) (p : Nat) (eff : List Effect) :
    (invoke_wait e fl p eff).fl.next_ctx = fl.next_ctx := by
  unfold invoke_wait
  split
  · rfl
  · dsimp only
    split
    · rw [bail_next]; rfl
    · rw [bail_next]; rfl

/-- A call of a thread that has a context in the interrupted list. -/
theorem invoke_with_saved (P : Params) (e : Env) (fl : fastrpc_file)
    (inv : fastrpc_ioctl_invoke_crc) (p : Nat) (c : fastrpc_invoke_ctx) (h : saved_inv fl)
    (hp : p ∈ fl.clst.interrupted) (hc : fl.ctxs p = some c) (hpid : c.pid = e.current_pid) :
    (fastrpc_internal_invoke P e fl inv).fl.next_ctx = fl.next_ctx ∧
      (inv.inv.sc ≠ c.sc →
        (fastrpc_internal_invoke P e fl inv).err ≠ 0 ∧
          (fastrpc_internal_invoke P e fl inv).ctx = none ∧
          (fastrpc_internal_invoke P e fl inv).fl = fl) ∧
      (inv.inv.sc = c.sc → inv.inv.handle ≠ FASTRPC_STATIC_HANDLE_KERNEL →
        0 ≤ fl.domain → fl.domain < fl.apps.num_channels →
        fastrpc_internal_invoke P e fl inv =
          invoke_wait e
            { fl with clst :=
              { interrupted := fl.clst.interrupted.filter (fun q => q ≠ p),
                pending := p :: fl.clst.pending.filter (fun q => q ≠ p) } } p []) := by
  have hf := find_saved fl e.current_pid p c h hp hc hpid
  have hown := h.own p c hc
  have hrest : context_restore_interrupted e fl inv.inv =
      if inv.inv.sc ≠ c.sc ∨ c.fl ≠ fl.self then (-EINVAL, none, fl)
      else (0, some p,
        { fl with clst :=
          { interrupted := fl.clst.interrupted.filter (fun q => q ≠ p),
            pending := p :: fl.clst.pending.filter (fun q => q ≠ p) } }) := by
    unfold context_restore_interrupted
    rw [hf]
    rfl
  by_cases hsc : inv.inv.sc = c.sc
  · have hr : context_restore_interrupted e fl inv.inv =
        (0, some p,
          { fl with clst :=
            { interrupted := fl.clst.interrupted.filter (fun q => q ≠ p),
              pending := p :: fl.clst.pending.filter (fun q => q ≠ p) } }) := by
      rw [hrest, if_neg]
      intro hor
      rcases hor with h1 | h1
      · exact h1 hsc
      · exact h1 hown
    refine ⟨?_, fun hne => absurd hsc hne, ?_⟩
    · unfold fastrpc_internal_invoke
      dsimp only
      split
      · rfl
      · split
        · rfl
        · rw [hr]
          simp only [VERIFY_zero, decide_True, ne_eq, not_true_eq_false, if_false]
          rw [wait_next]
    · intro _ hh hd1 hd2
      unfold fastrpc_internal_invoke
      dsimp only
      rw [if_neg (by rw [ne_eq, not_not, VERIFY_zero]; simpa using hh),
        if_neg (by rw [ne_eq, not_not, VERIFY_zero]; simp [hd1, hd2]), hr]
      simp only [VERIFY_zero, decide_True, ne_eq, not_true_eq_false, if_false]
  · have hr : context_restore_interrupted e fl inv.inv = (-EINVAL, none, fl) := by
      rw [hrest, if_pos (Or.inl hsc)]
    have hv : VERIFY 0 (decide ((-EINVAL : Int) = 0)) ≠ 0 := by decide
    refine ⟨?_, fun _ => ?_, fun heq => absurd heq hsc⟩
    · unfold fastrpc_internal_invoke
      dsimp only
      split
      · rfl
      · split
        · rfl
        · rw [hr]
          dsimp only
          rw [if_pos hv]
          rfl
    · unfold fastrpc_internal_invoke
      dsimp only
      split
      · rename_i h1
        exact ⟨h1, rfl, rfl⟩
      · split
        · exact ⟨show (-EBADR : Int) ≠ 0 by decide, rfl, rfl⟩
        · rw [hr]
          dsimp only
          rw [if_pos hv]
          exact ⟨hv, rfl, rfl⟩

/-- C25: in every state of a session reached from its creation by calls of
`fastrpc_internal_invoke` that run one after the other, the interrupted list
holds at most one context of any thread.  A call of a thread that has a
context `c` at `p` in that list allocates none (the next address to hand out
stays as it is): when the descriptor of the call differs from `c.sc` it
returns an error without a context and leaves the session as it was, and when
the descriptor is `c.sc` (the handle and the channel being valid) it takes up
`p` again, which at the end is off the pending list and back in the
interrupted list exactly when the wait was interrupted once more. -/
theorem C25_one_saved_context_per_thread (P : Params) (self : Nat) (apps : fastrpc_apps)
    (tgid cid domain : Int) (calls : List (Env × fastrpc_ioctl_invoke_crc)) :
    (∀ pid, (saved_of (session_after P self apps tgid cid domain calls) pid).length ≤ 1) ∧
    ∀ (e : Env) (inv : fastrpc_ioctl_invoke_crc) (p : Nat) (c : fastrpc_invoke_ctx),
      p ∈ (session_after P self apps tgid cid domain calls).clst.interrupted →
      (session_after P self apps tgid cid domain calls).ctxs p = some c →
      c.pid = e.current_pid →
      (fastrpc_internal_invoke P e (session_after P self apps tgid cid domain calls)
          inv).fl.next_ctx =
        (session_after P self apps tgid cid domain calls).next_ctx ∧
      (inv.inv.sc ≠ c.sc →
        (fastrpc_internal_invoke P e (session_after P self apps tgid cid domain calls)
          inv).err ≠ 0 ∧
        (fastrpc_internal_invoke P e (session_after P self apps tgid cid domain calls)
          inv).ctx = none ∧
        (fastrpc_internal_invoke P e (session_after P self apps tgid cid domain calls)
          inv).fl = session_after P self apps tgid cid domain calls) ∧
      (inv.inv.sc = c.sc → inv.inv.handle ≠ FASTRPC_STATIC_HANDLE_KERNEL →
        0 ≤ (session_after P self apps tgid cid domain calls).domain →
        (session_after P self apps tgid cid domain calls).domain <
          (session_after P self apps tgid cid domain calls).apps.num_channels →
        (fastrpc_internal_invoke P e (session_after P self apps tgid cid domain calls)
          inv).ctx = some p ∧
        p ∉ (fastrpc_internal_invoke P e (session_after P self apps tgid cid domain calls)
          inv).fl.clst.pending ∧
        (p ∈ (fastrpc_internal_invoke P e (session_after P self apps tgid cid domain calls)
          inv).fl.clst.interrupted ↔ e.wait = -ERESTARTSYS)) := by
  have hinv : saved_inv (session_after P self apps tgid cid domain calls) :=
    invoke_run_saved P calls _ (saved_inv_file_alloc self apps tgid cid domain)
  refine ⟨fun pid => saved_of_le_one _ pid hinv, ?_⟩
  intro e inv p c hp hc hpid
  obtain ⟨h1, h2, h3⟩ := invoke_with_saved P e _ inv p c hinv hp hc hpid
  refine ⟨h1, h2, ?_⟩
  intro hsc hh hd1 hd2
  rw [h3 hsc hh hd1 hd2]
  obtain ⟨w1, w2, w3⟩ := invoke_wait_settled e
    { session_after P self apps tgid cid domain calls with clst :=
      { interrupted := (session_after P self apps tgid cid domain calls).clst.interrupted.filter
          (fun q => q ≠ p),
        pending := p :: (session_after P self apps tgid cid domain calls).clst.pending.filter
          (fun q => q ≠ p) } } p [] c hc
  refine ⟨w1, w3.2.1, ?_⟩
  rw [w3.1, w2]

/-- C25 after one call of thread 7 whose wait was interrupted: its context is
saved at address 0, and a second call of the thread with another descriptor
fails and allocates nothing. -/
theorem C25_one_saved_context_per_thread_witness :
    saved_of (session_after params0 1 apps0 50 0 0 [(env_intr, inv0)]) 7 = [0] ∧
      (saved_of (session_after params0 1 apps0 50 0 0 [(env_intr, inv0)]) 7).length ≤ 1 ∧
      (fastrpc_internal_invoke params0 (env0 none)
          (session_after params0 1 apps0 50 0 0 [(env_intr, inv0)]) inv_out4).err ≠ 0 ∧
      (fastrpc_internal_invoke params0 (env0 none)
          (session_after params0 1 apps0 50 0 0 [(env_intr, inv0)]) inv_out4).fl.next_ctx = 1 :=
  ⟨rfl,
   (C25_one_saved_context_per_thread params0 1 apps0 50 0 0 [(env_intr, inv0)]).1 7,
   (((C25_one_saved_context_per_thread params0 1 apps0 50 0 0 [(env_intr, inv0)]).2
      (env0 none) inv_out4 0 _ (by decide) rfl rfl).2.1 (by decide)).1,
   ((C25_one_saved_context_per_thread params0 1 apps0 50 0 0 [(env_intr, inv0)]).2
      (env0 none) inv_out4 0 _ (by decide) rfl rfl).1⟩

/-! ## Restoring an interrupted context -/

/-- On a session that satisfies the invariant between calls,
`context_restore_interrupted` is settled by the context that the calling
thread has in the interrupted list, wherever it stands in the list. -/
theorem restore_saved (e : Env) (fl : fastrpc_file) (invoke : fastrpc_ioctl_invoke)
    (h : saved_inv fl) :
    (∀ p c, p ∈ fl.clst.interrupted → fl.ctxs p = some c → c.pid = e.current_pid →
        (c.sc = invoke.sc →
          context_restore_interrupted e fl invoke =
            (0, some p,
             { fl with clst :=
                { interrupted := fl.clst.interrupted.filter (fun q => q ≠ p),
                  pending := p :: fl.clst.pending.filter (fun q => q ≠ p) } })) ∧
        (c.sc ≠ invoke.sc → context_restore_interrupted e fl invoke = (-EINVAL, none, fl))) ∧
      ((∀ q ∈ fl.clst.interrupted, ∀ c, fl.ctxs q = some c → c.pid ≠ e.current_pid) →
        context_restore_interrupted e fl invoke = (0, none, fl)) := by
  refine ⟨?_, ?_⟩
  · intro p c hp hc hpid
    have hf := find_saved fl e.current_pid p c h hp hc hpid
    have hown := h.own p c hc
    refine ⟨?_, ?_⟩
    · intro hsc
      unfold context_restore_interrupted
      rw [hf]
      have hno : ¬ (invoke.sc ≠ c.sc ∨ c.fl ≠ fl.self) := by
        rw [not_or]
        exact ⟨not_not.mpr hsc.symm, not_not.mpr hown⟩
      simp only [hno, if_false, hlist_del_init]
    · intro hsc
      unfold context_restore_interrupted
      rw [hf]
      have hyes : invoke.sc ≠ c.sc ∨ c.fl ≠ fl.self := Or.inl (fun hc2 => hsc hc2.symm)
      simp only [hyes, if_true]
  · intro hnone
    unfold context_restore_interrupted
    rw [find_interrupted_none _ _ _ hnone]

/-- C2: in every state of a session reached from its creation by calls of
`fastrpc_internal_invoke` that run one after the other, and for every
invocation, `context_restore_interrupted` returns a context exactly when the
interrupted list holds a context saved by the calling thread whose descriptor
equals the descriptor of the invocation; the call then returns 0 and that
context, which has left the interrupted list and is the head of the pending
list.  When the calling thread has a saved context with another descriptor
the call returns `-EINVAL`, no context, and leaves the session as it is; it
returns an error in this case only.  When the calling thread has no saved
context there is nothing to restore: the call returns 0 and no context and
leaves the session as it is. -/
theorem C2_restore_iff_saved_match (P : Params) (self : Nat) (apps : fastrpc_apps)
    (tgid cid domain : Int) (calls : List (Env × fastrpc_ioctl_invoke_crc))
    (e : Env) (invoke : fastrpc_ioctl_invoke) :
    ((context_restore_interrupted e (session_after P self apps tgid cid domain calls)
          invoke).2.1.isSome ↔
        ∃ p ∈ (session_after P self apps tgid cid domain calls).clst.interrupted,
          ∃ c, (session_after P self apps tgid cid domain calls).ctxs p = some c ∧
            c.pid = e.current_pid ∧ c.sc = invoke.sc) ∧
      (∀ p c, p ∈ (session_after P self apps tgid cid domain calls).clst.interrupted →
        (session_after P self apps tgid cid domain calls).ctxs p = some c →
        c.pid = e.current_pid →
        (c.sc = invoke.sc →
          context_restore_interrupted e (session_after P self apps tgid cid domain calls)
              invoke =
            (0, some p,
             { session_after P self apps tgid cid domain calls with clst :=
                { interrupted :=
                    (session_after P self apps tgid cid domain calls).clst.interrupted.filter
                      (fun q => q ≠ p),
                  pending :=
                    p :: (session_after P self apps tgid cid domain calls).clst.pending.filter
                      (fun q => q ≠ p) } })) ∧
        (c.sc ≠ invoke.sc →
          context_restore_interrupted e (session_after P self apps tgid cid domain calls)
              invoke =
            (-EINVAL, none, session_after P self apps tgid cid domain calls))) ∧
      ((context_restore_interrupted e (session_after P self apps tgid cid domain calls)
          invoke).1 ≠ 0 ↔
        ∃ p ∈ (session_after P self apps tgid cid domain calls).clst.interrupted,
          ∃ c, (session_after P self apps tgid cid domain calls).ctxs p = some c ∧
            c.pid = e.current_pid ∧ c.sc ≠ invoke.sc) ∧
      ((∀ q ∈ (session_after P self apps tgid cid domain calls).clst.interrupted,
          ∀ c, (session_after P self apps tgid cid domain calls).ctxs q = some c →
            c.pid ≠ e.current_pid) →
        context_restore_interrupted e (session_after P self apps tgid cid domain calls)
            invoke =
          (0, none, session_after P self apps tgid cid domain calls)) := by
  have hinv : saved_inv (session_after P self apps tgid cid domain calls) :=
    invoke_run_saved P calls _ (saved_inv_file_alloc self apps tgid cid domain)
  generalize session_after P self apps tgid cid domain calls = fl at hinv ⊢
  obtain ⟨hone, hnone⟩ := restore_saved e fl invoke hinv
  have hcases : (∀ q ∈ fl.clst.interrupted, ∀ c, fl.ctxs q = some c → c.pid ≠ e.current_pid) ∨
      ∃ p ∈ fl.clst.interrupted, ∃ c, fl.ctxs p = some c ∧ c.pid = e.current_pid := by
    by_cases hex : ∃ p ∈ fl.clst.interrupted, ∃ c, fl.ctxs p = some c ∧ c.pid = e.current_pid
    · exact Or.inr hex
    · left
      intro q hq c hc hpid
      exact hex ⟨q, hq, c, hc, hpid⟩
  refine ⟨?_, hone, ?_, hnone⟩
  · constructor
    · intro hsome
      rcases hcases with hno | ⟨p, hp, c, hc, hpid⟩
      · rw [hnone hno] at hsome
        simp at hsome
      · by_cases hsc : c.sc = invoke.sc
        · exact ⟨p, hp, c, hc, hpid, hsc⟩
        · rw [(hone p c hp hc hpid).2 hsc] at hsome
          simp at hsome
    · rintro ⟨p, hp, c, hc, hpid, hsc⟩
      rw [(hone p c hp hc hpid).1 hsc]
      rfl
  · constructor
    · intro herr
      rcases hcases with hno | ⟨p, hp, c, hc, hpid⟩
      · rw [hnone hno] at herr
        exact absurd rfl herr
      · by_cases hsc : c.sc = invoke.sc
        · rw [(hone p c hp hc hpid).1 hsc] at herr
          exact absurd rfl herr
        · exact ⟨p, hp, c, hc, hpid, hsc⟩
    · rintro ⟨p, hp, c, hc, hpid, hsc⟩
      rw [(hone p c hp hc hpid).2 hsc]
      show (-EINVAL : Int) ≠ 0
      decide

/-- C2 after one call of thread 7 (descriptor 0) whose wait was interrupted:
a call of that thread with descriptor 0 gets the context at address 0 back,
a call of that thread with the descriptor of `inv_out4` gets `-EINVAL` and no
context, and no error is reported to a call with descriptor 0. -/
theorem C2_restore_iff_saved_match_witness :
    context_restore_interrupted (env0 none)
          (session_after params0 1 apps0 50 0 0 [(env_intr, inv0)]) invoke0 =
        (0, some 0,
         { session_after params0 1 apps0 50 0 0 [(env_intr, inv0)] with clst :=
            { interrupted :=
                (session_after params0 1 apps0 50 0 0 [(env_intr, inv0)]).clst.interrupted.filter
                  (fun q => q ≠ 0),
              pending :=
                0 :: (session_after params0 1 apps0 50 0 0 [(env_intr, inv0)]).clst.pending.filter
                  (fun q => q ≠ 0) } }) ∧
      context_restore_interrupted (env0 none)
          (session_after params0 1 apps0 50 0 0 [(env_intr, inv0)]) inv_out4.inv =
        (-EINVAL, none, session_after params0 1 apps0 50 0 0 [(env_intr, inv0)]) ∧
      (context_restore_interrupted (env0 none)
          (session_after params0 1 apps0 50 0 0 [(env_intr, inv0)]) invoke0).2.1.isSome :=
  ⟨((C2_restore_iff_saved_match params0 1 apps0 50 0 0 [(env_intr, inv0)] (env0 none)
      invoke0).2.1 0 _ (by decide) rfl rfl).1 rfl,
   ((C2_restore_iff_saved_match params0 1 apps0 50 0 0 [(env_intr, inv0)] (env0 none)
      inv_out4.inv).2.1 0 _ (by decide) rfl rfl).2 (by decide),
   (C2_restore_iff_saved_match params0 1 apps0 50 0 0 [(env_intr, inv0)] (env0 none)
      invoke0).1.mpr ⟨0, by decide, _, rfl, rfl, rfl⟩⟩

end VirtioFastrpc


namespace Slatecom

open slatecom_spi_state slatecom_state

/-! ## The busy gate -/

theorem get_sync_awake (h : Hw) (s : slate_drv) (hrt : s.slate_is_runtime_suspend = 0) :
    pm_runtime_get_sync h s = { ret := some 0, s := log s call.pm_runtime_get_sync } := by
  unfold pm_runtime_get_sync
  dsimp only
  rw [if_neg]
  intro hc
  exact hc hrt

theorem get_sync_locked (h : Hw) (s : slate_drv) (hrt : s.slate_is_runtime_suspend ≠ 0)
    (hl : s.irq_lock = 1) :
    pm_runtime_get_sync h s =
      { ret := some 0,
        s := { log s call.pm_runtime_get_sync with
               slate_is_spi_active := 1, slate_is_runtime_suspend := 0,
               state := SLATECOM_STATE_ACTIVE } } := by
  have h1 : (log s call.pm_runtime_get_sync).slate_is_runtime_suspend ≠ 0 := hrt
  have h2 : (log s call.pm_runtime_get_sync).irq_lock = 1 := hl
  unfold pm_runtime_get_sync slatecom_pm_runtime_resume
  dsimp only
  rw [if_pos h1, if_pos h2]

/-- On a probed driver whose transfer gate is busy, each of
`slatecom_ahb_read`, `slatecom_ahb_write`, `slatecom_ahb_write_bytes`,
`slatecom_fifo_write`, `slatecom_fifo_read` and `slatecom_reg_read`, called
with a handle, a buffer and a count in range, returns `-EBUSY` and leaves the
whole driver state as it was; on a device that is not runtime-suspended
`slatecom_reg_write` returns `-EBUSY` with the driver state unchanged but for
the three power-management calls it logs around the check. -/
theorem busy_gate_ops (h : Hw) (cntx : slate_context) (s : slate_drv)
    (hready : s.slate_com_drv = true) (hbusy : s.spi_state = SLATECOM_SPI_BUSY) :
    (∀ addr n, 1 ≤ n → n ≤ SLATE_SPI_MAX_WORDS →
        slatecom_ahb_read h (some cntx) addr n true s =
          { ret := -EBUSY, handle := some cntx, data := none, s := s }) ∧
      (∀ addr n wb, 1 ≤ n → n ≤ SLATE_SPI_MAX_WORDS →
        slatecom_ahb_write h (some cntx) addr n (some wb) s =
          { ret := -EBUSY, handle := some cntx, data := none, s := s }) ∧
      (∀ addr n wb, 1 ≤ n → n ≤ SLATE_SPI_MAX_WORDS * 4 →
        slatecom_ahb_write_bytes h (some cntx) addr n (some wb) s =
          { ret := -EBUSY, handle := some cntx, data := none, s := s }) ∧
      (∀ n wb, 1 ≤ n → n ≤ SLATE_SPI_MAX_WORDS →
        slatecom_fifo_write h (some cntx) n (some wb) s =
          { ret := -EBUSY, handle := some cntx, data := none, s := s }) ∧
      (∀ n, 1 ≤ n → n ≤ SLATE_SPI_MAX_WORDS →
        slatecom_fifo_read h (some cntx) n true s =
          { ret := -EBUSY, handle := some cntx, data := none, s := s }) ∧
      (∀ reg n, 1 ≤ n → n ≤ SLATE_SPI_MAX_REGS →
        slatecom_reg_read h (some cntx) reg n true s =
          { ret := -EBUSY, handle := some cntx, data := none, s := s }) ∧
      (∀ reg n wb, 1 ≤ n → n ≤ SLATE_SPI_MAX_REGS → s.slate_is_runtime_suspend = 0 →
        slatecom_reg_write h (some cntx) reg n (some wb) s =
          { ret := some (-EBUSY), handle := some cntx,
            s := { s with trace := s.trace ++ [call.pm_runtime_get_sync,
              call.pm_runtime_mark_last_busy, call.pm_runtime_put_sync_autosuspend] } }) := by
  have hr : is_slatecom_ready s = true := hready
  refine ⟨?_, ?_, ?_, ?_, ?_, ?_, ?_⟩
  · intro addr n h1 h2
    have hv : ¬ ((some cntx).isNone = true ∨ ¬ (true = true) ∨ n = 0 ∨ n > SLATE_SPI_MAX_WORDS) := by
      simp
      omega
    unfold slatecom_ahb_read
    rw [if_neg hv, if_neg (by simp [hr]), if_pos hbusy]
  · intro addr n wb h1 h2
    have hv : ¬ ((some cntx).isNone = true ∨ n = 0 ∨ n > SLATE_SPI_MAX_WORDS) := by
      simp
      omega
    unfold slatecom_ahb_write
    dsimp only
    rw [if_neg hv, if_neg (by simp [hr]), if_pos hbusy]
  · intro addr n wb h1 h2
    have hv : ¬ ((some cntx).isNone = true ∨ n = 0 ∨ n > SLATE_SPI_MAX_WORDS * 4) := by
      simp
      omega
    unfold slatecom_ahb_write_bytes
    dsimp only
    rw [if_neg hv, if_neg (by simp [hr]), if_pos hbusy]
  · intro n wb h1 h2
    have hv : ¬ ((some cntx).isNone = true ∨ n = 0 ∨ n > SLATE_SPI_MAX_WORDS) := by
      simp
      omega
    unfold slatecom_fifo_write
    dsimp only
    rw [if_neg hv, if_neg (by simp [hr]), if_pos hbusy]
  · intro n h1 h2
    have hv : ¬ ((some cntx).isNone = true ∨ ¬ (true = true) ∨ n = 0 ∨ n > SLATE_SPI_MAX_WORDS) := by
      simp
      omega
    unfold slatecom_fifo_read
    rw [if_neg hv, if_neg (by simp [hr]), if_pos hbusy]
  · intro reg n h1 h2
    have hv : ¬ ((some cntx).isNone = true ∨ ¬ (true = true) ∨ n = 0 ∨ n > SLATE_SPI_MAX_REGS) := by
      simp
      omega
    unfold slatecom_reg_read
    rw [if_neg hv, if_neg (by simp [hr]), if_pos hbusy]
  · intro reg n wb h1 h2 hrt
    have h3 : n % 256 = n := Nat.mod_eq_of_lt (by unfold SLATE_SPI_MAX_REGS at h2; omega)
    have hv : ¬ ((some cntx).isNone = true ∨ n % 256 = 0 ∨ n % 256 > SLATE_SPI_MAX_REGS) := by
      rw [h3]
      simp
      omega
    have hr2 : is_slatecom_ready (log s call.pm_runtime_get_sync) = true := hready
    have hb2 : (log s call.pm_runtime_get_sync).spi_state = SLATECOM_SPI_BUSY := hbusy
    unfold slatecom_reg_write
    rw [get_sync_awake h s hrt]
    unfold slatecom_reg_write_cmd
    dsimp only
    rw [if_neg hv, if_neg (by simp [hr2]), if_pos hb2]
    simp [pm_put, log]

/-- C16 (the code departs from the claim): `slatecom_reg_write` calls
`pm_runtime_get_sync` before the gate is tested.  The driver `drv_rt_busy` is
probed and booted, runtime-suspended, with the gate busy.  On it the six other
operations return `-EBUSY` and leave the driver state as it is.
`slatecom_reg_write` returns `-EBUSY` too and issues no SPI transfer, but the
runtime resume has run first: the link state is active and
`slate_is_spi_active` is 1 when it returns; and when the wait for the resume
interrupt times out `BUG()` is reached and the call does not return. -/
theorem C16_reg_write_resumes_before_gate_test :
    (drv_rt_busy.slate_com_drv = true ∧ drv_rt_busy.spi_state = SLATECOM_SPI_BUSY ∧
        drv_rt_busy.state = SLATECOM_STATE_RUNTIME_SUSPEND ∧
        drv_rt_busy.slate_is_spi_active = 0 ∧ drv_rt_busy.slate_is_runtime_suspend = 1) ∧
      (slatecom_ahb_read (hw0 1) (some handle0) 4096 4 true drv_rt_busy =
          { ret := -EBUSY, handle := some handle0, data := none, s := drv_rt_busy } ∧
        slatecom_ahb_write (hw0 1) (some handle0) 4096 4 (some (fun a => a)) drv_rt_busy =
          { ret := -EBUSY, handle := some handle0, data := none, s := drv_rt_busy } ∧
        slatecom_ahb_write_bytes (hw0 1) (some handle0) 4096 6 (some (fun a => a))
            drv_rt_busy =
          { ret := -EBUSY, handle := some handle0, data := none, s := drv_rt_busy } ∧
        slatecom_fifo_write (hw0 1) (some handle0) 2 (some (fun a => a)) drv_rt_busy =
          { ret := -EBUSY, handle := some handle0, data := none, s := drv_rt_busy } ∧
        slatecom_fifo_read (hw0 1) (some handle0) 2 true drv_rt_busy =
          { ret := -EBUSY, handle := some handle0, data := none, s := drv_rt_busy } ∧
        slatecom_reg_read (hw0 1) (some handle0) 5 5 true drv_rt_busy =
          { ret := -EBUSY, handle := some handle0, data := none, s := drv_rt_busy }) ∧
      (slatecom_reg_write (hw0 1) (some handle0) 20 1 (some (fun a => a)) drv_rt_busy =
          { ret := some (-EBUSY), handle := some handle0,
            s := { drv_rt_busy with
                   state := SLATECOM_STATE_ACTIVE, slate_is_spi_active := 1,
                   slate_is_runtime_suspend := 0,
                   trace := drv_rt_busy.trace ++
                     [call.pm_runtime_get_sync,
                      call.wait_for_completion_timeout SLATE_RESUME_IRQ_TIMEOUT,
                      call.pm_runtime_mark_last_busy,
                      call.pm_runtime_put_sync_autosuspend] } }) ∧
      (slatecom_reg_write (hw0 0) (some handle0) 20 1 (some (fun a => a)) drv_rt_busy =
          { ret := none, handle := some handle0,
            s := { drv_rt_busy with
                   slate_is_spi_active := 1, slate_is_runtime_suspend := 0,
                   trace := drv_rt_busy.trace ++
                     [call.pm_runtime_get_sync,
                      call.wait_for_completion_timeout SLATE_RESUME_IRQ_TIMEOUT,
                      call.BUG] } }) := by
  refine ⟨by decide, ?_, by decide, by decide⟩
  have hb := busy_gate_ops (hw0 1) handle0 drv_rt_busy (by decide) (by decide)
  exact ⟨hb.1 4096 4 (by decide) (by decide), hb.2.1 4096 4 _ (by decide) (by decide),
    hb.2.2.1 4096 6 _ (by decide) (by decide), hb.2.2.2.1 2 _ (by decide) (by decide),
    hb.2.2.2.2.1 2 (by decide) (by decide), hb.2.2.2.2.2.1 5 5 (by decide) (by decide)⟩


/-! ## The resume sequence -/

theorem spi_sync_mem_log (s : slate_drv) (y : call) (x : spi_transfer) (hy : ∀ z, y ≠ call.spi_sync z)
    (hm : call.spi_sync x ∈ (log s y).trace) : call.spi_sync x ∈ s.trace := by
  unfold log at hm
  dsimp only at hm
  rcases List.mem_append.mp hm with h1 | h1
  · exact h1
  · rw [List.mem_singleton] at h1
    exact absurd h1.symm (hy x)

/-- C17 (the claim as worded fails): on the suspended link `drv_suspended`
with the gate busy and the resume completion arriving in time,
`slatecom_resume_l` issues no transfer, returns 0 and sets the link state to
active. -/
theorem C17_resume_busy_claim_fails :
    slatecom_resume_l (hw0 1) (some handle0) (drv_suspended SLATECOM_SPI_BUSY) =
        { ret := some 0, handle := some handle0,
          s := { drv_suspended SLATECOM_SPI_BUSY with
            state := SLATECOM_STATE_ACTIVE,
            trace := [call.wait_for_completion_timeout SLATE_RESUME_IRQ_TIMEOUT] } } ∧
      ¬ resume_busy_claim (hw0 1) handle0 (drv_suspended SLATECOM_SPI_BUSY) := by
  refine ⟨by decide, ?_⟩
  intro hc
  have h1 := (hc (by decide) (by decide) (by decide) (by decide) rfl).1
  revert h1
  decide

/-- C17 (amended): on a booted link that is not active, with the gate busy,
`slatecom_resume_l` issues no `spi_sync` (`is_slate_resume` returns at once,
reporting the remote as not awake) and never returns `-EBUSY`: when
`ok_to_sleep` is clear, or the wait for the resume completion returns in time,
it returns 0 with the link state set to active; when `ok_to_sleep` is set and
the wait times out it reaches `BUG()` with the link state as it was. -/
theorem C17_resume_with_busy_gate (h : Hw) (cntx : slate_context) (s : slate_drv)
    (hact : s.slate_is_spi_active ≠ 0)
    (hprobed : cntx.state = SLATECOM_PROB_WAIT → s.slate_com_drv = true)
    (hboot : bit_set s.g_slav_status_reg 31 = true) (hna : s.state ≠ SLATECOM_STATE_ACTIVE)
    (hbusy : s.spi_state = SLATECOM_SPI_BUSY) :
    (∀ x, call.spi_sync x ∈ (slatecom_resume_l h (some cntx) s).s.trace →
        call.spi_sync x ∈ s.trace) ∧
      (slatecom_resume_l h (some cntx) s).ret ≠ some (-EBUSY) ∧
      ((s.ok_to_sleep = 0 ∨ h.wait_for_completion_timeout ≠ 0) →
        (slatecom_resume_l h (some cntx) s).ret = some 0 ∧
          (slatecom_resume_l h (some cntx) s).s.state = SLATECOM_STATE_ACTIVE) ∧
      (s.ok_to_sleep ≠ 0 ∧ h.wait_for_completion_timeout = 0 →
        (slatecom_resume_l h (some cntx) s).ret = none ∧
          (slatecom_resume_l h (some cntx) s).s.state = s.state ∧
          call.BUG ∈ (slatecom_resume_l h (some cntx) s).s.trace) := by
  have hp : ¬ (cntx.state = SLATECOM_PROB_WAIT ∧ ¬ is_slatecom_ready s = true) := by
    rintro ⟨h1, h2⟩
    exact h2 (hprobed h1)
  have his : ∀ c : Option slate_context, is_slate_resume h c s = (0, c, s) := by
    intro c
    unfold is_slate_resume
    rw [if_pos hbusy]
  unfold slatecom_resume_l
  simp only [hact, hp, hna, hboot, his, if_false, not_true_eq_false, true_and]
  by_cases hs : s.ok_to_sleep = 0
  · simp [hs, EBUSY]
  · by_cases hw : h.wait_for_completion_timeout = 0
    · simp only [hs, hw, ne_eq, not_false_eq_true, if_true, not_true_eq_false, or_self,
        false_implies, and_self, true_implies, true_and, reduceCtorEq]
      refine ⟨?_, rfl, ?_⟩
      · intro x hx
        exact spi_sync_mem_log s _ x (by simp) (spi_sync_mem_log _ _ x (by simp) hx)
      · simp [log]
    · simp only [hs, hw, ne_eq, not_false_eq_true, if_true, if_false, or_true, true_implies,
        and_false, false_implies, and_true]
      refine ⟨?_, ?_⟩
      · intro x hx
        exact spi_sync_mem_log s _ x (by simp) hx
      · simp [EBUSY]

/-- C17, on the suspended link `drv_suspended` with the gate busy: the wait
returns in time and the link becomes active; the wait times out and `BUG()` is
reached. -/
theorem C17_resume_with_busy_gate_witness :
    ((slatecom_resume_l (hw0 1) (some handle0) (drv_suspended SLATECOM_SPI_BUSY)).ret = some 0 ∧
        (slatecom_resume_l (hw0 1) (some handle0) (drv_suspended SLATECOM_SPI_BUSY)).s.state =
          SLATECOM_STATE_ACTIVE) ∧
      ((slatecom_resume_l (hw0 0) (some handle0) (drv_suspended SLATECOM_SPI_BUSY)).ret = none ∧
        (slatecom_resume_l (hw0 0) (some handle0) (drv_suspended SLATECOM_SPI_BUSY)).s.state =
          (drv_suspended SLATECOM_SPI_BUSY).state ∧
        call.BUG ∈ (slatecom_resume_l (hw0 0) (some handle0)
          (drv_suspended SLATECOM_SPI_BUSY)).s.trace) :=
  ⟨(C17_resume_with_busy_gate (hw0 1) handle0 (drv_suspended SLATECOM_SPI_BUSY) (by decide)
      (by decide) (by decide) (by decide) rfl).2.2.1 (Or.inr (by decide)),
   (C17_resume_with_busy_gate (hw0 0) handle0 (drv_suspended SLATECOM_SPI_BUSY) (by decide)
      (by decide) (by decide) (by decide) rfl).2.2.2 ⟨by decide, rfl⟩⟩

theorem slatecom_transfer_frame (h : Hw) (handle : Option slate_context)
    (tx_buf : Option (Nat → Nat)) (rx_buf : Bool) (txn_len freq : Nat) (s : slate_drv) :
    (slatecom_transfer h handle tx_buf rx_buf txn_len freq s).2.2.2.state = s.state ∧
      (slatecom_transfer h handle tx_buf rx_buf txn_len freq s).2.2.2.ok_to_sleep =
        s.ok_to_sleep ∧
      (slatecom_transfer h handle tx_buf rx_buf txn_len freq s).2.2.2.trace.count call.BUG =
        s.trace.count call.BUG := by
  unfold slatecom_transfer
  split
  · exact ⟨rfl, rfl, rfl⟩
  · exact ⟨rfl, rfl, rfl⟩
  · dsimp only
    split_ifs <;> simp [log]

theorem is_slate_resume_frame (h : Hw) (handle : Option slate_context) (s : slate_drv) :
    (is_slate_resume h handle s).2.2.state = s.state ∧
      (is_slate_resume h handle s).2.2.ok_to_sleep = s.ok_to_sleep ∧
      (is_slate_resume h handle s).2.2.trace.count call.BUG = s.trace.count call.BUG := by
  have hlog : ∀ (t : slate_drv) (ms : Int), (log t (call.msleep ms)).state = t.state ∧
      (log t (call.msleep ms)).ok_to_sleep = t.ok_to_sleep ∧
      (log t (call.msleep ms)).trace.count call.BUG = t.trace.count call.BUG := by
    intro t ms
    refine ⟨rfl, rfl, ?_⟩
    simp [log]
  have hs1 : ∀ t : slate_drv,
      (if h.time_elapsed < MIN_SLEEP_TIME then log t (call.msleep (MIN_SLEEP_TIME - h.time_elapsed))
        else t).state = t.state ∧
      (if h.time_elapsed < MIN_SLEEP_TIME then log t (call.msleep (MIN_SLEEP_TIME - h.time_elapsed))
        else t).ok_to_sleep = t.ok_to_sleep ∧
      (if h.time_elapsed < MIN_SLEEP_TIME then log t (call.msleep (MIN_SLEEP_TIME - h.time_elapsed))
        else t).trace.count call.BUG = t.trace.count call.BUG := by
    intro t
    split_ifs
    · exact hlog t _
    · exact ⟨rfl, rfl, rfl⟩
  unfold is_slate_resume
  by_cases hb : s.spi_state = SLATECOM_SPI_BUSY
  · rw [if_pos hb]
    exact ⟨rfl, rfl, rfl⟩
  · rw [if_neg hb]
    dsimp only
    have h0 := hs1 s
    generalize (if h.time_elapsed < MIN_SLEEP_TIME then
      log s (call.msleep (MIN_SLEEP_TIME - h.time_elapsed)) else s) = s1 at h0 ⊢
    split_ifs <;> first
      | exact ⟨(slatecom_transfer_frame _ _ _ _ _ _ _).1.trans
            ((slatecom_transfer_frame _ _ _ _ _ _ _).1.trans h0.1),
          (slatecom_transfer_frame _ _ _ _ _ _ _).2.1.trans
            ((slatecom_transfer_frame _ _ _ _ _ _ _).2.1.trans h0.2.1),
          (slatecom_transfer_frame _ _ _ _ _ _ _).2.2.trans
            ((slatecom_transfer_frame _ _ _ _ _ _ _).2.2.trans h0.2.2)⟩
      | exact ⟨(slatecom_transfer_frame _ _ _ _ _ _ _).1.trans h0.1,
          (slatecom_transfer_frame _ _ _ _ _ _ _).2.1.trans h0.2.1,
          (slatecom_transfer_frame _ _ _ _ _ _ _).2.2.trans h0.2.2⟩

/-- The handle as `slatecom_resume_l` passes it on gives the same answer and
the same driver state in `is_slate_resume` as the handle of the caller. -/
theorem is_slate_resume_fixup (h : Hw) (cntx : slate_context) (s : slate_drv)
    (hprobed : cntx.state = SLATECOM_PROB_WAIT → s.slate_com_drv = true) :
    (is_slate_resume h (some (if cntx.state = SLATECOM_PROB_WAIT then
        { cntx with slate_spi := true, state := SLATECOM_PROB_SUCCESS } else cntx)) s).1 =
        (is_slate_resume h (some cntx) s).1 ∧
      (is_slate_resume h (some (if cntx.state = SLATECOM_PROB_WAIT then
        { cntx with slate_spi := true, state := SLATECOM_PROB_SUCCESS } else cntx)) s).2.2 =
        (is_slate_resume h (some cntx) s).2.2 := by
  by_cases hw : cntx.state = SLATECOM_PROB_WAIT
  · have hr := hprobed hw
    rw [if_pos hw]
    have ht : ∀ (t : slate_drv), t.slate_com_drv = true →
        slatecom_transfer h (some cntx) (some (cmd_buf 0x05 none)) true 0x08 SPI_FREQ_40MHZ t =
          slatecom_transfer h
            (some { cntx with slate_spi := true, state := SLATECOM_PROB_SUCCESS })
            (some (cmd_buf 0x05 none)) true 0x08 SPI_FREQ_40MHZ t := by
      intro t htr
      unfold slatecom_transfer
      simp [hw, is_slatecom_ready, htr]
    have hr1 : (if h.time_elapsed < MIN_SLEEP_TIME then
        log s (call.msleep (MIN_SLEEP_TIME - h.time_elapsed)) else s).slate_com_drv = true := by
      split_ifs
      · exact hr
      · exact hr
    unfold is_slate_resume
    by_cases hb : s.spi_state = SLATECOM_SPI_BUSY
    · rw [if_pos hb, if_pos hb]
      exact ⟨rfl, rfl⟩
    · rw [if_neg hb, if_neg hb]
      dsimp only
      rw [ht _ hr1]
      exact ⟨rfl, rfl⟩
  · rw [if_neg hw]
    exact ⟨rfl, rfl⟩

/-- C18: `slatecom_resume_l` on a booted link that is not active.  When the
status read of `is_slate_resume` does not show the remote awake and the wait
for the resume completion (made with `SLATE_RESUME_IRQ_TIMEOUT`, after an
OK-to-sleep message) times out, `BUG()` is reached exactly once, nothing is
returned and the link state stays as it was, not active.  When the status read
shows bit 31, or the wait does not time out, `BUG()` is not reached, 0 is
returned and the link state is active. -/
theorem C18_resume_timeout_is_fatal (h : Hw) (cntx : slate_context) (s : slate_drv)
    (hact : s.slate_is_spi_active ≠ 0)
    (hprobed : cntx.state = SLATECOM_PROB_WAIT → s.slate_com_drv = true)
    (hboot : bit_set s.g_slav_status_reg 31 = true) (hna : s.state ≠ SLATECOM_STATE_ACTIVE) :
    ((is_slate_resume h (some cntx) s).1 = 0 → s.ok_to_sleep ≠ 0 →
        h.wait_for_completion_timeout = 0 →
        (slatecom_resume_l h (some cntx) s).ret = none ∧
          (slatecom_resume_l h (some cntx) s).s.trace.count call.BUG =
            s.trace.count call.BUG + 1 ∧
          call.wait_for_completion_timeout SLATE_RESUME_IRQ_TIMEOUT ∈
            (slatecom_resume_l h (some cntx) s).s.trace ∧
          (slatecom_resume_l h (some cntx) s).s.state = s.state ∧
          (slatecom_resume_l h (some cntx) s).s.state ≠ SLATECOM_STATE_ACTIVE) ∧
      ((is_slate_resume h (some cntx) s).1 ≠ 0 ∨ h.wait_for_completion_timeout ≠ 0 →
        (slatecom_resume_l h (some cntx) s).ret = some 0 ∧
          (slatecom_resume_l h (some cntx) s).s.trace.count call.BUG = s.trace.count call.BUG ∧
          (slatecom_resume_l h (some cntx) s).s.state = SLATECOM_STATE_ACTIVE) := by
  have hp : ¬ (cntx.state = SLATECOM_PROB_WAIT ∧ ¬ is_slatecom_ready s = true) := by
    rintro ⟨h1, h2⟩
    exact h2 (hprobed h1)
  have hfix := is_slate_resume_fixup h cntx s hprobed
  have hfr := is_slate_resume_frame h (some cntx) s
  unfold slatecom_resume_l
  simp only [hact, hp, hna, hboot, if_false, not_true_eq_false]
  rw [hfix.1, hfix.2, hfr.2.1]
  constructor
  · intro h0 hs hw
    rw [if_pos ⟨h0, hs⟩, if_pos hw]
    refine ⟨rfl, ?_, ?_, ?_, ?_⟩
    · simp [log, hfr.2.2]
    · simp [log]
    · exact hfr.1
    · exact fun hc => hna (hfr.1.symm.trans hc)
  · intro hor
    by_cases hc : (is_slate_resume h (some cntx) s).1 = 0 ∧ s.ok_to_sleep ≠ 0
    · have hw : h.wait_for_completion_timeout ≠ 0 := by
        rcases hor with h1 | h1
        · exact absurd hc.1 h1
        · exact h1
      rw [if_pos hc, if_neg hw]
      refine ⟨rfl, ?_, rfl⟩
      simp [log, hfr.2.2]
    · rw [if_neg hc]
      exact ⟨rfl, hfr.2.2, rfl⟩

/-- C18, on the suspended link `drv_suspended` with the gate free: a remote
that does not answer and a wait that times out; a remote whose status shows
bit 31. -/
theorem C18_resume_timeout_is_fatal_witness :
    ((slatecom_resume_l (hw0 0) (some handle0) (drv_suspended SLATECOM_SPI_FREE)).ret = none ∧
        (slatecom_resume_l (hw0 0) (some handle0)
            (drv_suspended SLATECOM_SPI_FREE)).s.trace.count call.BUG =
          (drv_suspended SLATECOM_SPI_FREE).trace.count call.BUG + 1 ∧
        call.wait_for_completion_timeout SLATE_RESUME_IRQ_TIMEOUT ∈
          (slatecom_resume_l (hw0 0) (some handle0) (drv_suspended SLATECOM_SPI_FREE)).s.trace ∧
        (slatecom_resume_l (hw0 0) (some handle0) (drv_suspended SLATECOM_SPI_FREE)).s.state =
          (drv_suspended SLATECOM_SPI_FREE).state ∧
        (slatecom_resume_l (hw0 0) (some handle0) (drv_suspended SLATECOM_SPI_FREE)).s.state ≠
          SLATECOM_STATE_ACTIVE) ∧
      ((slatecom_resume_l (hw_awake 0) (some handle0) (drv_suspended SLATECOM_SPI_FREE)).ret =
          some 0 ∧
        (slatecom_resume_l (hw_awake 0) (some handle0)
            (drv_suspended SLATECOM_SPI_FREE)).s.trace.count call.BUG =
          (drv_suspended SLATECOM_SPI_FREE).trace.count call.BUG ∧
        (slatecom_resume_l (hw_awake 0) (some handle0) (drv_suspended SLATECOM_SPI_FREE)).s.state =
          SLATECOM_STATE_ACTIVE) :=
  ⟨(C18_resume_timeout_is_fatal (hw0 0) handle0 (drv_suspended SLATECOM_SPI_FREE) (by decide)
      (by decide) (by decide) (by decide)).1 (by decide) (by decide) rfl,
   (C18_resume_timeout_is_fatal (hw_awake 0) handle0 (drv_suspended SLATECOM_SPI_FREE)
      (by decide) (by decide) (by decide) (by decide)).2 (Or.inl (by decide))⟩

/-! ## The interrupt service path -/

theorem grows_refl (s : slate_drv) : grows s s := ⟨rfl, [], (List.append_nil _).symm⟩

theorem grows_trans {s t u : slate_drv} (h1 : grows s t) (h2 : grows t u) : grows s u := by
  obtain ⟨g1, l1, e1⟩ := h1
  obtain ⟨g2, l2, e2⟩ := h2
  exact ⟨g2.trans g1, l1 ++ l2, by rw [e2, e1, List.append_assoc]⟩

theorem grows_log (s : slate_drv) (x : call) : grows s (log s x) := ⟨rfl, [x], rfl⟩

theorem grows_alloc (h : Hw) (n : Nat) (s : slate_drv) : grows s (alloc h n s).2 :=
  ⟨rfl, [], (List.append_nil _).symm⟩

theorem grows_send_event (e : slatecom_event_type) (d : Option slatecom_event_data_type)
    (s : slate_drv) : grows s (send_event e d s) := ⟨rfl, _, rfl⟩

theorem grows_pm_put (s : slate_drv) : grows s (pm_put s) :=
  grows_trans (grows_log s _) (grows_log _ _)

theorem grows_transfer (h : Hw) (handle : Option slate_context) (tx_buf : Option (Nat → Nat))
    (rx_buf : Bool) (txn_len freq : Nat) (s : slate_drv) :
    grows s (slatecom_transfer h handle tx_buf rx_buf txn_len freq s).2.2.2 := by
  unfold slatecom_transfer
  split
  · exact grows_refl s
  · exact grows_refl s
  · dsimp only
    split_ifs <;> first | exact grows_refl s | exact grows_log s _

theorem grows_fifo_read (h : Hw) (handle : Option slate_context) (num_words : Nat)
    (read_buf : Bool) (s : slate_drv) :
    grows s (slatecom_fifo_read h handle num_words read_buf s).s := by
  unfold slatecom_fifo_read
  dsimp only
  split_ifs <;> with_reducible first
    | exact grows_refl s
    | exact grows_trans (grows_trans (grows_log s _) (grows_alloc _ _ _)) (grows_pm_put _)
    | exact grows_trans (grows_trans (grows_trans (grows_log s _) (grows_alloc _ _ _))
        (grows_alloc _ _ _)) (grows_pm_put _)
    | exact grows_trans (grows_trans (grows_trans (grows_trans (grows_log s _)
        (grows_alloc _ _ _)) (grows_alloc _ _ _)) (grows_transfer _ _ _ _ _ _ _))
        (grows_pm_put _)

theorem grows_reg_read (h : Hw) (handle : Option slate_context) (reg_start_addr num_regs : Nat)
    (read_buf : Bool) (s : slate_drv) :
    grows s (slatecom_reg_read h handle reg_start_addr num_regs read_buf s).s := by
  unfold slatecom_reg_read
  dsimp only
  split_ifs <;> with_reducible first
    | exact grows_refl s
    | exact grows_trans (grows_trans (grows_log s _) (grows_alloc _ _ _)) (grows_pm_put _)
    | exact grows_trans (grows_trans (grows_trans (grows_log s _) (grows_alloc _ _ _))
        (grows_alloc _ _ _)) (grows_pm_put _)
    | exact grows_trans (grows_trans (grows_trans (grows_trans (grows_log s _)
        (grows_alloc _ _ _)) (grows_alloc _ _ _)) (grows_transfer _ _ _ _ _ _ _))
        (grows_pm_put _)

theorem grows_reg_write_cmd (h : Hw) (handle : Option slate_context)
    (reg_start_addr num_regs : Nat) (write_buf : Option (Nat → Nat)) (s : slate_drv) :
    grows s (slatecom_reg_write_cmd h handle reg_start_addr num_regs write_buf s).s := by
  unfold slatecom_reg_write_cmd
  dsimp only
  split
  · exact grows_refl s
  · split_ifs <;> first
      | exact grows_refl s
      | exact grows_alloc _ _ _
      | exact grows_trans (grows_alloc _ _ _) (grows_transfer _ _ _ _ _ _ _)

theorem grows_error_events (ac : Nat) (s : slate_drv) : grows s (error_events ac s) := by
  have hev : ∀ (bit : Nat) (e : slatecom_event_type) (t : slate_drv),
      grows t (if bit_set ac bit = true then send_event e none t else t) := by
    intro bit e t
    split_ifs
    · exact grows_send_event _ _ _
    · exact grows_refl _
  unfold error_events
  dsimp only
  exact grows_trans (grows_trans (grows_trans (grows_trans (grows_trans (grows_trans
    (grows_trans (grows_trans (grows_trans (grows_trans (hev _ _ _) (hev _ _ _)) (hev _ _ _))
    (hev _ _ _)) (hev _ _ _)) (hev _ _ _)) (hev _ _ _)) (hev _ _ _)) (hev _ _ _)) (hev _ _ _))
    (hev _ _ _)

theorem grows_status_step (b : Bool) (r : slatecom_event_data_type × slate_drv)
    (d : slatecom_event_data_type) (e : slatecom_event_type) :
    grows r.2 (if b = true then (d, send_event e (some d) r.2) else r).2 := by
  split_ifs
  · exact grows_send_event _ _ _
  · exact grows_refl _

theorem grows_state_step (b c : Bool) (t : slate_drv) (x y : call) :
    grows t (if b = true then log t x else if c = true then log t y else t) := by
  split_ifs
  · exact grows_log _ _
  · exact grows_log _ _
  · exact grows_refl _

theorem grows_status_events (w : Nat) (d : slatecom_event_data_type) (s : slate_drv) :
    grows s (status_events w d s).2 := by
  unfold status_events
  exact grows_trans (grows_trans (grows_trans (grows_trans (grows_trans
    (grows_status_step _ (d, s) _ _) (grows_status_step _ _ _ _)) (grows_status_step _ _ _ _))
    (grows_status_step _ _ _ _)) (grows_state_step _ _ _ _ _)) (grows_state_step _ _ _ _ _)

theorem grows_fields (s t : slate_drv) (hg : t.spi_state = s.spi_state)
    (ht : t.trace = s.trace) : grows s t :=
  ⟨hg, [], by rw [ht, List.append_nil]⟩

theorem grows_parse_fifo (h : Hw) (mem : Nat → Nat) :
    ∀ (fuel pos : Nat) (d : slatecom_event_data_type) (s : slate_drv)
      (p : slatecom_event_data_type × slate_drv),
      parse_fifo h mem fuel pos d s = outcome.done p → grows s p.2 := by
  intro fuel
  induction fuel with
  | zero =>
    intro pos d s p hp
    simp [parse_fifo] at hp
  | succ n ih =>
    intro pos d s p hp
    rw [parse_fifo] at hp
    dsimp only at hp
    by_cases h0 : mem pos = 0
    · rw [if_pos h0] at hp
      injection hp with hp
      subst hp
      dsimp only
      split_ifs
      · exact grows_log _ _
      · exact grows_refl _
    · rw [if_neg h0] at hp
      by_cases h1 : le16_at mem pos = 0xFFFE
      · rw [if_pos h1] at hp
        split_ifs at hp with h2 h3
        have h5 := ih _ _ _ _ hp
        exact grows_trans (grows_fields _ _ rfl rfl) h5
      · rw [if_neg h1] at hp
        by_cases h2 : le16_at mem pos = 0x0001
        · rw [if_pos h2] at hp
          split_ifs at hp with h3
          · exact grows_trans (grows_trans (grows_alloc _ _ _) (grows_send_event _ _ _))
              (ih _ _ _ _ hp)
          · exact grows_trans (grows_alloc _ _ _) (ih _ _ _ _ hp)
        · rw [if_neg h2] at hp
          exact ih _ _ _ _ hp

theorem grows_send_back_notification (h : Hw) (fuel w ac fill size : Nat) (s t : slate_drv)
    (hd : send_back_notification h fuel w ac fill size s = outcome.done t) : grows s t := by
  have h1 := grows_error_events ac s
  have h2 : grows (error_events ac s)
      (if (error_events ac s).g_slav_status_reg ≠ w then
        status_events w event_data_zero (error_events ac s)
        else (event_data_zero, error_events ac s)).2 := by
    split_ifs
    · exact grows_status_events _ _ _
    · exact grows_refl _
  have h12 := grows_trans h1 h2
  unfold send_back_notification at hd
  dsimp only at hd
  generalize (if (error_events ac s).g_slav_status_reg ≠ w then
        status_events w event_data_zero (error_events ac s)
        else (event_data_zero, error_events ac s)) = r2 at hd h12
  by_cases hm : fill % 2 ^ 16 > 0
  · rw [if_pos hm] at hd
    by_cases ha : (alloc h (fill % 2 ^ 16 * SLATE_SPI_WORD_SIZE + 1) r2.2).1 = true
    · rw [if_neg (by simpa using ha)] at hd
      have h3 := grows_trans h12 (grows_alloc h (fill % 2 ^ 16 * SLATE_SPI_WORD_SIZE + 1) r2.2)
      have h4 := grows_trans h3 (grows_fifo_read h (some (local_handle h)) (fill % 2 ^ 16) true
        (alloc h (fill % 2 ^ 16 * SLATE_SPI_WORD_SIZE + 1) r2.2).2)
      unfold read_slate_locl at hd
      dsimp only at hd
      split_ifs at hd with hr
      · injection hd with hd
        subst hd
        exact grows_trans h4 (grows_send_event _ _ _)
      · split at hd
        · injection hd with hd
          subst hd
          exact grows_trans h4 (grows_send_event _ _ _)
        · split at hd
          · rename_i p hp
            injection hd with hd
            subst hd
            exact grows_trans (grows_trans h4 (grows_parse_fifo _ _ _ _ _ _ _ hp))
              (grows_send_event _ _ _)
          · cases hd
          · cases hd
    · rw [if_pos (by simpa using ha)] at hd
      injection hd with hd
      subst hd
      exact grows_trans (grows_trans h12 (grows_alloc _ _ _)) (grows_send_event _ _ _)
  · rw [if_neg hm] at hd
    injection hd with hd
    subst hd
    exact grows_trans h12 (grows_send_event _ _ _)

theorem slatecom_transfer_ok (h : Hw) (handle : Option slate_context) (tx : Nat → Nat)
    (rx_buf : Bool) (txn_len freq : Nat) (s : slate_drv)
    (hr : (slatecom_transfer h handle (some tx) rx_buf txn_len freq s).1 = 0) :
    (slatecom_transfer h handle (some tx) rx_buf txn_len freq s).2.2.2 =
      log s (call.spi_sync (spi_transfer.mk (bytes tx 0 txn_len) rx_buf txn_len freq)) := by
  cases handle with
  | none => simp [slatecom_transfer, EINVAL] at hr
  | some cntx =>
    unfold slatecom_transfer at hr ⊢
    dsimp only at hr ⊢
    split_ifs at hr ⊢
    all_goals first
      | rfl
      | (exfalso
         simp [EINVAL, ENODEV, ECANCELED] at hr)

theorem reg_write_cmd_pause_sent (h : Hw) (s : slate_drv)
    (hw : (slatecom_reg_write_cmd h (some (local_handle h)) SLATE_CMND_REG 1
      (some (word_buf SLATE_PAUSE_OK)) s).ret = 0) :
    ∃ l, (slatecom_reg_write_cmd h (some (local_handle h)) SLATE_CMND_REG 1
        (some (word_buf SLATE_PAUSE_OK)) s).s.trace = s.trace ++ l ∧
      call.spi_sync pause_ok_xfer ∈ l := by
  have hx : spi_transfer.mk
      (bytes (write_buf_image (SLATE_CMND_REG % 256) none (word_buf SLATE_PAUSE_OK) 0
        ((1 % 256 * SLATE_SPI_WORD_SIZE) % U32_MOD)) 0
        ((SLATE_SPI_WRITE_CMND_LEN + (1 % 256 * SLATE_SPI_WORD_SIZE) % U32_MOD) % U32_MOD))
      false ((SLATE_SPI_WRITE_CMND_LEN + (1 % 256 * SLATE_SPI_WORD_SIZE) % U32_MOD) % U32_MOD)
      SPI_FREQ_40MHZ = pause_ok_xfer := by
    decide
  unfold slatecom_reg_write_cmd at hw ⊢
  dsimp only at hw ⊢
  split_ifs at hw ⊢
  all_goals first
    | (exfalso
       simp [EINVAL, ENODEV, EBUSY, ENOMEM] at hw
       done)
    | (dsimp only at hw ⊢
       rw [slatecom_transfer_ok _ _ _ _ _ _ _ hw, hx]
       exact ⟨[call.spi_sync pause_ok_xfer], rfl, List.mem_singleton.mpr rfl⟩)

theorem irq_gate_step_spec (h : Hw) (ac : Nat) (s : slate_drv) :
    (irq_gate_step h ac s).spi_state =
        (if bit_set ac 16 = true then SLATECOM_SPI_FREE
          else if bit_set ac 15 = true ∧
              (slatecom_reg_write_cmd h (some (local_handle h)) SLATE_CMND_REG 1
                (some (word_buf SLATE_PAUSE_OK)) s).ret = 0
            then SLATECOM_SPI_PAUSE else s.spi_state) ∧
      ∃ l, (irq_gate_step h ac s).trace = s.trace ++ l ∧
        (bit_set ac 15 = true →
          (slatecom_reg_write_cmd h (some (local_handle h)) SLATE_CMND_REG 1
            (some (word_buf SLATE_PAUSE_OK)) s).ret = 0 → call.spi_sync pause_ok_xfer ∈ l) := by
  have hg := grows_reg_write_cmd h (some (local_handle h)) SLATE_CMND_REG 1
    (some (word_buf SLATE_PAUSE_OK)) s
  unfold irq_gate_step
  dsimp only
  by_cases h15 : bit_set ac 15 = true
  · by_cases hw : (slatecom_reg_write_cmd h (some (local_handle h)) SLATE_CMND_REG 1
        (some (word_buf SLATE_PAUSE_OK)) s).ret = 0
    · obtain ⟨l, hl, hm⟩ := reg_write_cmd_pause_sent h s hw
      rw [if_pos h15, if_pos hw]
      by_cases h16 : bit_set ac 16 = true
      · rw [if_pos h16, if_pos h16]
        exact ⟨rfl, l, hl, fun _ _ => hm⟩
      · rw [if_neg h16, if_neg h16, if_pos ⟨h15, hw⟩]
        exact ⟨rfl, l, hl, fun _ _ => hm⟩
    · obtain ⟨hs, l, hl⟩ := hg
      rw [if_pos h15, if_neg hw]
      by_cases h16 : bit_set ac 16 = true
      · rw [if_pos h16, if_pos h16]
        exact ⟨rfl, l, hl, fun _ hc => absurd hc hw⟩
      · rw [if_neg h16, if_neg h16, if_neg (fun hc => hw hc.2)]
        exact ⟨hs, l, hl, fun _ hc => absurd hc hw⟩
  · rw [if_neg h15]
    by_cases h16 : bit_set ac 16 = true
    · rw [if_pos h16, if_pos h16]
      exact ⟨rfl, [], (List.append_nil _).symm, fun hc => absurd hc h15⟩
    · rw [if_neg h16, if_neg h16, if_neg (fun hc => h15 hc.1)]
      exact ⟨rfl, [], (List.append_nil _).symm, fun hc => absurd hc h15⟩

theorem irq_tasklet_unfold (h : Hw) (fuel : Nat) (s : slate_drv) (irq_buf : List Nat)
    (hret : (read_slate_locl h slatecom_req_type.SLATECOM_READ_REG 5 (some (fun _ => 0)) s).ret =
      0)
    (hdata : (read_slate_locl h slatecom_req_type.SLATECOM_READ_REG 5 (some (fun _ => 0))
      s).data = some irq_buf) :
    slate_irq_tasklet_hndlr_l h fuel s =
      match send_back_notification h fuel (irq_word irq_buf 0) (irq_word irq_buf 2)
          (irq_word irq_buf 3) (irq_word irq_buf 4)
          (irq_gate_step h (irq_word irq_buf 2)
            (read_slate_locl h slatecom_req_type.SLATECOM_READ_REG 5 (some (fun _ => 0)) s).s)
          with
      | outcome.done s2 => outcome.done { s2 with g_slav_status_reg := irq_word irq_buf 0 }
      | outcome.oops => outcome.oops
      | outcome.out_of_fuel => outcome.out_of_fuel := by
  unfold slate_irq_tasklet_hndlr_l
  dsimp only
  rw [if_neg (by rw [hret]; exact fun hc => hc rfl), hdata]

/-- C19 (the claim as worded fails): the remote of `hw_pause (-5) false` asks
for a pause and the transfer that carries the acknowledge fails with -5; the
handler returns with the gate free, not pause. -/
theorem C19_pause_claim_fails :
    (∃ t, slate_irq_tasklet_hndlr_l (hw_pause (-5) false) 1 drv0 = outcome.done t ∧
        t.spi_state = SLATECOM_SPI_FREE) ∧
      ¬ pause_claim (hw_pause (-5) false) 1 drv0 := by
  have hrun : ∃ t, slate_irq_tasklet_hndlr_l (hw_pause (-5) false) 1 drv0 = outcome.done t ∧
      t.spi_state = SLATECOM_SPI_FREE := ⟨_, rfl, rfl⟩
  refine ⟨hrun, ?_⟩
  intro hc
  obtain ⟨t, ht, hfree⟩ := hrun
  have h1 := ((hc irq_buf_pause t (by decide) (by decide) ht).1 (by decide)).2
  rw [hfree] at h1
  exact absurd h1 (by decide)

/-- C19 (amended): in `slate_irq_tasklet_hndlr_l`, once the five status words
are read, the gate at the return is free when bit 16 of the auto-clear word is
set; otherwise it is pause exactly when bit 15 is set and the register write of
`SLATE_PAUSE_OK` (bit 27) to `SLATE_CMND_REG` has returned 0, in which case the
transfer that carries it has been issued; otherwise the gate is as it was at
the entry.  The handler returns when no FIFO data is pending. -/
theorem C19_gate_after_interrupt (h : Hw) (fuel : Nat) (s : slate_drv) (irq_buf : List Nat)
    (hret : (read_slate_locl h slatecom_req_type.SLATECOM_READ_REG 5 (some (fun _ => 0)) s).ret =
      0)
    (hdata : (read_slate_locl h slatecom_req_type.SLATECOM_READ_REG 5 (some (fun _ => 0))
      s).data = some irq_buf) :
    (∀ t, slate_irq_tasklet_hndlr_l h fuel s = outcome.done t →
        t.spi_state =
            (if bit_set (irq_word irq_buf 2) 16 = true then SLATECOM_SPI_FREE
              else if bit_set (irq_word irq_buf 2) 15 = true ∧
                  (slatecom_reg_write_cmd h (some (local_handle h)) SLATE_CMND_REG 1
                    (some (word_buf SLATE_PAUSE_OK))
                    (read_slate_locl h slatecom_req_type.SLATECOM_READ_REG 5 (some (fun _ => 0))
                      s).s).ret = 0
                then SLATECOM_SPI_PAUSE else s.spi_state) ∧
          ∃ l, t.trace = s.trace ++ l ∧
            (bit_set (irq_word irq_buf 2) 15 = true →
              (slatecom_reg_write_cmd h (some (local_handle h)) SLATE_CMND_REG 1
                (some (word_buf SLATE_PAUSE_OK))
                (read_slate_locl h slatecom_req_type.SLATECOM_READ_REG 5 (some (fun _ => 0))
                  s).s).ret = 0 → call.spi_sync pause_ok_xfer ∈ l)) ∧
      (irq_word irq_buf 3 % 2 ^ 16 = 0 →
        ∃ t, slate_irq_tasklet_hndlr_l h fuel s = outcome.done t) := by
  have hun := irq_tasklet_unfold h fuel s irq_buf hret hdata
  have hread : grows s
      (read_slate_locl h slatecom_req_type.SLATECOM_READ_REG 5 (some (fun _ => 0)) s).s :=
    grows_reg_read h (some (local_handle h)) SLATE_STATUS_REG 5 true s
  generalize (read_slate_locl h slatecom_req_type.SLATECOM_READ_REG 5 (some (fun _ => 0)) s).s =
    s0 at hun hread ⊢
  obtain ⟨hgate, l1, hl1, hsent⟩ := irq_gate_step_spec h (irq_word irq_buf 2) s0
  obtain ⟨hg0, l0, hl0⟩ := hread
  constructor
  · intro t ht
    rw [hun] at ht
    split at ht
    · rename_i s2 hs2
      obtain ⟨hg2, l2, hl2⟩ := grows_send_back_notification _ _ _ _ _ _ _ _ hs2
      injection ht with ht
      subst ht
      refine ⟨?_, l0 ++ (l1 ++ l2), ?_, ?_⟩
      · show s2.spi_state = _
        rw [hg2, hgate, hg0]
      · show s2.trace = _
        rw [hl2, hl1, hl0, List.append_assoc, List.append_assoc]
      · intro h15 hw
        exact List.mem_append_right _ (List.mem_append_left _ (hsent h15 hw))
    · cases ht
    · cases ht
  · intro hfill
    rw [hun]
    unfold send_back_notification
    dsimp only
    rw [if_neg (by omega)]
    exact ⟨_, rfl⟩

/-- C19, on the driver `drv0`: the remote of `hw_pause 0 false` asks for a
pause and the acknowledge is carried; the handler returns with the gate at
pause. -/
theorem C19_gate_after_interrupt_witness :
    ∃ t, slate_irq_tasklet_hndlr_l (hw_pause 0 false) 1 drv0 = outcome.done t ∧
      t.spi_state = SLATECOM_SPI_PAUSE :=
  ((C19_gate_after_interrupt (hw_pause 0 false) 1 drv0 irq_buf_pause (by decide)
    (by decide)).2 (by decide)).elim
    (fun t ht => ⟨t, ht,
      ((C19_gate_after_interrupt (hw_pause 0 false) 1 drv0 irq_buf_pause (by decide)
        (by decide)).1 t ht).1.trans (by decide)⟩)

/-! ## The FIFO parser -/

theorem dispatched_update (d : slatecom_event_data_type) (n : Nat) (x : Option (List Nat))
    (cbs : List cb_data) (rs : List (Nat × List Nat)) :
    dispatched { d with to_master_fifo_used := n, data := x } cbs rs = dispatched d cbs rs := by
  induction rs with
  | nil => rfl
  | cons r rs ih =>
    unfold dispatched
    rw [ih]

/-- C20: when the memory holds the records `rs` from `pos` on, closed by a zero
byte, and allocations succeed, `parse_fifo` with more fuel than records returns;
it has appended to the deferred-event list one entry for each record with id
`0xFFFE`, has called every listener once for each record with id `0x0001`, in
the order of the records, with `SLATECOM_EVENT_TO_MASTER_FIFO_USED`,
`to_master_fifo_used` the length over 4 and the data bytes of the record, has
called no listener for any other record, and has queued the work item at the
end exactly when the deferred-event list is not empty. -/
theorem C20_parse_fifo_records (h : Hw) (mem : Nat → Nat)
    (hk : ∀ n size, h.kmalloc n size = true) :
    ∀ (rs : List (Nat × List Nat)) (fuel pos : Nat) (d : slatecom_event_data_type)
      (s : slate_drv), fifo_holds mem pos rs → rs.length < fuel →
      ∃ p, parse_fifo h mem fuel pos d s = outcome.done p ∧
        p.2.pr_lst_hd = s.pr_lst_hd ++ deferred mem pos rs ∧
        p.2.trace = s.trace ++ dispatched d s.cb_head rs ++
          (if s.pr_lst_hd ++ deferred mem pos rs ≠ [] then [call.queue_work] else []) ∧
        p.2.cb_head = s.cb_head ∧ p.2.spi_state = s.spi_state := by
  intro rs
  induction rs with
  | nil =>
    intro fuel pos d s hl hf
    obtain ⟨n, rfl⟩ : ∃ n, fuel = n + 1 := ⟨fuel - 1, by simp at hf; omega⟩
    have h0 : mem pos = 0 := hl
    rw [parse_fifo, if_pos h0]
    refine ⟨_, rfl, ?_, ?_, ?_, ?_⟩
    · dsimp only [deferred]
      split_ifs <;> simp [log]
    · dsimp only [deferred, dispatched]
      by_cases he : s.pr_lst_hd = []
      · simp [he]
      · simp [he, log]
    · dsimp only
      split_ifs <;> rfl
    · dsimp only
      split_ifs <;> rfl
  | cons r rs ih =>
    intro fuel pos d s hl hf
    obtain ⟨n, rfl⟩ : ∃ n, fuel = n + 1 := ⟨fuel - 1, by simp at hf; omega⟩
    have hn : rs.length < n := by simpa using hf
    obtain ⟨hne, hid, hlen, hbytes, hrest⟩ := hl
    rw [parse_fifo, if_neg hne]
    dsimp only
    rw [hid, hlen, hbytes]
    by_cases h1 : r.1 = 0xFFFE
    · rw [if_pos h1]
      simp only [alloc, hk, not_true_eq_false, if_false]
      obtain ⟨p, hp, hq, ht, hc, hg⟩ := ih n _ d
        { s with allocs := s.allocs + 1 + 1,
                 pr_lst_hd := s.pr_lst_hd ++
                   [{ sub_id := mem (pos + HED_EVENT_ID_LEN + HED_EVENT_SIZE_LEN),
                      evnt_tm := le32_at mem (pos + HED_EVENT_ID_LEN + HED_EVENT_SIZE_LEN + 1),
                      evnt_data := int16_at mem (pos + HED_EVENT_ID_LEN + HED_EVENT_SIZE_LEN +
                        HED_EVENT_DATA_STRT_LEN) }] } hrest hn
      refine ⟨p, hp, ?_, ?_, hc, hg⟩
      · rw [hq]
        simp [deferred, h1]
      · rw [ht]
        simp [deferred, dispatched, h1]
    · rw [if_neg h1]
      by_cases h2 : r.1 = 0x0001
      · rw [if_pos h2]
        simp only [alloc, hk, if_true]
        obtain ⟨p, hp, hq, ht, hc, hg⟩ := ih n _
          { d with to_master_fifo_used := r.2.length / SLATE_SPI_WORD_SIZE, data := some r.2 }
          (send_event slatecom_event_type.SLATECOM_EVENT_TO_MASTER_FIFO_USED
            (some { d with to_master_fifo_used := r.2.length / SLATE_SPI_WORD_SIZE,
                           data := some r.2 })
            { s with allocs := s.allocs + 1 }) hrest hn
        refine ⟨p, hp, ?_, ?_, hc, hg⟩
        · rw [hq]
          simp [deferred, h1, send_event]
        · rw [ht, dispatched_update]
          simp [deferred, dispatched, h1, h2, send_event]
      · rw [if_neg h2]
        obtain ⟨p, hp, hq, ht, hc, hg⟩ := ih n _ d s hrest hn
        refine ⟨p, hp, ?_, ?_, hc, hg⟩
        · rw [hq]
          simp [deferred, h1]
        · rw [ht]
          simp [deferred, dispatched, h1, h2]

/-- C20, on the image `fifo_image` with its three records, the driver `drv0`
and its one listener. -/
theorem C20_parse_fifo_records_witness :
    fifo_holds (fun a => fifo_image.getD a 0) 0 fifo_records ∧
      ∃ p, parse_fifo (hw0 1) (fun a => fifo_image.getD a 0) 4 0 event_data_zero drv0 =
          outcome.done p ∧
        p.2.pr_lst_hd = drv0.pr_lst_hd ++ deferred (fun a => fifo_image.getD a 0) 0 fifo_records ∧
        p.2.trace = drv0.trace ++ dispatched event_data_zero drv0.cb_head fifo_records ++
          (if drv0.pr_lst_hd ++ deferred (fun a => fifo_image.getD a 0) 0 fifo_records ≠ []
            then [call.queue_work] else []) ∧
        p.2.cb_head = drv0.cb_head ∧ p.2.spi_state = drv0.spi_state :=
  ⟨⟨by decide, by decide, by decide, by decide, by decide, by decide, by decide, by decide,
      by decide, by decide, by decide, by decide, rfl⟩,
    C20_parse_fifo_records (hw0 1) (fun a => fifo_image.getD a 0) (fun _ _ => rfl) fifo_records
      4 0 event_data_zero drv0
      ⟨by decide, by decide, by decide, by decide, by decide, by decide, by decide, by decide,
        by decide, by decide, by decide, by decide, rfl⟩ (by decide)⟩

/-! ## What the transfers and the event dispatch leave as it is -/

theorem keeps_refl (s : slate_drv) : keeps s s := ⟨rfl, rfl, rfl, rfl, rfl, rfl, rfl, rfl⟩

theorem keeps_trans {s t u : slate_drv} (h1 : keeps s t) (h2 : keeps t u) : keeps s u :=
  ⟨h2.state.trans h1.state, h2.active.trans h1.active, h2.runtime.trans h1.runtime,
    h2.sleep.trans h1.sleep, h2.status.trans h1.status, h2.lock.trans h1.lock,
    h2.probed.trans h1.probed, h2.listeners.trans h1.listeners⟩

theorem keeps_log (s : slate_drv) (x : call) : keeps s (log s x) :=
  ⟨rfl, rfl, rfl, rfl, rfl, rfl, rfl, rfl⟩

theorem keeps_alloc (h : Hw) (n : Nat) (s : slate_drv) : keeps s (alloc h n s).2 :=
  ⟨rfl, rfl, rfl, rfl, rfl, rfl, rfl, rfl⟩

theorem keeps_send_event (e : slatecom_event_type) (d : Option slatecom_event_data_type)
    (s : slate_drv) : keeps s (send_event e d s) := ⟨rfl, rfl, rfl, rfl, rfl, rfl, rfl, rfl⟩

theorem keeps_pm_put (s : slate_drv) : keeps s (pm_put s) :=
  keeps_trans (keeps_log s _) (keeps_log _ _)

theorem keeps_transfer (h : Hw) (handle : Option slate_context) (tx_buf : Option (Nat → Nat))
    (rx_buf : Bool) (txn_len freq : Nat) (s : slate_drv) :
    keeps s (slatecom_transfer h handle tx_buf rx_buf txn_len freq s).2.2.2 := by
  unfold slatecom_transfer
  split
  · exact keeps_refl s
  · exact keeps_refl s
  · dsimp only
    split_ifs <;> first | exact keeps_refl s | exact keeps_log s _

theorem keeps_fifo_read (h : Hw) (handle : Option slate_context) (num_words : Nat)
    (read_buf : Bool) (s : slate_drv) :
    keeps s (slatecom_fifo_read h handle num_words read_buf s).s := by
  unfold slatecom_fifo_read
  dsimp only
  split_ifs <;> with_reducible first
    | exact keeps_refl s
    | exact keeps_trans (keeps_trans (keeps_log s _) (keeps_alloc _ _ _)) (keeps_pm_put _)
    | exact keeps_trans (keeps_trans (keeps_trans (keeps_log s _) (keeps_alloc _ _ _))
        (keeps_alloc _ _ _)) (keeps_pm_put _)
    | exact keeps_trans (keeps_trans (keeps_trans (keeps_trans (keeps_log s _)
        (keeps_alloc _ _ _)) (keeps_alloc _ _ _)) (keeps_transfer _ _ _ _ _ _ _))
        (keeps_pm_put _)

theorem keeps_reg_read (h : Hw) (handle : Option slate_context) (reg_start_addr num_regs : Nat)
    (read_buf : Bool) (s : slate_drv) :
    keeps s (slatecom_reg_read h handle reg_start_addr num_regs read_buf s).s := by
  unfold slatecom_reg_read
  dsimp only
  split_ifs <;> with_reducible first
    | exact keeps_refl s
    | exact keeps_trans (keeps_trans (keeps_log s _) (keeps_alloc _ _ _)) (keeps_pm_put _)
    | exact keeps_trans (keeps_trans (keeps_trans (keeps_log s _) (keeps_alloc _ _ _))
        (keeps_alloc _ _ _)) (keeps_pm_put _)
    | exact keeps_trans (keeps_trans (keeps_trans (keeps_trans (keeps_log s _)
        (keeps_alloc _ _ _)) (keeps_alloc _ _ _)) (keeps_transfer _ _ _ _ _ _ _))
        (keeps_pm_put _)

theorem keeps_reg_write_cmd (h : Hw) (handle : Option slate_context)
    (reg_start_addr num_regs : Nat) (write_buf : Option (Nat → Nat)) (s : slate_drv) :
    keeps s (slatecom_reg_write_cmd h handle reg_start_addr num_regs write_buf s).s := by
  unfold slatecom_reg_write_cmd
  dsimp only
  split
  · exact keeps_refl s
  · split_ifs <;> (try dsimp only) <;> first
      | exact keeps_refl s
      | exact keeps_alloc _ _ _
      | exact keeps_trans (keeps_alloc _ _ _) (keeps_transfer _ _ _ _ _ _ _)

theorem keeps_error_events (ac : Nat) (s : slate_drv) : keeps s (error_events ac s) := by
  have hev : ∀ (bit : Nat) (e : slatecom_event_type) (t : slate_drv),
      keeps t (if bit_set ac bit = true then send_event e none t else t) := by
    intro bit e t
    split_ifs
    · exact keeps_send_event _ _ _
    · exact keeps_refl _
  unfold error_events
  dsimp only
  exact keeps_trans (keeps_trans (keeps_trans (keeps_trans (keeps_trans (keeps_trans
    (keeps_trans (keeps_trans (keeps_trans (keeps_trans (hev _ _ _) (hev _ _ _)) (hev _ _ _))
    (hev _ _ _)) (hev _ _ _)) (hev _ _ _)) (hev _ _ _)) (hev _ _ _)) (hev _ _ _)) (hev _ _ _))
    (hev _ _ _)

theorem keeps_status_step (b : Bool) (r : slatecom_event_data_type × slate_drv)
    (d : slatecom_event_data_type) (e : slatecom_event_type) :
    keeps r.2 (if b = true then (d, send_event e (some d) r.2) else r).2 := by
  split_ifs
  · exact keeps_send_event _ _ _
  · exact keeps_refl _

theorem keeps_state_step (b c : Bool) (t : slate_drv) (x y : call) :
    keeps t (if b = true then log t x else if c = true then log t y else t) := by
  split_ifs
  · exact keeps_log _ _
  · exact keeps_log _ _
  · exact keeps_refl _

theorem keeps_status_events (w : Nat) (d : slatecom_event_data_type) (s : slate_drv) :
    keeps s (status_events w d s).2 := by
  unfold status_events
  exact keeps_trans (keeps_trans (keeps_trans (keeps_trans (keeps_trans
    (keeps_status_step _ (d, s) _ _) (keeps_status_step _ _ _ _)) (keeps_status_step _ _ _ _))
    (keeps_status_step _ _ _ _)) (keeps_state_step _ _ _ _ _)) (keeps_state_step _ _ _ _ _)

theorem keeps_list (s : slate_drv) (l : List event) : keeps s { s with pr_lst_hd := l } :=
  ⟨rfl, rfl, rfl, rfl, rfl, rfl, rfl, rfl⟩

theorem keeps_parse_fifo (h : Hw) (mem : Nat → Nat) :
    ∀ (fuel pos : Nat) (d : slatecom_event_data_type) (s : slate_drv)
      (p : slatecom_event_data_type × slate_drv),
      parse_fifo h mem fuel pos d s = outcome.done p → keeps s p.2 := by
  intro fuel
  induction fuel with
  | zero =>
    intro pos d s p hp
    simp [parse_fifo] at hp
  | succ n ih =>
    intro pos d s p hp
    rw [parse_fifo] at hp
    dsimp only at hp
    by_cases h0 : mem pos = 0
    · rw [if_pos h0] at hp
      injection hp with hp
      subst hp
      dsimp only
      split_ifs
      · exact keeps_log _ _
      · exact keeps_refl _
    · rw [if_neg h0] at hp
      by_cases h1 : le16_at mem pos = 0xFFFE
      · rw [if_pos h1] at hp
        split_ifs at hp with h2 h3
        have h5 := ih _ _ _ _ hp
        exact keeps_trans (keeps_trans (keeps_trans (keeps_alloc _ _ _) (keeps_alloc _ _ _))
          (keeps_list _ _)) h5
      · rw [if_neg h1] at hp
        by_cases h2 : le16_at mem pos = 0x0001
        · rw [if_pos h2] at hp
          split_ifs at hp with h3
          · exact keeps_trans (keeps_trans (keeps_alloc _ _ _) (keeps_send_event _ _ _))
              (ih _ _ _ _ hp)
          · exact keeps_trans (keeps_alloc _ _ _) (ih _ _ _ _ hp)
        · rw [if_neg h2] at hp
          exact ih _ _ _ _ hp

theorem keeps_send_back_notification (h : Hw) (fuel w ac fill size : Nat) (s t : slate_drv)
    (hd : send_back_notification h fuel w ac fill size s = outcome.done t) : keeps s t := by
  have h1 := keeps_error_events ac s
  have h2 : keeps (error_events ac s)
      (if (error_events ac s).g_slav_status_reg ≠ w then
        status_events w event_data_zero (error_events ac s)
        else (event_data_zero, error_events ac s)).2 := by
    split_ifs
    · exact keeps_status_events _ _ _
    · exact keeps_refl _
  have h12 := keeps_trans h1 h2
  unfold send_back_notification at hd
  dsimp only at hd
  generalize (if (error_events ac s).g_slav_status_reg ≠ w then
        status_events w event_data_zero (error_events ac s)
        else (event_data_zero, error_events ac s)) = r2 at hd h12
  by_cases hm : fill % 2 ^ 16 > 0
  · rw [if_pos hm] at hd
    by_cases ha : (alloc h (fill % 2 ^ 16 * SLATE_SPI_WORD_SIZE + 1) r2.2).1 = true
    · rw [if_neg (by simpa using ha)] at hd
      have h3 := keeps_trans h12 (keeps_alloc h (fill % 2 ^ 16 * SLATE_SPI_WORD_SIZE + 1) r2.2)
      have h4 := keeps_trans h3 (keeps_fifo_read h (some (local_handle h)) (fill % 2 ^ 16) true
        (alloc h (fill % 2 ^ 16 * SLATE_SPI_WORD_SIZE + 1) r2.2).2)
      unfold read_slate_locl at hd
      dsimp only at hd
      split_ifs at hd with hr
      · injection hd with hd
        subst hd
        exact keeps_trans h4 (keeps_send_event _ _ _)
      · split at hd
        · injection hd with hd
          subst hd
          exact keeps_trans h4 (keeps_send_event _ _ _)
        · split at hd
          · rename_i p hp
            injection hd with hd
            subst hd
            exact keeps_trans (keeps_trans h4 (keeps_parse_fifo _ _ _ _ _ _ _ hp))
              (keeps_send_event _ _ _)
          · cases hd
          · cases hd
    · rw [if_pos (by simpa using ha)] at hd
      injection hd with hd
      subst hd
      exact keeps_trans (keeps_trans h12 (keeps_alloc _ _ _)) (keeps_send_event _ _ _)
  · rw [if_neg hm] at hd
    injection hd with hd
    subst hd
    exact keeps_trans h12 (keeps_send_event _ _ _)

/-! ## Transfer lengths -/

theorem is_slate_resume_gate (h : Hw) (handle : Option slate_context) (s : slate_drv) :
    (is_slate_resume h handle s).2.2.spi_state = s.spi_state := by
  have key : ∀ hd tx rx n f st,
      (slatecom_transfer h hd tx rx n f st).2.2.2.spi_state = st.spi_state :=
    fun hd tx rx n f st => (grows_transfer h hd tx rx n f st).1
  unfold is_slate_resume
  dsimp only
  split_ifs <;> simp only [key, log]

theorem resume_l_gate (h : Hw) (handle : Option slate_context) (s : slate_drv) :
    (slatecom_resume_l h handle s).s.spi_state = s.spi_state := by
  unfold slatecom_resume_l
  split
  · rfl
  · dsimp only
    split_ifs <;> first
      | rfl
      | exact is_slate_resume_gate _ _ _

theorem get_sync_gate (h : Hw) (s : slate_drv) :
    (pm_runtime_get_sync h s).s.spi_state = s.spi_state := by
  unfold pm_runtime_get_sync slatecom_pm_runtime_resume
  dsimp only
  split_ifs
  · rfl
  · exact resume_l_gate _ _ _
  · rfl

theorem reg_write_cmd_busy (h : Hw) (handle : Option slate_context) (reg n : Nat)
    (wb : Option (Nat → Nat)) (s : slate_drv) (hbusy : s.spi_state = SLATECOM_SPI_BUSY) :
    (slatecom_reg_write_cmd h handle reg n wb s).s = s := by
  unfold slatecom_reg_write_cmd
  dsimp only
  split
  · rfl
  · split_ifs <;> rfl

theorem reg_read_busy (h : Hw) (handle : Option slate_context) (reg n : Nat) (rb : Bool)
    (s : slate_drv) (hbusy : s.spi_state = SLATECOM_SPI_BUSY) :
    (slatecom_reg_read h handle reg n rb s).ret ≠ 0 ∧
      (slatecom_reg_read h handle reg n rb s).s = s := by
  unfold slatecom_reg_read
  split_ifs
  all_goals
    refine ⟨?_, rfl⟩
    first
      | (show -EINVAL ≠ 0
         decide)
      | (show -ENODEV ≠ 0
         decide)
      | (show -EBUSY ≠ 0
         decide)

theorem irq_tasklet_busy (h : Hw) (fuel : Nat) (s : slate_drv)
    (hbusy : s.spi_state = SLATECOM_SPI_BUSY) :
    slate_irq_tasklet_hndlr_l h fuel s = outcome.done s := by
  have hb := reg_read_busy h (some (local_handle h)) SLATE_STATUS_REG 5 true s hbusy
  unfold slate_irq_tasklet_hndlr_l read_slate_locl
  dsimp only
  rw [if_pos hb.1, hb.2]

/-- C29: with the gate busy, `slate_irq_tasklet_hndlr_l` returns with the whole
driver state as it was (gate busy, saved status word unchanged, nothing added
to the log: no event, no transfer), its status read failing with `-EBUSY` on a
probed driver; the interrupt handler `slate_irq_tasklet_hndlr` returns with
the gate busy, the saved status word unchanged and neither a callback of a
listener nor a transfer in what it adds to the log; and each of the seven
transfer operations returns with the gate busy, whatever its arguments.  On a
probed driver `slatecom_set_spi_state` sets a busy gate free. -/
theorem C29_busy_gate_stays (h : Hw) (fuel : Nat) (s : slate_drv)
    (hbusy : s.spi_state = SLATECOM_SPI_BUSY) :
    slate_irq_tasklet_hndlr_l h fuel s = outcome.done s ∧
      (s.slate_com_drv = true →
        (read_slate_locl h slatecom_req_type.SLATECOM_READ_REG 5 (some (fun _ => 0)) s).ret =
          -EBUSY) ∧
      (∃ t l, slate_irq_tasklet_hndlr h fuel s = outcome.done t ∧
        t.spi_state = SLATECOM_SPI_BUSY ∧ t.g_slav_status_reg = s.g_slav_status_reg ∧
        t.trace = s.trace ++ l ∧ (∀ cb ev d, call.notify cb ev d ∉ l) ∧
        ∀ x, call.spi_sync x ∉ l) ∧
      (∀ handle addr n rb, (slatecom_ahb_read h handle addr n rb s).s = s) ∧
      (∀ handle addr n wb, (slatecom_ahb_write h handle addr n wb s).s = s) ∧
      (∀ handle addr n wb, (slatecom_ahb_write_bytes h handle addr n wb s).s = s) ∧
      (∀ handle n wb, (slatecom_fifo_write h handle n wb s).s = s) ∧
      (∀ handle n rb, (slatecom_fifo_read h handle n rb s).s = s) ∧
      (∀ handle reg n rb, (slatecom_reg_read h handle reg n rb s).s = s) ∧
      (∀ handle reg n wb, (slatecom_reg_write h handle reg n wb s).s.spi_state =
        SLATECOM_SPI_BUSY) ∧
      (s.slate_com_drv = true → ∀ suspended,
        slatecom_set_spi_state suspended fuel SLATECOM_SPI_FREE s =
          outcome.done (0, { s with spi_state := SLATECOM_SPI_FREE })) := by
  have hl := irq_tasklet_busy h fuel s hbusy
  refine ⟨hl, ?_, ?_, ?_, ?_, ?_, ?_, ?_, ?_, ?_, ?_⟩
  · intro hready
    have hv : ¬ ((some (local_handle h)).isNone = true ∨ ¬ (true = true) ∨ 5 = 0 ∨
        5 > SLATE_SPI_MAX_REGS) := by
      simp
      decide
    have hr : is_slatecom_ready s = true := hready
    unfold read_slate_locl slatecom_reg_read
    dsimp only
    rw [if_neg hv, if_neg (by simp [hr]), if_pos hbusy]
  · unfold slate_irq_tasklet_hndlr
    dsimp only
    by_cases hrs : (log s call.complete).slate_is_runtime_suspend ≠ 0
    · rw [if_pos hrs]
      rw [get_sync_locked h
        { ({ log s call.complete with ok_to_sleep := 0 } : slate_drv) with irq_lock := 1 }
        hrs rfl]
      dsimp only
      rw [irq_tasklet_busy h fuel
        { log { ({ log s call.complete with ok_to_sleep := 0 } : slate_drv) with irq_lock := 1 }
            call.pm_runtime_get_sync with
          slate_is_spi_active := 1, slate_is_runtime_suspend := 0,
          state := SLATECOM_STATE_ACTIVE } hbusy]
      refine ⟨_, [call.complete, call.pm_runtime_get_sync, call.pm_runtime_mark_last_busy,
        call.pm_runtime_put_sync_autosuspend], rfl, hbusy, rfl, ?_, ?_, ?_⟩
      · simp [pm_put, log]
      · intro cb ev d
        simp
      · intro x
        simp
    · rw [if_neg hrs]
      by_cases hcb : (log s call.complete).cb_head = []
      · rw [if_pos hcb]
        refine ⟨_, [call.complete], rfl, hbusy, rfl, rfl, ?_, ?_⟩
        · intro cb ev d
          simp
        · intro x
          simp
      · have hb1 : (log s call.complete).spi_state = SLATECOM_SPI_BUSY := hbusy
        rw [if_neg hcb, if_pos hb1]
        refine ⟨_, [call.complete, call.msleep 50], rfl, hbusy, rfl, ?_, ?_, ?_⟩
        · simp [log]
        · intro cb ev d
          simp
        · intro x
          simp
  · intro handle addr n rb
    unfold slatecom_ahb_read
    split_ifs <;> rfl
  · intro handle addr n wb
    unfold slatecom_ahb_write
    split
    · rfl
    · split_ifs <;> rfl
  · intro handle addr n wb
    unfold slatecom_ahb_write_bytes
    split
    · rfl
    · split_ifs <;> rfl
  · intro handle n wb
    unfold slatecom_fifo_write
    split
    · rfl
    · split_ifs <;> rfl
  · intro handle n rb
    unfold slatecom_fifo_read
    split_ifs <;> rfl
  · intro handle reg n rb
    unfold slatecom_reg_read
    split_ifs <;> rfl
  · intro handle reg n wb
    have hg : (pm_runtime_get_sync h s).s.spi_state = SLATECOM_SPI_BUSY := by
      rw [get_sync_gate, hbusy]
    unfold slatecom_reg_write
    dsimp only
    split
    · exact hg
    · have hw := reg_write_cmd_busy h handle reg n wb (pm_runtime_get_sync h s).s hg
      show (pm_put (slatecom_reg_write_cmd h handle reg n wb (pm_runtime_get_sync h s).s).s).spi_state =
        SLATECOM_SPI_BUSY
      rw [hw]
      exact hg
  · intro hready suspended
    unfold slatecom_set_spi_state
    rw [if_neg (by simp [hready]), if_neg (by decide), if_neg (by rw [hbusy]; decide),
      if_neg (by decide)]

/-- C29, on the driver `drv_busy`. -/
theorem C29_busy_gate_stays_witness :
    slate_irq_tasklet_hndlr_l (hw0 1) 1 drv_busy = outcome.done drv_busy ∧
      (read_slate_locl (hw0 1) slatecom_req_type.SLATECOM_READ_REG 5 (some (fun _ => 0))
        drv_busy).ret = -EBUSY ∧
      slatecom_set_spi_state (fun _ => true) 1 SLATECOM_SPI_FREE drv_busy =
        outcome.done (0, { drv_busy with spi_state := SLATECOM_SPI_FREE }) :=
  ⟨(C29_busy_gate_stays (hw0 1) 1 drv_busy rfl).1,
   (C29_busy_gate_stays (hw0 1) 1 drv_busy rfl).2.1 rfl,
   (C29_busy_gate_stays (hw0 1) 1 drv_busy rfl).2.2.2.2.2.2.2.2.2.2 rfl _⟩

/-! ## The way back to the active state -/

theorem keeps_gate (s : slate_drv) (g : slatecom_spi_state) : keeps s { s with spi_state := g } :=
  ⟨rfl, rfl, rfl, rfl, rfl, rfl, rfl, rfl⟩

theorem keeps_irq_gate_step (h : Hw) (ac : Nat) (s : slate_drv) :
    keeps s (irq_gate_step h ac s) := by
  have hw := keeps_reg_write_cmd h (some (local_handle h)) SLATE_CMND_REG 1
    (some (word_buf SLATE_PAUSE_OK)) s
  unfold irq_gate_step
  dsimp only
  split_ifs <;> first
    | exact keeps_refl _
    | exact hw
    | exact keeps_gate _ _
    | exact keeps_trans hw (keeps_gate _ _)

/-- The handler `slate_irq_tasklet_hndlr_l` leaves the link state, the flags,
the lock and the listeners as they are. -/
theorem irq_tasklet_keeps (h : Hw) (fuel : Nat) (s t : slate_drv)
    (hd : slate_irq_tasklet_hndlr_l h fuel s = outcome.done t) :
    t.state = s.state ∧ t.slate_is_spi_active = s.slate_is_spi_active ∧
      t.slate_is_runtime_suspend = s.slate_is_runtime_suspend ∧ t.irq_lock = s.irq_lock := by
  have hr := keeps_reg_read h (some (local_handle h)) SLATE_STATUS_REG 5 true s
  unfold slate_irq_tasklet_hndlr_l read_slate_locl at hd
  dsimp only at hd
  generalize slatecom_reg_read h (some (local_handle h)) SLATE_STATUS_REG 5 true s = r at hd hr
  split_ifs at hd
  · injection hd with hd
    subst hd
    exact ⟨hr.state, hr.active, hr.runtime, hr.lock⟩
  · split at hd
    · injection hd with hd
      subst hd
      exact ⟨hr.state, hr.active, hr.runtime, hr.lock⟩
    · rename_i irq_buf hb
      have hg := keeps_irq_gate_step h (irq_word irq_buf 2) r.s
      split at hd
      · rename_i s2 hs2
        have hn := keeps_send_back_notification _ _ _ _ _ _ _ _ hs2
        injection hd with hd
        subst hd
        have hk := keeps_trans (keeps_trans hr hg) hn
        exact ⟨hk.state, hk.active, hk.runtime, hk.lock⟩
      · cases hd
      · cases hd

/-- The interrupt entry `slate_irq_tasklet_hndlr`: on a link that is not
runtime-suspended it leaves the link state as it is; on a runtime-suspended
link it returns with the link active. -/
theorem irq_handler_state (h : Hw) (fuel : Nat) (s t : slate_drv)
    (hd : slate_irq_tasklet_hndlr h fuel s = outcome.done t) :
    (s.slate_is_runtime_suspend = 0 → t.state = s.state) ∧
      (s.slate_is_runtime_suspend ≠ 0 →
        t.state = SLATECOM_STATE_ACTIVE ∧ t.slate_is_spi_active = 1 ∧
          t.slate_is_runtime_suspend = 0 ∧ t.irq_lock = 0) := by
  unfold slate_irq_tasklet_hndlr at hd
  dsimp only at hd
  by_cases hrs : s.slate_is_runtime_suspend = 0
  · refine ⟨fun _ => ?_, fun hc => absurd hrs hc⟩
    have hrs1 : ¬ (log s call.complete).slate_is_runtime_suspend ≠ 0 := fun hc => hc hrs
    rw [if_neg hrs1] at hd
    split_ifs at hd
    · injection hd with hd
      subst hd
      rfl
    · injection hd with hd
      subst hd
      rfl
    · split at hd
      · rename_i s2 hs2
        injection hd with hd
        subst hd
        exact (irq_tasklet_keeps h fuel _ _ hs2).1
      · cases hd
      · cases hd
    · injection hd with hd
      subst hd
      rfl
  · refine ⟨fun hc => absurd hc hrs, fun _ => ?_⟩
    have hrs1 : (log s call.complete).slate_is_runtime_suspend ≠ 0 := hrs
    rw [if_pos hrs1,
      get_sync_locked h { log s call.complete with ok_to_sleep := 0, irq_lock := 1 } hrs rfl] at hd
    dsimp only at hd
    split at hd
    · rename_i s2 hs2
      injection hd with hd
      subst hd
      have hk := irq_tasklet_keeps h fuel _ _ hs2
      exact ⟨hk.1, hk.2.1, hk.2.2.1, rfl⟩
    · cases hd
    · cases hd

theorem suspended_ne_active (st : slatecom_state) (hs : is_suspended st) :
    st ≠ SLATECOM_STATE_ACTIVE := by
  rcases hs with h | h | h <;> rw [h] <;> decide

/-- From a state that is not active, `slatecom_resume_l` leaves the link
active only after its tests have passed and `is_slate_resume` has run, with
the wait for the remote side, where one is made, answered in time. -/
theorem resume_l_ran (h : Hw) (handle : Option slate_context) (s : slate_drv)
    (hna : s.state ≠ SLATECOM_STATE_ACTIVE)
    (hact : (slatecom_resume_l h handle s).s.state = SLATECOM_STATE_ACTIVE) :
    resume_ran h handle s (slatecom_resume_l h handle s).s := by
  cases handle with
  | none => exact absurd hact hna
  | some cntx =>
    unfold slatecom_resume_l at hact ⊢
    dsimp only at hact ⊢
    by_cases h1 : s.slate_is_spi_active = 0
    · rw [if_pos h1] at hact
      exact absurd hact hna
    rw [if_neg h1] at hact ⊢
    by_cases h2 : cntx.state = SLATECOM_PROB_WAIT ∧ ¬ is_slatecom_ready s = true
    · rw [if_pos h2] at hact
      exact absurd hact hna
    rw [if_neg h2, if_neg hna] at hact ⊢
    by_cases h3 : ¬ bit_set s.g_slav_status_reg 31 = true
    · rw [if_pos h3] at hact
      exact absurd hact hna
    rw [if_neg h3] at hact ⊢
    have hprobed : cntx.state = SLATECOM_PROB_WAIT → s.slate_com_drv = true := by
      intro hw
      by_contra hc
      exact h2 ⟨hw, hc⟩
    have hfix := is_slate_resume_fixup h cntx s hprobed
    have hfr := is_slate_resume_frame h (some cntx) s
    rw [hfix.1, hfix.2] at hact ⊢
    refine ⟨h1, not_not.mp h3, cntx, rfl, ?_⟩
    by_cases hc : (is_slate_resume h (some cntx) s).1 = 0 ∧
        (is_slate_resume h (some cntx) s).2.2.ok_to_sleep ≠ 0
    · rw [if_pos hc] at hact ⊢
      by_cases hw : h.wait_for_completion_timeout = 0
      · rw [if_pos hw] at hact
        exact absurd (hfr.1.symm.trans
          (show (is_slate_resume h (some cntx) s).2.2.state = SLATECOM_STATE_ACTIVE from hact)) hna
      · rw [if_neg hw]
        exact Or.inr ⟨hc.1, hc.2, hw, rfl⟩
    · rw [if_neg hc]
      exact Or.inl ⟨hc, rfl⟩

/-- C21 (the claim as worded fails): on the runtime-suspended driver
`drv_rt_booted` (the probed driver after `slatecom_pm_runtime_suspend`) one
interrupt is enough: the handler takes the interrupt lock, and the runtime
resume inside `pm_runtime_get_sync` sets the flags and the active state itself;
the handler returns with the link active, and neither a forced read nor the
wait of `slatecom_resume_l` has been made. -/
theorem C21_resume_only_claim_fails :
    is_suspended drv_rt_booted.state ∧ drv_rt_booted.irq_lock = 0 ∧
      pm_runtime_get_sync (hw0 1) { log drv_rt_booted call.complete with
          ok_to_sleep := 0, irq_lock := 1 } =
        { ret := some 0,
          s := { drv_rt_booted with
                  ok_to_sleep := 0, irq_lock := 1, slate_is_spi_active := 1,
                  slate_is_runtime_suspend := 0, state := SLATECOM_STATE_ACTIVE,
                  trace := drv_rt_booted.trace ++ [call.complete, call.pm_runtime_get_sync] } } ∧
      (∃ t, slate_irq_tasklet_hndlr (hw0 1) 1 drv_rt_booted = outcome.done t ∧
        t.state = SLATECOM_STATE_ACTIVE ∧
        call.wait_for_completion_timeout SLATE_RESUME_IRQ_TIMEOUT ∉ t.trace) ∧
      ¬ resume_only_claim (hw0 1) drv_rt_booted := by
  have hrun : ∃ t, slate_irq_tasklet_hndlr (hw0 1) 1 drv_rt_booted = outcome.done t ∧
      t.state = SLATECOM_STATE_ACTIVE ∧
      call.wait_for_completion_timeout SLATE_RESUME_IRQ_TIMEOUT ∉ t.trace := by
    cases hd : slate_irq_tasklet_hndlr (hw0 1) 1 drv_rt_booted with
    | done t =>
      refine ⟨t, rfl, ?_, ?_⟩
      · have ht : t = match slate_irq_tasklet_hndlr (hw0 1) 1 drv_rt_booted with
            | outcome.done u => u
            | _ => drv_rt_booted := by rw [hd]
        rw [ht]
        decide
      · have ht : t = match slate_irq_tasklet_hndlr (hw0 1) 1 drv_rt_booted with
            | outcome.done u => u
            | _ => drv_rt_booted := by rw [hd]
        rw [ht]
        decide
    | oops =>
      have hne : (match slate_irq_tasklet_hndlr (hw0 1) 1 drv_rt_booted with
          | outcome.done _ => true
          | _ => false) = true := by decide
      rw [hd] at hne
      cases hne
    | out_of_fuel =>
      have hne : (match slate_irq_tasklet_hndlr (hw0 1) 1 drv_rt_booted with
          | outcome.done _ => true
          | _ => false) = true := by decide
      rw [hd] at hne
      cases hne
  refine ⟨Or.inr (Or.inl (by decide)), by decide, by decide, hrun, ?_⟩
  intro hc
  obtain ⟨t, hd, hs, _⟩ := hrun
  exact (hc (Or.inr (Or.inl (by decide)))).2.2.2.2 1 t hd hs

/-- C21 (amended): from a sleeping link state, `slatecom_pm_resume` and
`slatecom_pm_runtime_resume` with the interrupt lock held (`irq_lock = 1`) set
the flags and the active state themselves and return 0; that is how the
interrupt handler wakes a runtime-suspended link: it takes the lock, and the
runtime resume inside `pm_runtime_get_sync` sets the state, so the handler
returns with the link active.  Without the lock the two callbacks leave the
link active only with the driver state that `slatecom_resume_l` leaves, and so
do `slatecom_pm_restore` and `slatecom_resume` always; `slatecom_resume_l` then
has passed its tests and run `is_slate_resume`, and the wait for the remote
side, where one was made, was answered in time.  On a link whose
`slate_is_runtime_suspend` is clear the interrupt handler leaves the link
state as it is. -/
theorem C21_active_again_by_resume_or_lock (h : Hw) (s : slate_drv)
    (hsus : is_suspended s.state) :
    (s.irq_lock = 1 →
        slatecom_pm_resume h s =
            { ret := some 0,
              s := { s with slate_is_spi_active := 1, slate_is_runtime_suspend := 0,
                            state := SLATECOM_STATE_ACTIVE } } ∧
          slatecom_pm_runtime_resume h s =
            { ret := some 0,
              s := { s with slate_is_spi_active := 1, slate_is_runtime_suspend := 0,
                            state := SLATECOM_STATE_ACTIVE } }) ∧
      (s.irq_lock ≠ 1 →
        ((slatecom_pm_resume h s).s.state = SLATECOM_STATE_ACTIVE →
            (slatecom_pm_resume h s).s =
                (slatecom_resume_l h (some (local_handle h))
                  { s with slate_is_spi_active := 1, slate_is_runtime_suspend := 0 }).s ∧
              resume_ran h (some (local_handle h))
                { s with slate_is_spi_active := 1, slate_is_runtime_suspend := 0 }
                (slatecom_pm_resume h s).s) ∧
          (slatecom_pm_runtime_resume h s).s =
            (slatecom_resume_l h (some (local_handle h))
              { s with slate_is_spi_active := 1, slate_is_runtime_suspend := 0 }).s ∧
          ((slatecom_pm_runtime_resume h s).s.state = SLATECOM_STATE_ACTIVE →
            resume_ran h (some (local_handle h))
              { s with slate_is_spi_active := 1, slate_is_runtime_suspend := 0 }
              (slatecom_pm_runtime_resume h s).s)) ∧
      ((slatecom_pm_restore h s).s.state = SLATECOM_STATE_ACTIVE →
        (slatecom_pm_restore h s).s =
            (slatecom_resume_l h (some (local_handle h))
              { s with slate_is_spi_active := 1, slate_is_runtime_suspend := 0 }).s ∧
          resume_ran h (some (local_handle h))
            { s with slate_is_spi_active := 1, slate_is_runtime_suspend := 0 }
            (slatecom_pm_restore h s).s) ∧
      (∀ handle, (slatecom_resume h handle s).s.state = SLATECOM_STATE_ACTIVE →
        (slatecom_resume h handle s).s =
            (slatecom_resume_l h handle { s with slate_is_spi_active := 1 }).s ∧
          resume_ran h handle { s with slate_is_spi_active := 1 } (slatecom_resume h handle s).s) ∧
      (s.slate_is_runtime_suspend ≠ 0 →
        pm_runtime_get_sync h { log s call.complete with ok_to_sleep := 0, irq_lock := 1 } =
          { ret := some 0,
            s := { log (log s call.complete) call.pm_runtime_get_sync with
                    ok_to_sleep := 0, irq_lock := 1, slate_is_spi_active := 1,
                    slate_is_runtime_suspend := 0, state := SLATECOM_STATE_ACTIVE } }) ∧
      (∀ fuel t, slate_irq_tasklet_hndlr h fuel s = outcome.done t →
        (s.slate_is_runtime_suspend = 0 → t.state = s.state) ∧
          (s.slate_is_runtime_suspend ≠ 0 →
            t.state = SLATECOM_STATE_ACTIVE ∧ t.slate_is_spi_active = 1 ∧
              t.slate_is_runtime_suspend = 0 ∧ t.irq_lock = 0)) := by
  have hna := suspended_ne_active s.state hsus
  have hna1 : ({ s with slate_is_spi_active := 1, slate_is_runtime_suspend := 0 } :
      slate_drv).state ≠ SLATECOM_STATE_ACTIVE := hna
  have hna2 : ({ s with slate_is_spi_active := 1 } : slate_drv).state ≠
      SLATECOM_STATE_ACTIVE := hna
  refine ⟨?_, ?_, ?_, ?_, ?_, ?_⟩
  · intro hl
    constructor
    · unfold slatecom_pm_resume
      rw [if_pos hl]
    · unfold slatecom_pm_runtime_resume
      rw [if_pos hl]
  · intro hl
    have hrt : (slatecom_pm_runtime_resume h s).s =
        (slatecom_resume_l h (some (local_handle h))
          { s with slate_is_spi_active := 1, slate_is_runtime_suspend := 0 }).s := by
      unfold slatecom_pm_runtime_resume
      rw [if_neg hl]
    refine ⟨?_, hrt, ?_⟩
    · intro hc
      have he : (slatecom_pm_resume h s).s =
          (slatecom_resume_l h (some (local_handle h))
            { s with slate_is_spi_active := 1, slate_is_runtime_suspend := 0 }).s := by
        revert hc
        unfold slatecom_pm_resume
        rw [if_neg hl]
        split_ifs <;> intro hc <;> first | exact absurd hc hna | rfl
      refine ⟨he, ?_⟩
      rw [he] at hc ⊢
      exact resume_l_ran h _ _ hna1 hc
    · intro hc
      rw [hrt] at hc ⊢
      exact resume_l_ran h _ _ hna1 hc
  · intro hc
    have he : (slatecom_pm_restore h s).s =
        (slatecom_resume_l h (some (local_handle h))
          { s with slate_is_spi_active := 1, slate_is_runtime_suspend := 0 }).s := by
      revert hc
      unfold slatecom_pm_restore
      split_ifs <;> intro hc <;> first | exact absurd hc hna | rfl
    refine ⟨he, ?_⟩
    rw [he] at hc ⊢
    exact resume_l_ran h _ _ hna1 hc
  · intro handle hc
    have he : (slatecom_resume h handle s).s =
        (slatecom_resume_l h handle { s with slate_is_spi_active := 1 }).s := by
      revert hc
      unfold slatecom_resume
      split_ifs <;> intro hc <;> first | exact absurd hc hna | rfl
    refine ⟨he, ?_⟩
    rw [he] at hc ⊢
    exact resume_l_ran h _ _ hna2 hc
  · intro hrs
    exact get_sync_locked h { log s call.complete with ok_to_sleep := 0, irq_lock := 1 } hrs rfl
  · intro fuel t hd
    exact irq_handler_state h fuel s t hd

/-- C21, on suspended drivers: with the interrupt lock held the resume
callback sets the link active itself; on the runtime-suspended driver
`drv_rt_booted` the call of `pm_runtime_get_sync` that the interrupt handler
makes under the lock does so; without the lock, on `drv_suspended` the runtime
resume is what `slatecom_resume_l` makes of it. -/
theorem C21_active_again_by_resume_or_lock_witness :
    slatecom_pm_resume (hw0 1) drv_irq_locked =
        { ret := some 0,
          s := { drv_irq_locked with slate_is_spi_active := 1, slate_is_runtime_suspend := 0,
                                     state := SLATECOM_STATE_ACTIVE } } ∧
      (slatecom_pm_runtime_resume (hw0 1) (drv_suspended SLATECOM_SPI_FREE)).s =
        (slatecom_resume_l (hw0 1) (some (local_handle (hw0 1)))
          { drv_suspended SLATECOM_SPI_FREE with slate_is_spi_active := 1,
                                                 slate_is_runtime_suspend := 0 }).s ∧
      resume_ran (hw0 1) (some (local_handle (hw0 1)))
        { drv_suspended SLATECOM_SPI_FREE with slate_is_spi_active := 1,
                                               slate_is_runtime_suspend := 0 }
        (slatecom_pm_runtime_resume (hw0 1) (drv_suspended SLATECOM_SPI_FREE)).s ∧
      pm_runtime_get_sync (hw0 1) { log drv_rt_booted call.complete with
          ok_to_sleep := 0, irq_lock := 1 } =
        { ret := some 0,
          s := { log (log drv_rt_booted call.complete) call.pm_runtime_get_sync with
                  ok_to_sleep := 0, irq_lock := 1, slate_is_spi_active := 1,
                  slate_is_runtime_suspend := 0, state := SLATECOM_STATE_ACTIVE } } :=
  ⟨((C21_active_again_by_resume_or_lock (hw0 1) drv_irq_locked (Or.inl rfl)).1 rfl).1,
   ((C21_active_again_by_resume_or_lock (hw0 1) (drv_suspended SLATECOM_SPI_FREE)
      (Or.inl rfl)).2.1 (by decide)).2.1,
   ((C21_active_again_by_resume_or_lock (hw0 1) (drv_suspended SLATECOM_SPI_FREE)
      (Or.inl rfl)).2.1 (by decide)).2.2 (by decide),
   (C21_active_again_by_resume_or_lock (hw0 1) drv_rt_booted
      (Or.inr (Or.inl (by decide)))).2.2.2.2.1 (by decide)⟩

/-- C22 (the code departs from the claim): right after the probe (no interrupt
served yet) a runtime suspend succeeds and leaves the link runtime-suspended
with `slate_is_spi_active` at 0; the runtime resume that follows sets
`slate_is_spi_active` to 1, finds the boot bit clear in `slatecom_resume_l`,
skips the resume and returns 0: the link state is still runtime-suspended with
`slate_is_spi_active` at 1, and `slatecom_transfer` issues an SPI transaction
and returns 0. -/
theorem C22_suspended_link_with_active_flag :
    (slatecom_pm_runtime_suspend (hw0 1) false drv_probed).1 = 0 ∧
      drv_rt_suspended.state = SLATECOM_STATE_RUNTIME_SUSPEND ∧
      drv_rt_suspended.slate_is_spi_active = 0 ∧
      (slatecom_pm_runtime_resume (hw0 1) drv_rt_suspended).ret = some 0 ∧
      drv_rt_resumed.state = SLATECOM_STATE_RUNTIME_SUSPEND ∧
      drv_rt_resumed.slate_is_spi_active = 1 ∧
      (slatecom_transfer (hw0 1) (some handle0) (some (fun _ => 0)) false 5 SPI_FREQ_40MHZ
        drv_rt_resumed).1 = 0 ∧
      (slatecom_transfer (hw0 1) (some handle0) (some (fun _ => 0)) false 5 SPI_FREQ_40MHZ
          drv_rt_resumed).2.2.2.trace =
        drv_rt_resumed.trace ++
          [call.spi_sync { tx_buf := [0, 0, 0, 0, 0], rx_buf := false, len := 5,
                           speed_hz := SPI_FREQ_40MHZ }] := by
  refine ⟨by decide, by decide, by decide, by decide, by decide, by decide, by decide,
    by decide⟩

/-! ## The FIFO parser on arbitrary content -/

/-- Behind the FIFO buffer of `hw_skip 1` every byte is 1: a walk that has left
the buffer reads the id `0x0101` and the length `0x0101` for ever. -/
theorem parse_fifo_past_buffer (fuel : Nat) :
    ∀ (pos : Nat) (d : slatecom_event_data_type) (s : slate_drv), 5 ≤ pos →
      parse_fifo (hw_skip 1) (fifo_mem (hw_skip 1) fifo_skip 4) fuel pos d s =
        outcome.out_of_fuel := by
  induction fuel with
  | zero =>
    intro pos d s _
    rfl
  | succ n ih =>
    intro pos d s hpos
    have hmem : ∀ a, 5 ≤ a → fifo_mem (hw_skip 1) fifo_skip 4 a = 1 := by
      intro a ha
      unfold fifo_mem
      rw [if_neg (by omega), if_neg (by omega)]
      rfl
    have h0 : fifo_mem (hw_skip 1) fifo_skip 4 pos ≠ 0 := by
      rw [hmem pos hpos]
      decide
    have hid : le16_at (fifo_mem (hw_skip 1) fifo_skip 4) pos = 257 := by
      unfold le16_at
      rw [hmem pos hpos, hmem (pos + 1) (by omega)]
    rw [parse_fifo, if_neg h0]
    dsimp only
    rw [hid, if_neg (by decide), if_neg (by decide)]
    exact ih _ d s (by omega)

theorem parse_fifo_skip (fuel : Nat) (d : slatecom_event_data_type) (s : slate_drv) :
    parse_fifo (hw_skip 1) (fifo_mem (hw_skip 1) fifo_skip 4) fuel 0 d s =
      outcome.out_of_fuel := by
  cases fuel with
  | zero => rfl
  | succ n =>
    have h0 : fifo_mem (hw_skip 1) fifo_skip 4 0 ≠ 0 := by decide
    have hid : le16_at (fifo_mem (hw_skip 1) fifo_skip 4) 0 = 7 := by decide
    have hlen : le16_at (fifo_mem (hw_skip 1) fifo_skip 4) (0 + HED_EVENT_ID_LEN) = 1 := by
      decide
    rw [parse_fifo, if_neg h0]
    dsimp only
    rw [hid, hlen, if_neg (by decide), if_neg (by decide)]
    exact parse_fifo_past_buffer n _ d s (by decide)

/-- C27 (the code departs from the claim): the FIFO holds one word, a record
with id 7 and length 1.  The buffer has five bytes, the last one (offset 4)
set to zero; the record ends at offset 5, so the parser reads on behind the
buffer.  With every byte behind the buffer equal to 1 neither `parse_fifo` nor
`send_back_notification` returns, whatever the fuel; with zero bytes behind the
buffer `send_back_notification` returns. -/
theorem C27_parse_fifo_leaves_the_buffer :
    (∀ fuel d s, parse_fifo (hw_skip 1) (fifo_mem (hw_skip 1) fifo_skip 4) fuel 0 d s =
        outcome.out_of_fuel) ∧
      (∀ fuel, send_back_notification (hw_skip 1) fuel (BIT 31) 0 1 0 drv0 =
        outcome.out_of_fuel) ∧
      (∃ t, send_back_notification (hw_skip 0) 2 (BIT 31) 0 1 0 drv0 = outcome.done t) := by
  refine ⟨fun fuel d s => parse_fifo_skip fuel d s, ?_, ⟨_, rfl⟩⟩
  intro fuel
  have hread : read_slate_locl (hw_skip 1) slatecom_req_type.SLATECOM_READ_FIFO (1 % 2 ^ 16)
      (some (fun _ => 0)) (alloc (hw_skip 1) (1 % 2 ^ 16 * SLATE_SPI_WORD_SIZE + 1)
        (error_events 0 drv0)).2 =
      { ret := 0, handle := some (local_handle (hw_skip 1)), data := some fifo_skip,
        s := (read_slate_locl (hw_skip 1) slatecom_req_type.SLATECOM_READ_FIFO (1 % 2 ^ 16)
          (some (fun _ => 0)) (alloc (hw_skip 1) (1 % 2 ^ 16 * SLATE_SPI_WORD_SIZE + 1)
            (error_events 0 drv0)).2).s } := by
    decide
  have hg : ¬ ((error_events 0 drv0).g_slav_status_reg ≠ BIT 31) := by decide
  have hm : 1 % 2 ^ 16 > 0 := by decide
  have ha : ¬ ¬ (alloc (hw_skip 1) (1 % 2 ^ 16 * SLATE_SPI_WORD_SIZE + 1)
      (error_events 0 drv0)).1 = true := by decide
  unfold send_back_notification
  dsimp only
  rw [if_neg hg, if_pos hm]
  dsimp only
  rw [if_neg ha, hread]
  dsimp only
  rw [if_neg (show ¬ ((0 : Int) ≠ 0) by decide)]
  rw [show (1 % 2 ^ 16 * SLATE_SPI_WORD_SIZE) = 4 from rfl, parse_fifo_skip]

/-! ## Chunked AHB writes -/

end Slatecom
